import Mathlib

/-!
# Quake 1 level writer (`gui/q1_main.cc`) and lightmap baker (`gui/q_light.cc`)

A shallow embedding of the texture reference table (`Q1_AddMipTex`), the
mapping-coordinate table (`Q1_AddTexInfo`), the recursive BSP lump writer
(`Q1_WriteNode`, `Q1_WriteLeaf`, `Q1_WriteFace`, `Q1_WriteEdge`), the texture
blocks and the texture lump (`TransferOneMipTex`, `Q1_CreateMipTex`), the
lightmap class (`qLightmap_c`), the lighting lump (`QCOM_BuildLightmap`) and the
lighting of a face (`QCOM_LightFace`), with the properties of the written
tables, lumps and lightmaps proved about the embedding.

Conventions of the embedding:
* module-level variables of the C++ file become fields of an explicit state;
* `float` / `double` values are rationals (exact arithmetic); the one place
  where the rounding of `float` operations is a parameter is `Store_Fastest`,
  whose truncated result depends on it;
* `int` arithmetic on light values is unbounded (signed overflow is undefined
  in C++), and the scratch arrays of the light code have no capacity;
* a loop that may never end returns an `Option`, `none` for the endless run;
* fixed-width integers are `Int` / `Nat` reduced with the conversions below,
  at the point where a value is stored into a field or variable of that width;
  container sizes and the three running counters of the writer (declared
  outside this file) are unbounded;
* a lump is the list of the records appended to it, every record field holding
  the value of its fixed-width type (`LE_S16` etc. only fix the byte order);
  the texture lump is a list of bytes, its directory in the byte order of the
  host, which is a parameter;
* `Main_FatalError` and a failing `SYS_ASSERT` end the run: they are outcomes
  that carry the state at the point of failure.
-/

namespace Oblige

/-! ## Fixed-width conversions -/

/-- Conversion to `u16_t`: the value modulo `2^16`. -/
def toU16 (x : Int) : Int := x % 65536

/-- Conversion to `s16_t`: the value modulo `2^16`, in `[-32768, 32767]`. -/
def toS16 (x : Int) : Int := (x + 32768) % 65536 - 32768

/-- Conversion to `s32_t` / `int`: the value modulo `2^32`, in `[-2^31, 2^31)`. -/
def toS32 (x : Int) : Int := (x + 2147483648) % 4294967296 - 2147483648

/-- The value fits an `s16_t`. -/
def fitsS16 (x : Int) : Prop := -32768 ≤ x ∧ x ≤ 32767

/-- The value fits an `s32_t`. -/
def fitsS32 (x : Int) : Prop := -2147483648 ≤ x ∧ x ≤ 2147483647

/-- The value fits a `u16_t`. -/
def fitsU16 (x : Int) : Prop := 0 ≤ x ∧ x ≤ 65535

/-! ## Outcomes of an operation that may abort the build -/

/-- The result of running an operation on a state of type `σ`. -/
inductive Outcome (σ : Type) (α : Type) where
  /-- normal return with a value and the new state -/
  | ok (val : α) (st : σ)
  /-- `Main_FatalError` was called in state `st` -/
  | fatal (st : σ)
  /-- a `SYS_ASSERT` failed in state `st` -/
  | assertFail (st : σ)

namespace Outcome

variable {σ α β : Type}

/-- Sequencing: run `f` on the value and state of a normal return. -/
def bind (o : Outcome σ α) (f : α → σ → Outcome σ β) : Outcome σ β :=
  match o with
  | ok v st => f v st
  | fatal st => fatal st
  | assertFail st => assertFail st

/-- The state the operation ended in. -/
def state : Outcome σ α → σ
  | ok _ st => st
  | fatal st => st
  | assertFail st => st

/-- The returned value, if the operation returned. -/
def value? : Outcome σ α → Option α
  | ok v _ => some v
  | _ => none

/-- Whether the operation returned normally. -/
def isOk : Outcome σ α → Bool
  | ok _ _ => true
  | _ => false

/-- Whether the operation ended in `Main_FatalError`. -/
def isFatal : Outcome σ α → Bool
  | fatal _ => true
  | _ => false

end Outcome

/-! ## Texture reference table -/

/-- The `std::map<std::string,int>` of the table: an association list with at
most one binding per key, in insertion order. -/
abbrev NameMap := List (String × Int)

/-- Lookup `m.find(name)`. -/
def NameMap.find (m : NameMap) (name : String) : Option Int :=
  List.lookup name m

/-- Assignment `m[name] = v`: overwrite the binding of `name`, or add one. -/
def NameMap.set : NameMap → String → Int → NameMap
  | [], name, v => [(name, v)]
  | (k, w) :: rest, name, v =>
    if name == k then (k, v) :: rest else (k, w) :: NameMap.set rest name v

/-- The two module variables `q1_miptexs` and `q1_miptex_map`. -/
structure MipTexTable where
  q1_miptexs : List String
  q1_miptex_map : NameMap
deriving DecidableEq, Repr

/-- The function `Q1_AddMipTex`: the index of `name`, and the table afterwards. -/
def Q1_AddMipTex (name : String) (tab : MipTexTable) : Int × MipTexTable :=
  match tab.q1_miptex_map.find name with
  | some i => (i, tab)
  | none =>
    let index : Int := toS32 (tab.q1_miptexs.length : Int)
    (index, { q1_miptexs := tab.q1_miptexs ++ [name],
              q1_miptex_map := tab.q1_miptex_map.set name index })

/-- The function `ClearMipTex`: empty both containers, then intern the built-ins. -/
def ClearMipTex (_tab : MipTexTable) : MipTexTable :=
  let t0 : MipTexTable := { q1_miptexs := [], q1_miptex_map := [] }
  let t1 := (Q1_AddMipTex "error" t0).2
  let t2 := (Q1_AddMipTex "missing" t1).2
  (Q1_AddMipTex "o_carve" t2).2

/-- The table after interning the names `names` one after the other. -/
def addMipTexs (names : List String) (tab : MipTexTable) : MipTexTable :=
  names.foldl (fun t n => (Q1_AddMipTex n t).2) tab

/-- Consistency of the list with the map: entry `i` of the list is bound to
the index `i` (as an `int`), every binding of the map comes from an entry of
the list, and no name is listed twice. -/
def MipTexTable.Consistent (tab : MipTexTable) : Prop :=
  (∀ i (h : i < tab.q1_miptexs.length),
      tab.q1_miptex_map.find (tab.q1_miptexs.get ⟨i, h⟩) = some (toS32 (i : Int)))
  ∧ (∀ n j, tab.q1_miptex_map.find n = some j →
      ∃ i : Nat, tab.q1_miptexs[i]? = some n ∧ j = toS32 (i : Int))
  ∧ tab.q1_miptexs.Nodup

/-! ## Mapping-coordinate table -/

/-- The record `texinfo_t`: the S and T projection vectors, the texture index
and the flags. -/
structure texinfo_t where
  s : Fin 4 → ℚ
  t : Fin 4 → ℚ
  miptex : Int
  flags : Int

/-- The function `MatchTexInfo`: same texture, same flags, and every S and T
component within 0.01. -/
def MatchTexInfo (A B : texinfo_t) : Bool :=
  if A.miptex ≠ B.miptex then false
  else if A.flags ≠ B.flags then false
  else (List.finRange 4).all fun k =>
    !(decide (|A.s k - B.s k| > 1 / 100)) && !(decide (|A.t k - B.t k| > 1 / 100))

/-- The constant `NUM_TEXINFO_HASH`. -/
def NUM_TEXINFO_HASH : Nat := 32

/-- The module state of the two tables: the texture reference table, the list
`q1_texinfos`, and the array `texinfo_hashtab` of `NUM_TEXINFO_HASH` bucket
pointers (`none` is the null pointer). -/
structure TexState where
  mip : MipTexTable
  q1_texinfos : List texinfo_t
  texinfo_hashtab : Fin 32 → Option (List Nat)

/-- The function `ClearTexInfo`: empty the list and null every bucket. -/
def ClearTexInfo (st : TexState) : TexState :=
  { st with q1_texinfos := [], texinfo_hashtab := fun _ => none }

/-- Result of the bucket scan inside `Q1_AddTexInfo`. -/
inductive BucketScan where
  /-- an entry of the bucket matches: its index -/
  | found (tin_idx : Nat)
  /-- no entry of the bucket matches -/
  | notFound
  /-- `SYS_ASSERT(tin_idx < q1_texinfos.size())` failed -/
  | badIndex
deriving DecidableEq, Repr

/-- The `for` loop of `Q1_AddTexInfo` over the entries of one bucket. -/
def scanBucket (tin : texinfo_t) (texinfos : List texinfo_t) : List Nat → BucketScan
  | [] => BucketScan.notFound
  | tin_idx :: rest =>
    if h : tin_idx < texinfos.length then
      if MatchTexInfo tin (texinfos.get ⟨tin_idx, h⟩) then BucketScan.found tin_idx
      else scanBucket tin texinfos rest
    else BucketScan.badIndex

/-- The hash of a texture index: `(int)tin.miptex % NUM_TEXINFO_HASH`, with the
remainder of C++ (truncated division). -/
def texinfoHash (miptex : Int) : Int := Int.tmod miptex 32

/-- The bucket slot of a non-negative hash. -/
def hashSlot (hash : Int) : Fin 32 := Fin.ofNat hash.toNat

/-- The entries of a bucket (none for a null bucket). -/
def bucketEntries (tab : Fin 32 → Option (List Nat)) (slot : Fin 32) : List Nat :=
  (tab slot).getD []

/-- The function `Q1_AddTexInfo`, the limit `MAX_MAP_TEXINFO` (defined in a
header outside this file) being a parameter. -/
def Q1_AddTexInfo (MAX_MAP_TEXINFO : Nat) (texture : String) (flags : Int)
    (s4 t4 : Fin 4 → ℚ) (st : TexState) : Outcome TexState Nat :=
  -- create texinfo structure
  let added := Q1_AddMipTex texture st.mip
  let tin : texinfo_t := { s := s4, t := t4, miptex := added.1, flags := flags }
  let st1 : TexState := { st with mip := added.2 }
  -- find an existing texinfo
  let hash := texinfoHash tin.miptex
  if hash < 0 then Outcome.assertFail st1
  else
    let slot := hashSlot hash
    let st2 : TexState :=
      match st1.texinfo_hashtab slot with
      | none => { st1 with texinfo_hashtab := Function.update st1.texinfo_hashtab slot (some []) }
      | some _ => st1
    let hashtab := bucketEntries st2.texinfo_hashtab slot
    match scanBucket tin st2.q1_texinfos hashtab with
    | BucketScan.found tin_idx => Outcome.ok tin_idx st2
    | BucketScan.badIndex => Outcome.assertFail st2
    | BucketScan.notFound =>
      -- not found, so add new one
      let tin_idx : Nat := st2.q1_texinfos.length % 65536
      if tin_idx ≥ MAX_MAP_TEXINFO then Outcome.fatal st2
      else
        Outcome.ok tin_idx
          { st2 with
            q1_texinfos := st2.q1_texinfos ++ [tin]
            texinfo_hashtab :=
              Function.update st2.texinfo_hashtab slot (some (hashtab ++ [tin_idx])) }

/-- One request to `Q1_AddTexInfo`: texture name, flags, S vector, T vector. -/
structure TexInfoCall where
  texture : String
  flags : Int
  s4 : Fin 4 → ℚ
  t4 : Fin 4 → ℚ

/-- A run of `Q1_AddTexInfo` calls; the build stops at the first that fails. -/
def addTexInfos (MAX_MAP_TEXINFO : Nat) : List TexInfoCall → TexState → Outcome TexState Unit
  | [], st => Outcome.ok () st
  | c :: rest, st =>
    (Q1_AddTexInfo MAX_MAP_TEXINFO c.texture c.flags c.s4 c.t4 st).bind
      fun _ st1 => addTexInfos MAX_MAP_TEXINFO rest st1

/-- The tables at the start of a level build: `ClearMipTex(); ClearTexInfo();`. -/
def TexState.levelStart : TexState :=
  ClearTexInfo { mip := ClearMipTex ⟨[], []⟩, q1_texinfos := [], texinfo_hashtab := fun _ => none }

/-! ## Lightmap offsets (`gui/q_light.cc`) used by the face writer -/

/-- Modelled from the spec: the macro `CLAMP(low, x, high)` (defined in a header
outside this file) clamps `x` to the interval `[low, high]`. -/
def CLAMP (low x high : Int) : Int :=
  if x < low then low else if x > high then high else x

/-- The class `qLightmap_c`: grid size, byte samples, lump offset, score and
average. -/
structure qLightmap_c where
  width : Int
  height : Int
  samples : List Nat
  offset : Int
  score : Int
  average : Int
deriving DecidableEq, Repr

/-- Modelled from the spec: the method `isFlat` (declared in `q_light.h`, not in
this file): a flattened lightmap is a 1 x 1 lightmap. -/
def qLightmap_c.isFlat (L : qLightmap_c) : Bool :=
  L.width == 1 && L.height == 1

/-- The function `QCOM_FlatLightOffset`; `none` when its `SYS_ASSERT` fails.
`FLAT_LIGHTMAP_SIZE` is defined in a header outside this file. -/
def QCOM_FlatLightOffset (FLAT_LIGHTMAP_SIZE : Int) (qk_color_lighting : Bool)
    (value : Int) : Option Int :=
  if 0 ≤ value ∧ value ≤ 255 then
    let value1 := if value > 128 then 64 + Int.tdiv value 2 else value
    let value2 := if qk_color_lighting then value1 * 3 else value1
    some (value2 * FLAT_LIGHTMAP_SIZE)
  else none

/-- The method `qLightmap_c::CalcOffset`. -/
def qLightmap_c.CalcOffset (FLAT_LIGHTMAP_SIZE : Int) (qk_color_lighting : Bool)
    (L : qLightmap_c) : Option Int :=
  if L.isFlat then
    let value : Int := (L.samples.headD 0 : Nat)
    QCOM_FlatLightOffset FLAT_LIGHTMAP_SIZE qk_color_lighting (CLAMP 0 value 255)
  else some L.offset

/-! ## The BSP tree handed to the writer -/

/-- A vertex `quake_vertex_c`. -/
structure quake_vertex_c where
  x : ℚ
  y : ℚ
  z : ℚ
deriving DecidableEq, Inhabited

/-- Modelled from the spec: the class `quake_plane_c` (declared in `csg_quake.h`,
not in this file): a normal and a signed distance. The writer only hands planes
to the plane table. -/
structure quake_plane_c where
  nx : ℚ
  ny : ℚ
  nz : ℚ
  dist : ℚ
deriving DecidableEq, Inhabited

/-- A face `quake_face_c`, as far as the writer reads it. The field `index` is
written during the walk and lives in the writer state, keyed by `id`, the
identity of the face object (the same face is listed by a node and by leafs). -/
structure quake_face_c where
  id : Nat
  verts : List quake_vertex_c
  plane : quake_plane_c
  lmap : Option qLightmap_c
deriving DecidableEq

/-- A leaf `quake_leaf_c`; `addr` is the identity of the leaf object, compared
with `qk_solid_leaf`. -/
structure quake_leaf_c where
  addr : Nat
  contents : Int
  faces : List quake_face_c
  mins : Fin 3 → ℚ
  maxs : Fin 3 → ℚ
  index : Int

/-- The fields of a node `quake_node_c` other than its four child pointers. -/
structure quake_node_info where
  plane : quake_plane_c
  faces : List quake_face_c
  mins : Fin 3 → ℚ
  maxs : Fin 3 → ℚ
  index : Int

/-- A child slot of a node: either the leaf pointer (`front_L` / `back_L`) or the
node pointer (`front_N` / `back_N`) is set. A node is `N info front back`. -/
inductive quake_child where
  | L (leaf : quake_leaf_c)
  | N (node : quake_node_info) (front back : quake_child)

/-- The output index of the child in a slot: `front_N->index`, else
`front_L->index`. -/
def quake_child.index : quake_child → Int
  | quake_child.L leaf => leaf.index
  | quake_child.N node _ _ => node.index

/-- The nodes of a tree in depth-first pre-order, front subtree before back
subtree, each with its two child slots. -/
def quake_child.preorder : quake_child → List (quake_node_info × quake_child × quake_child)
  | quake_child.L _ => []
  | quake_child.N node front back => (node, front, back) :: (front.preorder ++ back.preorder)

/-- The faces owned by the nodes of a tree, in the order of the walk. -/
def quake_child.nodeFaces : quake_child → List quake_face_c
  | quake_child.L _ => []
  | quake_child.N node front back => node.faces ++ (front.nodeFaces ++ back.nodeFaces)

/-! ## Output records and writer state -/

/-- The record `dface_t`, the fields the writer sets (the rest is zeroed). -/
structure dface_t where
  planenum : Int
  side : Int
  firstedge : Int
  numedges : Int
  texinfo : Int
  lightofs : Int
deriving DecidableEq, Repr

/-- The record `dnode_t`. `firstface` and `numfaces` are `none` when the writer
leaves them unset (a node without faces; the local record is not zeroed). -/
structure dnode_t where
  planenum : Int
  children0 : Int
  children1 : Int
  firstface : Option Int
  numfaces : Option Int
  mins : Fin 3 → Int
  maxs : Fin 3 → Int

/-- The record `dleaf_t`, the fields the writer sets (the rest is zeroed). -/
structure dleaf_t where
  contents : Int
  visofs : Int
  first_marksurf : Int
  num_marksurf : Int
  mins : Fin 3 → Int
  maxs : Fin 3 → Int

/-- The plane, vertex and edge tables of `q_common` and the other facts the
writer takes from outside this file, over a table state `E`. -/
structure BspEnv (E : Type) where
  /-- `BSP_AddPlane(&plane, &flipped)`: plane number and flip flag -/
  BSP_AddPlane : quake_plane_c → E → (Int × Bool) × E
  /-- `BSP_AddVertex(x, y, z)`: vertex index -/
  BSP_AddVertex : ℚ → ℚ → ℚ → E → Int × E
  /-- `BSP_AddEdge(v1, v2)`: signed edge index -/
  BSP_AddEdge : Int → Int → E → Int × E
  /-- the C library `rand()` -/
  rand : E → Nat × E
  /-- identity of the leaf object `qk_solid_leaf` -/
  qk_solid_leaf : Nat
  /-- the constant `FLAT_LIGHTMAP_SIZE` -/
  FLAT_LIGHTMAP_SIZE : Int
  /-- the global `qk_color_lighting` -/
  qk_color_lighting : Bool

/-- The module state of the writer: the outside tables, the three running
counters, the five lumps, and `face->index` of every face object. -/
structure Q1State (E : Type) where
  ext : E
  q1_total_faces : Int
  q1_total_surf_edges : Int
  q1_total_mark_surfs : Int
  q1_faces : List dface_t
  q1_nodes : List dnode_t
  q1_leafs : List dleaf_t
  q1_surf_edges : List Int
  q1_mark_surfs : List Int
  face_index : Nat → Int

/-- A `for` loop running `body` on each element in turn, stopping at the first
failure. -/
def forEach {σ ι : Type} (body : ι → σ → Outcome σ Unit) : List ι → σ → Outcome σ Unit
  | [], st => Outcome.ok () st
  | x :: rest, st => (body x st).bind fun _ st1 => forEach body rest st1

/-- Modelled from the spec: the macro `I_ROUND` (defined in a header outside this
file) rounds to the nearest integer, halves away from zero. -/
def I_ROUND (x : ℚ) : Int :=
  if x < 0 then -⌊-x + 1 / 2⌋ else ⌊x + 1 / 2⌋

/-! ## The BSP lump writer -/

section Writer

variable {E : Type} (env : BspEnv E)

/-- The two endpoints of a directed edge deduplicate to the same vertex index:
the test `v1 == v2` of `Q1_WriteEdge`, on the vertex table `ext`. -/
def sameVertexIndex (A B : quake_vertex_c) (ext : E) : Prop :=
  toU16 (env.BSP_AddVertex A.x A.y A.z ext).1
    = toU16 (env.BSP_AddVertex B.x B.y B.z (env.BSP_AddVertex A.x A.y A.z ext).2).1

instance sameVertexIndex.decidable (A B : quake_vertex_c) (ext : E) :
    Decidable (sameVertexIndex env A B ext) := by
  unfold sameVertexIndex
  exact inferInstance

/-- The function `Q1_WriteEdge`. -/
def Q1_WriteEdge (A B : quake_vertex_c) (st : Q1State E) : Outcome (Q1State E) Unit :=
  let r1 := env.BSP_AddVertex A.x A.y A.z st.ext
  let v1 := toU16 r1.1
  let r2 := env.BSP_AddVertex B.x B.y B.z r1.2
  let v2 := toU16 r2.1
  if v1 = v2 then Outcome.fatal { st with ext := r2.2 }
  else
    let r3 := env.BSP_AddEdge v1 v2 r2.2
    let index := toS32 r3.1
    Outcome.ok ()
      { st with
        ext := r3.2
        q1_surf_edges := st.q1_surf_edges ++ [index]
        q1_total_surf_edges := st.q1_total_surf_edges + 1 }

/-- The directed edges of a face, in the order the loop of `Q1_WriteFace`
requests them: `(verts[i], verts[(i+1) % total_v])` for `i = 0 .. total_v - 1`. -/
def faceEdges (verts : List quake_vertex_c) : List (quake_vertex_c × quake_vertex_c) :=
  (List.range verts.length).map fun i =>
    (verts.getD i default, verts.getD ((i + 1) % verts.length) default)

/-- The start of `Q1_WriteFace`, up to the edge loop: the face gets the next
output index and its plane is looked up. -/
def Q1_WriteFace_begin (face : quake_face_c) (st : Q1State E) : Q1State E :=
  { st with
    face_index := Function.update st.face_index face.id st.q1_total_faces
    q1_total_faces := st.q1_total_faces + 1
    ext := (env.BSP_AddPlane face.plane st.ext).2 }

/-- The function `Q1_WriteFace`. (The call in `Q1_WriteNode` passes the node as a
second argument, which the function does not take.) -/
def Q1_WriteFace (face : quake_face_c) (st : Q1State E) : Outcome (Q1State E) Unit :=
  let pl := env.BSP_AddPlane face.plane st.ext
  let planenum := toS16 pl.1.1
  let flipped := pl.1.2
  let side : Int := if flipped then 1 else 0
  let st2 : Q1State E := Q1_WriteFace_begin env face st
  let total_v := face.verts.length
  let firstedge := toS32 st2.q1_total_surf_edges
  let numedges := toS16 (total_v : Int)
  (forEach
      (fun i => Q1_WriteEdge env (face.verts.getD i default)
        (face.verts.getD ((i + 1) % total_v) default))
      (List.range total_v) st2).bind fun _ st3 =>
    let rnd := env.rand st3.ext
    let st4 : Q1State E := { st3 with ext := rnd.2 }
    let lightofs : Option Int :=
      match face.lmap with
      | some lm => lm.CalcOffset env.FLAT_LIGHTMAP_SIZE env.qk_color_lighting
      | none => some ((0 : Int) + ((rnd.1 &&& 16383 : Nat) : Int))
    match lightofs with
    | none => Outcome.assertFail st4
    | some ofs =>
      Outcome.ok ()
        { st4 with
          q1_faces := st4.q1_faces ++
            [{ planenum := planenum, side := side, firstedge := firstedge,
               numedges := numedges, texinfo := 0, lightofs := toS32 ofs }] }

/-- A face record is the record of `face`: the one `Q1_WriteFace` builds for it,
for some plane number, side, first edge and light offset. -/
def dface_t.isRecordOf (r : dface_t) (face : quake_face_c) : Prop :=
  ∃ planenum side firstedge lightofs,
    r = { planenum := planenum, side := side, firstedge := firstedge,
          numedges := toS16 (face.verts.length : Int), texinfo := 0, lightofs := lightofs }

/-- The function `Q1_WriteMarkSurf`. -/
def Q1_WriteMarkSurf (face : quake_face_c) (st : Q1State E) : Outcome (Q1State E) Unit :=
  if st.face_index face.id < 0 then Outcome.assertFail st
  else
    let index := toU16 (st.face_index face.id)
    Outcome.ok ()
      { st with
        q1_mark_surfs := st.q1_mark_surfs ++ [index]
        q1_total_mark_surfs := st.q1_total_mark_surfs + 1 }

/-- The mark-surface loop of `Q1_WriteLeaf`; the value is `raw_leaf.num_marksurf`,
a `u16_t` counted up from `num`. -/
def Q1_WriteLeaf_marksurfs : List quake_face_c → Int → Q1State E → Outcome (Q1State E) Int
  | [], num, st => Outcome.ok num st
  | face :: rest, num, st =>
    (Q1_WriteMarkSurf face st).bind fun _ st1 =>
      Q1_WriteLeaf_marksurfs rest (toU16 (num + 1)) st1

/-- The function `Q1_WriteLeaf`. -/
def Q1_WriteLeaf (leaf : quake_leaf_c) (st : Q1State E) : Outcome (Q1State E) Unit :=
  if leaf.addr = env.qk_solid_leaf then Outcome.ok () st
  else
    let contents := leaf.contents
    let visofs : Int := -1
    let first_marksurf := toU16 st.q1_total_mark_surfs
    (Q1_WriteLeaf_marksurfs leaf.faces 0 st).bind fun num_marksurf st1 =>
      Outcome.ok ()
        { st1 with
          q1_leafs := st1.q1_leafs ++
            [{ contents := toS32 contents, visofs := toS32 visofs,
               first_marksurf := first_marksurf, num_marksurf := num_marksurf,
               mins := fun b => toS16 (I_ROUND (leaf.mins b) - 4),
               maxs := fun b => toS16 (I_ROUND (leaf.maxs b) + 4) }] }

/-- The record `raw_node` that `Q1_WriteNode` builds for a node, from the plane
number and flip flag the plane table returned and the face counter at entry. -/
def nodeRecord (node : quake_node_info) (front back : quake_child)
    (planenum : Int) (flipped : Bool) (total_faces : Int) : dnode_t :=
  let c0 := toU16 front.index
  let c1 := toU16 back.index
  { planenum := toS32 planenum
    children0 := toS16 (if flipped then c1 else c0)
    children1 := toS16 (if flipped then c0 else c1)
    firstface := if node.faces.length > 0 then some (toU16 total_faces) else none
    numfaces := if node.faces.length > 0 then some (toU16 (node.faces.length : Int)) else none
    mins := fun b => toS16 (I_ROUND (node.mins b) - 32)
    maxs := fun b => toS16 (I_ROUND (node.maxs b) + 32) }

/-- A node record is the record of the node `n` (with its child slots): the one
`Q1_WriteNode` builds for it, for some answer of the plane table and some face
counter. -/
def dnode_t.isRecordOf (r : dnode_t) (n : quake_node_info × quake_child × quake_child) : Prop :=
  ∃ planenum flipped total_faces, r = nodeRecord n.1 n.2.1 n.2.2 planenum flipped total_faces

/-- The part of `Q1_WriteNode` before the recursion: the node's faces and the
node's own record. -/
def Q1_WriteNode_record (node : quake_node_info) (front back : quake_child)
    (st : Q1State E) : Outcome (Q1State E) Unit :=
  let pl := env.BSP_AddPlane node.plane st.ext
  let st1 : Q1State E := { st with ext := pl.2 }
  (forEach (Q1_WriteFace env) node.faces st1).bind fun _ st2 =>
    Outcome.ok ()
      { st2 with
        q1_nodes := st2.q1_nodes ++
          [nodeRecord node front back pl.1.1 pl.1.2 st1.q1_total_faces] }

/-- The recursion of `Q1_WriteNode` into a child slot: `Q1_WriteNode` on a node,
`Q1_WriteLeaf` on a leaf; a node writes its own record first, then its front
slot, then its back slot. -/
def Q1_WriteChild : quake_child → Q1State E → Outcome (Q1State E) Unit
  | quake_child.L leaf, st => Q1_WriteLeaf env leaf st
  | quake_child.N node front back, st =>
    (Q1_WriteNode_record env node front back st).bind fun _ st1 =>
      (Q1_WriteChild front st1).bind fun _ st2 => Q1_WriteChild back st2

/-- The function `Q1_WriteNode`. -/
def Q1_WriteNode (node : quake_node_info) (front back : quake_child) (st : Q1State E) :
    Outcome (Q1State E) Unit :=
  Q1_WriteChild env (quake_child.N node front back) st

end Writer

/-! ## A concrete instance of the outside tables -/

/-- Plane, vertex and edge lists with exact-match deduplication. -/
structure ExactTables where
  planes : List quake_plane_c
  verts : List quake_vertex_c
  edges : List (Int × Int)
deriving DecidableEq

/-- Index of `x` in `xs`, or `none`. -/
def findIndex {α : Type} [DecidableEq α] (x : α) : List α → Option Nat
  | [] => none
  | y :: rest => if x = y then some 0 else (findIndex x rest).map (· + 1)

/-- An instance of `BspEnv`: a vertex, edge or plane equal to a stored one gets
its index (an edge or plane stored the other way round is reported reversed),
anything else is appended. Leaf address 0 is the solid leaf. -/
def exactEnv : BspEnv ExactTables where
  BSP_AddPlane := fun pl t =>
    match findIndex pl t.planes with
    | some i => (((i : Int), false), t)
    | none =>
      match findIndex ({ nx := -pl.nx, ny := -pl.ny, nz := -pl.nz, dist := -pl.dist } :
          quake_plane_c) t.planes with
      | some i => (((i : Int), true), t)
      | none => (((t.planes.length : Int), false), { t with planes := t.planes ++ [pl] })
  BSP_AddVertex := fun x y z t =>
    match findIndex ({ x := x, y := y, z := z } : quake_vertex_c) t.verts with
    | some i => ((i : Int), t)
    | none => ((t.verts.length : Int), { t with verts := t.verts ++ [{ x := x, y := y, z := z }] })
  BSP_AddEdge := fun v1 v2 t =>
    match findIndex (v1, v2) t.edges with
    | some i => ((i : Int), t)
    | none =>
      match findIndex (v2, v1) t.edges with
      | some i => (-(i : Int), t)
      | none => ((t.edges.length : Int), { t with edges := t.edges ++ [(v1, v2)] })
  rand := fun t => (0, t)
  qk_solid_leaf := 0
  FLAT_LIGHTMAP_SIZE := 256
  qk_color_lighting := false

/-- The writer state before anything is written; the edge table starts with
its reserved entry 0. -/
def Q1State.start : Q1State ExactTables :=
  { ext := { planes := [], verts := [], edges := [(0, 0)] }
    q1_total_faces := 0, q1_total_surf_edges := 0, q1_total_mark_surfs := 0
    q1_faces := [], q1_nodes := [], q1_leafs := [], q1_surf_edges := [], q1_mark_surfs := []
    face_index := fun _ => -1 }

/-- A triangle in the plane `z = 0`, face object `id`. -/
def triangleFace (id : Nat) : quake_face_c :=
  { id := id
    verts := [{ x := 0, y := 0, z := 0 }, { x := 64, y := 0, z := 0 }, { x := 0, y := 64, z := 0 }]
    plane := { nx := 0, ny := 0, nz := 1, dist := 0 }
    lmap := none }

/-- A face whose second vertex repeats the first. -/
def degenerateFace (id : Nat) : quake_face_c :=
  { id := id
    verts := [{ x := 0, y := 0, z := 0 }, { x := 0, y := 0, z := 0 }, { x := 0, y := 64, z := 0 }]
    plane := { nx := 0, ny := 0, nz := 1, dist := 0 }
    lmap := none }

/-- An empty leaf (object address 1, output index -2) bordering face 7. -/
def sampleLeaf : quake_leaf_c :=
  { addr := 1, contents := -1, faces := [triangleFace 7]
    mins := fun _ => 0, maxs := fun _ => 64, index := -2 }

/-- The solid leaf (object address 0). -/
def solidLeaf : quake_leaf_c :=
  { addr := 0, contents := -2, faces := []
    mins := fun _ => 0, maxs := fun _ => 0, index := -1 }

/-- A one-node tree: the root owns face 7, an empty leaf in front, solid behind. -/
def sampleRoot : quake_node_info :=
  { plane := { nx := 0, ny := 0, nz := 1, dist := 0 }, faces := [triangleFace 7]
    mins := fun _ => 0, maxs := fun _ => 64, index := 0 }

/-- A two-node tree: `sampleRoot` with a child node in front. -/
def sampleTree : quake_child :=
  quake_child.N sampleRoot
    (quake_child.N
      { plane := { nx := 1, ny := 0, nz := 0, dist := 32 }, faces := []
        mins := fun _ => 0, maxs := fun _ => 32, index := 1 }
      (quake_child.L sampleLeaf) (quake_child.L solidLeaf))
    (quake_child.L solidLeaf)

/-! ## Lightmaps (`gui/q_light.cc`) -/

/-- The constant `LOW_LIGHT`. -/
def LOW_LIGHT : Int := 20

/-- A counting loop `for (i = 0 ; i < n ; i++)` whose body cannot fail. -/
def forRange {σ : Type} (n : Int) (body : Int → σ → σ) (st : σ) : σ :=
  (List.range n.toNat).foldl (fun acc (i : Nat) => body (i : Int) acc) st

/-- Conversion of a `float` / `double` to `int`: truncation toward zero. -/
def truncToInt (x : ℚ) : Int :=
  if x < 0 then ⌈x⌉ else ⌊x⌋

/-- The byte a 16.8 fixed-point value is stored as: `raw >> 8`, clamped to
`[0, 255]`. -/
def storedByte (raw : Int) : Nat :=
  (CLAMP 0 (raw >>> 8) 255).toNat

/-- The sample `samples[i]` of a lightmap. -/
def qLightmap_c.sampleAt (L : qLightmap_c) (i : Int) : Nat :=
  L.samples.getD i.toNat 0

/-- Modelled from the spec: the method `Set(s, t, raw)` (declared in `q_light.h`,
not in this file) stores the 16.8 fixed-point value `raw` into the sample of cell
`(s, t)`, as `raw >> 8` clamped to `[0, 255]`. -/
def qLightmap_c.Set (L : qLightmap_c) (s t raw : Int) : qLightmap_c :=
  { L with samples := L.samples.set (t * L.width + s).toNat (storedByte raw) }

/-- The function `BSP_NewLightmap(w, h)`: a `w` x `h` lightmap whose samples are
not initialised (`uninit i` is the byte found at sample `i`), with `offset`,
`score` and `average` set to -1 by the constructor. -/
def BSP_NewLightmap (uninit : Nat → Nat) (w h : Int) : qLightmap_c :=
  { width := w, height := h
    samples := (List.range (w * h).toNat).map uninit
    offset := -1, score := -1, average := -1 }

/-- The method `qLightmap_c::CalcScore`. `data0` is the byte `data[0]` of the
inline array the range starts from (the first sample of a small lightmap). -/
def qLightmap_c.CalcScore (data0 : Nat) (L : qLightmap_c) : qLightmap_c :=
  let total := L.width * L.height
  let low : Int := forRange total (fun i lo => min lo (L.sampleAt i : Int)) (data0 : Int)
  let high : Int := forRange total (fun i hi => max hi (L.sampleAt i : Int)) (data0 : Int)
  let sum : ℚ := forRange total (fun i acc => acc + (L.sampleAt i : ℚ)) 0
  let avg : ℚ := sum / ((total : Int) : ℚ)
  { L with
    average := CLAMP 0 (I_ROUND avg) 255
    score := total * 2 + (high - low) }

/-- The method `qLightmap_c::Flatten`. -/
def qLightmap_c.Flatten (data0 : Nat) (L : qLightmap_c) : qLightmap_c :=
  if L.isFlat then L
  else
    let L1 := if L.score < 0 then L.CalcScore data0 else L
    { L1 with width := 1, height := 1, samples := [(L1.average % 256).toNat] }

/-- The method `qLightmap_c::Write`: the lightmap with its recorded offset, and
the lump with the samples appended (one byte each, or three in color mode). -/
def qLightmap_c.Write (qk_color_lighting : Bool) (L : qLightmap_c) (lump : List Nat) :
    qLightmap_c × List Nat :=
  if L.isFlat then (L, lump)
  else
    let L1 := { L with offset := (lump.length : Int) }
    let total := L.width * L.height
    if ¬ qk_color_lighting then
      (L1, lump ++ (List.range total.toNat).map fun (i : Nat) => L.sampleAt (i : Int))
    else
      (L1, forRange total
        (fun i acc => acc ++ [L.sampleAt i] ++ [L.sampleAt i] ++ [L.sampleAt i]) lump)

/-- The function `WriteFlatBlock(level, count)`: `count` bytes `(byte)level`. -/
def WriteFlatBlock (level count : Int) (lump : List Nat) : List Nat :=
  forRange count (fun _ acc => acc ++ [(level % 256).toNat]) lump

/-- The function `QCOM_BuildLightmap`: the lighting lump and the lightmaps with
their recorded offsets. (`max_size` is only counted down, never tested.) -/
def QCOM_BuildLightmap (FLAT_LIGHTMAP_SIZE : Int) (qk_color_lighting : Bool)
    (qk_all_lightmaps : List qLightmap_c) : List Nat × List qLightmap_c :=
  let flat_size := FLAT_LIGHTMAP_SIZE * (if qk_color_lighting then 3 else 1)
  let lump1 := forRange 128 (fun i acc => WriteFlatBlock i flat_size acc) []
  let lump2 := forRange 64 (fun j acc => WriteFlatBlock (128 + 2 * j) flat_size acc) lump1
  qk_all_lightmaps.foldl
    (fun acc L =>
      let r := L.Write qk_color_lighting acc.1
      (r.2, acc.2 ++ [r.1]))
    (lump2, [])

/-- The method `qLightmap_c::Store_Normal`. -/
def qLightmap_c.Store_Normal (blocklights : Int → Int) (L : qLightmap_c) : qLightmap_c :=
  forRange (L.width * L.height)
    (fun k L1 =>
      let raw := blocklights k >>> 8
      let raw1 := if raw < 0 then 0 else raw
      let raw2 := if raw1 > 255 then 255 else raw1
      { L1 with samples := L1.samples.set k.toNat raw2.toNat })
    L

/-- The `float` expression of `Store_Fastest` for cell `(s, t)`: the bilinear
blend of the four corner values. `rnd` is the rounding that follows every
`float` operation (the identity for exact arithmetic). -/
def bilinearValue (rnd : ℚ → ℚ) (W H A B C D s t : Int) : ℚ :=
  let xc := rnd (rnd (s : ℚ) / rnd ((W - 1 : Int) : ℚ))
  let yc := rnd (rnd (t : ℚ) / rnd ((H - 1 : Int) : ℚ))
  let t1 := rnd (rnd (rnd (A : ℚ) * rnd (1 - xc)) * rnd (1 - yc))
  let t2 := rnd (rnd (rnd (B : ℚ) * xc) * rnd (1 - yc))
  let t3 := rnd (rnd (rnd (C : ℚ) * rnd (1 - xc)) * yc)
  let t4 := rnd (rnd (rnd (D : ℚ) * xc) * yc)
  rnd (rnd (rnd (t1 + t2) + t3) + t4)

/-- The method `qLightmap_c::Store_Fastest`. Its result is truncated to `int`,
so it depends on how the `float` operations round: `rnd` is that rounding. -/
def qLightmap_c.Store_Fastest (rnd : ℚ → ℚ) (blocklights : Int → Int) (L : qLightmap_c) :
    qLightmap_c :=
  let W := L.width
  let H := L.height
  let A := blocklights 0
  let B := blocklights (W - 1)
  let C := blocklights ((H - 1) * W)
  let D := blocklights ((H - 1) * W + W - 1)
  forRange H (fun t L1 =>
    forRange W (fun s L2 => L2.Set s t (truncToInt (bilinearValue rnd W H A B C D s t))) L1) L

/-- The method `qLightmap_c::Store_Interp`. -/
def qLightmap_c.Store_Interp (blocklights : Int → Int) (L : qLightmap_c) : qLightmap_c :=
  let iw := Int.tdiv L.width 2
  let ih := Int.tdiv L.height 2
  let bw := 1 + iw
  let bh := 1 + ih
  let L1 := forRange bh (fun t La =>
    forRange bw (fun s Lb =>
      let s2 := min (s * 2) (Lb.width - 1)
      let t2 := min (t * 2) (Lb.height - 1)
      Lb.Set s2 t2 (blocklights (t * bw + s))) La) L
  let L2 := forRange bh (fun t La =>
    forRange iw (fun s Lb =>
      let t2 := min (t * 2) (Lb.height - 1)
      let A := blocklights (t * bw + s)
      let B := blocklights (t * bw + s + 1)
      Lb.Set (s * 2 + 1) t2 ((A + B) >>> 1)) La) L1
  let L3 := forRange ih (fun t La =>
    forRange bw (fun s Lb =>
      let s2 := min (s * 2) (Lb.width - 1)
      let A := blocklights (t * bw + s)
      let C := blocklights (t * bw + bw + s)
      Lb.Set s2 (t * 2 + 1) ((A + C) >>> 1)) La) L2
  forRange ih (fun t La =>
    forRange iw (fun s Lb =>
      let A := blocklights (t * bw + s)
      let B := blocklights (t * bw + s + 1)
      let C := blocklights (t * bw + bw + s)
      let D := blocklights (t * bw + bw + s + 1)
      Lb.Set (s * 2 + 1) (t * 2 + 1) ((A + B + C + D) >>> 2)) La) L3

/-- The method `qLightmap_c::Store_Best`; `lt_W` is the global of that name. -/
def qLightmap_c.Store_Best (lt_W : Int) (blocklights : Int → Int) (L : qLightmap_c) :
    qLightmap_c :=
  let W := L.width
  let H := L.height
  forRange H (fun t La =>
    forRange W (fun s Lb =>
      let value := blocklights ((t * 2 + 0) * lt_W + (s * 2 + 0))
        + blocklights ((t * 2 + 0) * lt_W + (s * 2 + 1))
        + blocklights ((t * 2 + 1) * lt_W + (s * 2 + 0))
        + blocklights ((t * 2 + 1) * lt_W + (s * 2 + 1))
      Lb.Set s t (value >>> 2)) La) L

/-- The method `qLightmap_c::Store`: the filter chosen by `qk_lighting_quality`;
any other quality is a fatal error. -/
def qLightmap_c.Store (rnd : ℚ → ℚ) (qk_lighting_quality lt_W : Int)
    (blocklights : Int → Int) (L : qLightmap_c) : Outcome qLightmap_c Unit :=
  if qk_lighting_quality = 0 then Outcome.ok () (L.Store_Fastest rnd blocklights)
  else if qk_lighting_quality = 1 then Outcome.ok () (L.Store_Interp blocklights)
  else if qk_lighting_quality = 2 then Outcome.ok () (L.Store_Normal blocklights)
  else if qk_lighting_quality = 3 then Outcome.ok () (L.Store_Best lt_W blocklights)
  else Outcome.fatal L

/-! ## Lighting a face (`gui/q_light.cc`) -/

/-- The constant `LTK_Normal`. -/
def LTK_Normal : Int := 0

/-- The constant `LTK_Sun`. -/
def LTK_Sun : Int := 1

/-- The record `quake_light_t`. -/
structure quake_light_t where
  kind : Int
  x : ℚ
  y : ℚ
  z : ℚ
  radius : ℚ
  level : Int

/-- The fields and methods of `quake_face_c` the light code reads: the plane of
the face's node (`CalcDist()` is its `dist`), the side of the node, the S and T
vectors, and the four bounds `ST_Bounds` returns (min_s, min_t, max_s, max_t). -/
structure quake_lit_face_c where
  plane : quake_plane_c
  node_side : Int
  s : Fin 4 → ℚ
  t : Fin 4 → ℚ
  min_s : ℚ
  min_t : ℚ
  max_s : ℚ
  max_t : ℚ

/-- What the light code takes from outside this file: the rounding of `float`
operations, `Normalize()` of a vector, the ray test `QCOM_TraceRay`, the
distance `ComputeDist`, and the bytes found in freshly allocated samples. -/
structure LightEnv where
  roundFloat : ℚ → ℚ
  Normalize : ℚ × ℚ × ℚ → ℚ × ℚ × ℚ
  QCOM_TraceRay : ℚ → ℚ → ℚ → ℚ → ℚ → ℚ → Bool
  ComputeDist : ℚ → ℚ → ℚ → ℚ → ℚ → ℚ → ℚ
  uninit : Nat → Nat

/-- The module variables of the light code. The two scratch arrays are indexed
by any integer (their capacity `18*18*4` is not modelled). -/
structure LightState where
  qk_lighting_quality : Int
  lt_plane_normal : Fin 3 → ℚ
  lt_plane_dist : ℚ
  lt_texorg : Fin 3 → ℚ
  lt_worldtotex : Fin 2 → Fin 3 → ℚ
  lt_textoworld : Fin 2 → Fin 3 → ℚ
  lt_tex_mins : Fin 2 → Int
  lt_W : Int
  lt_H : Int
  lt_points : Int → quake_vertex_c
  blocklights : Int → Int

/-- The function `CalcFaceVectors`. -/
def CalcFaceVectors (env : LightEnv) (F : quake_lit_face_c) (st : LightState) : LightState :=
  let plane := F.plane
  let lt_plane_dist : ℚ := if F.node_side = 1 then -plane.dist else plane.dist
  let lt_plane_normal : Fin 3 → ℚ :=
    if F.node_side = 1 then ![-plane.nx, -plane.ny, -plane.nz]
    else ![plane.nx, plane.ny, plane.nz]
  let lt_worldtotex : Fin 2 → Fin 3 → ℚ := ![![F.s 0, F.s 1, F.s 2], ![F.t 0, F.t 1, F.t 2]]
  -- calculate a normal to the texture axis
  let tn := env.Normalize
    (F.s 2 * F.t 1 - F.s 1 * F.t 2, F.s 0 * F.t 2 - F.s 2 * F.t 0, F.s 1 * F.t 0 - F.s 0 * F.t 1)
  -- flip it towards plane normal
  let ds := tn.1 * lt_plane_normal 0 + tn.2.1 * lt_plane_normal 1 + tn.2.2 * lt_plane_normal 2
  let texnormal : ℚ × ℚ × ℚ := if ds < 0 then (-tn.1, -tn.2.1, -tn.2.2) else tn
  let ds1 : ℚ := if ds < 0 then -ds else ds
  let distscale : ℚ := 1 / ds1
  let lt_textoworld : Fin 2 → Fin 3 → ℚ := fun i =>
    let len_sq := lt_worldtotex i 0 * lt_worldtotex i 0 + lt_worldtotex i 1 * lt_worldtotex i 1
      + lt_worldtotex i 2 * lt_worldtotex i 2
    let dist := (lt_worldtotex i 0 * lt_plane_normal 0 + lt_worldtotex i 1 * lt_plane_normal 1
      + lt_worldtotex i 2 * lt_plane_normal 2) * distscale / len_sq
    ![lt_worldtotex i 0 - texnormal.1 * dist, lt_worldtotex i 1 - texnormal.2.1 * dist,
      lt_worldtotex i 2 - texnormal.2.2 * dist]
  -- calculate texorg on the texture plane
  let org : Fin 3 → ℚ := fun k => -F.s 3 * lt_textoworld 0 k - F.t 3 * lt_textoworld 0 k
  -- project back to the face plane
  let o_dist := (org 0 * lt_plane_normal 0 + org 1 * lt_plane_normal 1
    + org 2 * lt_plane_normal 2 - lt_plane_dist - 1) * distscale
  { st with
    lt_plane_normal := lt_plane_normal
    lt_plane_dist := lt_plane_dist
    lt_worldtotex := lt_worldtotex
    lt_textoworld := lt_textoworld
    lt_texorg := ![org 0 - texnormal.1 * o_dist, org 1 - texnormal.2.1 * o_dist,
      org 2 - texnormal.2.2 * o_dist] }

/-- The function `CalcFaceExtents`. -/
def CalcFaceExtents (F : quake_lit_face_c) (st : LightState) : LightState :=
  let bmin_s : Int := ⌊F.min_s / 16⌋
  let bmin_t : Int := ⌊F.min_t / 16⌋
  let bmax_s : Int := ⌈F.max_s / 16⌉
  let bmax_t : Int := ⌈F.max_t / 16⌉
  { st with
    lt_tex_mins := ![bmin_s, bmin_t]
    lt_W := max 2 (bmax_s - bmin_s + 1)
    lt_H := max 2 (bmax_t - bmin_t + 1) }

/-- The function `CalcPoints`. (`lt_tex_mins` is an `int` array, so `-= 0.5`
stores the truncated difference.) -/
def CalcPoints (st : LightState) : LightState :=
  let best := st.qk_lighting_quality = 3
  let st1 : LightState :=
    if best then
      { st with
        lt_W := st.lt_W * 2
        lt_H := st.lt_H * 2
        lt_tex_mins := ![truncToInt ((st.lt_tex_mins 0 : ℚ) - 1 / 2),
                         truncToInt ((st.lt_tex_mins 1 : ℚ) - 1 / 2)] }
    else st
  let step : ℚ := if best then 8 else 16
  forRange st1.lt_H (fun t sa =>
    forRange sa.lt_W (fun s sb =>
      let us : ℚ := ((sb.lt_tex_mins 0 + s : Int) : ℚ) * step
      let ut : ℚ := ((sb.lt_tex_mins 1 + t : Int) : ℚ) * step
      { sb with
        lt_points := Function.update sb.lt_points (t * sb.lt_W + s)
          { x := sb.lt_texorg 0 + sb.lt_textoworld 0 0 * us + sb.lt_textoworld 1 0 * ut
            y := sb.lt_texorg 1 + sb.lt_textoworld 0 1 * us + sb.lt_textoworld 1 1 * ut
            z := sb.lt_texorg 2 + sb.lt_textoworld 0 2 * us + sb.lt_textoworld 1 2 * ut } })
      sa) st1

/-- The function `ClearLightBuffer`. -/
def ClearLightBuffer (st : LightState) : LightState :=
  let total := st.lt_W * st.lt_H
  forRange total
    (fun k sa => { sa with blocklights := Function.update sa.blocklights k (LOW_LIGHT <<< 8) })
    st

/-- The function `Bump`. -/
def Bump (s t W value : Int) (blocklights : Int → Int) : Int → Int :=
  Function.update blocklights (t * W + s) (blocklights (t * W + s) + value)

/-- The macro `IS_INTERP(a, N)`. -/
def IS_INTERP (a N : Int) : Bool :=
  decide (a % 2 ≠ 0) && decide (a ≠ N - 1)

/-- The values `i` takes in `for (i = 0 ; i < N ; i += step)`, run for at most
`fuel` rounds; `none` when the loop has not ended by then. -/
def loopIndices : Nat → Int → Int → Int → Option (List Int)
  | 0, i, N, _ => if i < N then none else some []
  | fuel + 1, i, N, step =>
    if i < N then (loopIndices fuel (i + step) N step).map (fun rest => i :: rest)
    else some []

/-- The values of the loop variable of `for (i = 0 ; i < N ; i += step)`; `none`
when the loop never ends (`N` rounds are enough whenever `step >= 1`). -/
def steppedRange (N step : Int) : Option (List Int) :=
  loopIndices N.toNat 0 N step

/-- The signed perpendicular distance of a light to the face plane, `perp` in
`QCOM_ProcessLight`. -/
def lightPerp (st : LightState) (light : quake_light_t) : ℚ :=
  st.lt_plane_normal 0 * light.x + st.lt_plane_normal 1 * light.y
    + st.lt_plane_normal 2 * light.z - st.lt_plane_dist

/-- What `QCOM_ProcessLight` adds to `blocklights` for the cell `(s, t)` it
evaluates: nothing for a cell skipped in "fast" mode, for a failed ray test, or
at a distance not under the radius. -/
def cellIncrement (env : LightEnv) (light : quake_light_t) (st : LightState) (s t : Int) : Int :=
  if st.qk_lighting_quality = 1 ∧ (IS_INTERP s st.lt_W || IS_INTERP t st.lt_W) = true then 0
  else
    let V := st.lt_points (t * st.lt_W + s)
    if ¬ (env.QCOM_TraceRay V.x V.y V.z light.x light.y light.z = true) then 0
    else if light.kind = LTK_Sun then light.level
    else
      let dist := env.ComputeDist V.x V.y V.z light.x light.y light.z
      if dist < light.radius then truncToInt ((light.level : ℚ) * (1 - dist / light.radius))
      else 0

/-- The body of the two loops of `QCOM_ProcessLight` for the cell `(s, t)`. -/
def QCOM_ProcessLight_cell (env : LightEnv) (light : quake_light_t) (s t : Int)
    (st : LightState) : LightState :=
  -- in the "fast" mode, only do every second row and column
  if st.qk_lighting_quality = 1 ∧ (IS_INTERP s st.lt_W || IS_INTERP t st.lt_W) = true then st
  else
    let V := st.lt_points (t * st.lt_W + s)
    if ¬ (env.QCOM_TraceRay V.x V.y V.z light.x light.y light.z = true) then st
    else if light.kind = LTK_Sun then
      { st with blocklights := Bump s t st.lt_W light.level st.blocklights }
    else
      let dist := env.ComputeDist V.x V.y V.z light.x light.y light.z
      if dist < light.radius then
        let value := truncToInt ((light.level : ℚ) * (1 - dist / light.radius))
        { st with blocklights := Bump s t st.lt_W value st.blocklights }
      else st

/-- One row of `QCOM_ProcessLight`: the inner loop over `s`. -/
def QCOM_ProcessLight_row (env : LightEnv) (light : quake_light_t) (s_step t : Int)
    (st : LightState) : Option LightState :=
  (steppedRange st.lt_W s_step).map fun ss =>
    ss.foldl (fun sa s => QCOM_ProcessLight_cell env light s t sa) st

/-- The outer loop of `QCOM_ProcessLight` over the rows `ts`. -/
def QCOM_ProcessLight_rows (env : LightEnv) (light : quake_light_t) (s_step : Int) :
    List Int → LightState → Option LightState
  | [], st => some st
  | t :: rest, st =>
    match QCOM_ProcessLight_row env light s_step t st with
    | none => none
    | some st1 => QCOM_ProcessLight_rows env light s_step rest st1

/-- The function `QCOM_ProcessLight`; `none` when its loops never end. -/
def QCOM_ProcessLight (env : LightEnv) (light : quake_light_t) (st : LightState) :
    Option LightState :=
  -- skip lights which are behind the face
  if lightPerp st light ≤ 0 then some st
  -- skip lights which are too far away
  else if light.kind ≠ LTK_Sun ∧ lightPerp st light > light.radius then some st
  else
    let s_step : Int := if st.qk_lighting_quality = 0 then st.lt_W - 1 else 1
    let t_step : Int := if st.qk_lighting_quality = 0 then st.lt_H - 1 else 1
    match steppedRange st.lt_H t_step with
    | none => none
    | some ts => QCOM_ProcessLight_rows env light s_step ts st

/-- The loop of `QCOM_LightFace` over `qk_all_lights`. -/
def processLights (env : LightEnv) : List quake_light_t → LightState → Option LightState
  | [], st => some st
  | light :: rest, st =>
    match QCOM_ProcessLight env light st with
    | none => none
    | some st1 => processLights env rest st1

/-- The function `QCOM_LightFace`: the module state afterwards and the outcome
of `Store` with the face's new lightmap; `none` when a loop never ends. -/
def QCOM_LightFace (env : LightEnv) (qk_all_lights : List quake_light_t)
    (F : quake_lit_face_c) (st : LightState) :
    Option (LightState × Outcome qLightmap_c Unit) :=
  let st1 := CalcFaceVectors env F st
  let st2 := CalcFaceExtents F st1
  let lmap := BSP_NewLightmap env.uninit st2.lt_W st2.lt_H
  let st3 := CalcPoints st2
  let st4 := ClearLightBuffer st3
  match processLights env qk_all_lights st4 with
  | none => none
  | some st5 =>
    some (st5, lmap.Store env.roundFloat st5.qk_lighting_quality st5.lt_W st5.blocklights)

/-! ## Rounding of `float` operations -/

/-- The nearest integer, a tie going to the even one. -/
def roundHalfEven (x : ℚ) : Int :=
  if x - ⌊x⌋ < 1 / 2 then ⌊x⌋
  else if 1 / 2 < x - ⌊x⌋ then ⌊x⌋ + 1
  else if ⌊x⌋ % 2 = 0 then ⌊x⌋ else ⌊x⌋ + 1

/-- The rounding of IEEE binary32 (`float`) arithmetic: 24 significant bits,
to nearest, ties to even. Overflow and subnormal numbers are not modelled. -/
def roundBinary32 (x : ℚ) : ℚ :=
  if x = 0 then 0
  else (roundHalfEven (x / 2 ^ (Int.log 2 |x| - 23)) : ℚ) * 2 ^ (Int.log 2 |x| - 23)

/-! ## Texture blocks of the texture lump (`gui/q1_main.cc`) -/

/-- Modelled from the spec: the constant `MIP_LEVELS` (defined in a header
outside this file); the spec gives five mip levels, of sizes 64, 32, 16, 8, 4. -/
def MIP_LEVELS : Nat := 5

/-- The four bytes of a 32-bit value, least significant first (`LE_U32`). -/
def le32 (x : Int) : List Nat :=
  [(x % 256).toNat, (x / 256 % 256).toNat, (x / 65536 % 256).toNat, (x / 16777216 % 256).toNat]

/-- The texture lump being built and the warnings logged so far. -/
structure TexLump where
  data : List Nat
  log : List String

/-- What the texture code takes from outside this file: the wad reader, the
logo image `logo_RELIEF.data`, and the bytes found in the part of a name field
that `strcpy` leaves alone. -/
structure WadEnv where
  WAD2_FindEntry : String → Int
  WAD2_EntryLen : Int → Int
  /-- `WAD2_ReadData(entry, pos, actual, buffer)`: the buffer, or `none` -/
  WAD2_ReadData : Int → Int → Int → Option (List Nat)
  logo : Int → Nat
  pad : Nat → Nat

/-- The bytes of a name as a C string, without the final NUL. A name holds no
NUL character: it came from a C string. -/
def cstring (name : String) : List Nat :=
  name.toList.flatMap fun c => (String.utf8EncodeChar c).map UInt8.toNat

/-- The function `strlen`. -/
def strlen (name : String) : Nat := (cstring name).length

/-- Modelled from the spec: the record `miptex_t` (declared in a header outside
this file) as appended to the lump: a 16-byte name field (the name, a NUL, then
whatever the field held), `width`, `height`, and one offset per mip level. -/
def miptexHeader (pad : Nat → Nat) (name : String) (width height : Int) (offsets : List Int) :
    List Nat :=
  ((cstring name ++ [0]) ++
      (List.range (16 - (strlen name + 1))).map (fun i => pad (strlen name + 1 + i)))
    ++ le32 width ++ le32 height ++ (offsets.map le32).flatten

/-- The size `sizeof(miptex_t)` of that record. -/
def sizeofMiptex (mip_levels : Nat) : Int := 16 + 4 + 4 + 4 * (mip_levels : Int)

/-- The offsets loop shared by `CreateDummyMip` and `CreateLogoMip`:
`offsets[i] = offset; offset += size * size; size /= 2`. -/
def mipOffsets : Nat → Int → Int → List Int
  | 0, _, _ => []
  | n + 1, offset, size => offset :: mipOffsets n (offset + size * size) (Int.tdiv size 2)

/-- The pixel `CreateDummyMip` appends at `(x, y)` of a level of size `size`. -/
def dummyPixel (pix1 pix2 : Nat) (size x y : Int) : Nat :=
  if (x.toNat ^^^ y.toNat) &&& (Int.tdiv size 4).toNat ≠ 0 then pix2 % 256 else pix1 % 256

/-- The pixels of one mip level of `CreateDummyMip`, row by row. -/
def dummyLevel (pix1 pix2 : Nat) (size : Int) (lump : List Nat) : List Nat :=
  forRange size (fun y acc =>
    forRange size (fun x acc2 => acc2 ++ [dummyPixel pix1 pix2 size x y]) acc) lump

/-- The pixel loop of `CreateDummyMip` over the mip levels. -/
def dummyLevels (pix1 pix2 : Nat) : Nat → Int → List Nat → List Nat
  | 0, _, lump => lump
  | n + 1, size, lump =>
    dummyLevels pix1 pix2 n (Int.tdiv size 2) (dummyLevel pix1 pix2 size lump)

/-- The function `CreateDummyMip`. -/
def CreateDummyMip (mip_levels : Nat) (pad : Nat → Nat) (name : String) (pix1 pix2 : Nat)
    (lump : TexLump) : Outcome TexLump Unit :=
  if ¬ (strlen name < 16) then Outcome.assertFail lump
  else
    let size : Int := 64
    let header := miptexHeader pad name size size
      (mipOffsets mip_levels (sizeofMiptex mip_levels) size)
    Outcome.ok ()
      { lump with data := dummyLevels pix1 pix2 mip_levels 64 (lump.data ++ header) }

/-- The table `colormap` of `CreateLogoMip`. -/
def logoColormap : List Nat := [16, 97, 103, 109, 243, 243, 243, 243]

/-- The pixels of one mip level of `CreateLogoMip`, row by row. -/
def logoLevel (data : Int → Nat) (size scale : Int) (lump : List Nat) : List Nat :=
  forRange size (fun y acc =>
    forRange size (fun x acc2 =>
      acc2 ++ [logoColormap.getD (data ((63 - y * scale) * 64 + x * scale) / 32 % 8) 0]) acc)
    lump

/-- The pixel loop of `CreateLogoMip` over the mip levels. -/
def logoLevels (data : Int → Nat) : Nat → Int → Int → List Nat → List Nat
  | 0, _, _, lump => lump
  | n + 1, size, scale, lump =>
    logoLevels data n (Int.tdiv size 2) (scale * 2) (logoLevel data size scale lump)

/-- The function `CreateLogoMip`. -/
def CreateLogoMip (mip_levels : Nat) (pad : Nat → Nat) (name : String) (data : Int → Nat)
    (lump : TexLump) : Outcome TexLump Unit :=
  if ¬ (strlen name < 16) then Outcome.assertFail lump
  else
    let size : Int := 64
    let header := miptexHeader pad name size size
      (mipOffsets mip_levels (sizeofMiptex mip_levels) size)
    Outcome.ok ()
      { lump with data := logoLevels data mip_levels 64 1 (lump.data ++ header) }

/-- The read loop of `TransferOneMipTex`: chunks of at most 1024 bytes until
`length` bytes are copied; a failed read is fatal. `fuel` bounds the rounds. -/
def transferWadEntry (wad : WadEnv) (entry : Int) :
    Nat → Int → Int → TexLump → Outcome TexLump Unit
  | 0, _, _, lump => Outcome.ok () lump
  | fuel + 1, pos, length, lump =>
    if length > 0 then
      let actual := min 1024 length
      match wad.WAD2_ReadData entry pos actual with
      | none => Outcome.fatal lump
      | some buffer =>
        transferWadEntry wad entry fuel (pos + actual) (length - actual)
          { lump with
            data := lump.data ++ (List.range actual.toNat).map (fun i => buffer.getD i 0) }
    else Outcome.ok () lump

/-- The function `TransferOneMipTex`. -/
def TransferOneMipTex (wad : WadEnv) (mip_levels : Nat) (name : String) (lump : TexLump) :
    Outcome TexLump Unit :=
  if name = "error" then CreateDummyMip mip_levels wad.pad name 210 231 lump
  else if name = "missing" then CreateDummyMip mip_levels wad.pad name 4 12 lump
  else if name = "o_carve" then CreateLogoMip mip_levels wad.pad name wad.logo lump
  else
    let entry := wad.WAD2_FindEntry name
    if entry ≥ 0 then
      let length := wad.WAD2_EntryLen entry
      transferWadEntry wad entry length.toNat 0 length lump
    else
      -- not found!
      CreateDummyMip mip_levels wad.pad name 4 12
        { lump with
          log := lump.log ++ ["WARNING: texture '" ++ name ++ "' not found in texture wad!\n"] }

/-! ## Predicates used in the statements -/

/-- A lightmap of `W` x `H` cells with one sample per cell. -/
def qLightmap_c.hasShape (L : qLightmap_c) (W H : Int) : Prop :=
  L.width = W ∧ L.height = H ∧ L.samples.length = (W * H).toNat

/-! ## Sample data for the light code -/

/-- An instance of `LightEnv`: binary32 rounding, length and distance taken with
the rational square root (exact whenever the length is rational), nothing in
the way of any ray, fresh samples zero. -/
def openEnv : LightEnv where
  roundFloat := roundBinary32
  Normalize := fun v =>
    let len := Rat.sqrt (v.1 * v.1 + v.2.1 * v.2.1 + v.2.2 * v.2.2)
    if len = 0 then v else (v.1 / len, v.2.1 / len, v.2.2 / len)
  QCOM_TraceRay := fun _ _ _ _ _ _ => true
  ComputeDist := fun sx sy sz ex ey ez =>
    Rat.sqrt ((sx - ex) * (sx - ex) + (sy - ey) * (sy - ey) + (sz - ez) * (sz - ez))
  uninit := fun _ => 0

/-- The module variables before the first face is lit, at quality `q`. -/
def LightState.start (q : Int) : LightState :=
  { qk_lighting_quality := q
    lt_plane_normal := fun _ => 0, lt_plane_dist := 0
    lt_texorg := fun _ => 0
    lt_worldtotex := fun _ _ => 0, lt_textoworld := fun _ _ => 0
    lt_tex_mins := fun _ => 0
    lt_W := 0, lt_H := 0
    lt_points := fun _ => { x := 0, y := 0, z := 0 }
    blocklights := fun _ => 0 }

/-- The module variables for a 2 x 2 grid over the plane `z = 0`, facing up,
with every entry of `blocklights` at `LOW_LIGHT << 8`. -/
def gridState (q : Int) : LightState :=
  { LightState.start q with
    lt_plane_normal := ![0, 0, 1]
    lt_W := 2, lt_H := 2
    lt_points := fun k => { x := ((k % 2 : Int) : ℚ) * 16, y := ((k / 2 : Int) : ℚ) * 16, z := 1 }
    blocklights := fun _ => 5120 }

/-- A face in the plane `z = 0`, facing up, S along x and T along y, with S/T
bounds `(0, 0, max_s, max_t)`. -/
def floorFace (max_s max_t : ℚ) : quake_lit_face_c :=
  { plane := { nx := 0, ny := 0, nz := 1, dist := 0 }
    node_side := 0
    s := ![1, 0, 0, 0]
    t := ![0, 1, 0, 0]
    min_s := 0, min_t := 0, max_s := max_s, max_t := max_t }

/-- A sun of level 100 above the plane `z = 0`. -/
def sunLight : quake_light_t :=
  { kind := LTK_Sun, x := 0, y := 0, z := 64, radius := 1, level := 25600 }

/-- A point light of level 100 below the plane `z = 0`. -/
def lampBelow : quake_light_t :=
  { kind := LTK_Normal, x := 16, y := 16, z := -64, radius := 300, level := 25600 }

/-- A point light of level 1 and radius 300 at height 10 above the point
`(16, 16)` of the plane `z = 0`. -/
def dimLamp : quake_light_t :=
  { kind := LTK_Normal, x := 16, y := 16, z := 10, radius := 300, level := 256 }

/-- A 2 x 1 lightmap, not yet written or scored, with the samples 10 and 21. -/
def pairLightmap : qLightmap_c :=
  { width := 2, height := 1, samples := [10, 21], offset := -1, score := -1, average := -1 }

/-! ## The layout of the lighting lump, in the words of the spec -/

/-- The brightness of block `j` of the ladder: the levels 0 to 127, then the
even levels 128 to 254. -/
def ladderByte (j : Nat) : Nat :=
  if j < 128 then j else 2 * j - 128

/-- The ladder the spec describes: 192 constant blocks of `flat_size` bytes. -/
def ladderSpec (flat_size : Nat) : List Nat :=
  (List.range 192).flatMap fun j => List.replicate flat_size (ladderByte j)

/-- The bytes the spec gives a lightmap in the lump: none when it is flat, else
its samples, each one three times in color mode. -/
def lightmapBytesSpec (color : Bool) (L : qLightmap_c) : List Nat :=
  if L.isFlat then []
  else if color then L.samples.flatMap fun x => [x, x, x]
  else L.samples

/-- The offsets the spec records, for lightmaps written from position `pos` on:
a lightmap that is not flat gets the position of its first byte. -/
def recordOffsetsSpec (color : Bool) : Nat → List qLightmap_c → List qLightmap_c
  | _, [] => []
  | pos, L :: rest =>
    (if L.isFlat then L else { L with offset := (pos : Int) })
      :: recordOffsetsSpec color (pos + (lightmapBytesSpec color L).length) rest

/-- A flat lightmap holding the brightness `v`. -/
def flatLightmap (v : Nat) : qLightmap_c :=
  { width := 1, height := 1, samples := [v], offset := -1, score := -1, average := -1 }

/-! ## The placeholder texture, in the words of the spec -/

/-- One mip level of the placeholder, of size `n`, row by row: the pixel at
`(x, y)` is 12 if `(x xor y) and n/4` is not zero and 4 otherwise. -/
def placeholderLevelSpec (n : Nat) : List Nat :=
  (List.range n).flatMap fun y =>
    (List.range n).map fun x => if (x ^^^ y) &&& (n / 4) ≠ 0 then 12 else 4

/-- The pixel bytes of the placeholder: mip levels of sizes 64, 32, 16, 8, 4. -/
def placeholderPixelsSpec : List Nat :=
  placeholderLevelSpec 64 ++ placeholderLevelSpec 32 ++ placeholderLevelSpec 16
    ++ placeholderLevelSpec 8 ++ placeholderLevelSpec 4

/-- A texture wad with no entry at all. -/
def emptyWad : WadEnv where
  WAD2_FindEntry := fun _ => -1
  WAD2_EntryLen := fun _ => 0
  WAD2_ReadData := fun _ _ _ => none
  logo := fun _ => 0
  pad := fun _ => 0

/-- The tables of `exactEnv` with a `rand()` that returns `r` at every call. -/
def randEnv (r : Nat) : BspEnv ExactTables :=
  { exactEnv with rand := fun t => (r, t) }

/-- The triangle `triangleFace id` carrying the lightmap `lm`. -/
def litFace (id : Nat) (lm : qLightmap_c) : quake_face_c :=
  { triangleFace id with lmap := some lm }

/-- The light offsets of the face records in a writer state. -/
def Q1State.lightOffsets {E : Type} (st : Q1State E) : List Int :=
  st.q1_faces.map dface_t.lightofs

/-! ## The texture lump (`Q1_CreateMipTex`) -/

/-- Conversion to `u32_t`: the value modulo `2^32`. -/
def toU32 (x : Int) : Int := x % 4294967296

/-- The loop of `Q1_CreateMipTex` over the texture names: the offset of a texture
is taken before its block is transferred. The value is the array `offsets`. -/
def Q1_CreateMipTex_loop (wad : WadEnv) (mip_levels : Nat) (dir_size : Int) :
    List String → List Int → TexLump → Outcome TexLump (List Int)
  | [], offsets, lump => Outcome.ok offsets lump
  | name :: rest, offsets, lump =>
    let ofs := toU32 (dir_size + toU32 (lump.data.length : Int))
    (TransferOneMipTex wad mip_levels name lump).bind fun _ lump1 =>
      Q1_CreateMipTex_loop wad mip_levels dir_size rest (offsets ++ [ofs]) lump1

/-- The function `Q1_CreateMipTex` on the name table `q1_miptexs`. `opened` is
the answer of `WAD2_OpenRead`, and `hostU32 x` the four bytes of the `u32_t`
value `x` in the memory of the host: the directory is prepended as it lies in
memory. The lump starts empty; the array `offsets` has `num_miptex` entries. -/
def Q1_CreateMipTex (wad : WadEnv) (hostU32 : Int → List Nat) (opened : Bool)
    (mip_levels : Nat) (q1_miptexs : List String) : Outcome TexLump Unit :=
  let lump : TexLump := { data := [], log := [] }
  if ¬ opened then Outcome.fatal lump
  else
    let num_miptex := toU32 (q1_miptexs.length : Int)
    let dir_size := toU32 (4 * num_miptex + 4)
    if ¬ (num_miptex > 0) then Outcome.assertFail lump
    else
      (Q1_CreateMipTex_loop wad mip_levels dir_size q1_miptexs [] lump).bind
        fun offsets lump1 =>
          Outcome.ok ()
            { lump1 with
              data := hostU32 num_miptex
                ++ (((offsets.take num_miptex.toNat).map hostU32).flatten ++ lump1.data) }

/-- The position in the texture lump at which block `m` starts when the blocks
follow a count and one offset per block: `4 + 4 n` bytes of directory, then the
blocks before `m`. -/
def blockStartSpec (blocks : List (List Nat)) (m : Nat) : Nat :=
  4 + 4 * blocks.length + (blocks.take m).flatten.length

/-- The texture lump made of the given blocks: the count, then for each block
the position in the lump at which it starts, then the blocks. -/
def texLumpSpec (hostU32 : Int → List Nat) (blocks : List (List Nat)) : List Nat :=
  hostU32 (blocks.length : Int)
    ++ (((List.range blocks.length).map fun m => hostU32 (blockStartSpec blocks m : Nat)).flatten
    ++ blocks.flatten)

/-- The block `TransferOneMipTex` appends for a texture name: what it leaves in
a lump that was empty. -/
def textureBlock (wad : WadEnv) (mip_levels : Nat) (name : String) : List Nat :=
  (TransferOneMipTex wad mip_levels name { data := [], log := [] }).state.data

/-- The name table `ClearMipTex` leaves: the three built-in textures. -/
def builtinNames : List String := ["error", "missing", "o_carve"]

/-! ## The hash buckets of the mapping table -/

/-- The linear scan of the whole mapping table, in the words of the spec: the
smallest index whose entry matches the candidate, or `none` when no entry
matches. -/
def linearScanSpec (tin : texinfo_t) : List texinfo_t → Option Nat
  | [] => none
  | e :: rest =>
    if MatchTexInfo tin e then some 0 else (linearScanSpec tin rest).map (· + 1)

/-- The table states reachable from `ClearTexInfo`: by calls of `Q1_AddTexInfo`
that return, and by calls of `Q1_AddMipTex`. -/
inductive TexState.Reachable (MAX_MAP_TEXINFO : Nat) : TexState → Prop
  | clear (st0 : TexState) : TexState.Reachable MAX_MAP_TEXINFO (ClearTexInfo st0)
  | addMipTex (st : TexState) (name : String) :
    TexState.Reachable MAX_MAP_TEXINFO st →
    TexState.Reachable MAX_MAP_TEXINFO { st with mip := (Q1_AddMipTex name st.mip).2 }
  | addTexInfo (st : TexState) (texture : String) (flags : Int) (s4 t4 : Fin 4 → ℚ)
    (i : Nat) (st1 : TexState) :
    TexState.Reachable MAX_MAP_TEXINFO st →
    Q1_AddTexInfo MAX_MAP_TEXINFO texture flags s4 t4 st = Outcome.ok i st1 →
    TexState.Reachable MAX_MAP_TEXINFO st1

/-- The bucket an entry of the mapping table belongs to. -/
def texinfo_t.slot (e : texinfo_t) : Fin 32 := hashSlot (texinfoHash e.miptex)

/-- The invariant of the hash buckets: every bucket entry is the index of a
table entry that belongs to this bucket, every table entry is listed in its
bucket, and every bucket is in increasing order. -/
def TexState.HashInv (st : TexState) : Prop :=
  (∀ slot, ∀ idx ∈ bucketEntries st.texinfo_hashtab slot,
      ∃ h : idx < st.q1_texinfos.length, (st.q1_texinfos.get ⟨idx, h⟩).slot = slot)
  ∧ (∀ i (h : i < st.q1_texinfos.length),
      i ∈ bucketEntries st.texinfo_hashtab (st.q1_texinfos.get ⟨i, h⟩).slot)
  ∧ (∀ slot, (bucketEntries st.texinfo_hashtab slot).Pairwise (· < ·))

/-- The mapping table after the first mapping of a level, of texture "sky". -/
def skyState : TexState :=
  (Q1_AddTexInfo 4096 "sky" 0 ![1, 0, 0, 0] ![0, 1, 0, 0] TexState.levelStart).state

/-! ## Faces bordering leafs -/

/-- Every face bordering a leaf of the tree is a face object of an ancestor node
of that leaf; `anc` lists the face objects of the nodes above the tree. -/
def quake_child.leafFacesOwned : List Nat → quake_child → Bool
  | anc, quake_child.L leaf => leaf.faces.all fun f => decide (f.id ∈ anc)
  | anc, quake_child.N node front back =>
    quake_child.leafFacesOwned (anc ++ node.faces.map quake_face_c.id) front
      && quake_child.leafFacesOwned (anc ++ node.faces.map quake_face_c.id) back

/-- The face counter and the faces lump run in step since a walk started with
counter `n0` and `L0` face records. -/
def Q1State.Counted {E : Type} (n0 : Int) (L0 : Nat) (st : Q1State E) : Prop :=
  ∃ c : Nat, st.q1_faces.length = L0 + c ∧ st.q1_total_faces = n0 + (c : Int)

/-- The face object `id` has been written since the walk started: its index is
`n0 + k` and record `L0 + k` of the faces lump is the record of a face with this
identity. -/
def Q1State.Written {E : Type} (n0 : Int) (L0 : Nat) (st : Q1State E) (id : Nat) : Prop :=
  ∃ (k : Nat) (r : dface_t) (f : quake_face_c),
    st.face_index id = n0 + (k : Int) ∧ st.q1_faces[L0 + k]? = some r
      ∧ r.isRecordOf f ∧ f.id = id

/-- The mark-surface entry `e` is the output index (as a `u16_t`) of a face whose
record is in the faces lump. -/
def Q1State.MarkOK {E : Type} (n0 : Int) (L0 : Nat) (st : Q1State E) (e : Int) : Prop :=
  ∃ (k : Nat) (r : dface_t) (f : quake_face_c),
    e = toU16 (n0 + (k : Int)) ∧ st.q1_faces[L0 + k]? = some r ∧ r.isRecordOf f

/-- The module variables for a 3 x 3 grid over the plane `z = 0`, facing up, in
"fast" mode (quality 1), with every entry of `blocklights` at `LOW_LIGHT << 8`. -/
def grid3State : LightState :=
  { LightState.start 1 with
    lt_plane_normal := ![0, 0, 1]
    lt_W := 3, lt_H := 3
    lt_points := fun k => { x := ((k % 3 : Int) : ℚ) * 16, y := ((k / 3 : Int) : ℚ) * 16, z := 1 }
    blocklights := fun _ => 5120 }

/-- The light buffer of a 3 x 3 grid in which the four cells with even
coordinates, at the positions `t * 3 + s`, got the sun light 25600 on top of
the ambient 5120. -/
def sunBuffer3 : Int → Int := fun k =>
  5120 + (if k = 0 ∨ k = 2 ∨ k = 6 ∨ k = 8 then 25600 else 0)

/-- The module variables for a grid of 4 columns and 2 rows over the plane
`z = 0`, facing up, in "fast" mode (quality 1), with every entry of
`blocklights` at `LOW_LIGHT << 8`. -/
def grid42State : LightState :=
  { LightState.start 1 with
    lt_plane_normal := ![0, 0, 1]
    lt_W := 4, lt_H := 2
    lt_points := fun k => { x := ((k % 4 : Int) : ℚ) * 16, y := ((k / 4 : Int) : ℚ) * 16, z := 1 }
    blocklights := fun _ => 5120 }

/-- The light buffer of the 4 x 2 grid in which the cells `(0, 0)`, `(2, 0)` and
`(3, 0)` got the sun light 25600 on top of the ambient 5120. -/
def sunBuffer42 : Int → Int := fun k =>
  5120 + (if k = 0 ∨ k = 2 ∨ k = 3 then 25600 else 0)

/-- A face with the S/T bounds `(32, -48, 64, -16)`: `CalcFaceExtents` gives it
`lt_tex_mins = (2, -3)` and a 3 x 3 grid. -/
def shiftedFace : quake_lit_face_c :=
  { floorFace 64 (-16) with min_s := 32, min_t := -48 }

/-- The module variables at quality 3 with the texture axes mapped to the world
axes x and y and the origin at 0: the sample point of a cell is `(us, ut, 0)`. -/
def bestState : LightState :=
  { LightState.start 3 with lt_textoworld := ![![1, 0, 0], ![0, 1, 0]] }

/-- The floor face with the T offset 5: `t = (0, 1, 0, 5)`. The axes are unit
vectors, orthogonal, and lie in the face plane. -/
def offsetFace : quake_lit_face_c :=
  { floorFace 16 16 with t := ![0, 1, 0, 5] }

/-- A face in the plane through the origin with normal `(3/5, 0, 4/5)`, with the
S axis `(2, 0, 0)` (a texture drawn at half size) and the T axis `(0, 1, 0)`. -/
def slopedFace : quake_lit_face_c :=
  { plane := { nx := 3 / 5, ny := 0, nz := 4 / 5, dist := 0 }
    node_side := 0
    s := ![2, 0, 0, 0]
    t := ![0, 1, 0, 0]
    min_s := 0, min_t := 0, max_s := 16, max_t := 16 }

/-- The position `CalcPoints` computes for a cell with the texture coordinates
`(us, ut)`: `lt_texorg + lt_textoworld[0] * us + lt_textoworld[1] * ut`. -/
def samplePosition (st : LightState) (us ut : ℚ) : Fin 3 → ℚ := fun k =>
  st.lt_texorg k + st.lt_textoworld 0 k * us + st.lt_textoworld 1 k * ut

/-- The texture normal of `CalcFaceVectors` after `Normalize()`, before it is
flipped towards the plane normal. -/
def texNormal (env : LightEnv) (F : quake_lit_face_c) : ℚ × ℚ × ℚ :=
  env.Normalize
    (F.s 2 * F.t 1 - F.s 1 * F.t 2, F.s 0 * F.t 2 - F.s 2 * F.t 0, F.s 1 * F.t 0 - F.s 0 * F.t 1)

/-! # Theorems -/

/-! ### Outcomes and loops -/

section OutcomeLemmas

variable {σ α β ι : Type}

@[simp] theorem Outcome.bind_ok (v : α) (st : σ) (f : α → σ → Outcome σ β) :
    (Outcome.ok v st).bind f = f v st := rfl

@[simp] theorem Outcome.bind_fatal (st : σ) (f : α → σ → Outcome σ β) :
    (Outcome.fatal st : Outcome σ α).bind f = Outcome.fatal st := rfl

@[simp] theorem Outcome.bind_assertFail (st : σ) (f : α → σ → Outcome σ β) :
    (Outcome.assertFail st : Outcome σ α).bind f = Outcome.assertFail st := rfl

@[simp] theorem Outcome.state_ok (v : α) (st : σ) : (Outcome.ok v st).state = st := rfl

@[simp] theorem Outcome.state_fatal (st : σ) : (Outcome.fatal st : Outcome σ α).state = st := rfl

@[simp] theorem Outcome.state_assertFail (st : σ) :
    (Outcome.assertFail st : Outcome σ α).state = st := rfl

@[simp] theorem Outcome.isOk_ok (v : α) (st : σ) : (Outcome.ok v st).isOk = true := rfl

@[simp] theorem Outcome.isOk_fatal (st : σ) : (Outcome.fatal st : Outcome σ α).isOk = false := rfl

@[simp] theorem Outcome.isOk_assertFail (st : σ) :
    (Outcome.assertFail st : Outcome σ α).isOk = false := rfl

@[simp] theorem Outcome.isFatal_ok (v : α) (st : σ) : (Outcome.ok v st).isFatal = false := rfl

@[simp] theorem Outcome.isFatal_fatal (st : σ) :
    (Outcome.fatal st : Outcome σ α).isFatal = true := rfl

@[simp] theorem Outcome.isFatal_assertFail (st : σ) :
    (Outcome.assertFail st : Outcome σ α).isFatal = false := rfl

theorem Outcome.isOk_iff (o : Outcome σ α) : o.isOk = true ↔ ∃ v st, o = Outcome.ok v st := by
  cases o <;> simp

theorem Outcome.eq_ok_of_isOk (o : Outcome σ Unit) (h : o.isOk = true) :
    o = Outcome.ok () o.state := by
  cases o <;> simp at h ⊢

/-- A relation between the state before and the state after that holds for
each step of a loop (and is reflexive and transitive) holds for the loop. -/
theorem forEach_rel (R : σ → σ → Prop) (hrefl : ∀ st, R st st)
    (htrans : ∀ a b c, R a b → R b c → R a c) (body : ι → σ → Outcome σ Unit)
    (hstep : ∀ x st, R st (body x st).state) (xs : List ι) (st : σ) :
    R st (forEach body xs st).state := by
  induction xs generalizing st with
  | nil => exact hrefl st
  | cons x rest ih =>
    simp only [forEach]
    have h1 := hstep x st
    cases hb : body x st with
    | ok v st1 =>
      rw [hb] at h1
      exact htrans _ _ _ h1 (ih st1)
    | fatal st1 => rw [hb] at h1; exact h1
    | assertFail st1 => rw [hb] at h1; exact h1

theorem forEach_map (g : β → ι) (body : ι → σ → Outcome σ Unit) (xs : List β) (st : σ) :
    forEach body (xs.map g) st = forEach (fun x => body (g x)) xs st := by
  induction xs generalizing st with
  | nil => rfl
  | cons x rest ih =>
    simp only [List.map_cons, forEach]
    cases body (g x) st with
    | ok v st1 => exact ih st1
    | fatal st1 => rfl
    | assertFail st1 => rfl

theorem forEach_append (body : ι → σ → Outcome σ Unit) (xs ys : List ι) (st : σ) :
    forEach body (xs ++ ys) st = (forEach body xs st).bind fun _ st1 => forEach body ys st1 := by
  induction xs generalizing st with
  | nil => rfl
  | cons x rest ih =>
    simp only [List.cons_append, forEach]
    cases body x st with
    | ok v st1 => exact ih st1
    | fatal st1 => rfl
    | assertFail st1 => rfl

/-- A loop ends in the fatal error exactly when some step does, all steps
before it having returned. -/
theorem forEach_isFatal_iff (body : ι → σ → Outcome σ Unit) (xs : List ι) (st : σ) :
    (forEach body xs st).isFatal = true
      ↔ ∃ (i : Nat) (h : i < xs.length) (st_i : σ),
          forEach body (xs.take i) st = Outcome.ok () st_i
          ∧ (body (xs.get ⟨i, h⟩) st_i).isFatal = true := by
  induction xs generalizing st with
  | nil => simp [forEach]
  | cons x rest ih =>
    constructor
    · intro hf
      simp only [forEach] at hf
      cases hb : body x st with
      | ok v st1 =>
        rw [hb] at hf
        simp only [Outcome.bind_ok] at hf
        obtain ⟨i, hi, st_i, h1, h2⟩ := (ih st1).mp hf
        refine ⟨i + 1, by simpa using hi, st_i, ?_, ?_⟩
        · simp only [List.take_succ_cons, forEach, hb, Outcome.bind_ok]
          exact h1
        · simpa using h2
      | fatal st1 =>
        refine ⟨0, by simp, st, by simp [forEach], ?_⟩
        simp [hb]
      | assertFail st1 =>
        rw [hb] at hf
        simp at hf
    · rintro ⟨i, hi, st_i, h1, h2⟩
      cases i with
      | zero =>
        simp only [List.take_zero, forEach, Outcome.ok.injEq, true_and] at h1
        subst h1
        simp only [List.get_eq_getElem, List.getElem_cons_zero] at h2
        simp only [forEach]
        cases hb : body x st with
        | ok v st1 => rw [hb] at h2; simp at h2
        | fatal st1 => simp
        | assertFail st1 => rw [hb] at h2; simp at h2
      | succ j =>
        simp only [List.take_succ_cons, forEach] at h1
        simp only [forEach]
        cases hb : body x st with
        | ok v st1 =>
          rw [hb] at h1
          simp only [Outcome.bind_ok] at h1 ⊢
          exact (ih st1).mpr ⟨j, by simpa using hi, st_i, h1, by simpa using h2⟩
        | fatal st1 => rw [hb] at h1; simp at h1
        | assertFail st1 => rw [hb] at h1; simp at h1

/-- A loop whose steps never fail an assertion returns or ends in the fatal
error. -/
theorem forEach_isOk_or_isFatal (body : ι → σ → Outcome σ Unit)
    (hbody : ∀ x st, (body x st).isOk = !(body x st).isFatal) (xs : List ι) (st : σ) :
    (forEach body xs st).isOk = !(forEach body xs st).isFatal := by
  induction xs generalizing st with
  | nil => simp [forEach]
  | cons x rest ih =>
    have hx := hbody x st
    simp only [forEach]
    cases hb : body x st with
    | ok v st1 => simpa using ih st1
    | fatal st1 => simp
    | assertFail st1 => rw [hb] at hx; simp at hx

end OutcomeLemmas

/-! ### Lemmas on the name map -/

theorem NameMap.find_set_self (m : NameMap) (name : String) (v : Int) :
    (m.set name v).find name = some v := by
  induction m with
  | nil => simp [NameMap.set, NameMap.find, List.lookup]
  | cons p rest ih =>
    obtain ⟨k, w⟩ := p
    by_cases h : name = k
    · subst h
      simp [NameMap.set, NameMap.find, List.lookup]
    · have hb : (name == k) = false := by simpa using h
      simp only [NameMap.set, hb, NameMap.find, List.lookup] at ih ⊢
      simpa using ih

theorem NameMap.find_set_other (m : NameMap) (name other : String) (v : Int)
    (h : other ≠ name) : (m.set name v).find other = m.find other := by
  induction m with
  | nil =>
    have hb : (other == name) = false := by simpa using h
    simp [NameMap.set, NameMap.find, List.lookup, hb]
  | cons p rest ih =>
    obtain ⟨k, w⟩ := p
    by_cases hk : name = k
    · subst hk
      have hb : (other == name) = false := by simpa using h
      simp [NameMap.set, NameMap.find, List.lookup, hb]
    · have hb : (name == k) = false := by simpa using hk
      simp only [NameMap.set, hb, NameMap.find, List.lookup] at ih ⊢
      cases hok : (other == k) with
      | true => simp
      | false => simpa using ih

theorem toS32_of_lt (n : Nat) (h : n < 2147483648) : toS32 (n : Int) = n := by
  unfold toS32
  omega

theorem Q1_AddMipTex_find_self (name : String) (tab : MipTexTable) :
    (Q1_AddMipTex name tab).2.q1_miptex_map.find name = some (Q1_AddMipTex name tab).1 := by
  unfold Q1_AddMipTex
  cases h : tab.q1_miptex_map.find name with
  | some i => simpa using h
  | none => simp [NameMap.find_set_self]

theorem Q1_AddMipTex_find_keep (name n : String) (i : Int) (tab : MipTexTable)
    (h : tab.q1_miptex_map.find name = some i) :
    (Q1_AddMipTex n tab).2.q1_miptex_map.find name = some i := by
  unfold Q1_AddMipTex
  cases hn : tab.q1_miptex_map.find n with
  | some j => simpa using h
  | none =>
    have hne : name ≠ n := by
      rintro rfl
      rw [hn] at h
      exact Option.noConfusion h
    simp [NameMap.find_set_other _ _ _ _ hne, h]

theorem addMipTexs_find_keep (names : List String) (name : String) (i : Int)
    (tab : MipTexTable) (h : tab.q1_miptex_map.find name = some i) :
    (addMipTexs names tab).q1_miptex_map.find name = some i := by
  induction names generalizing tab with
  | nil => simpa [addMipTexs] using h
  | cons n rest ih =>
    simp only [addMipTexs, List.foldl_cons]
    exact ih _ (Q1_AddMipTex_find_keep name n i tab h)

theorem Q1_AddMipTex_of_find (name : String) (i : Int) (tab : MipTexTable)
    (h : tab.q1_miptex_map.find name = some i) : Q1_AddMipTex name tab = (i, tab) := by
  simp [Q1_AddMipTex, h]

/-- C1: `Q1_AddMipTex` is idempotent. For every table and every name, with `i`
the index returned by a first call: any later call with the same name (after
any number of calls with other or the same names) returns `i` again and leaves
the name list and the name map as they were; and a name with no binding yet is
appended at the end of the list, its index being the previous list length
(converted to `int`, which is the length itself below `2^31`). -/
theorem Q1_AddMipTex_idempotent (name : String) (tab : MipTexTable) :
    (∀ between : List String,
        Q1_AddMipTex name (addMipTexs between (Q1_AddMipTex name tab).2)
          = ((Q1_AddMipTex name tab).1, addMipTexs between (Q1_AddMipTex name tab).2))
    ∧ (∀ i, tab.q1_miptex_map.find name = some i → Q1_AddMipTex name tab = (i, tab))
    ∧ (tab.q1_miptex_map.find name = none →
        (Q1_AddMipTex name tab).1 = toS32 (tab.q1_miptexs.length : Int)
        ∧ (Q1_AddMipTex name tab).2.q1_miptexs = tab.q1_miptexs ++ [name]
        ∧ (tab.q1_miptexs.length < 2147483648 →
            (Q1_AddMipTex name tab).1 = (tab.q1_miptexs.length : Int))) := by
  refine ⟨fun between => ?_, fun i h => Q1_AddMipTex_of_find name i tab h, fun h => ?_⟩
  · exact Q1_AddMipTex_of_find name _ _
      (addMipTexs_find_keep between name _ _ (Q1_AddMipTex_find_self name tab))
  · refine ⟨by simp [Q1_AddMipTex, h], by simp [Q1_AddMipTex, h], fun hlt => ?_⟩
    simp only [Q1_AddMipTex, h]
    exact toS32_of_lt _ hlt

theorem Q1_AddMipTex_consistent (name : String) (tab : MipTexTable)
    (h : tab.Consistent) : (Q1_AddMipTex name tab).2.Consistent := by
  obtain ⟨h1, h2, h3⟩ := h
  unfold Q1_AddMipTex
  cases hn : tab.q1_miptex_map.find name with
  | some i => exact ⟨h1, h2, h3⟩
  | none =>
    have hnot : name ∉ tab.q1_miptexs := by
      intro hmem
      obtain ⟨i, hi, hget⟩ := List.getElem_of_mem hmem
      have := h1 i hi
      simp only [List.get_eq_getElem, hget, hn] at this
      exact Option.noConfusion this
    refine ⟨?_, ?_, ?_⟩
    · intro i hi
      simp only [List.length_append, List.length_singleton] at hi
      by_cases hlt : i < tab.q1_miptexs.length
      · have hne : tab.q1_miptexs[i] ≠ name := by
          intro he
          exact hnot (he ▸ List.getElem_mem hlt)
        simp only [List.get_eq_getElem, List.getElem_append_left hlt]
        rw [NameMap.find_set_other _ _ _ _ hne]
        simpa using h1 i hlt
      · have he : i = tab.q1_miptexs.length := by omega
        subst he
        simp [NameMap.find_set_self]
    · intro n j hj
      by_cases hne : n = name
      · subst hne
        rw [NameMap.find_set_self] at hj
        refine ⟨tab.q1_miptexs.length, by simp, ?_⟩
        exact (Option.some.inj hj).symm
      · rw [NameMap.find_set_other _ _ _ _ hne] at hj
        obtain ⟨i, hi, hj2⟩ := h2 n j hj
        refine ⟨i, ?_, hj2⟩
        have hlt : i < tab.q1_miptexs.length := by
          by_contra hge
          rw [List.getElem?_eq_none (by omega)] at hi
          exact Option.noConfusion hi
        rw [List.getElem?_append_left hlt]
        exact hi
    · exact List.Nodup.append h3 (List.nodup_singleton _) (by simpa using hnot)

theorem addMipTexs_consistent (names : List String) (tab : MipTexTable)
    (h : tab.Consistent) : (addMipTexs names tab).Consistent := by
  induction names generalizing tab with
  | nil => simpa [addMipTexs] using h
  | cons n rest ih =>
    simp only [addMipTexs, List.foldl_cons]
    exact ih _ (Q1_AddMipTex_consistent n tab h)

theorem ClearMipTex_consistent (tab : MipTexTable) : (ClearMipTex tab).Consistent := by
  have h0 : MipTexTable.Consistent ⟨[], []⟩ := by
    refine ⟨fun i hi => absurd hi (by simp), fun n j hj => ?_, List.nodup_nil⟩
    simp [NameMap.find] at hj
  unfold ClearMipTex
  exact Q1_AddMipTex_consistent _ _ (Q1_AddMipTex_consistent _ _ (Q1_AddMipTex_consistent _ _ h0))

theorem Q1_AddMipTex_extends (name : String) (tab : MipTexTable) :
    tab.q1_miptexs <+: (Q1_AddMipTex name tab).2.q1_miptexs := by
  unfold Q1_AddMipTex
  cases hn : tab.q1_miptex_map.find name with
  | some i => exact List.prefix_refl _
  | none => exact List.prefix_append _ _

theorem addMipTexs_extends (names : List String) (tab : MipTexTable) :
    tab.q1_miptexs <+: (addMipTexs names tab).q1_miptexs := by
  induction names generalizing tab with
  | nil => exact List.prefix_refl _
  | cons n rest ih =>
    simp only [addMipTexs, List.foldl_cons]
    exact (Q1_AddMipTex_extends n tab).trans (ih _)

theorem addMipTexs_append (xs ys : List String) (tab : MipTexTable) :
    addMipTexs (xs ++ ys) tab = addMipTexs ys (addMipTexs xs tab) := by
  simp [addMipTexs, List.foldl_append]

/-- C2: after `ClearMipTex` the table is exactly "error", "missing", "o_carve"
bound to 0, 1, 2, and after every sequence `names` of `Q1_AddMipTex` calls that
follows: the three names are still entries 0, 1, 2 and still answer 0, 1, 2;
every name answers, at any later call, the index its first call returned; and
entry `i` of the list is the name bound to index `i` (list and map stay
consistent, no name listed twice). -/
theorem ClearMipTex_indices_stable (tab0 : MipTexTable) (names : List String) :
    (ClearMipTex tab0).q1_miptexs = ["error", "missing", "o_carve"]
    ∧ (ClearMipTex tab0).q1_miptex_map = [("error", 0), ("missing", 1), ("o_carve", 2)]
    ∧ (addMipTexs names (ClearMipTex tab0)).q1_miptexs.take 3 = ["error", "missing", "o_carve"]
    ∧ Q1_AddMipTex "error" (addMipTexs names (ClearMipTex tab0))
        = (0, addMipTexs names (ClearMipTex tab0))
    ∧ Q1_AddMipTex "missing" (addMipTexs names (ClearMipTex tab0))
        = (1, addMipTexs names (ClearMipTex tab0))
    ∧ Q1_AddMipTex "o_carve" (addMipTexs names (ClearMipTex tab0))
        = (2, addMipTexs names (ClearMipTex tab0))
    ∧ (∀ (before after : List String) (n : String), names = before ++ n :: after →
        (Q1_AddMipTex n (addMipTexs names (ClearMipTex tab0))).1
          = (Q1_AddMipTex n (addMipTexs before (ClearMipTex tab0))).1)
    ∧ (∀ i (h : i < (addMipTexs names (ClearMipTex tab0)).q1_miptexs.length),
        (addMipTexs names (ClearMipTex tab0)).q1_miptex_map.find
            ((addMipTexs names (ClearMipTex tab0)).q1_miptexs.get ⟨i, h⟩) = some (toS32 (i : Int))
        ∧ (i < 2147483648 →
            (Q1_AddMipTex ((addMipTexs names (ClearMipTex tab0)).q1_miptexs.get ⟨i, h⟩)
              (addMipTexs names (ClearMipTex tab0))).1 = (i : Int)))
    ∧ (∀ n j, (addMipTexs names (ClearMipTex tab0)).q1_miptex_map.find n = some j →
        ∃ i : Nat, (addMipTexs names (ClearMipTex tab0)).q1_miptexs[i]? = some n ∧ j = toS32 (i : Int))
    ∧ (addMipTexs names (ClearMipTex tab0)).q1_miptexs.Nodup := by
  have hc := addMipTexs_consistent names _ (ClearMipTex_consistent tab0)
  have hl : (ClearMipTex tab0).q1_miptexs = ["error", "missing", "o_carve"] := by
    unfold ClearMipTex
    decide
  have hm : (ClearMipTex tab0).q1_miptex_map = [("error", 0), ("missing", 1), ("o_carve", 2)] := by
    unfold ClearMipTex
    decide
  refine ⟨hl, hm, ?_, ?_, ?_, ?_, ?_, ?_, hc.2.1, hc.2.2⟩
  · obtain ⟨t, ht⟩ := addMipTexs_extends names (ClearMipTex tab0)
    rw [← ht, hl]
    rfl
  · exact Q1_AddMipTex_of_find _ _ _ (addMipTexs_find_keep names _ _ _ (by rw [hm]; decide))
  · exact Q1_AddMipTex_of_find _ _ _ (addMipTexs_find_keep names _ _ _ (by rw [hm]; decide))
  · exact Q1_AddMipTex_of_find _ _ _ (addMipTexs_find_keep names _ _ _ (by rw [hm]; decide))
  · intro before after n hsplit
    subst hsplit
    have hstep : addMipTexs (before ++ n :: after) (ClearMipTex tab0)
        = addMipTexs after (Q1_AddMipTex n (addMipTexs before (ClearMipTex tab0))).2 := by
      rw [addMipTexs_append]
      rfl
    rw [hstep, Q1_AddMipTex_of_find n _ _
      (addMipTexs_find_keep after n _ _ (Q1_AddMipTex_find_self n _))]
  · intro i h
    have hf := hc.1 i h
    refine ⟨hf, fun hlt => ?_⟩
    rw [Q1_AddMipTex_of_find _ _ _ hf]
    exact toS32_of_lt i hlt

/-- C2 witness: the cleared table after interning "sky", "error", "lava", "sky". -/
theorem ClearMipTex_indices_stable_witness :
    (Q1_AddMipTex "sky" (addMipTexs ["sky", "error", "lava", "sky"] (ClearMipTex ⟨[], []⟩))).1 = 3
    ∧ (Q1_AddMipTex "lava" (addMipTexs ["sky", "error", "lava", "sky"] (ClearMipTex ⟨[], []⟩))).1
        = 4 := by
  have h := (ClearMipTex_indices_stable ⟨[], []⟩ ["sky", "error", "lava", "sky"]).2.2.2.2.2.2
  have h4 := (h.2.1 4 (by decide)).2 (by decide)
  refine ⟨?_, h4⟩
  rw [h.1 [] ["error", "lava", "sky"] "sky" rfl]
  decide

/-! ### The mapping-coordinate table -/

theorem MatchTexInfo_self (A : texinfo_t) : MatchTexInfo A A = true := by
  simp [MatchTexInfo]

theorem scanBucket_append_new (tin : texinfo_t) (texinfos : List texinfo_t) (bucket : List Nat)
    (h : scanBucket tin texinfos bucket = BucketScan.notFound) :
    scanBucket tin (texinfos ++ [tin]) (bucket ++ [texinfos.length])
      = BucketScan.found texinfos.length := by
  induction bucket with
  | nil =>
    simp [scanBucket, MatchTexInfo_self]
  | cons idx rest ih =>
    simp only [scanBucket] at h
    split at h
    · rename_i hlt
      split at h
      · exact BucketScan.noConfusion h
      · rename_i hm
        have hlt2 : idx < (texinfos ++ [tin]).length := by
          simp only [List.length_append, List.length_singleton]
          omega
        have hget : (texinfos ++ [tin]).get ⟨idx, hlt2⟩ = texinfos.get ⟨idx, hlt⟩ := by
          simp [List.getElem_append_left hlt]
        simp only [List.cons_append, scanBucket, hlt2, dite_true, hget, hm]
        exact ih h
    · exact BucketScan.noConfusion h

theorem TexState.mip_eta (st : TexState) : { st with mip := st.mip } = st := by
  cases st
  rfl

theorem Q1_AddTexInfo_of_found (MAX_MAP_TEXINFO : Nat) (texture : String) (flags : Int)
    (s4 t4 : Fin 4 → ℚ) (st : TexState) (m : Int) (b : List Nat) (idx : Nat)
    (hmt : Q1_AddMipTex texture st.mip = (m, st.mip))
    (hh : ¬ texinfoHash m < 0)
    (hb : st.texinfo_hashtab (hashSlot (texinfoHash m)) = some b)
    (hs : scanBucket { s := s4, t := t4, miptex := m, flags := flags } st.q1_texinfos b
      = BucketScan.found idx) :
    Q1_AddTexInfo MAX_MAP_TEXINFO texture flags s4 t4 st = Outcome.ok idx st := by
  simp only [Q1_AddTexInfo, hmt, hh, if_false, hb, bucketEntries, Option.getD_some, hs,
    TexState.mip_eta]

/-- C3: calling `Q1_AddTexInfo` twice in a row with the same arguments returns
the same index both times and the second call changes nothing (the mapping
table and every hash bucket are as the first call left them). Holds in every
table state whose entries can be indexed by a `u16_t` (fewer than `2^16`). -/
theorem Q1_AddTexInfo_twice (MAX_MAP_TEXINFO : Nat) (texture : String) (flags : Int)
    (s4 t4 : Fin 4 → ℚ) (st : TexState) (hsize : st.q1_texinfos.length < 65536)
    (i : Nat) (h1 : (Q1_AddTexInfo MAX_MAP_TEXINFO texture flags s4 t4 st).value? = some i) :
    Q1_AddTexInfo MAX_MAP_TEXINFO texture flags s4 t4
        (Q1_AddTexInfo MAX_MAP_TEXINFO texture flags s4 t4 st).state
      = Outcome.ok i (Q1_AddTexInfo MAX_MAP_TEXINFO texture flags s4 t4 st).state := by
  have hmip : Q1_AddMipTex texture (Q1_AddMipTex texture st.mip).2
      = ((Q1_AddMipTex texture st.mip).1, (Q1_AddMipTex texture st.mip).2) :=
    Q1_AddMipTex_of_find _ _ _ (Q1_AddMipTex_find_self texture st.mip)
  generalize hadd : Q1_AddMipTex texture st.mip = added at hmip h1 ⊢
  obtain ⟨m, mip1⟩ := added
  simp only at hmip
  by_cases hh : texinfoHash m < 0
  · have e1 : (Q1_AddTexInfo MAX_MAP_TEXINFO texture flags s4 t4 st).value? = none := by
      simp [Q1_AddTexInfo, hadd, hh, Outcome.value?]
    rw [e1] at h1
    exact Option.noConfusion h1
  · have hmod : st.q1_texinfos.length % 65536 = st.q1_texinfos.length :=
      Nat.mod_eq_of_lt hsize
    cases hb : st.texinfo_hashtab (hashSlot (texinfoHash m)) with
    | none =>
      by_cases hfull : MAX_MAP_TEXINFO ≤ st.q1_texinfos.length
      · have e1 : (Q1_AddTexInfo MAX_MAP_TEXINFO texture flags s4 t4 st).value? = none := by
          simp [Q1_AddTexInfo, hadd, hh, hb, bucketEntries, scanBucket, hfull, hmod,
            Outcome.value?]
        rw [e1] at h1
        exact Option.noConfusion h1
      · have e1 : Q1_AddTexInfo MAX_MAP_TEXINFO texture flags s4 t4 st
            = Outcome.ok st.q1_texinfos.length
                { mip := mip1
                  q1_texinfos := st.q1_texinfos ++
                    [{ s := s4, t := t4, miptex := m, flags := flags }]
                  texinfo_hashtab := Function.update st.texinfo_hashtab
                    (hashSlot (texinfoHash m)) (some ([] ++ [st.q1_texinfos.length])) } := by
          simp [Q1_AddTexInfo, hadd, hh, hb, bucketEntries, scanBucket, hfull, hmod]
        rw [e1] at h1 ⊢
        have hi : st.q1_texinfos.length = i := by simpa [Outcome.value?] using h1
        subst hi
        exact Q1_AddTexInfo_of_found _ _ _ _ _ _ m ([] ++ [st.q1_texinfos.length]) _ hmip hh
          (by simp [Outcome.state]) (scanBucket_append_new _ _ [] rfl)
    | some b =>
      cases hs : scanBucket { s := s4, t := t4, miptex := m, flags := flags }
          st.q1_texinfos b with
      | found idx =>
        have e1 : Q1_AddTexInfo MAX_MAP_TEXINFO texture flags s4 t4 st
            = Outcome.ok idx { st with mip := mip1 } := by
          simp [Q1_AddTexInfo, hadd, hh, hb, bucketEntries, hs]
        rw [e1] at h1 ⊢
        have hi : idx = i := by simpa [Outcome.value?] using h1
        subst hi
        exact Q1_AddTexInfo_of_found _ _ _ _ _ _ m b _ hmip hh hb hs
      | badIndex =>
        have e1 : (Q1_AddTexInfo MAX_MAP_TEXINFO texture flags s4 t4 st).value? = none := by
          simp [Q1_AddTexInfo, hadd, hh, hb, bucketEntries, hs, Outcome.value?]
        rw [e1] at h1
        exact Option.noConfusion h1
      | notFound =>
        by_cases hfull : MAX_MAP_TEXINFO ≤ st.q1_texinfos.length
        · have e1 : (Q1_AddTexInfo MAX_MAP_TEXINFO texture flags s4 t4 st).value? = none := by
            simp [Q1_AddTexInfo, hadd, hh, hb, bucketEntries, hs, hfull, hmod, Outcome.value?]
          rw [e1] at h1
          exact Option.noConfusion h1
        · have e1 : Q1_AddTexInfo MAX_MAP_TEXINFO texture flags s4 t4 st
              = Outcome.ok st.q1_texinfos.length
                  { mip := mip1
                    q1_texinfos := st.q1_texinfos ++
                      [{ s := s4, t := t4, miptex := m, flags := flags }]
                    texinfo_hashtab := Function.update st.texinfo_hashtab
                      (hashSlot (texinfoHash m)) (some (b ++ [st.q1_texinfos.length])) } := by
            simp [Q1_AddTexInfo, hadd, hh, hb, bucketEntries, hs, hfull, hmod]
          rw [e1] at h1 ⊢
          have hi : st.q1_texinfos.length = i := by simpa [Outcome.value?] using h1
          subst hi
          exact Q1_AddTexInfo_of_found _ _ _ _ _ _ m (b ++ [st.q1_texinfos.length]) _ hmip hh
            (by simp [Outcome.state]) (scanBucket_append_new _ _ b hs)

/-- C3 witness: a first mapping of texture "sky" at the start of a level. -/
theorem Q1_AddTexInfo_twice_witness :
    Q1_AddTexInfo 4096 "sky" 0 ![1, 0, 0, 0] ![0, 1, 0, 0]
        (Q1_AddTexInfo 4096 "sky" 0 ![1, 0, 0, 0] ![0, 1, 0, 0] TexState.levelStart).state
      = Outcome.ok 0
        (Q1_AddTexInfo 4096 "sky" 0 ![1, 0, 0, 0] ![0, 1, 0, 0] TexState.levelStart).state :=
  Q1_AddTexInfo_twice 4096 "sky" 0 ![1, 0, 0, 0] ![0, 1, 0, 0] TexState.levelStart
    (by decide) 0 (by decide)

theorem scanBucket_notFound_iff (tin : texinfo_t) (texinfos : List texinfo_t) (bucket : List Nat)
    (hrange : ∀ idx ∈ bucket, idx < texinfos.length) :
    scanBucket tin texinfos bucket = BucketScan.notFound
      ↔ ∀ idx ∈ bucket, ∀ h : idx < texinfos.length,
          MatchTexInfo tin (texinfos.get ⟨idx, h⟩) = false := by
  induction bucket with
  | nil => simp [scanBucket]
  | cons idx rest ih =>
    have hlt : idx < texinfos.length := hrange idx (List.mem_cons_self _ _)
    have ih2 := ih (fun j hj => hrange j (List.mem_cons_of_mem _ hj))
    simp only [scanBucket, hlt, dite_true]
    cases hm : MatchTexInfo tin (texinfos.get ⟨idx, hlt⟩) with
    | true =>
      simp only [if_true]
      constructor
      · intro h
        exact BucketScan.noConfusion h
      · intro h
        have := h idx (List.mem_cons_self _ _) hlt
        rw [hm] at this
        exact Bool.noConfusion this
    | false =>
      simp only [Bool.false_eq_true, if_false]
      rw [ih2]
      constructor
      · intro h j hj hjlt
        rcases List.mem_cons.mp hj with rfl | hj2
        · exact hm
        · exact h j hj2 hjlt
      · intro h j hj hjlt
        exact h j (List.mem_cons_of_mem _ hj) hjlt

theorem scanBucket_ne_badIndex (tin : texinfo_t) (texinfos : List texinfo_t) (bucket : List Nat)
    (hrange : ∀ idx ∈ bucket, idx < texinfos.length) :
    scanBucket tin texinfos bucket ≠ BucketScan.badIndex := by
  induction bucket with
  | nil => simp [scanBucket]
  | cons idx rest ih =>
    have hlt : idx < texinfos.length := hrange idx (List.mem_cons_self _ _)
    simp only [scanBucket, hlt, dite_true]
    split
    · exact fun h => BucketScan.noConfusion h
    · exact ih (fun j hj => hrange j (List.mem_cons_of_mem _ hj))

theorem Q1_AddTexInfo_spec (MAX_MAP_TEXINFO : Nat) (texture : String) (flags : Int)
    (s4 t4 : Fin 4 → ℚ) (st : TexState)
    (hh : 0 ≤ texinfoHash (Q1_AddMipTex texture st.mip).1) :
    (∀ i, scanBucket { s := s4, t := t4, miptex := (Q1_AddMipTex texture st.mip).1, flags := flags }
          st.q1_texinfos (bucketEntries st.texinfo_hashtab
            (hashSlot (texinfoHash (Q1_AddMipTex texture st.mip).1))) = BucketScan.found i →
        (Q1_AddTexInfo MAX_MAP_TEXINFO texture flags s4 t4 st).isOk = true
        ∧ (Q1_AddTexInfo MAX_MAP_TEXINFO texture flags s4 t4 st).isFatal = false
        ∧ (Q1_AddTexInfo MAX_MAP_TEXINFO texture flags s4 t4 st).value? = some i
        ∧ (Q1_AddTexInfo MAX_MAP_TEXINFO texture flags s4 t4 st).state.q1_texinfos
            = st.q1_texinfos)
    ∧ (scanBucket { s := s4, t := t4, miptex := (Q1_AddMipTex texture st.mip).1, flags := flags }
          st.q1_texinfos (bucketEntries st.texinfo_hashtab
            (hashSlot (texinfoHash (Q1_AddMipTex texture st.mip).1))) = BucketScan.notFound →
        (MAX_MAP_TEXINFO ≤ st.q1_texinfos.length % 65536 →
          (Q1_AddTexInfo MAX_MAP_TEXINFO texture flags s4 t4 st).isFatal = true
          ∧ (Q1_AddTexInfo MAX_MAP_TEXINFO texture flags s4 t4 st).isOk = false
          ∧ (Q1_AddTexInfo MAX_MAP_TEXINFO texture flags s4 t4 st).state.q1_texinfos
              = st.q1_texinfos)
        ∧ (st.q1_texinfos.length % 65536 < MAX_MAP_TEXINFO →
          (Q1_AddTexInfo MAX_MAP_TEXINFO texture flags s4 t4 st).isOk = true
          ∧ (Q1_AddTexInfo MAX_MAP_TEXINFO texture flags s4 t4 st).isFatal = false
          ∧ (Q1_AddTexInfo MAX_MAP_TEXINFO texture flags s4 t4 st).value?
              = some (st.q1_texinfos.length % 65536)
          ∧ (Q1_AddTexInfo MAX_MAP_TEXINFO texture flags s4 t4 st).state.q1_texinfos
              = st.q1_texinfos ++
                [{ s := s4, t := t4, miptex := (Q1_AddMipTex texture st.mip).1,
                   flags := flags }]))
    ∧ (scanBucket { s := s4, t := t4, miptex := (Q1_AddMipTex texture st.mip).1, flags := flags }
          st.q1_texinfos (bucketEntries st.texinfo_hashtab
            (hashSlot (texinfoHash (Q1_AddMipTex texture st.mip).1))) = BucketScan.badIndex →
        (Q1_AddTexInfo MAX_MAP_TEXINFO texture flags s4 t4 st).isOk = false
        ∧ (Q1_AddTexInfo MAX_MAP_TEXINFO texture flags s4 t4 st).isFatal = false
        ∧ (Q1_AddTexInfo MAX_MAP_TEXINFO texture flags s4 t4 st).state.q1_texinfos
            = st.q1_texinfos) := by
  have hh2 : ¬ texinfoHash (Q1_AddMipTex texture st.mip).1 < 0 := not_lt.mpr hh
  cases hb : st.texinfo_hashtab (hashSlot (texinfoHash (Q1_AddMipTex texture st.mip).1)) with
  | none =>
    refine ⟨fun i hs => ?_, fun hs => ⟨fun hfull => ?_, fun hfree => ?_⟩, fun hs => ?_⟩
    · simp [bucketEntries, hb, scanBucket] at hs
    · simp [Q1_AddTexInfo, hh2, hb, bucketEntries, scanBucket, hfull, Outcome.isFatal,
        Outcome.isOk, Outcome.state]
    · have hfree2 : ¬ MAX_MAP_TEXINFO ≤ st.q1_texinfos.length % 65536 := not_le.mpr hfree
      simp [Q1_AddTexInfo, hh2, hb, bucketEntries, scanBucket, hfree2, Outcome.isFatal,
        Outcome.isOk, Outcome.state, Outcome.value?]
    · simp [bucketEntries, hb, scanBucket] at hs
  | some b =>
    simp only [bucketEntries, hb, Option.getD_some]
    refine ⟨fun i hs => ?_, fun hs => ⟨fun hfull => ?_, fun hfree => ?_⟩, fun hs => ?_⟩
    · simp [Q1_AddTexInfo, hh2, hb, bucketEntries, hs, Outcome.isFatal,
        Outcome.isOk, Outcome.state, Outcome.value?]
    · simp [Q1_AddTexInfo, hh2, hb, bucketEntries, hs, hfull, Outcome.isFatal,
        Outcome.isOk, Outcome.state]
    · have hfree2 : ¬ MAX_MAP_TEXINFO ≤ st.q1_texinfos.length % 65536 := not_le.mpr hfree
      simp [Q1_AddTexInfo, hh2, hb, bucketEntries, hs, hfree2, Outcome.isFatal,
        Outcome.isOk, Outcome.state, Outcome.value?]
    · simp [Q1_AddTexInfo, hh2, hb, bucketEntries, hs, Outcome.isFatal,
        Outcome.isOk, Outcome.state]

theorem Q1_AddTexInfo_length_le (MAX_MAP_TEXINFO : Nat) (texture : String) (flags : Int)
    (s4 t4 : Fin 4 → ℚ) (st : TexState) (hmax : MAX_MAP_TEXINFO ≤ 65535)
    (hsize : st.q1_texinfos.length ≤ MAX_MAP_TEXINFO) :
    (Q1_AddTexInfo MAX_MAP_TEXINFO texture flags s4 t4 st).state.q1_texinfos.length
      ≤ MAX_MAP_TEXINFO := by
  have hmod : st.q1_texinfos.length % 65536 = st.q1_texinfos.length :=
    Nat.mod_eq_of_lt (by omega)
  by_cases hh : 0 ≤ texinfoHash (Q1_AddMipTex texture st.mip).1
  · obtain ⟨hf, hn, hbad⟩ := Q1_AddTexInfo_spec MAX_MAP_TEXINFO texture flags s4 t4 st hh
    cases hs : scanBucket
        { s := s4, t := t4, miptex := (Q1_AddMipTex texture st.mip).1, flags := flags }
        st.q1_texinfos (bucketEntries st.texinfo_hashtab
          (hashSlot (texinfoHash (Q1_AddMipTex texture st.mip).1))) with
    | found i => rw [(hf i hs).2.2.2]; exact hsize
    | badIndex => rw [(hbad hs).2.2]; exact hsize
    | notFound =>
      by_cases hfull : MAX_MAP_TEXINFO ≤ st.q1_texinfos.length % 65536
      · rw [((hn hs).1 hfull).2.2]; exact hsize
      · rw [((hn hs).2 (not_le.mp hfull)).2.2.2]
        simp only [List.length_append, List.length_singleton]
        omega
  · have hh2 : texinfoHash (Q1_AddMipTex texture st.mip).1 < 0 := not_le.mp hh
    simp only [Q1_AddTexInfo, hh2, if_true, Outcome.state]
    exact hsize

theorem addTexInfos_length_le (MAX_MAP_TEXINFO : Nat) (hmax : MAX_MAP_TEXINFO ≤ 65535)
    (calls : List TexInfoCall) (st : TexState)
    (hsize : st.q1_texinfos.length ≤ MAX_MAP_TEXINFO) :
    (addTexInfos MAX_MAP_TEXINFO calls st).state.q1_texinfos.length ≤ MAX_MAP_TEXINFO := by
  induction calls generalizing st with
  | nil => simpa [addTexInfos, Outcome.state] using hsize
  | cons c rest ih =>
    have hstep := Q1_AddTexInfo_length_le MAX_MAP_TEXINFO c.texture c.flags c.s4 c.t4 st hmax hsize
    simp only [addTexInfos]
    cases hout : Q1_AddTexInfo MAX_MAP_TEXINFO c.texture c.flags c.s4 c.t4 st with
    | ok v st1 =>
      rw [hout] at hstep
      exact ih st1 hstep
    | fatal st1 =>
      rw [hout] at hstep
      exact hstep
    | assertFail st1 =>
      rw [hout] at hstep
      exact hstep

/-- C4: in a table state holding at most `MAX_MAP_TEXINFO` entries (a limit
that fits a `u16_t`) and passing the two assertions of the function,
`Q1_AddTexInfo` ends in the fatal error exactly when the tuple matches no entry
of its bucket and the table holds `MAX_MAP_TEXINFO` entries; the failing call
appends nothing; the table never exceeds `MAX_MAP_TEXINFO` entries, after one
call and after any run of calls from `ClearTexInfo`; and a tuple matching an
entry of its bucket succeeds, the table unchanged, however full the table is. -/
theorem Q1_AddTexInfo_fatal_iff (MAX_MAP_TEXINFO : Nat) (texture : String) (flags : Int)
    (s4 t4 : Fin 4 → ℚ) (st : TexState) (hmax : MAX_MAP_TEXINFO ≤ 65535)
    (hsize : st.q1_texinfos.length ≤ MAX_MAP_TEXINFO)
    (hhash : 0 ≤ texinfoHash (Q1_AddMipTex texture st.mip).1)
    (hrange : ∀ idx ∈ bucketEntries st.texinfo_hashtab
        (hashSlot (texinfoHash (Q1_AddMipTex texture st.mip).1)), idx < st.q1_texinfos.length) :
    ((Q1_AddTexInfo MAX_MAP_TEXINFO texture flags s4 t4 st).isFatal = true
      ↔ (∀ idx ∈ bucketEntries st.texinfo_hashtab
            (hashSlot (texinfoHash (Q1_AddMipTex texture st.mip).1)),
          ∀ h : idx < st.q1_texinfos.length,
            MatchTexInfo
              { s := s4, t := t4, miptex := (Q1_AddMipTex texture st.mip).1, flags := flags }
              (st.q1_texinfos.get ⟨idx, h⟩) = false)
        ∧ st.q1_texinfos.length = MAX_MAP_TEXINFO)
    ∧ ((Q1_AddTexInfo MAX_MAP_TEXINFO texture flags s4 t4 st).isFatal = true →
        (Q1_AddTexInfo MAX_MAP_TEXINFO texture flags s4 t4 st).state.q1_texinfos
          = st.q1_texinfos)
    ∧ (Q1_AddTexInfo MAX_MAP_TEXINFO texture flags s4 t4 st).state.q1_texinfos.length
        ≤ MAX_MAP_TEXINFO
    ∧ (∀ (calls : List TexInfoCall) (st0 : TexState),
        (addTexInfos MAX_MAP_TEXINFO calls (ClearTexInfo st0)).state.q1_texinfos.length
          ≤ MAX_MAP_TEXINFO)
    ∧ ((∃ idx ∈ bucketEntries st.texinfo_hashtab
            (hashSlot (texinfoHash (Q1_AddMipTex texture st.mip).1)),
          ∃ h : idx < st.q1_texinfos.length,
            MatchTexInfo
              { s := s4, t := t4, miptex := (Q1_AddMipTex texture st.mip).1, flags := flags }
              (st.q1_texinfos.get ⟨idx, h⟩) = true) →
        (Q1_AddTexInfo MAX_MAP_TEXINFO texture flags s4 t4 st).isOk = true
        ∧ (Q1_AddTexInfo MAX_MAP_TEXINFO texture flags s4 t4 st).state.q1_texinfos
            = st.q1_texinfos) := by
  have hmod : st.q1_texinfos.length % 65536 = st.q1_texinfos.length :=
    Nat.mod_eq_of_lt (by omega)
  obtain ⟨hf, hn, hbad⟩ := Q1_AddTexInfo_spec MAX_MAP_TEXINFO texture flags s4 t4 st hhash
  have hiff := scanBucket_notFound_iff
    { s := s4, t := t4, miptex := (Q1_AddMipTex texture st.mip).1, flags := flags }
    st.q1_texinfos _ hrange
  have hnb := scanBucket_ne_badIndex
    { s := s4, t := t4, miptex := (Q1_AddMipTex texture st.mip).1, flags := flags }
    st.q1_texinfos _ hrange
  rw [hmod] at hn
  refine ⟨?_, ?_, Q1_AddTexInfo_length_le _ _ _ _ _ _ hmax hsize,
    fun calls st0 => addTexInfos_length_le _ hmax calls _ (by simp [ClearTexInfo]), ?_⟩
  · rw [← hiff]
    cases hs : scanBucket
        { s := s4, t := t4, miptex := (Q1_AddMipTex texture st.mip).1, flags := flags }
        st.q1_texinfos (bucketEntries st.texinfo_hashtab
          (hashSlot (texinfoHash (Q1_AddMipTex texture st.mip).1))) with
    | found i => simp [(hf i hs).2.1]
    | badIndex => exact absurd hs hnb
    | notFound =>
      by_cases hfull : MAX_MAP_TEXINFO ≤ st.q1_texinfos.length
      · simp only [((hn hs).1 hfull).1, true_and, true_iff]
        omega
      · simp only [((hn hs).2 (not_le.mp hfull)).2.1, Bool.false_eq_true, true_and, false_iff]
        omega
  · intro hfat
    cases hs : scanBucket
        { s := s4, t := t4, miptex := (Q1_AddMipTex texture st.mip).1, flags := flags }
        st.q1_texinfos (bucketEntries st.texinfo_hashtab
          (hashSlot (texinfoHash (Q1_AddMipTex texture st.mip).1))) with
    | found i => exact (hf i hs).2.2.2
    | badIndex => exact absurd hs hnb
    | notFound =>
      by_cases hfull : MAX_MAP_TEXINFO ≤ st.q1_texinfos.length
      · exact ((hn hs).1 hfull).2.2
      · rw [((hn hs).2 (not_le.mp hfull)).2.1] at hfat
        exact Bool.noConfusion hfat
  · rintro ⟨idx, hmem, hlt, hmatch⟩
    cases hs : scanBucket
        { s := s4, t := t4, miptex := (Q1_AddMipTex texture st.mip).1, flags := flags }
        st.q1_texinfos (bucketEntries st.texinfo_hashtab
          (hashSlot (texinfoHash (Q1_AddMipTex texture st.mip).1))) with
    | found i => exact ⟨(hf i hs).1, (hf i hs).2.2.2⟩
    | badIndex => exact absurd hs hnb
    | notFound =>
      have := hiff.mp hs idx hmem hlt
      rw [hmatch] at this
      exact Bool.noConfusion this

/-- C4 witness: with a limit of one entry, after "sky" has been mapped, a
mapping of "lava" is fatal and leaves the table alone, while the "sky" mapping
is still found. -/
theorem Q1_AddTexInfo_fatal_iff_witness :
    (Q1_AddTexInfo 1 "lava" 0 ![1, 0, 0, 0] ![0, 1, 0, 0]
        (Q1_AddTexInfo 1 "sky" 0 ![1, 0, 0, 0] ![0, 1, 0, 0] TexState.levelStart).state).isFatal
      = true
    ∧ (Q1_AddTexInfo 1 "sky" 0 ![1, 0, 0, 0] ![0, 1, 0, 0]
        (Q1_AddTexInfo 1 "sky" 0 ![1, 0, 0, 0] ![0, 1, 0, 0] TexState.levelStart).state).isOk
      = true := by
  have hlava := Q1_AddTexInfo_fatal_iff 1 "lava" 0 ![1, 0, 0, 0] ![0, 1, 0, 0]
    (Q1_AddTexInfo 1 "sky" 0 ![1, 0, 0, 0] ![0, 1, 0, 0] TexState.levelStart).state
    (by decide) (by decide) (by decide) (by decide)
  have hsky := Q1_AddTexInfo_fatal_iff 1 "sky" 0 ![1, 0, 0, 0] ![0, 1, 0, 0]
    (Q1_AddTexInfo 1 "sky" 0 ![1, 0, 0, 0] ![0, 1, 0, 0] TexState.levelStart).state
    (by decide) (by decide) (by decide) (by decide)
  refine ⟨hlava.1.mpr ⟨by decide, by decide⟩, (hsky.2.2.2.2 ⟨0, by decide, by decide, ?_⟩).1⟩
  exact MatchTexInfo_self _

/-- C1 witness: interning "sky" into the freshly cleared table. -/
theorem Q1_AddMipTex_idempotent_witness :
    Q1_AddMipTex "sky" (addMipTexs ["lava", "sky"] (Q1_AddMipTex "sky" (ClearMipTex ⟨[], []⟩)).2)
        = (3, addMipTexs ["lava", "sky"] (Q1_AddMipTex "sky" (ClearMipTex ⟨[], []⟩)).2)
    ∧ (Q1_AddMipTex "sky" (ClearMipTex ⟨[], []⟩)).2.q1_miptexs
        = ["error", "missing", "o_carve", "sky"]
    ∧ Q1_AddMipTex "missing" (ClearMipTex ⟨[], []⟩) = (1, ClearMipTex ⟨[], []⟩) := by
  have h := Q1_AddMipTex_idempotent "sky" (ClearMipTex ⟨[], []⟩)
  have h2 := (Q1_AddMipTex_idempotent "missing" (ClearMipTex ⟨[], []⟩)).2.1 1 (by decide)
  refine ⟨?_, ?_, h2⟩
  · have h1 := h.1 ["lava", "sky"]
    rw [h1]
    have : (Q1_AddMipTex "sky" (ClearMipTex ⟨[], []⟩)).1 = 3 := by decide
    rw [this]
  · exact (h.2.2 (by decide)).2.1

/-! ### The BSP lump writer: what each function leaves alone -/

section WriterLemmas

variable {E : Type} (env : BspEnv E)

/-- The fields no edge write touches. -/
theorem Q1_WriteEdge_frame (A B : quake_vertex_c) (st : Q1State E) :
    (Q1_WriteEdge env A B st).state.q1_total_faces = st.q1_total_faces
    ∧ (Q1_WriteEdge env A B st).state.q1_total_mark_surfs = st.q1_total_mark_surfs
    ∧ (Q1_WriteEdge env A B st).state.q1_faces = st.q1_faces
    ∧ (Q1_WriteEdge env A B st).state.q1_nodes = st.q1_nodes
    ∧ (Q1_WriteEdge env A B st).state.q1_leafs = st.q1_leafs
    ∧ (Q1_WriteEdge env A B st).state.q1_mark_surfs = st.q1_mark_surfs
    ∧ (Q1_WriteEdge env A B st).state.face_index = st.face_index := by
  unfold Q1_WriteEdge
  simp only
  split <;> simp

theorem forEach_Q1_WriteEdge_frame (ps : List (quake_vertex_c × quake_vertex_c))
    (st : Q1State E) :
    (forEach (fun p => Q1_WriteEdge env p.1 p.2) ps st).state.q1_total_faces = st.q1_total_faces
    ∧ (forEach (fun p => Q1_WriteEdge env p.1 p.2) ps st).state.q1_total_mark_surfs
        = st.q1_total_mark_surfs
    ∧ (forEach (fun p => Q1_WriteEdge env p.1 p.2) ps st).state.q1_faces = st.q1_faces
    ∧ (forEach (fun p => Q1_WriteEdge env p.1 p.2) ps st).state.q1_nodes = st.q1_nodes
    ∧ (forEach (fun p => Q1_WriteEdge env p.1 p.2) ps st).state.q1_leafs = st.q1_leafs
    ∧ (forEach (fun p => Q1_WriteEdge env p.1 p.2) ps st).state.q1_mark_surfs = st.q1_mark_surfs
    ∧ (forEach (fun p => Q1_WriteEdge env p.1 p.2) ps st).state.face_index = st.face_index := by
  refine forEach_rel
    (fun a b : Q1State E => b.q1_total_faces = a.q1_total_faces
      ∧ b.q1_total_mark_surfs = a.q1_total_mark_surfs
      ∧ b.q1_faces = a.q1_faces ∧ b.q1_nodes = a.q1_nodes ∧ b.q1_leafs = a.q1_leafs
      ∧ b.q1_mark_surfs = a.q1_mark_surfs ∧ b.face_index = a.face_index)
    (fun _ => ⟨rfl, rfl, rfl, rfl, rfl, rfl, rfl⟩) ?_ _ ?_ ps st
  · rintro a b c ⟨h1, h2, h3, h4, h5, h6, h7⟩ ⟨g1, g2, g3, g4, g5, g6, g7⟩
    exact ⟨g1.trans h1, g2.trans h2, g3.trans h3, g4.trans h4, g5.trans h5, g6.trans h6,
      g7.trans h7⟩
  · intro p st1
    exact Q1_WriteEdge_frame env p.1 p.2 st1

theorem Q1_WriteEdge_isFatal_iff (A B : quake_vertex_c) (st : Q1State E) :
    (Q1_WriteEdge env A B st).isFatal = true ↔ sameVertexIndex env A B st.ext := by
  unfold Q1_WriteEdge sameVertexIndex
  simp only
  split <;> simp_all

theorem Q1_WriteEdge_isOk (A B : quake_vertex_c) (st : Q1State E) :
    (Q1_WriteEdge env A B st).isOk = !(Q1_WriteEdge env A B st).isFatal := by
  unfold Q1_WriteEdge
  simp only
  split <;> simp

/-- A returning edge write appends one surf-edge entry and counts it. -/
theorem Q1_WriteEdge_ok (A B : quake_vertex_c) (st st1 : Q1State E)
    (h : Q1_WriteEdge env A B st = Outcome.ok () st1) :
    (∃ e, st1.q1_surf_edges = st.q1_surf_edges ++ [e])
    ∧ st1.q1_total_surf_edges = st.q1_total_surf_edges + 1 := by
  unfold Q1_WriteEdge at h
  simp only at h
  split at h
  · exact Outcome.noConfusion h
  · simp only [Outcome.ok.injEq, true_and] at h
    subst h
    exact ⟨⟨_, rfl⟩, rfl⟩

/-- A returning edge loop appends one surf-edge entry per edge and counts them. -/
theorem forEach_Q1_WriteEdge_ok (ps : List (quake_vertex_c × quake_vertex_c))
    (st st1 : Q1State E)
    (h : forEach (fun p => Q1_WriteEdge env p.1 p.2) ps st = Outcome.ok () st1) :
    (∃ es : List Int, st1.q1_surf_edges = st.q1_surf_edges ++ es ∧ es.length = ps.length)
    ∧ st1.q1_total_surf_edges = st.q1_total_surf_edges + (ps.length : Int) := by
  induction ps generalizing st with
  | nil =>
    simp only [forEach, Outcome.ok.injEq, true_and] at h
    subst h
    exact ⟨⟨[], by simp⟩, by simp⟩
  | cons p rest ih =>
    simp only [forEach] at h
    cases hb : Q1_WriteEdge env p.1 p.2 st with
    | ok v st2 =>
      rw [hb] at h
      simp only [Outcome.bind_ok] at h
      obtain ⟨⟨e, he⟩, hc⟩ := Q1_WriteEdge_ok env p.1 p.2 st st2 hb
      obtain ⟨⟨es, hes, hlen⟩, hc2⟩ := ih st2 h
      refine ⟨⟨e :: es, by simp [hes, he], by simp [hlen]⟩, ?_⟩
      rw [hc2, hc]
      simp only [List.length_cons, Nat.cast_add, Nat.cast_one]
      ring
    | fatal st2 => rw [hb] at h; exact Outcome.noConfusion h
    | assertFail st2 => rw [hb] at h; exact Outcome.noConfusion h

theorem faceEdges_length (verts : List quake_vertex_c) :
    (faceEdges verts).length = verts.length := by
  simp [faceEdges]

/-- Entry `i` of `faceEdges` is the edge from vertex `i` to vertex
`(i + 1) mod n`. -/
theorem faceEdges_get (verts : List quake_vertex_c) (i : Nat) (h : i < verts.length) :
    ∃ (h1 : i < (faceEdges verts).length) (h2 : (i + 1) % verts.length < verts.length),
      (faceEdges verts).get ⟨i, h1⟩
        = (verts.get ⟨i, h⟩, verts.get ⟨(i + 1) % verts.length, h2⟩) := by
  have h2 : (i + 1) % verts.length < verts.length := Nat.mod_lt _ (by omega)
  refine ⟨by simpa [faceEdges_length] using h, h2, ?_⟩
  simp [faceEdges, List.getD_eq_getElem?_getD, List.getElem?_eq_getElem h,
    List.getElem?_eq_getElem h2]

theorem CLAMP_range (x : Int) : 0 ≤ CLAMP 0 x 255 ∧ CLAMP 0 x 255 ≤ 255 := by
  unfold CLAMP
  split
  · omega
  · split <;> omega

theorem CalcOffset_isSome (F : Int) (c : Bool) (L : qLightmap_c) :
    ∃ ofs, L.CalcOffset F c = some ofs := by
  unfold qLightmap_c.CalcOffset
  split
  · unfold QCOM_FlatLightOffset
    simp only [CLAMP_range, and_self, if_true]
    exact ⟨_, rfl⟩
  · exact ⟨_, rfl⟩

/-- The edge loop of `Q1_WriteFace` is the loop over `faceEdges`. -/
theorem Q1_WriteFace_loop_eq (verts : List quake_vertex_c) (st : Q1State E) :
    forEach
        (fun i => Q1_WriteEdge env (verts.getD i default)
          (verts.getD ((i + 1) % verts.length) default))
        (List.range verts.length) st
      = forEach (fun p => Q1_WriteEdge env p.1 p.2) (faceEdges verts) st := by
  unfold faceEdges
  rw [forEach_map]

/-- The function `Q1_WriteFace` as begin, edge loop over `faceEdges`, finish. -/
theorem Q1_WriteFace_eq (face : quake_face_c) (st : Q1State E) :
    Q1_WriteFace env face st
      = (forEach (fun p => Q1_WriteEdge env p.1 p.2) (faceEdges face.verts)
          (Q1_WriteFace_begin env face st)).bind fun _ st3 =>
        match (match face.lmap with
            | some lm => lm.CalcOffset env.FLAT_LIGHTMAP_SIZE env.qk_color_lighting
            | none => some ((0 : Int) + (((env.rand st3.ext).1 &&& 16383 : Nat) : Int))) with
        | none => Outcome.assertFail { st3 with ext := (env.rand st3.ext).2 }
        | some ofs =>
          Outcome.ok ()
            { st3 with
              ext := (env.rand st3.ext).2
              q1_faces := st3.q1_faces ++
                [{ planenum := toS16 (env.BSP_AddPlane face.plane st.ext).1.1
                   side := if (env.BSP_AddPlane face.plane st.ext).1.2 then 1 else 0
                   firstedge := toS32 st.q1_total_surf_edges
                   numedges := toS16 (face.verts.length : Int)
                   texinfo := 0, lightofs := toS32 ofs }] } := by
  unfold Q1_WriteFace
  simp only [Q1_WriteFace_loop_eq]
  rfl

/-- The fields no face write touches. -/
theorem Q1_WriteFace_frame (face : quake_face_c) (st : Q1State E) :
    (Q1_WriteFace env face st).state.q1_total_mark_surfs = st.q1_total_mark_surfs
    ∧ (Q1_WriteFace env face st).state.q1_nodes = st.q1_nodes
    ∧ (Q1_WriteFace env face st).state.q1_leafs = st.q1_leafs
    ∧ (Q1_WriteFace env face st).state.q1_mark_surfs = st.q1_mark_surfs := by
  rw [Q1_WriteFace_eq]
  have hf := forEach_Q1_WriteEdge_frame env (faceEdges face.verts) (Q1_WriteFace_begin env face st)
  obtain ⟨-, h2, -, h4, h5, h6, -⟩ := hf
  cases hloop : forEach (fun p => Q1_WriteEdge env p.1 p.2) (faceEdges face.verts)
      (Q1_WriteFace_begin env face st) with
  | ok v st3 =>
    rw [hloop] at h2 h4 h5 h6
    simp only [Outcome.state_ok] at h2 h4 h5 h6
    simp only [Outcome.bind_ok]
    split <;> simp [h2, h4, h5, h6, Q1_WriteFace_begin]
  | fatal st3 =>
    rw [hloop] at h2 h4 h5 h6
    simpa [Q1_WriteFace_begin] using ⟨h2, h4, h5, h6⟩
  | assertFail st3 =>
    rw [hloop] at h2 h4 h5 h6
    simpa [Q1_WriteFace_begin] using ⟨h2, h4, h5, h6⟩

theorem forEach_Q1_WriteFace_frame (faces : List quake_face_c) (st : Q1State E) :
    (forEach (Q1_WriteFace env) faces st).state.q1_total_mark_surfs = st.q1_total_mark_surfs
    ∧ (forEach (Q1_WriteFace env) faces st).state.q1_nodes = st.q1_nodes
    ∧ (forEach (Q1_WriteFace env) faces st).state.q1_leafs = st.q1_leafs
    ∧ (forEach (Q1_WriteFace env) faces st).state.q1_mark_surfs = st.q1_mark_surfs := by
  refine forEach_rel
    (fun a b : Q1State E => b.q1_total_mark_surfs = a.q1_total_mark_surfs
      ∧ b.q1_nodes = a.q1_nodes ∧ b.q1_leafs = a.q1_leafs ∧ b.q1_mark_surfs = a.q1_mark_surfs)
    (fun _ => ⟨rfl, rfl, rfl, rfl⟩) ?_ _ ?_ faces st
  · rintro a b c ⟨h1, h2, h3, h4⟩ ⟨g1, g2, g3, g4⟩
    exact ⟨g1.trans h1, g2.trans h2, g3.trans h3, g4.trans h4⟩
  · intro f st1
    exact Q1_WriteFace_frame env f st1

theorem Q1_WriteFace_isFatal_iff (face : quake_face_c) (st : Q1State E) :
    (Q1_WriteFace env face st).isFatal = true
      ↔ (forEach (fun p => Q1_WriteEdge env p.1 p.2) (faceEdges face.verts)
          (Q1_WriteFace_begin env face st)).isFatal = true := by
  rw [Q1_WriteFace_eq]
  cases hloop : forEach (fun p => Q1_WriteEdge env p.1 p.2) (faceEdges face.verts)
      (Q1_WriteFace_begin env face st) with
  | ok v st3 =>
    simp only [Outcome.bind_ok, Outcome.isFatal_ok]
    cases hl : face.lmap with
    | none => simp
    | some lm =>
      obtain ⟨ofs, hofs⟩ := CalcOffset_isSome env.FLAT_LIGHTMAP_SIZE env.qk_color_lighting lm
      simp [hofs]
  | fatal st3 => simp
  | assertFail st3 => simp

theorem Q1_WriteFace_isOk (face : quake_face_c) (st : Q1State E) :
    (Q1_WriteFace env face st).isOk = !(Q1_WriteFace env face st).isFatal := by
  have hloop := forEach_isOk_or_isFatal (fun p => Q1_WriteEdge env p.1 p.2)
    (fun p st1 => Q1_WriteEdge_isOk env p.1 p.2 st1) (faceEdges face.verts)
    (Q1_WriteFace_begin env face st)
  rw [Q1_WriteFace_eq]
  cases hl : forEach (fun p => Q1_WriteEdge env p.1 p.2) (faceEdges face.verts)
      (Q1_WriteFace_begin env face st) with
  | ok v st3 =>
    simp only [Outcome.bind_ok]
    cases hm : face.lmap with
    | none => simp
    | some lm =>
      obtain ⟨ofs, hofs⟩ := CalcOffset_isSome env.FLAT_LIGHTMAP_SIZE env.qk_color_lighting lm
      simp [hofs]
  | fatal st3 => simp
  | assertFail st3 => rw [hl] at hloop; simp at hloop

/-- What a returning face write does: the face gets the face counter as its
index, the counter goes up by one, one surf-edge entry per vertex is appended
and counted, and one face record is appended. -/
theorem Q1_WriteFace_ok (face : quake_face_c) (st st1 : Q1State E)
    (h : Q1_WriteFace env face st = Outcome.ok () st1) :
    st1.q1_total_faces = st.q1_total_faces + 1
    ∧ st1.face_index = Function.update st.face_index face.id st.q1_total_faces
    ∧ (∃ es : List Int, st1.q1_surf_edges = st.q1_surf_edges ++ es
        ∧ es.length = face.verts.length)
    ∧ st1.q1_total_surf_edges = st.q1_total_surf_edges + (face.verts.length : Int)
    ∧ (∃ r : dface_t, st1.q1_faces = st.q1_faces ++ [r] ∧ r.isRecordOf face
        ∧ r.firstedge = toS32 st.q1_total_surf_edges
        ∧ r.numedges = toS16 (face.verts.length : Int)) := by
  rw [Q1_WriteFace_eq] at h
  have hfr := forEach_Q1_WriteEdge_frame env (faceEdges face.verts)
    (Q1_WriteFace_begin env face st)
  cases hloop : forEach (fun p => Q1_WriteEdge env p.1 p.2) (faceEdges face.verts)
      (Q1_WriteFace_begin env face st) with
  | ok v st3 =>
    rw [hloop] at h hfr
    simp only [Outcome.state_ok] at hfr
    obtain ⟨f1, -, f3, -, -, -, f7⟩ := hfr
    obtain ⟨⟨es, hes, hlen⟩, hcnt⟩ := forEach_Q1_WriteEdge_ok env _ _ _ hloop
    rw [faceEdges_length] at hlen hcnt
    simp only [Outcome.bind_ok] at h
    split at h
    · exact Outcome.noConfusion h
    · rename_i ofs hofs
      simp only [Outcome.ok.injEq, true_and] at h
      subst h
      refine ⟨by simpa [Q1_WriteFace_begin] using f1, by simpa [Q1_WriteFace_begin] using f7,
        ⟨es, by simpa [Q1_WriteFace_begin] using hes, hlen⟩,
        by simpa [Q1_WriteFace_begin] using hcnt,
        ⟨{ planenum := toS16 (env.BSP_AddPlane face.plane st.ext).1.1
           side := if (env.BSP_AddPlane face.plane st.ext).1.2 then 1 else 0
           firstedge := toS32 st.q1_total_surf_edges
           numedges := toS16 (face.verts.length : Int)
           texinfo := 0, lightofs := toS32 ofs }, ?_, ⟨_, _, _, _, rfl⟩, rfl, rfl⟩⟩
      simp only [f3, Q1_WriteFace_begin]
  | fatal st3 => rw [hloop] at h; exact Outcome.noConfusion h
  | assertFail st3 => rw [hloop] at h; exact Outcome.noConfusion h

/-- What a returning loop over faces does: the faces get consecutive indices
from the face counter on, in list order, and their records are appended in
list order. -/
theorem forEach_Q1_WriteFace_ok (faces : List quake_face_c) (st st1 : Q1State E)
    (h : forEach (Q1_WriteFace env) faces st = Outcome.ok () st1) :
    st1.q1_total_faces = st.q1_total_faces + (faces.length : Int)
    ∧ (∀ id, id ∉ faces.map quake_face_c.id → st1.face_index id = st.face_index id)
    ∧ ((faces.map quake_face_c.id).Nodup → ∀ k (hk : k < faces.length),
        st1.face_index (faces.get ⟨k, hk⟩).id = st.q1_total_faces + (k : Int))
    ∧ (∃ frecs : List dface_t, st1.q1_faces = st.q1_faces ++ frecs
        ∧ List.Forall₂ dface_t.isRecordOf frecs faces)
    ∧ st1.q1_total_surf_edges
        = st.q1_total_surf_edges + ((faces.map fun f => (f.verts.length : Int)).sum) := by
  induction faces generalizing st with
  | nil =>
    simp only [forEach, Outcome.ok.injEq, true_and] at h
    subst h
    exact ⟨by simp, fun _ _ => rfl, fun _ k hk => absurd hk (by simp),
      ⟨[], by simp, List.Forall₂.nil⟩, by simp⟩
  | cons f rest ih =>
    simp only [forEach] at h
    cases hb : Q1_WriteFace env f st with
    | ok v st2 =>
      rw [hb] at h
      simp only [Outcome.bind_ok] at h
      obtain ⟨a1, a2, -, a4, ⟨r, a5, a6, -, -⟩⟩ := Q1_WriteFace_ok env f st st2 hb
      obtain ⟨b1, b2, b3, ⟨frecs, b4, b5⟩, b6⟩ := ih st2 h
      refine ⟨?_, ?_, ?_, ⟨r :: frecs, by simp [b4, a5], List.Forall₂.cons a6 b5⟩, ?_⟩
      · rw [b1, a1]
        simp only [List.length_cons, Nat.cast_add, Nat.cast_one]
        ring
      · intro id hid
        simp only [List.map_cons, List.mem_cons, not_or] at hid
        rw [b2 id hid.2, a2, Function.update_noteq hid.1]
      · intro hnd k hk
        simp only [List.map_cons, List.nodup_cons] at hnd
        cases k with
        | zero =>
          simp only [List.get_eq_getElem, List.getElem_cons_zero]
          rw [b2 f.id hnd.1, a2, Function.update_same]
          simp
        | succ j =>
          have hj : j < rest.length := by simpa using hk
          have := b3 hnd.2 j hj
          simp only [List.get_eq_getElem, List.getElem_cons_succ] at this ⊢
          rw [this, a1]
          push_cast
          ring
      · rw [b6, a4]
        simp only [List.map_cons, List.sum_cons]
        ring
    | fatal st2 => rw [hb] at h; exact Outcome.noConfusion h
    | assertFail st2 => rw [hb] at h; exact Outcome.noConfusion h

/-- The fields no mark-surface write touches. -/
theorem Q1_WriteMarkSurf_frame (face : quake_face_c) (st : Q1State E) :
    (Q1_WriteMarkSurf face st).state.ext = st.ext
    ∧ (Q1_WriteMarkSurf face st).state.q1_total_faces = st.q1_total_faces
    ∧ (Q1_WriteMarkSurf face st).state.q1_total_surf_edges = st.q1_total_surf_edges
    ∧ (Q1_WriteMarkSurf face st).state.q1_faces = st.q1_faces
    ∧ (Q1_WriteMarkSurf face st).state.q1_nodes = st.q1_nodes
    ∧ (Q1_WriteMarkSurf face st).state.q1_leafs = st.q1_leafs
    ∧ (Q1_WriteMarkSurf face st).state.q1_surf_edges = st.q1_surf_edges
    ∧ (Q1_WriteMarkSurf face st).state.face_index = st.face_index := by
  unfold Q1_WriteMarkSurf
  split <;> simp

theorem Q1_WriteLeaf_marksurfs_frame (faces : List quake_face_c) (num : Int) (st : Q1State E) :
    (Q1_WriteLeaf_marksurfs faces num st).state.ext = st.ext
    ∧ (Q1_WriteLeaf_marksurfs faces num st).state.q1_total_faces = st.q1_total_faces
    ∧ (Q1_WriteLeaf_marksurfs faces num st).state.q1_total_surf_edges = st.q1_total_surf_edges
    ∧ (Q1_WriteLeaf_marksurfs faces num st).state.q1_faces = st.q1_faces
    ∧ (Q1_WriteLeaf_marksurfs faces num st).state.q1_nodes = st.q1_nodes
    ∧ (Q1_WriteLeaf_marksurfs faces num st).state.q1_leafs = st.q1_leafs
    ∧ (Q1_WriteLeaf_marksurfs faces num st).state.q1_surf_edges = st.q1_surf_edges
    ∧ (Q1_WriteLeaf_marksurfs faces num st).state.face_index = st.face_index := by
  induction faces generalizing num st with
  | nil => simp [Q1_WriteLeaf_marksurfs]
  | cons f rest ih =>
    have hf := Q1_WriteMarkSurf_frame f st
    simp only [Q1_WriteLeaf_marksurfs]
    cases hm : Q1_WriteMarkSurf f st with
    | ok v st1 =>
      rw [hm] at hf
      simp only [Outcome.state_ok] at hf
      simp only [Outcome.bind_ok]
      obtain ⟨h1, h2, h3, h4, h5, h6, h7, h8⟩ := hf
      obtain ⟨g1, g2, g3, g4, g5, g6, g7, g8⟩ := ih (toU16 (num + 1)) st1
      exact ⟨g1.trans h1, g2.trans h2, g3.trans h3, g4.trans h4, g5.trans h5, g6.trans h6,
        g7.trans h7, g8.trans h8⟩
    | fatal st1 => rw [hm] at hf; exact hf
    | assertFail st1 => rw [hm] at hf; exact hf

/-- The fields no leaf write touches. -/
theorem Q1_WriteLeaf_frame (leaf : quake_leaf_c) (st : Q1State E) :
    (Q1_WriteLeaf env leaf st).state.ext = st.ext
    ∧ (Q1_WriteLeaf env leaf st).state.q1_total_faces = st.q1_total_faces
    ∧ (Q1_WriteLeaf env leaf st).state.q1_total_surf_edges = st.q1_total_surf_edges
    ∧ (Q1_WriteLeaf env leaf st).state.q1_faces = st.q1_faces
    ∧ (Q1_WriteLeaf env leaf st).state.q1_nodes = st.q1_nodes
    ∧ (Q1_WriteLeaf env leaf st).state.q1_surf_edges = st.q1_surf_edges
    ∧ (Q1_WriteLeaf env leaf st).state.face_index = st.face_index := by
  unfold Q1_WriteLeaf
  split
  · simp
  · have hf := Q1_WriteLeaf_marksurfs_frame leaf.faces 0 st
    cases hm : Q1_WriteLeaf_marksurfs leaf.faces 0 st with
    | ok v st1 =>
      rw [hm] at hf
      simp only [Outcome.state_ok] at hf
      obtain ⟨h1, h2, h3, h4, h5, -, h7, h8⟩ := hf
      simp [h1, h2, h3, h4, h5, h7, h8]
    | fatal st1 =>
      rw [hm] at hf
      obtain ⟨h1, h2, h3, h4, h5, -, h7, h8⟩ := hf
      exact ⟨h1, h2, h3, h4, h5, h7, h8⟩
    | assertFail st1 =>
      rw [hm] at hf
      obtain ⟨h1, h2, h3, h4, h5, -, h7, h8⟩ := hf
      exact ⟨h1, h2, h3, h4, h5, h7, h8⟩

/-- The node list after the own part of `Q1_WriteNode`: one record more, the
record of this node, when the part returns; unchanged when it fails. -/
theorem Q1_WriteNode_record_nodes (node : quake_node_info) (front back : quake_child)
    (st : Q1State E) :
    ((Q1_WriteNode_record env node front back st).isOk = true →
      (Q1_WriteNode_record env node front back st).state.q1_nodes
        = st.q1_nodes ++ [nodeRecord node front back (env.BSP_AddPlane node.plane st.ext).1.1
            (env.BSP_AddPlane node.plane st.ext).1.2 st.q1_total_faces])
    ∧ ((Q1_WriteNode_record env node front back st).isOk = false →
      (Q1_WriteNode_record env node front back st).state.q1_nodes = st.q1_nodes) := by
  have hf := (forEach_Q1_WriteFace_frame env node.faces
    { st with ext := (env.BSP_AddPlane node.plane st.ext).2 }).2.1
  unfold Q1_WriteNode_record
  simp only
  cases hl : forEach (Q1_WriteFace env) node.faces
      { st with ext := (env.BSP_AddPlane node.plane st.ext).2 } with
  | ok v st2 =>
    rw [hl] at hf
    simp only [Outcome.state_ok] at hf
    simp [hf]
  | fatal st2 =>
    rw [hl] at hf
    simpa using hf
  | assertFail st2 =>
    rw [hl] at hf
    simpa using hf

/-- The node records a walk appends are the records of an initial segment of
the pre-order, all of it when the walk returns. -/
theorem Q1_WriteChild_nodes (t : quake_child) (st : Q1State E) :
    ∃ (recs : List dnode_t) (visited : List (quake_node_info × quake_child × quake_child)),
      (Q1_WriteChild env t st).state.q1_nodes = st.q1_nodes ++ recs
      ∧ List.Forall₂ dnode_t.isRecordOf recs visited
      ∧ visited <+: t.preorder
      ∧ ((Q1_WriteChild env t st).isOk = true → visited = t.preorder) := by
  induction t generalizing st with
  | L leaf =>
    refine ⟨[], [], ?_, List.Forall₂.nil, List.nil_prefix, fun _ => rfl⟩
    simp only [Q1_WriteChild, List.append_nil]
    exact (Q1_WriteLeaf_frame env leaf st).2.2.2.2.1
  | N node front back ihf ihb =>
    obtain ⟨hok, hfail⟩ := Q1_WriteNode_record_nodes env node front back st
    simp only [Q1_WriteChild, quake_child.preorder]
    cases hh : Q1_WriteNode_record env node front back st with
    | ok v st1 =>
      rw [hh] at hok
      have hn1 := hok rfl
      simp only [Outcome.state_ok] at hn1
      have hrec : dnode_t.isRecordOf
          (nodeRecord node front back (env.BSP_AddPlane node.plane st.ext).1.1
            (env.BSP_AddPlane node.plane st.ext).1.2 st.q1_total_faces) (node, front, back) :=
        ⟨_, _, _, rfl⟩
      obtain ⟨rf, vf, hf1, hf2, hf3, hf4⟩ := ihf st1
      simp only [Outcome.bind_ok]
      cases hfr : Q1_WriteChild env front st1 with
      | ok v2 st2 =>
        rw [hfr] at hf1 hf4
        simp only [Outcome.state_ok] at hf1
        have hvf : vf = front.preorder := hf4 rfl
        subst hvf
        obtain ⟨rb, vb, hb1, hb2, hb3, hb4⟩ := ihb st2
        simp only [Outcome.bind_ok]
        refine ⟨_ :: (rf ++ rb), (node, front, back) :: (front.preorder ++ vb), ?_,
          List.Forall₂.cons hrec (List.rel_append hf2 hb2), ?_, fun h => ?_⟩
        · rw [hb1, hf1, hn1]
          simp
        · exact (List.prefix_cons_inj _).mpr ((List.prefix_append_right_inj _).mpr hb3)
        · rw [hb4 h]
      | fatal st2 =>
        rw [hfr] at hf1
        simp only [Outcome.state_fatal] at hf1
        refine ⟨_ :: rf, (node, front, back) :: vf, ?_, List.Forall₂.cons hrec hf2, ?_,
          fun h => ?_⟩
        · simp [hf1, hn1]
        · exact (List.prefix_cons_inj _).mpr (hf3.trans (List.prefix_append _ _))
        · simp at h
      | assertFail st2 =>
        rw [hfr] at hf1
        simp only [Outcome.state_assertFail] at hf1
        refine ⟨_ :: rf, (node, front, back) :: vf, ?_, List.Forall₂.cons hrec hf2, ?_,
          fun h => ?_⟩
        · simp [hf1, hn1]
        · exact (List.prefix_cons_inj _).mpr (hf3.trans (List.prefix_append _ _))
        · simp at h
    | fatal st1 =>
      rw [hh] at hfail
      have := hfail rfl
      simp only [Outcome.state_fatal] at this
      exact ⟨[], [], by simp [this], List.Forall₂.nil, List.nil_prefix, fun h => by simp at h⟩
    | assertFail st1 =>
      rw [hh] at hfail
      have := hfail rfl
      simp only [Outcome.state_assertFail] at this
      exact ⟨[], [], by simp [this], List.Forall₂.nil, List.nil_prefix, fun h => by simp at h⟩

/-- In a pre-order list, every node is directly followed by its descendants:
the pre-order of its front subtree, then of its back subtree. -/
theorem preorder_descendants_follow (t : quake_child)
    (before after : List (quake_node_info × quake_child × quake_child))
    (node : quake_node_info) (front back : quake_child)
    (h : t.preorder = before ++ (node, front, back) :: after) :
    (front.preorder ++ back.preorder) <+: after := by
  induction t generalizing before after with
  | L leaf =>
    simp only [quake_child.preorder] at h
    cases before <;> simp at h
  | N n f b ihf ihb =>
    simp only [quake_child.preorder] at h
    cases before with
    | nil =>
      simp only [List.nil_append, List.cons.injEq, Prod.mk.injEq] at h
      obtain ⟨⟨rfl, rfl, rfl⟩, rfl⟩ := h
      exact List.prefix_refl _
    | cons x before2 =>
      simp only [List.cons_append, List.cons.injEq] at h
      obtain ⟨-, h2⟩ := h
      rcases List.append_eq_append_iff.mp h2 with ⟨a, ha1, ha2⟩ | ⟨c, hc1, hc2⟩
      · -- the node lies in the back subtree
        exact ihb a after ha2
      · -- the node lies in the front subtree, or is the root of the back subtree
        cases c with
        | nil =>
          simp only [List.nil_append] at hc2
          exact ihb [] after hc2.symm
        | cons y c2 =>
          simp only [List.cons_append, List.cons.injEq] at hc2
          obtain ⟨rfl, hc3⟩ := hc2
          have := ihf before2 c2 hc1
          rw [hc3]
          exact this.trans (List.prefix_append _ _)

theorem toS16_toU16 (x : Int) : toS16 (toU16 x) = toS16 x := by
  unfold toS16 toU16
  omega

theorem toS16_of_fits (x : Int) (h : fitsS16 x) : toS16 x = x := by
  unfold fitsS16 at h
  unfold toS16
  omega

theorem toU16_of_fits (x : Int) (h : fitsU16 x) : toU16 x = x := by
  unfold fitsU16 at h
  unfold toU16
  omega

/-- The record at the first new position of the nodes lump after
`Q1_WriteNode` is the record built for the root of the walk. -/
theorem Q1_WriteNode_first_record (node : quake_node_info) (front back : quake_child)
    (st : Q1State E)
    (h : st.q1_nodes.length < (Q1_WriteNode env node front back st).state.q1_nodes.length) :
    (Q1_WriteNode env node front back st).state.q1_nodes.get ⟨st.q1_nodes.length, h⟩
      = nodeRecord node front back (env.BSP_AddPlane node.plane st.ext).1.1
          (env.BSP_AddPlane node.plane st.ext).1.2 st.q1_total_faces := by
  obtain ⟨hok, hfail⟩ := Q1_WriteNode_record_nodes env node front back st
  have key : ∃ more, (Q1_WriteNode env node front back st).state.q1_nodes
      = st.q1_nodes ++ nodeRecord node front back (env.BSP_AddPlane node.plane st.ext).1.1
          (env.BSP_AddPlane node.plane st.ext).1.2 st.q1_total_faces :: more := by
    simp only [Q1_WriteNode, Q1_WriteChild] at h ⊢
    cases hh : Q1_WriteNode_record env node front back st with
    | ok v st1 =>
      rw [hh] at hok
      have hn1 := hok rfl
      simp only [Outcome.state_ok] at hn1
      simp only [Outcome.bind_ok]
      obtain ⟨rf, -, hf1, -, -, -⟩ := Q1_WriteChild_nodes env front st1
      cases hfr : Q1_WriteChild env front st1 with
      | ok v2 st2 =>
        rw [hfr] at hf1
        simp only [Outcome.state_ok] at hf1
        obtain ⟨rb, -, hb1, -, -, -⟩ := Q1_WriteChild_nodes env back st2
        exact ⟨rf ++ rb, by simp [hb1, hf1, hn1]⟩
      | fatal st2 =>
        rw [hfr] at hf1
        exact ⟨rf, by simpa [hn1] using hf1⟩
      | assertFail st2 =>
        rw [hfr] at hf1
        exact ⟨rf, by simpa [hn1] using hf1⟩
    | fatal st1 =>
      rw [hh] at hfail h
      have := hfail rfl
      simp only [Outcome.state_fatal] at this
      simp [this] at h
    | assertFail st1 =>
      rw [hh] at hfail h
      have := hfail rfl
      simp only [Outcome.state_assertFail] at this
      simp [this] at h
  obtain ⟨more, hmore⟩ := key
  rw [List.get_eq_getElem, List.getElem_eq_iff]
  show (Q1_WriteNode env node front back st).state.q1_nodes[st.q1_nodes.length]? = _
  rw [hmore, List.getElem?_append_right (le_refl _), Nat.sub_self]
  exact List.getElem?_cons_zero

/-- C6: in the node record `Q1_WriteNode` appends for a node, when the plane
table reports the node's plane as not flipped, `children[0]` holds the front
child's index and `children[1]` the back child's (node or leaf, as 16-bit
values, the index itself when it fits); when it reports flipped, the two are
exchanged. -/
theorem Q1_WriteNode_children (node : quake_node_info) (front back : quake_child)
    (st : Q1State E)
    (h : st.q1_nodes.length < (Q1_WriteNode env node front back st).state.q1_nodes.length) :
    ((env.BSP_AddPlane node.plane st.ext).1.2 = false →
      ((Q1_WriteNode env node front back st).state.q1_nodes.get ⟨st.q1_nodes.length, h⟩).children0
          = toS16 front.index
      ∧ ((Q1_WriteNode env node front back st).state.q1_nodes.get ⟨st.q1_nodes.length, h⟩).children1
          = toS16 back.index)
    ∧ ((env.BSP_AddPlane node.plane st.ext).1.2 = true →
      ((Q1_WriteNode env node front back st).state.q1_nodes.get ⟨st.q1_nodes.length, h⟩).children0
          = toS16 back.index
      ∧ ((Q1_WriteNode env node front back st).state.q1_nodes.get ⟨st.q1_nodes.length, h⟩).children1
          = toS16 front.index)
    ∧ (fitsS16 front.index → toS16 front.index = front.index)
    ∧ (fitsS16 back.index → toS16 back.index = back.index) := by
  rw [Q1_WriteNode_first_record env node front back st h]
  refine ⟨fun hf => ?_, fun hf => ?_, toS16_of_fits _, toS16_of_fits _⟩
  · simp [nodeRecord, hf, toS16_toU16]
  · simp [nodeRecord, hf, toS16_toU16]

/-- No write removes a face record: the faces lump only grows. -/
theorem Q1_WriteFace_faces_grow (face : quake_face_c) (st : Q1State E) :
    st.q1_faces <+: (Q1_WriteFace env face st).state.q1_faces := by
  cases hb : Q1_WriteFace env face st with
  | ok v st1 =>
    obtain ⟨-, -, -, -, ⟨r, hr, -⟩⟩ := Q1_WriteFace_ok env face st st1 hb
    simp only [Outcome.state_ok, hr]
    exact List.prefix_append _ _
  | fatal st1 =>
    have hfat : (Q1_WriteFace env face st).isFatal = true := by simp [hb]
    rw [Q1_WriteFace_eq] at hb
    have hfr := (forEach_Q1_WriteEdge_frame env (faceEdges face.verts)
      (Q1_WriteFace_begin env face st)).2.2.1
    cases hloop : forEach (fun p => Q1_WriteEdge env p.1 p.2) (faceEdges face.verts)
        (Q1_WriteFace_begin env face st) with
    | ok v st3 =>
      rw [Q1_WriteFace_isFatal_iff, hloop] at hfat
      simp at hfat
    | fatal st3 =>
      rw [hloop] at hb hfr
      simp only [Outcome.bind_fatal, Outcome.fatal.injEq] at hb
      subst hb
      simp only [Outcome.state_fatal] at hfr ⊢
      rw [hfr]
      exact List.prefix_refl _
    | assertFail st3 =>
      rw [hloop] at hb
      simp at hb
  | assertFail st1 =>
    have h1 := Q1_WriteFace_isOk env face st
    rw [hb] at h1
    simp at h1

theorem forEach_Q1_WriteFace_faces_grow (faces : List quake_face_c) (st : Q1State E) :
    st.q1_faces <+: (forEach (Q1_WriteFace env) faces st).state.q1_faces :=
  forEach_rel (fun a b : Q1State E => a.q1_faces <+: b.q1_faces) (fun _ => List.prefix_refl _)
    (fun _ _ _ h1 h2 => h1.trans h2) _ (fun f st1 => Q1_WriteFace_faces_grow env f st1) faces st

theorem Q1_WriteNode_record_faces_grow (node : quake_node_info) (front back : quake_child)
    (st : Q1State E) :
    st.q1_faces <+: (Q1_WriteNode_record env node front back st).state.q1_faces := by
  have h := forEach_Q1_WriteFace_faces_grow env node.faces
    { st with ext := (env.BSP_AddPlane node.plane st.ext).2 }
  unfold Q1_WriteNode_record
  simp only
  cases hl : forEach (Q1_WriteFace env) node.faces
      { st with ext := (env.BSP_AddPlane node.plane st.ext).2 } with
  | ok v st2 => rw [hl] at h; simpa using h
  | fatal st2 => rw [hl] at h; simpa using h
  | assertFail st2 => rw [hl] at h; simpa using h

theorem Q1_WriteChild_faces_grow (t : quake_child) (st : Q1State E) :
    st.q1_faces <+: (Q1_WriteChild env t st).state.q1_faces := by
  induction t generalizing st with
  | L leaf =>
    simp only [Q1_WriteChild]
    exact (Q1_WriteLeaf_frame env leaf st).2.2.2.1 ▸ List.prefix_refl _
  | N node front back ihf ihb =>
    have h0 := Q1_WriteNode_record_faces_grow env node front back st
    simp only [Q1_WriteChild]
    cases hh : Q1_WriteNode_record env node front back st with
    | ok v st1 =>
      rw [hh] at h0
      simp only [Outcome.state_ok] at h0
      simp only [Outcome.bind_ok]
      have h1 := ihf st1
      cases hfr : Q1_WriteChild env front st1 with
      | ok v2 st2 =>
        rw [hfr] at h1
        simp only [Outcome.state_ok] at h1
        simp only [Outcome.bind_ok]
        exact h0.trans (h1.trans (ihb st2))
      | fatal st2 => rw [hfr] at h1; exact h0.trans h1
      | assertFail st2 => rw [hfr] at h1; exact h0.trans h1
    | fatal st1 => rw [hh] at h0; exact h0
    | assertFail st1 => rw [hh] at h0; exact h0

/-- C7: for a node with a non-empty list of `m` faces, written when the face
counter is `c`: the node record holds `firstface = c` and `numfaces = m` (as
`u16_t` values, `c` and `m` themselves when they fit); face `k` of the list
gets output index `c + k` (the faces of the list being distinct objects); the `m` face records are appended in list order and
the node record is appended while no leaf record and no other node record has
been added; the face counter is then `c + m`; the children are written only
after that, and never remove a face record. -/
theorem Q1_WriteNode_faces (node : quake_node_info) (front back : quake_child)
    (st st1 : Q1State E) (hne : node.faces ≠ [])
    (hok : Q1_WriteNode_record env node front back st = Outcome.ok () st1) :
    (∃ r : dnode_t, st1.q1_nodes = st.q1_nodes ++ [r]
        ∧ r.firstface = some (toU16 st.q1_total_faces)
        ∧ r.numfaces = some (toU16 (node.faces.length : Int))
        ∧ (fitsU16 st.q1_total_faces → r.firstface = some st.q1_total_faces)
        ∧ (fitsU16 (node.faces.length : Int) → r.numfaces = some (node.faces.length : Int)))
    ∧ ((node.faces.map quake_face_c.id).Nodup → ∀ k (hk : k < node.faces.length),
        st1.face_index (node.faces.get ⟨k, hk⟩).id = st.q1_total_faces + (k : Int))
    ∧ (∃ frecs : List dface_t, st1.q1_faces = st.q1_faces ++ frecs
        ∧ frecs.length = node.faces.length
        ∧ List.Forall₂ dface_t.isRecordOf frecs node.faces
        ∧ (st.q1_faces ++ frecs) <+: (Q1_WriteNode env node front back st).state.q1_faces)
    ∧ st1.q1_leafs = st.q1_leafs
    ∧ st1.q1_total_faces = st.q1_total_faces + (node.faces.length : Int)
    ∧ Q1_WriteNode env node front back st
        = (Q1_WriteChild env front st1).bind fun _ st2 => Q1_WriteChild env back st2 := by
  have hlenpos : node.faces.length > 0 := List.length_pos.mpr hne
  have hfull : Q1_WriteNode env node front back st
      = (Q1_WriteChild env front st1).bind fun _ st2 => Q1_WriteChild env back st2 := by
    simp only [Q1_WriteNode, Q1_WriteChild, hok, Outcome.bind_ok]
  have hgrow : st1.q1_faces <+: (Q1_WriteNode env node front back st).state.q1_faces := by
    rw [hfull]
    have h1 := Q1_WriteChild_faces_grow env front st1
    cases hfr : Q1_WriteChild env front st1 with
    | ok v2 st2 =>
      rw [hfr] at h1
      simp only [Outcome.state_ok] at h1
      simp only [Outcome.bind_ok]
      exact h1.trans (Q1_WriteChild_faces_grow env back st2)
    | fatal st2 => rw [hfr] at h1; exact h1
    | assertFail st2 => rw [hfr] at h1; exact h1
  unfold Q1_WriteNode_record at hok
  simp only at hok
  have hfr := forEach_Q1_WriteFace_frame env node.faces
    { st with ext := (env.BSP_AddPlane node.plane st.ext).2 }
  cases hl : forEach (Q1_WriteFace env) node.faces
      { st with ext := (env.BSP_AddPlane node.plane st.ext).2 } with
  | ok v st2 =>
    rw [hl] at hok hfr
    simp only [Outcome.state_ok] at hfr
    simp only [Outcome.bind_ok, Outcome.ok.injEq, true_and] at hok
    obtain ⟨a1, -, a3, ⟨frecs, a4, a5⟩, -⟩ := forEach_Q1_WriteFace_ok env node.faces _ st2 hl
    subst hok
    simp only at hgrow
    refine ⟨⟨_, by rw [hfr.2.1], ?_, ?_, ?_, ?_⟩, ?_, ⟨frecs, a4, a5.length_eq, a5, ?_⟩,
      hfr.2.2.1, a1, hfull⟩
    · simp [nodeRecord, hlenpos]
    · simp [nodeRecord, hlenpos]
    · intro hfit
      simp [nodeRecord, hlenpos, toU16_of_fits _ hfit]
    · intro hfit
      simp [nodeRecord, hlenpos, toU16_of_fits _ hfit]
    · intro hnd k hk
      exact a3 hnd k hk
    · rw [a4] at hgrow
      exact hgrow
  | fatal st2 => rw [hl] at hok; exact Outcome.noConfusion hok
  | assertFail st2 => rw [hl] at hok; exact Outcome.noConfusion hok

theorem toS32_of_fits (x : Int) (h : fitsS32 x) : toS32 x = x := by
  unfold fitsS32 at h
  unfold toS32
  omega

/-- A returning loop over faces appends one surf-edge entry per vertex. -/
theorem forEach_Q1_WriteFace_surf_edges (faces : List quake_face_c) (st st1 : Q1State E)
    (h : forEach (Q1_WriteFace env) faces st = Outcome.ok () st1) :
    st1.q1_surf_edges.length
      = st.q1_surf_edges.length + (faces.map fun f => f.verts.length).sum := by
  induction faces generalizing st with
  | nil =>
    simp only [forEach, Outcome.ok.injEq, true_and] at h
    subst h
    simp
  | cons f rest ih =>
    simp only [forEach] at h
    cases hb : Q1_WriteFace env f st with
    | ok v st2 =>
      rw [hb] at h
      simp only [Outcome.bind_ok] at h
      obtain ⟨-, -, ⟨es, hes, hlen⟩, -, -⟩ := Q1_WriteFace_ok env f st st2 hb
      rw [ih st2 h, hes]
      simp only [List.length_append, hlen, List.map_cons, List.sum_cons]
      omega
    | fatal st2 => rw [hb] at h; exact Outcome.noConfusion h
    | assertFail st2 => rw [hb] at h; exact Outcome.noConfusion h

/-- After a returning walk, the surf-edge counter and the surf-edge lump have
grown by the sum of the vertex counts of the faces written. -/
theorem Q1_WriteChild_surf_edges (t : quake_child) (st st1 : Q1State E)
    (h : Q1_WriteChild env t st = Outcome.ok () st1) :
    st1.q1_total_surf_edges
        = st.q1_total_surf_edges + ((t.nodeFaces.map fun f => (f.verts.length : Int)).sum)
    ∧ st1.q1_surf_edges.length
        = st.q1_surf_edges.length + (t.nodeFaces.map fun f => f.verts.length).sum := by
  induction t generalizing st st1 with
  | L leaf =>
    simp only [Q1_WriteChild] at h
    have hf := Q1_WriteLeaf_frame env leaf st
    rw [h] at hf
    simp only [Outcome.state_ok] at hf
    simp [quake_child.nodeFaces, hf.2.2.1, hf.2.2.2.2.2.1]
  | N node front back ihf ihb =>
    simp only [Q1_WriteChild] at h
    cases hh : Q1_WriteNode_record env node front back st with
    | ok v sa =>
      rw [hh] at h
      simp only [Outcome.bind_ok] at h
      cases hfr : Q1_WriteChild env front sa with
      | ok v2 sb =>
        rw [hfr] at h
        simp only [Outcome.bind_ok] at h
        obtain ⟨f1, f2⟩ := ihf sa sb hfr
        obtain ⟨b1, b2⟩ := ihb sb st1 h
        have hhead : sa.q1_total_surf_edges
              = st.q1_total_surf_edges + ((node.faces.map fun f => (f.verts.length : Int)).sum)
            ∧ sa.q1_surf_edges.length
              = st.q1_surf_edges.length + (node.faces.map fun f => f.verts.length).sum := by
          unfold Q1_WriteNode_record at hh
          simp only at hh
          cases hl : forEach (Q1_WriteFace env) node.faces
              { st with ext := (env.BSP_AddPlane node.plane st.ext).2 } with
          | ok v3 sc =>
            rw [hl] at hh
            simp only [Outcome.bind_ok, Outcome.ok.injEq, true_and] at hh
            subst hh
            have e1 := (forEach_Q1_WriteFace_ok env node.faces _ sc hl).2.2.2.2
            have e2 := forEach_Q1_WriteFace_surf_edges env node.faces _ sc hl
            exact ⟨e1, e2⟩
          | fatal sc => rw [hl] at hh; exact Outcome.noConfusion hh
          | assertFail sc => rw [hl] at hh; exact Outcome.noConfusion hh
        constructor
        · rw [b1, f1, hhead.1]
          simp only [quake_child.nodeFaces, List.map_append, List.sum_append]
          ring
        · rw [b2, f2, hhead.2]
          simp only [quake_child.nodeFaces, List.map_append, List.sum_append]
          omega
      | fatal sb => rw [hfr] at h; exact Outcome.noConfusion h
      | assertFail sb => rw [hfr] at h; exact Outcome.noConfusion h
    | fatal sa => rw [hh] at h; exact Outcome.noConfusion h
    | assertFail sa => rw [hh] at h; exact Outcome.noConfusion h

/-- C8: for every face with `n` vertices, `Q1_WriteFace` requests the directed
edges `(vertex[i], vertex[(i+1) mod n])`, `i = 0 .. n-1`, in that order; it ends
in the fatal error exactly when for some `i`, the edges before `i` having been
written, the two endpoints of edge `i` deduplicate to the same vertex index;
otherwise it returns, having appended exactly `n` surf-edge entries and a face
record with `firstedge` the surf-edge counter before the call and
`numedges = n` (as `s32_t` and `s16_t` values), the counter raised by `n`; so
after a returning walk the counter and the lump have grown by the sum of the
vertex counts of all faces written. -/
theorem Q1_WriteFace_edges (face : quake_face_c) (st : Q1State E) :
    (∀ i (h : i < face.verts.length),
      ∃ (h1 : i < (faceEdges face.verts).length)
        (h2 : (i + 1) % face.verts.length < face.verts.length),
        (faceEdges face.verts).get ⟨i, h1⟩
          = (face.verts.get ⟨i, h⟩, face.verts.get ⟨(i + 1) % face.verts.length, h2⟩))
    ∧ ((Q1_WriteFace env face st).isFatal = true
        ↔ ∃ (i : Nat) (h : i < (faceEdges face.verts).length) (st_i : Q1State E),
            forEach (fun p => Q1_WriteEdge env p.1 p.2) ((faceEdges face.verts).take i)
                (Q1_WriteFace_begin env face st) = Outcome.ok () st_i
            ∧ sameVertexIndex env ((faceEdges face.verts).get ⟨i, h⟩).1
                ((faceEdges face.verts).get ⟨i, h⟩).2 st_i.ext)
    ∧ ((Q1_WriteFace env face st).isFatal = false →
        ∃ st1 : Q1State E, Q1_WriteFace env face st = Outcome.ok () st1
          ∧ (∃ es : List Int, st1.q1_surf_edges = st.q1_surf_edges ++ es
              ∧ es.length = face.verts.length)
          ∧ st1.q1_total_surf_edges = st.q1_total_surf_edges + (face.verts.length : Int)
          ∧ (∃ r : dface_t, st1.q1_faces = st.q1_faces ++ [r]
              ∧ r.firstedge = toS32 st.q1_total_surf_edges
              ∧ r.numedges = toS16 (face.verts.length : Int)
              ∧ (fitsS32 st.q1_total_surf_edges → r.firstedge = st.q1_total_surf_edges)
              ∧ (fitsS16 (face.verts.length : Int) → r.numedges = (face.verts.length : Int))))
    ∧ (∀ (t : quake_child) (st0 st2 : Q1State E),
        Q1_WriteChild env t st0 = Outcome.ok () st2 →
        st2.q1_total_surf_edges
            = st0.q1_total_surf_edges + ((t.nodeFaces.map fun f => (f.verts.length : Int)).sum)
        ∧ st2.q1_surf_edges.length
            = st0.q1_surf_edges.length + (t.nodeFaces.map fun f => f.verts.length).sum) := by
  refine ⟨fun i h => faceEdges_get face.verts i h, ?_, ?_,
    fun t st0 st2 h => Q1_WriteChild_surf_edges env t st0 st2 h⟩
  · rw [Q1_WriteFace_isFatal_iff, forEach_isFatal_iff]
    constructor
    · rintro ⟨i, h, st_i, h1, h2⟩
      exact ⟨i, h, st_i, h1, (Q1_WriteEdge_isFatal_iff env _ _ st_i).mp h2⟩
    · rintro ⟨i, h, st_i, h1, h2⟩
      exact ⟨i, h, st_i, h1, (Q1_WriteEdge_isFatal_iff env _ _ st_i).mpr h2⟩
  · intro hnf
    have hok : (Q1_WriteFace env face st).isOk = true := by
      rw [Q1_WriteFace_isOk, hnf]
      rfl
    have heq := Outcome.eq_ok_of_isOk _ hok
    obtain ⟨-, -, a3, a4, ⟨r, a5, -, a6, a7⟩⟩ := Q1_WriteFace_ok env face st _ heq
    exact ⟨_, heq, a3, a4, ⟨r, a5, a6, a7, fun hfit => a6.trans (toS32_of_fits _ hfit),
      fun hfit => a7.trans (toS16_of_fits _ hfit)⟩⟩

theorem Q1_WriteMarkSurf_of_nonneg (face : quake_face_c) (st : Q1State E)
    (h : 0 ≤ st.face_index face.id) :
    Q1_WriteMarkSurf face st
      = Outcome.ok ()
          { st with
            q1_mark_surfs := st.q1_mark_surfs ++ [toU16 (st.face_index face.id)]
            q1_total_mark_surfs := st.q1_total_mark_surfs + 1 } := by
  unfold Q1_WriteMarkSurf
  simp [not_lt.mpr h]

theorem Q1_WriteMarkSurf_isOk_iff (face : quake_face_c) (st : Q1State E) :
    (Q1_WriteMarkSurf face st).isOk = true ↔ 0 ≤ st.face_index face.id := by
  unfold Q1_WriteMarkSurf
  split
  · rename_i hneg
    simp only [Outcome.isOk_assertFail, Bool.false_eq_true, false_iff, not_le]
    exact hneg
  · rename_i hnn
    simp only [Outcome.isOk_ok, true_iff]
    exact not_lt.mp hnn

/-- The mark-surface loop returns exactly when every face already has an output
index; it then appends the indices of the faces in list order and counts them. -/
theorem Q1_WriteLeaf_marksurfs_spec (faces : List quake_face_c) (num : Int) (st : Q1State E) :
    ((Q1_WriteLeaf_marksurfs faces num st).isOk = true
      ↔ ∀ f ∈ faces, 0 ≤ st.face_index f.id)
    ∧ ((∀ f ∈ faces, 0 ≤ st.face_index f.id) →
      ∃ (v : Int) (st1 : Q1State E), Q1_WriteLeaf_marksurfs faces num st = Outcome.ok v st1
        ∧ st1.q1_mark_surfs
            = st.q1_mark_surfs ++ faces.map (fun f => toU16 (st.face_index f.id))
        ∧ st1.q1_total_mark_surfs = st.q1_total_mark_surfs + (faces.length : Int)
        ∧ st1.q1_leafs = st.q1_leafs
        ∧ (fitsU16 num → v = toU16 (num + (faces.length : Int)))) := by
  induction faces generalizing num st with
  | nil =>
    refine ⟨by simp [Q1_WriteLeaf_marksurfs], fun _ => ⟨num, st, rfl, by simp, by simp, rfl, ?_⟩⟩
    intro hfit
    simpa using (toU16_of_fits num hfit).symm
  | cons f rest ih =>
    by_cases hf : 0 ≤ st.face_index f.id
    · have hstep := Q1_WriteMarkSurf_of_nonneg f st hf
      obtain ⟨ih1, ih2⟩ := ih (toU16 (num + 1))
        { st with
          q1_mark_surfs := st.q1_mark_surfs ++ [toU16 (st.face_index f.id)]
          q1_total_mark_surfs := st.q1_total_mark_surfs + 1 }
      simp only [Q1_WriteLeaf_marksurfs, hstep, Outcome.bind_ok]
      constructor
      · rw [ih1]
        simp [hf]
      · intro hall
        have hrest : ∀ g ∈ rest, 0 ≤ st.face_index g.id :=
          fun g hg => hall g (List.mem_cons_of_mem _ hg)
        obtain ⟨v, st1, e1, e2, e3, e4, e5⟩ := ih2 hrest
        refine ⟨v, st1, e1, by simp [e2], ?_, e4, ?_⟩
        · rw [e3]
          simp only [List.length_cons, Nat.cast_add, Nat.cast_one]
          ring
        · intro hfit
          have hfit2 : fitsU16 (toU16 (num + 1)) := by
            unfold fitsU16 toU16
            omega
          rw [e5 hfit2]
          simp only [List.length_cons, Nat.cast_add, Nat.cast_one]
          unfold toU16
          omega
    · have hneg : st.face_index f.id < 0 := not_le.mp hf
      have hstep : Q1_WriteMarkSurf f st = Outcome.assertFail st := by
        unfold Q1_WriteMarkSurf
        simp [hneg]
      simp only [Q1_WriteLeaf_marksurfs, hstep, Outcome.bind_assertFail]
      constructor
      · simp only [Outcome.isOk_assertFail, Bool.false_eq_true, false_iff]
        intro hall
        exact hf (hall f (List.mem_cons_self _ _))
      · intro hall
        exact absurd (hall f (List.mem_cons_self _ _)) hf

/-- C9: a leaf other than the solid sentinel, with `k` bordering faces that all
have an output index, written when the mark-surface counter is `c`: the leaf
record holds `first_marksurf = c` and `num_marksurf = k` (as `u16_t` values, `c`
and `k` themselves when they fit) and `visofs = -1`; exactly `k` mark-surface
entries are appended, the output indices of the faces in list order, at
positions `[c, c + k)` when the counter agrees with the lump; the counter is
then `c + k`. The write returns exactly when every face has an output index.
The solid sentinel leaf appends nothing and changes nothing. -/
theorem Q1_WriteLeaf_marksurf_range (leaf : quake_leaf_c) (st : Q1State E) :
    (leaf.addr = env.qk_solid_leaf → Q1_WriteLeaf env leaf st = Outcome.ok () st)
    ∧ (leaf.addr ≠ env.qk_solid_leaf →
        ((Q1_WriteLeaf env leaf st).isOk = true ↔ ∀ f ∈ leaf.faces, 0 ≤ st.face_index f.id)
        ∧ ((∀ f ∈ leaf.faces, 0 ≤ st.face_index f.id) →
          ∃ (st1 : Q1State E) (r : dleaf_t),
            Q1_WriteLeaf env leaf st = Outcome.ok () st1
            ∧ st1.q1_leafs = st.q1_leafs ++ [r]
            ∧ r.first_marksurf = toU16 st.q1_total_mark_surfs
            ∧ r.num_marksurf = toU16 (leaf.faces.length : Int)
            ∧ r.visofs = -1
            ∧ (fitsU16 st.q1_total_mark_surfs → r.first_marksurf = st.q1_total_mark_surfs)
            ∧ (fitsU16 (leaf.faces.length : Int) → r.num_marksurf = (leaf.faces.length : Int))
            ∧ st1.q1_mark_surfs
                = st.q1_mark_surfs ++ leaf.faces.map (fun f => toU16 (st.face_index f.id))
            ∧ st1.q1_total_mark_surfs = st.q1_total_mark_surfs + (leaf.faces.length : Int)
            ∧ (∀ j (hj : j < leaf.faces.length),
                st1.q1_mark_surfs[st.q1_mark_surfs.length + j]?
                  = some (toU16 (st.face_index (leaf.faces.get ⟨j, hj⟩).id))))) := by
  constructor
  · intro hsolid
    simp [Q1_WriteLeaf, hsolid]
  · intro hns
    obtain ⟨h1, h2⟩ := Q1_WriteLeaf_marksurfs_spec leaf.faces 0 st
    constructor
    · rw [← h1]
      simp only [Q1_WriteLeaf, hns, if_false]
      cases Q1_WriteLeaf_marksurfs leaf.faces 0 st <;> simp
    · intro hall
      obtain ⟨v, st1, e1, e2, e3, e4, e5⟩ := h2 hall
      have hv : v = toU16 (leaf.faces.length : Int) := by
        have := e5 (by unfold fitsU16; omega)
        simpa using this
      refine ⟨{ st1 with
            q1_leafs := st1.q1_leafs ++
              [{ contents := toS32 leaf.contents, visofs := toS32 (-1),
                 first_marksurf := toU16 st.q1_total_mark_surfs, num_marksurf := v,
                 mins := fun b => toS16 (I_ROUND (leaf.mins b) - 4),
                 maxs := fun b => toS16 (I_ROUND (leaf.maxs b) + 4) }] },
        { contents := toS32 leaf.contents, visofs := toS32 (-1),
          first_marksurf := toU16 st.q1_total_mark_surfs, num_marksurf := v,
          mins := fun b => toS16 (I_ROUND (leaf.mins b) - 4),
          maxs := fun b => toS16 (I_ROUND (leaf.maxs b) + 4) },
        by simp only [Q1_WriteLeaf, hns, if_false, e1, Outcome.bind_ok],
        by simp only [e4], rfl, hv, by simp [toS32], fun hfit => toU16_of_fits _ hfit,
        fun hfit => hv.trans (toU16_of_fits _ hfit), e2, e3, ?_⟩
      intro j hj
      simp only [e2]
      rw [List.getElem?_append_right (Nat.le_add_right _ _)]
      simp [List.getElem?_map, List.getElem?_eq_getElem hj]

/-- Rounding to nearest moves a value by at most one half. -/
theorem I_ROUND_near (x : ℚ) : x - 1 / 2 ≤ (I_ROUND x : ℚ) ∧ (I_ROUND x : ℚ) ≤ x + 1 / 2 := by
  unfold I_ROUND
  split
  · have h1 := Int.floor_le (-x + 1 / 2)
    have h2 := Int.lt_floor_add_one (-x + 1 / 2)
    push_cast
    constructor <;> linarith
  · have h1 := Int.floor_le (x + 1 / 2)
    have h2 := Int.lt_floor_add_one (x + 1 / 2)
    constructor <;> linarith

theorem I_ROUND_intCast (n : Int) : I_ROUND (n : ℚ) = n := by
  unfold I_ROUND
  split
  · rename_i hneg
    have h : ⌊-(n : ℚ) + 1 / 2⌋ = -n := by
      rw [Int.floor_eq_iff]
      push_cast
      constructor <;> linarith
    rw [h]
    ring
  · rw [Int.floor_eq_iff]
    constructor <;> linarith

/-- C10: for every node (margin 32) and every leaf (margin 4), on every axis
`b` on which the rounded, padded bounds fit a signed 16-bit integer, the box
in the written record is `mins[b] = round(mins[b]) - margin` and
`maxs[b] = round(maxs[b]) + margin`, and it encloses the original box:
written `mins[b] <= mins[b]` and written `maxs[b] >= maxs[b]`. -/
theorem Q1_Write_bounds_enclose :
    (∀ (node : quake_node_info) (front back : quake_child) (st : Q1State E)
        (h : st.q1_nodes.length < (Q1_WriteNode env node front back st).state.q1_nodes.length)
        (b : Fin 3),
        fitsS16 (I_ROUND (node.mins b) - 32) → fitsS16 (I_ROUND (node.maxs b) + 32) →
        ((Q1_WriteNode env node front back st).state.q1_nodes.get
            ⟨st.q1_nodes.length, h⟩).mins b = I_ROUND (node.mins b) - 32
        ∧ ((Q1_WriteNode env node front back st).state.q1_nodes.get
            ⟨st.q1_nodes.length, h⟩).maxs b = I_ROUND (node.maxs b) + 32
        ∧ ((((Q1_WriteNode env node front back st).state.q1_nodes.get
            ⟨st.q1_nodes.length, h⟩).mins b : Int) : ℚ) ≤ node.mins b
        ∧ node.maxs b ≤ ((((Q1_WriteNode env node front back st).state.q1_nodes.get
            ⟨st.q1_nodes.length, h⟩).maxs b : Int) : ℚ))
    ∧ (∀ (leaf : quake_leaf_c) (st st1 : Q1State E),
        leaf.addr ≠ env.qk_solid_leaf → Q1_WriteLeaf env leaf st = Outcome.ok () st1 →
        ∃ r : dleaf_t, st1.q1_leafs = st.q1_leafs ++ [r]
          ∧ ∀ b : Fin 3,
            fitsS16 (I_ROUND (leaf.mins b) - 4) → fitsS16 (I_ROUND (leaf.maxs b) + 4) →
            r.mins b = I_ROUND (leaf.mins b) - 4
            ∧ r.maxs b = I_ROUND (leaf.maxs b) + 4
            ∧ ((r.mins b : Int) : ℚ) ≤ leaf.mins b
            ∧ leaf.maxs b ≤ ((r.maxs b : Int) : ℚ)) := by
  constructor
  · intro node front back st h b hmin hmax
    rw [Q1_WriteNode_first_record env node front back st h]
    have e1 : (nodeRecord node front back (env.BSP_AddPlane node.plane st.ext).1.1
        (env.BSP_AddPlane node.plane st.ext).1.2 st.q1_total_faces).mins b
          = I_ROUND (node.mins b) - 32 := by
      simp only [nodeRecord]
      exact toS16_of_fits _ hmin
    have e2 : (nodeRecord node front back (env.BSP_AddPlane node.plane st.ext).1.1
        (env.BSP_AddPlane node.plane st.ext).1.2 st.q1_total_faces).maxs b
          = I_ROUND (node.maxs b) + 32 := by
      simp only [nodeRecord]
      exact toS16_of_fits _ hmax
    have n1 := I_ROUND_near (node.mins b)
    have n2 := I_ROUND_near (node.maxs b)
    refine ⟨e1, e2, ?_, ?_⟩
    · rw [e1]
      push_cast
      linarith [n1.2]
    · rw [e2]
      push_cast
      linarith [n2.1]
  · intro leaf st st1 hns hok
    have hall : ∀ f ∈ leaf.faces, 0 ≤ st.face_index f.id :=
      ((Q1_WriteLeaf_marksurfs_spec leaf.faces 0 st).1).mp (by
        have hk : (Q1_WriteLeaf env leaf st).isOk = true := by simp [hok]
        simp only [Q1_WriteLeaf, hns, if_false] at hk
        cases hm : Q1_WriteLeaf_marksurfs leaf.faces 0 st with
        | ok v s2 => rfl
        | fatal s2 => rw [hm] at hk; simp at hk
        | assertFail s2 => rw [hm] at hk; simp at hk)
    obtain ⟨v, s2, e1, -, -, e4, -⟩ := (Q1_WriteLeaf_marksurfs_spec leaf.faces 0 st).2 hall
    simp only [Q1_WriteLeaf, hns, if_false, e1, Outcome.bind_ok, Outcome.ok.injEq,
      true_and] at hok
    subst hok
    refine ⟨{ contents := toS32 leaf.contents, visofs := toS32 (-1),
              first_marksurf := toU16 st.q1_total_mark_surfs, num_marksurf := v,
              mins := fun b => toS16 (I_ROUND (leaf.mins b) - 4),
              maxs := fun b => toS16 (I_ROUND (leaf.maxs b) + 4) },
      by simp only [e4], fun b hmin hmax => ?_⟩
    have n1 := I_ROUND_near (leaf.mins b)
    have n2 := I_ROUND_near (leaf.maxs b)
    simp only [toS16_of_fits _ hmin, toS16_of_fits _ hmax]
    refine ⟨trivial, trivial, ?_, ?_⟩
    · push_cast
      linarith [n1.2]
    · push_cast
      linarith [n2.1]

/-- C5: for every finite BSP tree, `Q1_WriteNode(root)` appends node records to
the nodes lump in depth-first pre-order, front subtree before back subtree: the
`k`-th record appended is the record of the `k`-th node of the pre-order (all
of them when the walk returns, an initial segment when it is aborted); the
root is first, and every node is directly followed by its descendants, so its
record precedes all of theirs. -/
theorem Q1_WriteNode_preorder (node : quake_node_info) (front back : quake_child)
    (st : Q1State E) :
    ∃ recs : List dnode_t,
      (Q1_WriteNode env node front back st).state.q1_nodes = st.q1_nodes ++ recs
      ∧ recs.length ≤ (quake_child.N node front back).preorder.length
      ∧ (∀ k (h1 : k < recs.length) (h2 : k < (quake_child.N node front back).preorder.length),
          (recs.get ⟨k, h1⟩).isRecordOf ((quake_child.N node front back).preorder.get ⟨k, h2⟩))
      ∧ ((Q1_WriteNode env node front back st).isOk = true →
          recs.length = (quake_child.N node front back).preorder.length)
      ∧ (quake_child.N node front back).preorder.head? = some (node, front, back)
      ∧ (∀ before after n f b,
          (quake_child.N node front back).preorder = before ++ (n, f, b) :: after →
          (f.preorder ++ b.preorder) <+: after) := by
  obtain ⟨recs, visited, h1, h2, h3, h4⟩ :=
    Q1_WriteChild_nodes env (quake_child.N node front back) st
  have hlen := h2.length_eq
  obtain ⟨rest, hrest⟩ := h3
  refine ⟨recs, h1, ?_, ?_, ?_, rfl, ?_⟩
  · rw [← hrest, hlen]
    simp
  · intro k hk1 hk2
    have hk3 : k < visited.length := hlen ▸ hk1
    have hget := (List.forall₂_iff_get.mp h2).2 k hk1 hk3
    have heq : (quake_child.N node front back).preorder.get ⟨k, hk2⟩ = visited.get ⟨k, hk3⟩ := by
      simp only [List.get_eq_getElem]
      simp only [← hrest]
      exact List.getElem_append_left hk3
    rw [heq]
    exact hget
  · intro hok
    rw [hlen, h4 hok]
  · intro before after n f b hsplit
    exact preorder_descendants_follow (quake_child.N node front back) before after n f b hsplit

end WriterLemmas

/-- C6 witness: the root of the sample tree (plane not flipped) records the
front child node 1 and the solid leaf -1. -/
theorem Q1_WriteNode_children_witness :
    ∃ h : Q1State.start.q1_nodes.length
        < (Q1_WriteNode exactEnv sampleRoot (quake_child.L sampleLeaf) (quake_child.L solidLeaf)
            Q1State.start).state.q1_nodes.length,
      ((Q1_WriteNode exactEnv sampleRoot (quake_child.L sampleLeaf) (quake_child.L solidLeaf)
          Q1State.start).state.q1_nodes.get ⟨Q1State.start.q1_nodes.length, h⟩).children0 = -2
      ∧ ((Q1_WriteNode exactEnv sampleRoot (quake_child.L sampleLeaf) (quake_child.L solidLeaf)
          Q1State.start).state.q1_nodes.get ⟨Q1State.start.q1_nodes.length, h⟩).children1
          = -1 := by
  have hlt : Q1State.start.q1_nodes.length
      < (Q1_WriteNode exactEnv sampleRoot (quake_child.L sampleLeaf) (quake_child.L solidLeaf)
          Q1State.start).state.q1_nodes.length := by decide
  have h := (Q1_WriteNode_children exactEnv sampleRoot (quake_child.L sampleLeaf)
    (quake_child.L solidLeaf) Q1State.start hlt).1 (by decide)
  exact ⟨hlt, h.1.trans (by decide), h.2.trans (by decide)⟩

/-- C7 witness: the root of the sample tree owns one face and is written at
face counter 0. -/
theorem Q1_WriteNode_faces_witness :
    (Q1_WriteNode_record exactEnv sampleRoot (quake_child.L sampleLeaf) (quake_child.L solidLeaf)
        Q1State.start).state.q1_total_faces = 0 + ((sampleRoot.faces.length : Nat) : Int)
    ∧ (Q1_WriteNode_record exactEnv sampleRoot (quake_child.L sampleLeaf)
        (quake_child.L solidLeaf) Q1State.start).state.face_index 7 = 0 :=
  have h := Q1_WriteNode_faces exactEnv sampleRoot (quake_child.L sampleLeaf)
    (quake_child.L solidLeaf) Q1State.start
    (Q1_WriteNode_record exactEnv sampleRoot (quake_child.L sampleLeaf)
      (quake_child.L solidLeaf) Q1State.start).state
    (by decide) (Outcome.eq_ok_of_isOk _ (by decide))
  ⟨h.2.2.2.2.1, (h.2.1 (by decide) 0 (by decide)).trans (by decide)⟩

/-- C8 witness: a face whose second vertex repeats the first is fatal at its
first edge; the triangle is written with three surf-edge entries. -/
theorem Q1_WriteFace_edges_witness :
    (Q1_WriteFace exactEnv (degenerateFace 1) Q1State.start).isFatal = true
    ∧ ∃ st1 : Q1State ExactTables,
        Q1_WriteFace exactEnv (triangleFace 1) Q1State.start = Outcome.ok () st1
        ∧ st1.q1_total_surf_edges = Q1State.start.q1_total_surf_edges + 3 := by
  refine ⟨(Q1_WriteFace_edges exactEnv (degenerateFace 1) Q1State.start).2.1.mpr
    ⟨0, by decide, Q1_WriteFace_begin exactEnv (degenerateFace 1) Q1State.start, rfl,
      by decide⟩, ?_⟩
  obtain ⟨st1, h1, -, h3, -⟩ :=
    (Q1_WriteFace_edges exactEnv (triangleFace 1) Q1State.start).2.2.1 (by decide)
  exact ⟨st1, h1, h3⟩

/-- C9 witness: the sample leaf, once its face 7 has index 0, appends the
mark-surface entry 0 and one leaf record; the solid leaf appends nothing. -/
theorem Q1_WriteLeaf_marksurf_range_witness :
    (∃ (st1 : Q1State ExactTables) (r : dleaf_t),
      Q1_WriteLeaf exactEnv sampleLeaf
          { Q1State.start with face_index := Function.update (fun _ => -1) 7 0 }
        = Outcome.ok () st1
      ∧ st1.q1_leafs = [r] ∧ r.num_marksurf = 1 ∧ st1.q1_mark_surfs = [0])
    ∧ Q1_WriteLeaf exactEnv solidLeaf Q1State.start = Outcome.ok () Q1State.start := by
  have h := Q1_WriteLeaf_marksurf_range exactEnv sampleLeaf
    { Q1State.start with face_index := Function.update (fun _ => -1) 7 0 }
  have hs := (Q1_WriteLeaf_marksurf_range exactEnv solidLeaf Q1State.start).1 (by decide)
  obtain ⟨st1, r, e1, e2, -, e4, -, -, -, e8, -, -⟩ := (h.2 (by decide)).2 (by decide)
  exact ⟨⟨st1, r, e1, e2, e4.trans (by decide), e8.trans (by decide)⟩, hs⟩

/-- C10 witness: the root of the sample tree, box 0..64 on every axis, is
written with the box -32..96. -/
theorem Q1_Write_bounds_enclose_witness :
    ∃ h : Q1State.start.q1_nodes.length
        < (Q1_WriteNode exactEnv sampleRoot (quake_child.L sampleLeaf) (quake_child.L solidLeaf)
            Q1State.start).state.q1_nodes.length,
      ((Q1_WriteNode exactEnv sampleRoot (quake_child.L sampleLeaf) (quake_child.L solidLeaf)
          Q1State.start).state.q1_nodes.get ⟨Q1State.start.q1_nodes.length, h⟩).mins 0 = -32
      ∧ ((Q1_WriteNode exactEnv sampleRoot (quake_child.L sampleLeaf) (quake_child.L solidLeaf)
          Q1State.start).state.q1_nodes.get ⟨Q1State.start.q1_nodes.length, h⟩).maxs 0
          = 96 := by
  have hlt : Q1State.start.q1_nodes.length
      < (Q1_WriteNode exactEnv sampleRoot (quake_child.L sampleLeaf) (quake_child.L solidLeaf)
          Q1State.start).state.q1_nodes.length := by decide
  have r0 : I_ROUND (sampleRoot.mins 0) = 0 := by
    simpa [sampleRoot] using I_ROUND_intCast 0
  have r64 : I_ROUND (sampleRoot.maxs 0) = 64 := by
    simpa [sampleRoot] using I_ROUND_intCast 64
  have h := (Q1_Write_bounds_enclose exactEnv).1 sampleRoot (quake_child.L sampleLeaf)
    (quake_child.L solidLeaf) Q1State.start hlt 0
    (by rw [r0]; unfold fitsS16; omega) (by rw [r64]; unfold fitsS16; omega)
  refine ⟨hlt, ?_, ?_⟩
  · rw [h.1, r0]
    rfl
  · rw [h.2.1, r64]
    rfl

/-- C5 witness: the two-node sample tree, written from the start state, puts
two records into the nodes lump, the root's first. -/
theorem Q1_WriteNode_preorder_witness :
    ∃ recs : List dnode_t,
      (Q1_WriteChild exactEnv sampleTree Q1State.start).state.q1_nodes = recs
      ∧ recs.length = 2
      ∧ ∀ h : 0 < recs.length,
          (recs.get ⟨0, h⟩).isRecordOf (sampleRoot,
            quake_child.N
              { plane := { nx := 1, ny := 0, nz := 0, dist := 32 }, faces := []
                mins := fun _ => 0, maxs := fun _ => 32, index := 1 }
              (quake_child.L sampleLeaf) (quake_child.L solidLeaf),
            quake_child.L solidLeaf) := by
  obtain ⟨recs, h1, h2, h3, h4, -, -⟩ := Q1_WriteNode_preorder exactEnv sampleRoot
    (quake_child.N
      { plane := { nx := 1, ny := 0, nz := 0, dist := 32 }, faces := []
        mins := fun _ => 0, maxs := fun _ => 32, index := 1 }
      (quake_child.L sampleLeaf) (quake_child.L solidLeaf))
    (quake_child.L solidLeaf) Q1State.start
  refine ⟨recs, ?_, h4 (by decide), fun h => h3 0 h (by decide)⟩
  rw [show Q1_WriteChild exactEnv sampleTree Q1State.start
    = Q1_WriteNode exactEnv sampleRoot
        (quake_child.N
          { plane := { nx := 1, ny := 0, nz := 0, dist := 32 }, faces := []
            mins := fun _ => 0, maxs := fun _ => 32, index := 1 }
          (quake_child.L sampleLeaf) (quake_child.L solidLeaf))
        (quake_child.L solidLeaf) Q1State.start from rfl, h1]
  rfl

/-! ## Counting loops -/

theorem forRange_eq_foldl {σ : Type} (n : Int) (body : Int → σ → σ) (st : σ) :
    forRange n body st = (List.range n.toNat).foldl (fun acc (i : Nat) => body (i : Int) acc) st := rfl

/-- An invariant of the body, for the indices the loop visits, holds at the end. -/
theorem forRange_induction {σ : Type} (P : σ → Prop) (n : Int) (body : Int → σ → σ) (st : σ)
    (h0 : P st) (hstep : ∀ i acc, 0 ≤ i → i < n → P acc → P (body i acc)) :
    P (forRange n body st) := by
  unfold forRange
  have key : ∀ k : Nat, k ≤ n.toNat →
      P ((List.range k).foldl (fun acc (i : Nat) => body (i : Int) acc) st) := by
    intro k
    induction k with
    | zero => intro _; simpa using h0
    | succ k ih =>
      intro hk
      rw [List.range_succ, List.foldl_append]
      simp only [List.foldl_cons, List.foldl_nil]
      apply hstep _ _ (by positivity) (by omega) (ih (by omega))
  exact key _ (le_refl _)

/-- A property established by round `j` and kept by every round holds at the end. -/
theorem forRange_hit {σ : Type} (I R : σ → Prop) (n j : Int) (body : Int → σ → σ) (st : σ)
    (hj0 : 0 ≤ j) (hjn : j < n) (hI0 : I st)
    (hI : ∀ i acc, 0 ≤ i → i < n → I acc → I (body i acc))
    (hR : ∀ i acc, 0 ≤ i → i < n → I acc → R acc → R (body i acc))
    (hhit : ∀ acc, I acc → R (body j acc)) :
    R (forRange n body st) := by
  unfold forRange
  have key : ∀ k : Nat, k ≤ n.toNat →
      I ((List.range k).foldl (fun acc (i : Nat) => body (i : Int) acc) st) ∧
      (j < k → R ((List.range k).foldl (fun acc (i : Nat) => body (i : Int) acc) st)) := by
    intro k
    induction k with
    | zero => intro _; exact ⟨by simpa using hI0, fun h => by omega⟩
    | succ k ih =>
      intro hk
      rw [List.range_succ, List.foldl_append]
      simp only [List.foldl_cons, List.foldl_nil]
      obtain ⟨ihI, ihR⟩ := ih (by omega)
      refine ⟨hI _ _ (by positivity) (by omega) ihI, fun hjk => ?_⟩
      by_cases hjk2 : j < (k : Int)
      · exact hR _ _ (by positivity) (by omega) ihI (ihR hjk2)
      · have : j = (k : Int) := by push_cast at hjk; omega
        rw [← this]
        exact hhit _ ihI
  exact (key _ (le_refl _)).2 (by omega)

/-- An invariant indexed by the number of rounds done holds at the end. -/
theorem forRange_induction_idx {σ : Type} (P : Int → σ → Prop) (n : Int) (body : Int → σ → σ)
    (st : σ) (hn : 0 ≤ n) (h0 : P 0 st)
    (hstep : ∀ i acc, 0 ≤ i → i < n → P i acc → P (i + 1) (body i acc)) :
    P n (forRange n body st) := by
  unfold forRange
  have key : ∀ k : Nat, k ≤ n.toNat →
      P (k : Int) ((List.range k).foldl (fun acc (i : Nat) => body (i : Int) acc) st) := by
    intro k
    induction k with
    | zero => intro _; simpa using h0
    | succ k ih =>
      intro hk
      rw [List.range_succ, List.foldl_append]
      simp only [List.foldl_cons, List.foldl_nil]
      have := hstep _ _ (by positivity) (by omega) (ih (by omega))
      simpa using this
  have := key _ (le_refl _)
  rwa [Int.toNat_of_nonneg hn] at this

theorem forRange_of_nonpos {σ : Type} (n : Int) (body : Int → σ → σ) (st : σ) (hn : n ≤ 0) :
    forRange n body st = st := by
  unfold forRange
  rw [Int.toNat_eq_zero.mpr hn]
  rfl

/-- Cells of a grid of width `W` have distinct indices. -/
theorem cellIndex_inj (W s t s1 t1 : Int) (hs : 0 ≤ s) (hsW : s < W) (hs1 : 0 ≤ s1)
    (hs1W : s1 < W) (h : t * W + s = t1 * W + s1) : s = s1 ∧ t = t1 := by
  have ht : t = t1 := by
    by_contra hne
    rcases lt_or_gt_of_ne hne with hlt | hgt
    · have : (t + 1) * W ≤ t1 * W := Int.mul_le_mul_of_nonneg_right (by omega) (by omega)
      nlinarith
    · have : (t1 + 1) * W ≤ t * W := Int.mul_le_mul_of_nonneg_right (by omega) (by omega)
      nlinarith
  subst ht
  exact ⟨by omega, rfl⟩

/-- Two nested counting loops that write entry `t * W + s` of an array in round
`(s, t)`: afterwards every cell holds what its round wrote, and the entries that
are no cell's are as before. -/
theorem forRange_grid {σ α : Type} (I : σ → Prop) (read : σ → Int → α) (W H : Int)
    (outer : Int → σ → σ) (body : Int → Int → σ → σ) (f : Int → Int → α)
    (houter : ∀ t acc, I acc → outer t acc = forRange W (fun s b => body s t b) acc)
    (hI : ∀ s t acc, 0 ≤ s → s < W → 0 ≤ t → t < H → I acc → I (body s t acc))
    (hset : ∀ s t acc, 0 ≤ s → s < W → 0 ≤ t → t < H → I acc →
      read (body s t acc) (t * W + s) = f s t)
    (hkeep : ∀ s t acc k, 0 ≤ s → s < W → 0 ≤ t → t < H → I acc → k ≠ t * W + s →
      read (body s t acc) k = read acc k)
    (st : σ) (h0 : I st) :
    I (forRange H outer st) ∧
    (∀ s t, 0 ≤ s → s < W → 0 ≤ t → t < H → read (forRange H outer st) (t * W + s) = f s t) ∧
    (∀ k, (∀ s t, 0 ≤ s → s < W → 0 ≤ t → t < H → k ≠ t * W + s) →
      read (forRange H outer st) k = read st k) := by
  by_cases hH : H ≤ 0
  · rw [forRange_of_nonpos _ _ _ hH]
    exact ⟨h0, fun s t _ _ h1 h2 => by omega, fun _ _ => rfl⟩
  by_cases hW : W ≤ 0
  · have hid : ∀ acc, I acc → forRange H outer acc = acc ∧ True := by
      intro acc hacc
      refine ⟨?_, trivial⟩
      have := forRange_induction (fun r => r = acc) H outer acc rfl
        (by
          intro i r _ _ hr
          subst hr
          rw [houter i r hacc, forRange_of_nonpos _ _ _ hW])
      exact this
    rw [(hid st h0).1]
    exact ⟨h0, fun s t h1 h2 _ _ => by omega, fun _ _ => rfl⟩
  push_neg at hH hW
  -- one row
  have row : ∀ t a, 0 ≤ t → t < H → I a →
      I (outer t a) ∧
      (∀ s, 0 ≤ s → s < W → read (outer t a) (t * W + s) = f s t) ∧
      (∀ k, (∀ s, 0 ≤ s → s < W → k ≠ t * W + s) → read (outer t a) k = read a k) := by
    intro t a ht0 htH ha
    rw [houter t a ha]
    have := forRange_induction_idx
      (fun n r => I r ∧ (∀ s, 0 ≤ s → s < n → read r (t * W + s) = f s t) ∧
        (∀ k, (∀ s, 0 ≤ s → s < n → k ≠ t * W + s) → read r k = read a k))
      W (fun s b => body s t b) a (le_of_lt hW)
      ⟨ha, fun s h1 h2 => by omega, fun _ _ => rfl⟩
      (by
        intro i r hi0 hiW ⟨hr, hr1, hr2⟩
        refine ⟨hI i t r hi0 hiW ht0 htH hr, ?_, ?_⟩
        · intro s hs0 hsi
          by_cases hsi2 : s = i
          · subst hsi2
            exact hset s t r hs0 hiW ht0 htH hr
          · rw [hkeep i t r _ hi0 hiW ht0 htH hr (by omega)]
            exact hr1 s hs0 (by omega)
        · intro k hk
          rw [hkeep i t r _ hi0 hiW ht0 htH hr (hk i hi0 (by omega))]
          exact hr2 k (fun s h1 h2 => hk s h1 (by omega)))
    exact this
  have := forRange_induction_idx
    (fun n r => I r ∧
      (∀ s t, 0 ≤ s → s < W → 0 ≤ t → t < n → read r (t * W + s) = f s t) ∧
      (∀ k, (∀ s t, 0 ≤ s → s < W → 0 ≤ t → t < n → k ≠ t * W + s) → read r k = read st k))
    H outer st (le_of_lt hH)
    ⟨h0, fun s t _ _ h1 h2 => by omega, fun _ _ => rfl⟩
    (by
      intro i r hi0 hiH ⟨hr, hr1, hr2⟩
      obtain ⟨q1, q2, q3⟩ := row i r hi0 hiH hr
      refine ⟨q1, ?_, ?_⟩
      · intro s t hs0 hsW ht0 hti
        by_cases hti2 : t = i
        · subst hti2
          exact q2 s hs0 hsW
        · rw [q3]
          · exact hr1 s t hs0 hsW ht0 (by omega)
          · intro s1 hs10 hs1W heq
            have := cellIndex_inj W s t s1 i hs0 hsW hs10 hs1W heq
            exact hti2 this.2
      · intro k hk
        rw [q3 k (fun s h1 h2 => hk s i h1 h2 hi0 (by omega))]
        exact hr2 k (fun s t h1 h2 h3 h4 => hk s t h1 h2 h3 (by omega)))
  exact this

/-! ## Lightmap samples -/

theorem qLightmap_c.Set_hasShape (L : qLightmap_c) (W H s t raw : Int) (h : L.hasShape W H) :
    (L.Set s t raw).hasShape W H := by
  obtain ⟨h1, h2, h3⟩ := h
  exact ⟨h1, h2, by simp [qLightmap_c.Set, h3]⟩

theorem BSP_NewLightmap_hasShape (uninit : Nat → Nat) (w h : Int) :
    (BSP_NewLightmap uninit w h).hasShape w h :=
  ⟨rfl, rfl, by simp [BSP_NewLightmap]⟩

/-- The index of a cell of a `W` x `H` grid is below `W * H`. -/
theorem cellIndex_lt (W H s t : Int) (hs : 0 ≤ s) (hsW : s < W) (ht : 0 ≤ t) (htH : t < H) :
    0 ≤ t * W + s ∧ t * W + s < W * H := by
  have h1 : 0 ≤ t * W := Int.mul_nonneg ht (by omega)
  have h2 : (t + 1) * W ≤ H * W := Int.mul_le_mul_of_nonneg_right (by omega) (by omega)
  constructor
  · omega
  · nlinarith

/-- Every index below `W * H` is the index of a cell. -/
theorem cellIndex_surj (W H k : Int) (hW : 0 < W) (hk : 0 ≤ k) (hkn : k < W * H) :
    ∃ s t, 0 ≤ s ∧ s < W ∧ 0 ≤ t ∧ t < H ∧ k = t * W + s := by
  refine ⟨k % W, k / W, Int.emod_nonneg _ (by omega), Int.emod_lt_of_pos _ hW,
    Int.ediv_nonneg hk (by omega), ?_, ?_⟩
  · have := Int.ediv_lt_of_lt_mul hW (by rw [mul_comm] at hkn; exact hkn)
    exact this
  · have := Int.ediv_add_emod k W
    rw [mul_comm] at this
    omega

theorem qLightmap_c.sampleAt_Set_self (L : qLightmap_c) (W H s t raw : Int)
    (h : L.hasShape W H) (hs : 0 ≤ s) (hsW : s < W) (ht : 0 ≤ t) (htH : t < H) :
    (L.Set s t raw).sampleAt (t * W + s) = storedByte raw := by
  obtain ⟨h1, h2, h3⟩ := h
  obtain ⟨c1, c2⟩ := cellIndex_lt W H s t hs hsW ht htH
  have hlt : (t * W + s).toNat < L.samples.length := by
    rw [h3]; omega
  simp [qLightmap_c.sampleAt, qLightmap_c.Set, h1, List.getD_eq_getElem?_getD,
    List.getElem?_set, hlt]

theorem qLightmap_c.sampleAt_Set_other (L : qLightmap_c) (s t raw k : Int)
    (hk : 0 ≤ k) (hi : 0 ≤ t * L.width + s) (hne : k ≠ t * L.width + s) :
    (L.Set s t raw).sampleAt k = L.sampleAt k := by
  have : (t * L.width + s).toNat ≠ k.toNat := by omega
  simp [qLightmap_c.sampleAt, qLightmap_c.Set, List.getD_eq_getElem?_getD,
    List.getElem?_set, this]

/-- The samples of a lightmap whose every cell holds `v`. -/
theorem qLightmap_c.samples_eq_replicate (L : qLightmap_c) (W H : Int) (v : Nat)
    (h : L.hasShape W H) (hW : 0 < W)
    (hall : ∀ s t, 0 ≤ s → s < W → 0 ≤ t → t < H → L.sampleAt (t * W + s) = v) :
    L.samples = List.replicate (W * H).toNat v := by
  obtain ⟨h1, h2, h3⟩ := h
  apply List.ext_getElem
  · simp [h3]
  · intro i hi1 hi2
    have hi : (i : Int) < W * H := by
      rw [h3] at hi1; omega
    obtain ⟨s, t, a1, a2, a3, a4, a5⟩ := cellIndex_surj W H i hW (by positivity) hi
    have := hall s t a1 a2 a3 a4
    rw [← a5] at this
    simp only [qLightmap_c.sampleAt, Int.toNat_ofNat, List.getD_eq_getElem?_getD] at this
    rw [List.getElem?_eq_getElem hi1] at this
    simpa using this

/-! ## The loops of `QCOM_ProcessLight` -/

/-- A loop `for (i = i0 ; i < N ; i += step)` with `step >= 1` ends, and visits
exactly the values `i0 + k * step` below `N`, each once. -/
theorem loopIndices_spec (N step : Int) (hstep : 1 ≤ step) :
    ∀ (fuel : Nat) (i : Int), N - i ≤ fuel →
      ∃ l, loopIndices fuel i N step = some l ∧ l.Pairwise (· < ·) ∧
        ∀ x, x ∈ l ↔ (i ≤ x ∧ x < N ∧ step ∣ x - i) := by
  intro fuel
  induction fuel with
  | zero =>
    intro i hi
    refine ⟨[], ?_, List.Pairwise.nil, ?_⟩
    · have : ¬ i < N := by push_cast at hi; omega
      simp [loopIndices, this]
    · intro x
      simp only [List.not_mem_nil, false_iff, not_and]
      intro h1 h2
      push_cast at hi
      omega
  | succ fuel ih =>
    intro i hi
    by_cases hiN : i < N
    · obtain ⟨rest, hrest, hpw, hmem⟩ := ih (i + step) (by push_cast at hi; omega)
      refine ⟨i :: rest, ?_, ?_, ?_⟩
      · simp [loopIndices, hiN, hrest]
      · refine List.Pairwise.cons ?_ hpw
        intro x hx
        have := (hmem x).1 hx
        omega
      · intro x
        simp only [List.mem_cons, hmem]
        constructor
        · rintro (rfl | ⟨h1, h2, h3⟩)
          · exact ⟨le_refl _, hiN, by simp⟩
          · refine ⟨by omega, h2, ?_⟩
            have : x - i = (x - (i + step)) + step := by ring
            rw [this]
            exact dvd_add h3 (dvd_refl _)
        · rintro ⟨h1, h2, q, hq⟩
          by_cases hx : x = i
          · exact Or.inl hx
          · right
            have hq1 : 1 ≤ q := by
              by_contra hcon
              have hq0 : q ≤ 0 := by omega
              have : step * q ≤ 0 := Int.mul_nonpos_of_nonneg_of_nonpos (by omega) hq0
              omega
            have hsq : step ≤ step * q := by nlinarith
            refine ⟨by omega, h2, q - 1, ?_⟩
            rw [mul_sub, mul_one, ← hq]
            ring
    · refine ⟨[], ?_, List.Pairwise.nil, ?_⟩
      · simp [loopIndices, hiN]
      · intro x
        simp only [List.not_mem_nil, false_iff, not_and]
        intro h1 h2
        omega

/-- The loop `for (i = 0 ; i < N ; i += step)` with `step >= 1` ends. -/
theorem steppedRange_spec (N step : Int) (hstep : 1 ≤ step) :
    ∃ l, steppedRange N step = some l ∧ l.Pairwise (· < ·) ∧
      ∀ x, x ∈ l ↔ (0 ≤ x ∧ x < N ∧ step ∣ x) := by
  obtain ⟨l, h1, h2, h3⟩ := loopIndices_spec N step hstep N.toNat 0 (by omega)
  exact ⟨l, h1, h2, fun x => by simpa using h3 x⟩

theorem Bump_apply (s t W value : Int) (blocklights : Int → Int) (k : Int) :
    Bump s t W value blocklights k
      = blocklights k + if t * W + s = k then value else 0 := by
  unfold Bump
  by_cases h : t * W + s = k
  · subst h; simp
  · rw [Function.update_noteq (Ne.symm h)]; simp [h]

theorem QCOM_ProcessLight_cell_eq (env : LightEnv) (light : quake_light_t) (s t : Int)
    (st : LightState) :
    QCOM_ProcessLight_cell env light s t st
      = { st with
          blocklights := Bump s t st.lt_W (cellIncrement env light st s t) st.blocklights } := by
  have hz : ∀ b : Int → Int, Bump s t st.lt_W 0 b = b := by
    intro b; funext k; rw [Bump_apply]; simp
  unfold QCOM_ProcessLight_cell cellIncrement
  by_cases h1 : st.qk_lighting_quality = 1 ∧ (IS_INTERP s st.lt_W || IS_INTERP t st.lt_W) = true
  · simp only [if_pos h1, hz]
  · simp only [if_neg h1]
    by_cases h2 : ¬ (env.QCOM_TraceRay (st.lt_points (t * st.lt_W + s)).x
        (st.lt_points (t * st.lt_W + s)).y (st.lt_points (t * st.lt_W + s)).z
        light.x light.y light.z = true)
    · simp only [if_pos h2, hz]
    · simp only [if_neg h2]
      by_cases h3 : light.kind = LTK_Sun
      · simp only [if_pos h3]
      · simp only [if_neg h3]
        by_cases h4 : env.ComputeDist (st.lt_points (t * st.lt_W + s)).x
            (st.lt_points (t * st.lt_W + s)).y (st.lt_points (t * st.lt_W + s)).z
            light.x light.y light.z < light.radius
        · simp only [if_pos h4]
        · simp only [if_neg h4, hz]

/-- One row of `QCOM_ProcessLight` adds, to every entry, the increments of the
evaluated cells of the row that have this entry's index. -/
theorem QCOM_ProcessLight_cells_fold (env : LightEnv) (light : quake_light_t) (t : Int)
    (st : LightState) (ss : List Int) (b : Int → Int) :
    ss.foldl (fun sa s => QCOM_ProcessLight_cell env light s t sa) { st with blocklights := b }
      = { st with
          blocklights := fun k => b k +
            (ss.map fun s => if t * st.lt_W + s = k then cellIncrement env light st s t
              else 0).sum } := by
  induction ss generalizing b with
  | nil => simp
  | cons s rest ih =>
    rw [List.foldl_cons, QCOM_ProcessLight_cell_eq]
    have hc : cellIncrement env light { st with blocklights := b } s t
        = cellIncrement env light st s t := rfl
    simp only [hc]
    rw [ih]
    congr 1
    funext k
    rw [Bump_apply]
    simp only [List.map_cons, List.sum_cons]
    ring

/-- The rows of `QCOM_ProcessLight`, given that the loop over `s` ends. -/
theorem QCOM_ProcessLight_rows_eq (env : LightEnv) (light : quake_light_t) (s_step : Int)
    (st : LightState) (ss : List Int) (hss : steppedRange st.lt_W s_step = some ss)
    (ts : List Int) (b : Int → Int) :
    QCOM_ProcessLight_rows env light s_step ts { st with blocklights := b }
      = some { st with
          blocklights := fun k => b k +
            (ts.map fun t => (ss.map fun s =>
              if t * st.lt_W + s = k then cellIncrement env light st s t else 0).sum).sum } := by
  induction ts generalizing b with
  | nil => simp [QCOM_ProcessLight_rows]
  | cons t rest ih =>
    have hrow : QCOM_ProcessLight_row env light s_step t { st with blocklights := b }
        = some (ss.foldl (fun sa s => QCOM_ProcessLight_cell env light s t sa)
            { st with blocklights := b }) := by
      unfold QCOM_ProcessLight_row
      simp only [hss, Option.map_some']
    simp only [QCOM_ProcessLight_rows, hrow]
    rw [QCOM_ProcessLight_cells_fold, ih]
    congr 2
    funext k
    simp only [List.map_cons, List.sum_cons]
    ring

/-- The sum of a list in which one term, occurring once, is the only non-zero
one. -/
theorem sum_map_single {α : Type} (l : List α) (f : α → Int) (a : α) (hnd : l.Nodup)
    (ha : a ∈ l) (h0 : ∀ x ∈ l, x ≠ a → f x = 0) : (l.map f).sum = f a := by
  induction l with
  | nil => simp at ha
  | cons y rest ih =>
    rw [List.nodup_cons] at hnd
    simp only [List.map_cons, List.sum_cons]
    by_cases hy : y = a
    · subst hy
      have : (rest.map f).sum = 0 := by
        apply List.sum_eq_zero
        intro x hx
        obtain ⟨z, hz, rfl⟩ := List.mem_map.1 hx
        exact h0 z (List.mem_cons_of_mem _ hz) (fun h => hnd.1 (h ▸ hz))
      omega
    · have ha2 : a ∈ rest := by
        rcases List.mem_cons.1 ha with h | h
        · exact absurd h.symm hy
        · exact h
      rw [h0 y (List.mem_cons_self _ _) hy, ih hnd.2 ha2
        (fun x hx => h0 x (List.mem_cons_of_mem _ hx))]
      omega

theorem sum_map_zero {α : Type} (l : List α) (f : α → Int) (h0 : ∀ x ∈ l, f x = 0) :
    (l.map f).sum = 0 := by
  apply List.sum_eq_zero
  intro x hx
  obtain ⟨z, hz, rfl⟩ := List.mem_map.1 hx
  exact h0 z hz

/-- The result of `QCOM_ProcessLight` for a light that is not rejected, given
that its two loops end. -/
theorem QCOM_ProcessLight_eq (env : LightEnv) (light : quake_light_t) (st : LightState)
    (ss ts : List Int) (hperp : 0 < lightPerp st light)
    (hrad : light.kind = LTK_Sun ∨ lightPerp st light ≤ light.radius)
    (hss : steppedRange st.lt_W (if st.qk_lighting_quality = 0 then st.lt_W - 1 else 1) = some ss)
    (hts : steppedRange st.lt_H (if st.qk_lighting_quality = 0 then st.lt_H - 1 else 1) = some ts) :
    QCOM_ProcessLight env light st
      = some { st with
          blocklights := fun k => st.blocklights k +
            (ts.map fun t => (ss.map fun s =>
              if t * st.lt_W + s = k then cellIncrement env light st s t else 0).sum).sum } := by
  unfold QCOM_ProcessLight
  rw [if_neg (not_le.mpr hperp)]
  have h2 : ¬ (light.kind ≠ LTK_Sun ∧ lightPerp st light > light.radius) := by
    rintro ⟨h1, h2⟩
    rcases hrad with h | h
    · exact h1 h
    · exact absurd h2 (not_lt.mpr h)
  rw [if_neg h2]
  simp only [hts]
  exact QCOM_ProcessLight_rows_eq env light _ st ss hss ts st.blocklights

/-- On a grid of at least 2 x 2 cells, `QCOM_ProcessLight` returns, and changes
nothing but `blocklights`. -/
theorem QCOM_ProcessLight_frame (env : LightEnv) (light : quake_light_t) (st : LightState)
    (hW : 2 ≤ st.lt_W) (hH : 2 ≤ st.lt_H) :
    ∃ b, QCOM_ProcessLight env light st = some { st with blocklights := b } := by
  by_cases hperp : lightPerp st light ≤ 0
  · exact ⟨st.blocklights, by unfold QCOM_ProcessLight; rw [if_pos hperp]⟩
  by_cases hrad : light.kind ≠ LTK_Sun ∧ lightPerp st light > light.radius
  · exact ⟨st.blocklights, by unfold QCOM_ProcessLight; rw [if_neg hperp, if_pos hrad]⟩
  obtain ⟨ss, hss, -, -⟩ := steppedRange_spec st.lt_W
    (if st.qk_lighting_quality = 0 then st.lt_W - 1 else 1) (by split_ifs <;> omega)
  obtain ⟨ts, hts, -, -⟩ := steppedRange_spec st.lt_H
    (if st.qk_lighting_quality = 0 then st.lt_H - 1 else 1) (by split_ifs <;> omega)
  refine ⟨_, QCOM_ProcessLight_eq env light st ss ts (not_le.mp hperp) ?_ hss hts⟩
  by_cases hk : light.kind = LTK_Sun
  · exact Or.inl hk
  · right
    by_contra hcon
    exact hrad ⟨hk, not_le.mp hcon⟩

/-- On a grid of at least 2 x 2 cells, the loop over the lights returns, and
changes nothing but `blocklights`. -/
theorem processLights_frame (env : LightEnv) (lights : List quake_light_t) (st : LightState)
    (hW : 2 ≤ st.lt_W) (hH : 2 ≤ st.lt_H) (b : Int → Int) :
    ∃ b1, processLights env lights { st with blocklights := b }
      = some { st with blocklights := b1 } := by
  induction lights generalizing b with
  | nil => exact ⟨b, rfl⟩
  | cons light rest ih =>
    obtain ⟨b1, hb1⟩ := QCOM_ProcessLight_frame env light { st with blocklights := b } hW hH
    obtain ⟨b2, hb2⟩ := ih b1
    refine ⟨b2, ?_⟩
    simp only [processLights, hb1]
    exact hb2

/-- Lights behind the face plane leave the state as it is. -/
theorem processLights_behind (env : LightEnv) (lights : List quake_light_t) (st : LightState)
    (hbehind : ∀ light ∈ lights, lightPerp st light ≤ 0) :
    processLights env lights st = some st := by
  induction lights with
  | nil => rfl
  | cons light rest ih =>
    have h1 : QCOM_ProcessLight env light st = some st := by
      unfold QCOM_ProcessLight
      rw [if_pos (hbehind light (List.mem_cons_self _ _))]
    simp only [processLights, h1]
    exact ih (fun l hl => hbehind l (List.mem_cons_of_mem _ hl))

/-- The state `CalcPoints` works on: at the "best" quality the grid is doubled
and the truncated `lt_tex_mins - 0.5` stored. -/
theorem CalcPoints_frame (st : LightState) :
    ∃ pts, CalcPoints st
      = { (if st.qk_lighting_quality = 3 then
            { st with
              lt_W := st.lt_W * 2
              lt_H := st.lt_H * 2
              lt_tex_mins := ![truncToInt ((st.lt_tex_mins 0 : ℚ) - 1 / 2),
                               truncToInt ((st.lt_tex_mins 1 : ℚ) - 1 / 2)] }
          else st) with lt_points := pts } := by
  unfold CalcPoints
  simp only
  generalize (if st.qk_lighting_quality = 3 then
      ({ st with
        lt_W := st.lt_W * 2
        lt_H := st.lt_H * 2
        lt_tex_mins := ![truncToInt ((st.lt_tex_mins 0 : ℚ) - 1 / 2),
                         truncToInt ((st.lt_tex_mins 1 : ℚ) - 1 / 2)] } : LightState)
    else st) = st1
  refine forRange_induction (fun r => ∃ pts, r = { st1 with lt_points := pts }) _ _ _ ?_ ?_
  · exact ⟨st1.lt_points, rfl⟩
  · intro t sa _ _ hsa
    refine forRange_induction (fun r => ∃ pts, r = { st1 with lt_points := pts }) _ _ _ ?_ ?_
    · exact hsa
    · rintro s sb _ _ ⟨pts, rfl⟩
      exact ⟨_, rfl⟩

/-- After `ClearLightBuffer` every entry of the grid holds `LOW_LIGHT << 8`. -/
theorem ClearLightBuffer_spec (st : LightState) :
    ∃ b, ClearLightBuffer st = { st with blocklights := b } ∧
      ∀ k, 0 ≤ k → k < st.lt_W * st.lt_H → b k = LOW_LIGHT <<< 8 := by
  unfold ClearLightBuffer
  simp only
  by_cases hn : st.lt_W * st.lt_H ≤ 0
  · rw [forRange_of_nonpos _ _ _ hn]
    exact ⟨st.blocklights, rfl, fun k h1 h2 => by omega⟩
  have := forRange_induction_idx
    (fun n r => ∃ b, r = { st with blocklights := b } ∧ ∀ k, 0 ≤ k → k < n → b k = LOW_LIGHT <<< 8)
    (st.lt_W * st.lt_H)
    (fun k sa => { sa with blocklights := Function.update sa.blocklights k (LOW_LIGHT <<< 8) })
    st (by omega) ⟨st.blocklights, rfl, fun k h1 h2 => by omega⟩
    (by
      rintro i r hi0 hin ⟨b, rfl, hb⟩
      refine ⟨_, rfl, ?_⟩
      intro k hk0 hki
      by_cases hk : k = i
      · subst hk; simp
      · simp only []
        rw [Function.update_noteq hk]
        exact hb k hk0 (by omega))
  exact this

theorem CalcPoints_fields (st : LightState) :
    (CalcPoints st).lt_W = (if st.qk_lighting_quality = 3 then st.lt_W * 2 else st.lt_W) ∧
    (CalcPoints st).lt_H = (if st.qk_lighting_quality = 3 then st.lt_H * 2 else st.lt_H) ∧
    (CalcPoints st).qk_lighting_quality = st.qk_lighting_quality ∧
    (CalcPoints st).lt_plane_normal = st.lt_plane_normal ∧
    (CalcPoints st).lt_plane_dist = st.lt_plane_dist := by
  obtain ⟨pts, h⟩ := CalcPoints_frame st
  rw [h]
  by_cases hq : st.qk_lighting_quality = 3
  · simp only [if_pos hq, and_self]
  · simp only [if_neg hq, and_self]

theorem qLightmap_c.Store_Normal_hasShape (b : Int → Int) (L : qLightmap_c) (W H : Int)
    (h : L.hasShape W H) : (L.Store_Normal b).hasShape W H := by
  unfold qLightmap_c.Store_Normal
  refine forRange_induction (fun r : qLightmap_c => r.hasShape W H) _ _ _ h ?_
  rintro k r _ _ ⟨h1, h2, h3⟩
  exact ⟨h1, h2, by simp [h3]⟩

theorem qLightmap_c.Store_Fastest_hasShape (rnd : ℚ → ℚ) (b : Int → Int) (L : qLightmap_c)
    (W H : Int) (h : L.hasShape W H) : (L.Store_Fastest rnd b).hasShape W H := by
  unfold qLightmap_c.Store_Fastest
  refine forRange_induction (fun r : qLightmap_c => r.hasShape W H) _ _ _ h ?_
  intro t r _ _ hr
  refine forRange_induction (fun r : qLightmap_c => r.hasShape W H) _ _ _ hr ?_
  intro s r2 _ _ hr2
  exact qLightmap_c.Set_hasShape _ _ _ _ _ _ hr2

theorem qLightmap_c.Store_Best_hasShape (lt_W : Int) (b : Int → Int) (L : qLightmap_c)
    (W H : Int) (h : L.hasShape W H) : (L.Store_Best lt_W b).hasShape W H := by
  unfold qLightmap_c.Store_Best
  refine forRange_induction (fun r : qLightmap_c => r.hasShape W H) _ _ _ h ?_
  intro t r _ _ hr
  refine forRange_induction (fun r : qLightmap_c => r.hasShape W H) _ _ _ hr ?_
  intro s r2 _ _ hr2
  exact qLightmap_c.Set_hasShape _ _ _ _ _ _ hr2

theorem qLightmap_c.Store_Interp_hasShape (b : Int → Int) (L : qLightmap_c)
    (W H : Int) (h : L.hasShape W H) : (L.Store_Interp b).hasShape W H := by
  unfold qLightmap_c.Store_Interp
  have step : ∀ (n m : Int) (body : Int → Int → qLightmap_c → qLightmap_c) (L0 : qLightmap_c),
      (∀ s t r, r.hasShape W H → (body s t r).hasShape W H) → L0.hasShape W H →
      (forRange n (fun t La => forRange m (fun s Lb => body s t Lb) La) L0).hasShape W H := by
    intro n m body L0 hb h0
    refine forRange_induction (fun r : qLightmap_c => r.hasShape W H) _ _ _ h0 ?_
    intro t r _ _ hr
    refine forRange_induction (fun r : qLightmap_c => r.hasShape W H) _ _ _ hr ?_
    intro s r2 _ _ hr2
    exact hb s t r2 hr2
  simp only
  refine step _ _ _ _ (fun s t r hr => qLightmap_c.Set_hasShape _ _ _ _ _ _ hr) ?_
  refine step _ _ _ _ (fun s t r hr => qLightmap_c.Set_hasShape _ _ _ _ _ _ hr) ?_
  refine step _ _ _ _ (fun s t r hr => qLightmap_c.Set_hasShape _ _ _ _ _ _ hr) ?_
  exact step _ _ _ _ (fun s t r hr => qLightmap_c.Set_hasShape _ _ _ _ _ _ hr) h

/-- Whatever the filter, `Store` keeps the size of the lightmap. -/
theorem qLightmap_c.Store_hasShape (rnd : ℚ → ℚ) (q lt_W : Int) (b : Int → Int)
    (L : qLightmap_c) (W H : Int) (h : L.hasShape W H) :
    (L.Store rnd q lt_W b).state.hasShape W H := by
  unfold qLightmap_c.Store
  split_ifs
  · exact qLightmap_c.Store_Fastest_hasShape rnd b L W H h
  · exact qLightmap_c.Store_Interp_hasShape b L W H h
  · exact qLightmap_c.Store_Normal_hasShape b L W H h
  · exact qLightmap_c.Store_Best_hasShape lt_W b L W H h
  · exact h

/-- The run of `QCOM_LightFace`: it returns, with the grid of `CalcFaceExtents`,
the state `ClearLightBuffer` left apart from `blocklights`, and the outcome of
`Store` on the entries the lights have added to. -/
theorem QCOM_LightFace_eq (env : LightEnv) (lights : List quake_light_t)
    (F : quake_lit_face_c) (st : LightState) :
    ∃ b, processLights env lights
          (ClearLightBuffer (CalcPoints (CalcFaceExtents F (CalcFaceVectors env F st))))
        = some { ClearLightBuffer (CalcPoints (CalcFaceExtents F (CalcFaceVectors env F st)))
            with blocklights := b } ∧
      QCOM_LightFace env lights F st
        = some ({ ClearLightBuffer (CalcPoints (CalcFaceExtents F (CalcFaceVectors env F st)))
            with blocklights := b },
          (BSP_NewLightmap env.uninit (CalcFaceExtents F (CalcFaceVectors env F st)).lt_W
            (CalcFaceExtents F (CalcFaceVectors env F st)).lt_H).Store env.roundFloat
            (CalcFaceVectors env F st).qk_lighting_quality
            (CalcPoints (CalcFaceExtents F (CalcFaceVectors env F st))).lt_W b) := by
  obtain ⟨c, hc, -⟩ := ClearLightBuffer_spec
    (CalcPoints (CalcFaceExtents F (CalcFaceVectors env F st)))
  obtain ⟨hW, hH, hq, -, -⟩ := CalcPoints_fields (CalcFaceExtents F (CalcFaceVectors env F st))
  have h2W : 2 ≤ (CalcFaceExtents F (CalcFaceVectors env F st)).lt_W := le_max_left _ _
  have h2H : 2 ≤ (CalcFaceExtents F (CalcFaceVectors env F st)).lt_H := le_max_left _ _
  have h3W : 2 ≤ (CalcPoints (CalcFaceExtents F (CalcFaceVectors env F st))).lt_W := by
    rw [hW]; split_ifs <;> omega
  have h3H : 2 ≤ (CalcPoints (CalcFaceExtents F (CalcFaceVectors env F st))).lt_H := by
    rw [hH]; split_ifs <;> omega
  obtain ⟨b, hb⟩ := processLights_frame env lights
    (CalcPoints (CalcFaceExtents F (CalcFaceVectors env F st))) h3W h3H c
  rw [← hc] at hb
  refine ⟨b, ?_, ?_⟩
  · rw [hb, hc]
  · unfold QCOM_LightFace
    simp only [hb]
    rw [hc]
    simp only [hq]
    rfl

/-- C11: for any S/T bounds of the face, `CalcFaceExtents` sets `lt_tex_mins` to
the floors of `min_s / 16` and `min_t / 16`, `lt_W` to
`max 2 (ceil (max_s / 16) - floor (min_s / 16) + 1)` and `lt_H` likewise from the
T bounds, so both are at least 2; and `QCOM_LightFace` returns with a lightmap
of that width and height, each at least 2. -/
theorem CalcFaceExtents_grid (env : LightEnv) (qk_all_lights : List quake_light_t)
    (F : quake_lit_face_c) (st : LightState) :
    (CalcFaceExtents F st).lt_tex_mins 0 = ⌊F.min_s / 16⌋ ∧
    (CalcFaceExtents F st).lt_tex_mins 1 = ⌊F.min_t / 16⌋ ∧
    (CalcFaceExtents F st).lt_W = max 2 (⌈F.max_s / 16⌉ - ⌊F.min_s / 16⌋ + 1) ∧
    (CalcFaceExtents F st).lt_H = max 2 (⌈F.max_t / 16⌉ - ⌊F.min_t / 16⌋ + 1) ∧
    2 ≤ (CalcFaceExtents F st).lt_W ∧ 2 ≤ (CalcFaceExtents F st).lt_H ∧
    ∃ st5 out, QCOM_LightFace env qk_all_lights F st = some (st5, out) ∧
      out.state.width = max 2 (⌈F.max_s / 16⌉ - ⌊F.min_s / 16⌋ + 1) ∧
      out.state.height = max 2 (⌈F.max_t / 16⌉ - ⌊F.min_t / 16⌋ + 1) ∧
      2 ≤ out.state.width ∧ 2 ≤ out.state.height := by
  refine ⟨rfl, rfl, rfl, rfl, le_max_left _ _, le_max_left _ _, ?_⟩
  obtain ⟨b, -, hrun⟩ := QCOM_LightFace_eq env qk_all_lights F st
  refine ⟨_, _, hrun, ?_⟩
  obtain ⟨h1, h2, -⟩ := qLightmap_c.Store_hasShape env.roundFloat
    (CalcFaceVectors env F st).qk_lighting_quality
    (CalcPoints (CalcFaceExtents F (CalcFaceVectors env F st))).lt_W b
    (BSP_NewLightmap env.uninit (CalcFaceExtents F (CalcFaceVectors env F st)).lt_W
      (CalcFaceExtents F (CalcFaceVectors env F st)).lt_H) _ _
    (BSP_NewLightmap_hasShape _ _ _)
  rw [h1, h2]
  exact ⟨rfl, rfl, le_max_left _ _, le_max_left _ _⟩

theorem cellIncrement_sun (env : LightEnv) (light : quake_light_t) (st : LightState) (s t : Int)
    (hsun : light.kind = LTK_Sun)
    (hskip : ¬ (st.qk_lighting_quality = 1 ∧
      (IS_INTERP s st.lt_W || IS_INTERP t st.lt_W) = true))
    (hray : env.QCOM_TraceRay (st.lt_points (t * st.lt_W + s)).x
      (st.lt_points (t * st.lt_W + s)).y (st.lt_points (t * st.lt_W + s)).z
      light.x light.y light.z = true) :
    cellIncrement env light st s t = light.level := by
  unfold cellIncrement
  simp only [if_neg hskip, hray, not_true_eq_false, if_false, if_pos hsun]

theorem cellIncrement_of_skipped (env : LightEnv) (light : quake_light_t) (st : LightState)
    (s t : Int)
    (h : ¬ (¬ (st.qk_lighting_quality = 1 ∧
        (IS_INTERP s st.lt_W || IS_INTERP t st.lt_W) = true) ∧
      env.QCOM_TraceRay (st.lt_points (t * st.lt_W + s)).x
        (st.lt_points (t * st.lt_W + s)).y (st.lt_points (t * st.lt_W + s)).z
        light.x light.y light.z = true)) :
    cellIncrement env light st s t = 0 := by
  unfold cellIncrement
  by_cases h1 : st.qk_lighting_quality = 1 ∧
      (IS_INTERP s st.lt_W || IS_INTERP t st.lt_W) = true
  · simp only [if_pos h1]
  · have h2 : ¬ (env.QCOM_TraceRay (st.lt_points (t * st.lt_W + s)).x
        (st.lt_points (t * st.lt_W + s)).y (st.lt_points (t * st.lt_W + s)).z
        light.x light.y light.z = true) := fun hr => h ⟨h1, hr⟩
    simp only [if_neg h1, if_pos h2]

/-- The double sum of `QCOM_ProcessLight_eq` at the index of an evaluated cell
is the increment of that cell. -/
theorem cellSum_at (W : Int) (inc : Int → Int → Int) (ss ts : List Int)
    (hss : ss.Pairwise (· < ·)) (hts : ts.Pairwise (· < ·))
    (hrange : ∀ s ∈ ss, 0 ≤ s ∧ s < W) (s0 t0 : Int) (hs0 : s0 ∈ ss) (ht0 : t0 ∈ ts) :
    (ts.map fun t => (ss.map fun s =>
      if t * W + s = t0 * W + s0 then inc s t else 0).sum).sum = inc s0 t0 := by
  have hnds : ss.Nodup := hss.imp (fun h => ne_of_lt h)
  have hndt : ts.Nodup := hts.imp (fun h => ne_of_lt h)
  rw [sum_map_single ts _ t0 hndt ht0]
  · rw [sum_map_single ss _ s0 hnds hs0]
    · simp
    · intro s hs hne
      have : ¬ (t0 * W + s = t0 * W + s0) := fun h => hne (by omega)
      simp only [if_neg this]
  · intro t _ hne
    apply sum_map_zero
    intro s hs
    have : ¬ (t * W + s = t0 * W + s0) := by
      intro h
      obtain ⟨a1, a2⟩ := hrange s hs
      obtain ⟨b1, b2⟩ := hrange s0 hs0
      exact hne (cellIndex_inj W s t s0 t0 a1 a2 b1 b2 h).2
    simp only [if_neg this]

/-- C12: `QCOM_ProcessLight` returns the state as it was for a light whose signed
perpendicular distance to the face plane is at most 0, and for a light that is
not a sun whose perpendicular distance exceeds its radius. For a sun in front of
the plane, whatever its radius, on a grid of at least 2 x 2 cells, both loops
end; they visit the cells `(s, t)` with `s` and `t` multiples of the steps, and
every visited cell that is not skipped by the "fast" rule and whose ray test
succeeds has the full level of the sun added to its entry of `blocklights`,
while the entries of no such cell, and all other variables, stay as they
were. -/
theorem QCOM_ProcessLight_rejects_or_adds (env : LightEnv) (light : quake_light_t)
    (st : LightState) :
    (lightPerp st light ≤ 0 → QCOM_ProcessLight env light st = some st) ∧
    (light.kind ≠ LTK_Sun → lightPerp st light > light.radius →
      QCOM_ProcessLight env light st = some st) ∧
    (light.kind = LTK_Sun → 0 < lightPerp st light → 2 ≤ st.lt_W → 2 ≤ st.lt_H →
      ∃ ss ts b,
        steppedRange st.lt_W (if st.qk_lighting_quality = 0 then st.lt_W - 1 else 1) = some ss ∧
        steppedRange st.lt_H (if st.qk_lighting_quality = 0 then st.lt_H - 1 else 1) = some ts ∧
        (∀ s, s ∈ ss ↔ (0 ≤ s ∧ s < st.lt_W ∧
          (if st.qk_lighting_quality = 0 then st.lt_W - 1 else 1) ∣ s)) ∧
        (∀ t, t ∈ ts ↔ (0 ≤ t ∧ t < st.lt_H ∧
          (if st.qk_lighting_quality = 0 then st.lt_H - 1 else 1) ∣ t)) ∧
        QCOM_ProcessLight env light st = some { st with blocklights := b } ∧
        (∀ s t, s ∈ ss → t ∈ ts →
          ¬ (st.qk_lighting_quality = 1 ∧
            (IS_INTERP s st.lt_W || IS_INTERP t st.lt_W) = true) →
          env.QCOM_TraceRay (st.lt_points (t * st.lt_W + s)).x
            (st.lt_points (t * st.lt_W + s)).y (st.lt_points (t * st.lt_W + s)).z
            light.x light.y light.z = true →
          b (t * st.lt_W + s) = st.blocklights (t * st.lt_W + s) + light.level) ∧
        (∀ k,
          (∀ s t, s ∈ ss → t ∈ ts →
            ¬ (st.qk_lighting_quality = 1 ∧
              (IS_INTERP s st.lt_W || IS_INTERP t st.lt_W) = true) →
            env.QCOM_TraceRay (st.lt_points (t * st.lt_W + s)).x
              (st.lt_points (t * st.lt_W + s)).y (st.lt_points (t * st.lt_W + s)).z
              light.x light.y light.z = true →
            k ≠ t * st.lt_W + s) →
          b k = st.blocklights k)) := by
  refine ⟨?_, ?_, ?_⟩
  · intro h
    unfold QCOM_ProcessLight
    rw [if_pos h]
  · intro hk hr
    unfold QCOM_ProcessLight
    by_cases h : lightPerp st light ≤ 0
    · rw [if_pos h]
    · rw [if_neg h, if_pos ⟨hk, hr⟩]
  · intro hsun hperp hW hH
    obtain ⟨ss, hss, hssp, hssm⟩ := steppedRange_spec st.lt_W
      (if st.qk_lighting_quality = 0 then st.lt_W - 1 else 1) (by split_ifs <;> omega)
    obtain ⟨ts, hts, htsp, htsm⟩ := steppedRange_spec st.lt_H
      (if st.qk_lighting_quality = 0 then st.lt_H - 1 else 1) (by split_ifs <;> omega)
    refine ⟨ss, ts, _, hss, hts, hssm, htsm,
      QCOM_ProcessLight_eq env light st ss ts hperp (Or.inl hsun) hss hts, ?_, ?_⟩
    · intro s t hs ht hskip hray
      show st.blocklights _ + _ = _
      rw [cellSum_at st.lt_W (cellIncrement env light st) ss ts hssp htsp
        (fun x hx => ⟨((hssm x).1 hx).1, ((hssm x).1 hx).2.1⟩) s t hs ht,
        cellIncrement_sun env light st s t hsun hskip hray]
    · intro k hk
      show st.blocklights _ + _ = _
      have : (ts.map fun t => (ss.map fun s =>
          if t * st.lt_W + s = k then cellIncrement env light st s t else 0).sum).sum = 0 := by
        apply sum_map_zero
        intro t ht
        apply sum_map_zero
        intro s hs
        by_cases hidx : t * st.lt_W + s = k
        · rw [if_pos hidx]
          apply cellIncrement_of_skipped
          rintro ⟨h1, h2⟩
          exact hk s t hs ht h1 h2 hidx.symm
        · rw [if_neg hidx]
      rw [this, add_zero]

theorem QCOM_ProcessLight_rejects_or_adds_witness :
    QCOM_ProcessLight openEnv lampBelow (gridState 2) = some (gridState 2) ∧
    ∃ b, QCOM_ProcessLight openEnv sunLight (gridState 2)
        = some { gridState 2 with blocklights := b } ∧
      b 0 = 5120 + 25600 ∧ b 3 = 5120 + 25600 ∧ b 4 = 5120 := by
  have h := QCOM_ProcessLight_rejects_or_adds openEnv
  refine ⟨(h lampBelow (gridState 2)).1 (by norm_num [lightPerp, gridState, LightState.start, lampBelow]), ?_⟩
  obtain ⟨ss, ts, b, -, -, hs, ht, hb, hcell, hother⟩ :=
    (h sunLight (gridState 2)).2.2 rfl (by norm_num [lightPerp, gridState, LightState.start, sunLight])
      (by decide) (by decide)
  have h0s : (0 : Int) ∈ ss := (hs 0).2 (by decide)
  have h1s : (1 : Int) ∈ ss := (hs 1).2 (by decide)
  have h0t : (0 : Int) ∈ ts := (ht 0).2 (by decide)
  have h1t : (1 : Int) ∈ ts := (ht 1).2 (by decide)
  refine ⟨b, hb, hcell 0 0 h0s h0t (by decide) rfl, hcell 1 1 h1s h1t (by decide) rfl, ?_⟩
  refine (hother 4 ?_).trans rfl
  intro s t hs1 ht1 _ _
  have a := (hs s).1 hs1
  have c := (ht t).1 ht1
  have a2 : s < 2 := a.2.1
  have c2 : t < 2 := c.2.1
  have e : (gridState 2).lt_W = 2 := rfl
  rw [e]
  omega

/-! ## Rounding to binary32 -/

theorem roundHalfEven_of_lt (x : ℚ) (n : Int) (h1 : (n : ℚ) ≤ x) (h2 : x < n + 1 / 2) :
    roundHalfEven x = n := by
  have hf : ⌊x⌋ = n := Int.floor_eq_iff.2 ⟨h1, by linarith⟩
  unfold roundHalfEven
  rw [hf, if_pos (by linarith)]

theorem roundHalfEven_of_gt (x : ℚ) (n : Int) (h1 : (n : ℚ) + 1 / 2 < x) (h2 : x < n + 1) :
    roundHalfEven x = n + 1 := by
  have hf : ⌊x⌋ = n := Int.floor_eq_iff.2 ⟨by linarith, h2⟩
  unfold roundHalfEven
  rw [hf, if_neg (by linarith), if_pos (by linarith)]

/-- The value of `roundBinary32` at `x`, from the binade of `x` and the rounded
significand. -/
theorem roundBinary32_eq (x : ℚ) (e m : Int) (hx : x ≠ 0) (hlo : (2 : ℚ) ^ e ≤ |x|)
    (hhi : |x| < (2 : ℚ) ^ (e + 1)) (hm : roundHalfEven (x / 2 ^ (e - 23)) = m) :
    roundBinary32 x = (m : ℚ) * 2 ^ (e - 23) := by
  have hpos : 0 < |x| := abs_pos.2 hx
  have hlog : Int.log 2 |x| = e := by
    apply le_antisymm
    · have := (Int.lt_zpow_iff_log_lt (by norm_num : 1 < 2) hpos).1 (by exact_mod_cast hhi)
      omega
    · exact (Int.zpow_le_iff_le_log (by norm_num : 1 < 2) hpos).1 (by exact_mod_cast hlo)
  unfold roundBinary32
  rw [if_neg hx, hlog, hm]

/-- A value that binary32 holds exactly: an integer significand below `2 ^ 24`
in its binade. -/
theorem roundBinary32_exact (x : ℚ) (e m : Int) (hx : x ≠ 0) (hlo : (2 : ℚ) ^ e ≤ |x|)
    (hhi : |x| < (2 : ℚ) ^ (e + 1)) (hm : x / 2 ^ (e - 23) = (m : ℚ)) :
    roundBinary32 x = x := by
  rw [roundBinary32_eq x e m hx hlo hhi
    (by rw [hm]; exact roundHalfEven_of_lt _ m (le_refl _) (by norm_num))]
  rw [← hm]
  have : (2 : ℚ) ^ (e - 23) ≠ 0 := zpow_ne_zero _ (by norm_num)
  field_simp

/-- Under binary32 rounding the blend of four corners at 5120 (light level 20)
comes out below 5120 at cell (1, 1) of a 3 x 7 grid. -/
theorem bilinearValue_binary32_example :
    bilinearValue roundBinary32 3 7 5120 5120 5120 5120 1 1 = 10485759 / 2048 := by
  have e1 : roundBinary32 1 = 1 :=
    roundBinary32_exact 1 0 8388608 (by norm_num) (by norm_num) (by norm_num) (by norm_num)
  have e2 : roundBinary32 (3 - 1) = 2 := by
    rw [show (3 : ℚ) - 1 = 2 by norm_num]
    exact roundBinary32_exact 2 1 8388608 (by norm_num) (by norm_num) (by norm_num) (by norm_num)
  have e3 : roundBinary32 (7 - 1) = 6 := by
    rw [show (7 : ℚ) - 1 = 6 by norm_num]
    exact roundBinary32_exact 6 2 12582912 (by norm_num) (by norm_num) (by norm_num)
      (by norm_num)
  have e4 : roundBinary32 (1 / 2) = 1 / 2 :=
    roundBinary32_exact (1 / 2) (-1) 8388608 (by norm_num) (by norm_num [abs_of_pos])
      (by norm_num [abs_of_pos]) (by norm_num)
  have e5 : roundBinary32 (1 / 6) = 11184811 / 67108864 := by
    rw [roundBinary32_eq (1 / 6) (-3) 11184811 (by norm_num) (by norm_num [abs_of_pos])
      (by norm_num [abs_of_pos]) (roundHalfEven_of_gt _ 11184810 (by norm_num) (by norm_num))]
    norm_num
  have e6 : roundBinary32 5120 = 5120 :=
    roundBinary32_exact 5120 12 10485760 (by norm_num) (by norm_num) (by norm_num)
      (by norm_num)
  have e7 : roundBinary32 (1 - 1 / 2) = 1 / 2 := by
    rw [show (1 : ℚ) - 1 / 2 = 1 / 2 by norm_num]
    exact e4
  have e8 : roundBinary32 (1 - 11184811 / 67108864) = 13981013 / 16777216 := by
    rw [roundBinary32_eq (1 - 11184811 / 67108864) (-1) 13981013 (by norm_num)
      (by norm_num [abs_of_pos]) (by norm_num [abs_of_pos])
      (roundHalfEven_of_lt _ 13981013 (by norm_num) (by norm_num))]
    norm_num
  have e9 : roundBinary32 (5120 * (1 / 2)) = 2560 := by
    rw [show (5120 : ℚ) * (1 / 2) = 2560 by norm_num]
    exact roundBinary32_exact 2560 11 10485760 (by norm_num) (by norm_num) (by norm_num)
      (by norm_num)
  have e10 : roundBinary32 (2560 * (13981013 / 16777216)) = 8738133 / 4096 := by
    rw [roundBinary32_eq (2560 * (13981013 / 16777216)) 11 8738133 (by norm_num)
      (by norm_num [abs_of_pos]) (by norm_num [abs_of_pos])
      (roundHalfEven_of_lt _ 8738133 (by norm_num) (by norm_num))]
    norm_num
  have e11 : roundBinary32 (2560 * (11184811 / 67108864)) = 6990507 / 16384 := by
    rw [roundBinary32_eq (2560 * (11184811 / 67108864)) 8 13981014 (by norm_num)
      (by norm_num [abs_of_pos]) (by norm_num [abs_of_pos])
      (roundHalfEven_of_gt _ 13981013 (by norm_num) (by norm_num))]
    norm_num
  have e12 : roundBinary32 (8738133 / 4096 + 8738133 / 4096) = 8738133 / 2048 := by
    rw [show (8738133 : ℚ) / 4096 + 8738133 / 4096 = 8738133 / 2048 by norm_num]
    exact roundBinary32_exact (8738133 / 2048) 12 8738133 (by norm_num)
      (by norm_num [abs_of_pos]) (by norm_num [abs_of_pos]) (by norm_num)
  have e13 : roundBinary32 (8738133 / 2048 + 6990507 / 16384) = 4805973 / 1024 := by
    rw [roundBinary32_eq (8738133 / 2048 + 6990507 / 16384) 12 9611946 (by norm_num)
      (by norm_num [abs_of_pos]) (by norm_num [abs_of_pos])
      (roundHalfEven_of_lt _ 9611946 (by norm_num) (by norm_num))]
    norm_num
  have e14 : roundBinary32 (4805973 / 1024 + 6990507 / 16384) = 10485759 / 2048 := by
    rw [roundBinary32_eq (4805973 / 1024 + 6990507 / 16384) 12 10485759 (by norm_num)
      (by norm_num [abs_of_pos]) (by norm_num [abs_of_pos])
      (roundHalfEven_of_lt _ 10485759 (by norm_num) (by norm_num))]
    norm_num
  simp only [bilinearValue, Int.cast_one, Int.cast_ofNat, Int.cast_sub, e1, e2, e3, e4, e5, e6,
    e7, e8, e9, e10, e11, e12, e13, e14]

/-! ## The filters of `Store` -/

/-- Two nested loops that `Set` every cell `(s, t)` to `f s t`: afterwards every
cell holds the stored form of its value. -/
theorem setGrid_sampleAt (f : Int → Int → Int) (L : qLightmap_c) (W H : Int)
    (h : L.hasShape W H) :
    (forRange H (fun t La => forRange W (fun s Lb => Lb.Set s t (f s t)) La) L).hasShape W H ∧
    ∀ s t, 0 ≤ s → s < W → 0 ≤ t → t < H →
      (forRange H (fun t La => forRange W (fun s Lb => Lb.Set s t (f s t)) La) L).sampleAt
        (t * W + s) = storedByte (f s t) := by
  have key := forRange_grid (fun r : qLightmap_c => r.hasShape W H)
    (fun r k => if 0 ≤ k then r.sampleAt k else 0) W H
    (fun t La => forRange W (fun s Lb => Lb.Set s t (f s t)) La)
    (fun s t Lb => Lb.Set s t (f s t)) (fun s t => storedByte (f s t))
    (fun _ _ _ => rfl)
    (fun s t acc _ _ _ _ hacc => qLightmap_c.Set_hasShape _ _ _ _ _ _ hacc)
    (by
      intro s t acc h1 h2 h3 h4 hacc
      obtain ⟨c1, c2⟩ := cellIndex_lt W H s t h1 h2 h3 h4
      simp only [if_pos c1]
      exact qLightmap_c.sampleAt_Set_self acc W H s t _ hacc h1 h2 h3 h4)
    (by
      intro s t acc k h1 h2 h3 h4 hacc hk
      obtain ⟨c1, c2⟩ := cellIndex_lt W H s t h1 h2 h3 h4
      by_cases hk0 : 0 ≤ k
      · simp only [if_pos hk0]
        have hw : acc.width = W := hacc.1
        exact qLightmap_c.sampleAt_Set_other acc s t _ k hk0 (by rw [hw]; exact c1)
          (by rw [hw]; exact hk)
      · simp only [if_neg hk0])
    L h
  refine ⟨key.1, ?_⟩
  intro s t h1 h2 h3 h4
  have := key.2.1 s t h1 h2 h3 h4
  obtain ⟨c1, c2⟩ := cellIndex_lt W H s t h1 h2 h3 h4
  simpa only [if_pos c1] using this

/-- What `Store_Fastest` leaves in each cell. -/
theorem qLightmap_c.Store_Fastest_sampleAt (rnd : ℚ → ℚ) (b : Int → Int) (L : qLightmap_c)
    (h : L.hasShape L.width L.height) (s t : Int) (hs : 0 ≤ s) (hsW : s < L.width)
    (ht : 0 ≤ t) (htH : t < L.height) :
    (L.Store_Fastest rnd b).sampleAt (t * L.width + s)
      = storedByte (truncToInt (bilinearValue rnd L.width L.height (b 0) (b (L.width - 1))
          (b ((L.height - 1) * L.width)) (b ((L.height - 1) * L.width + L.width - 1)) s t)) :=
  (setGrid_sampleAt
    (fun s t => truncToInt (bilinearValue rnd L.width L.height (b 0) (b (L.width - 1))
      (b ((L.height - 1) * L.width)) (b ((L.height - 1) * L.width + L.width - 1)) s t))
    L L.width L.height h).2 s t hs hsW ht htH

/-- What `Store_Best` leaves in each cell. -/
theorem qLightmap_c.Store_Best_sampleAt (lt_W : Int) (b : Int → Int) (L : qLightmap_c)
    (h : L.hasShape L.width L.height) (s t : Int) (hs : 0 ≤ s) (hsW : s < L.width)
    (ht : 0 ≤ t) (htH : t < L.height) :
    (L.Store_Best lt_W b).sampleAt (t * L.width + s)
      = storedByte ((b ((t * 2 + 0) * lt_W + (s * 2 + 0)) + b ((t * 2 + 0) * lt_W + (s * 2 + 1))
          + b ((t * 2 + 1) * lt_W + (s * 2 + 0)) + b ((t * 2 + 1) * lt_W + (s * 2 + 1))) >>> 2) :=
  (setGrid_sampleAt
    (fun s t => (b ((t * 2 + 0) * lt_W + (s * 2 + 0)) + b ((t * 2 + 0) * lt_W + (s * 2 + 1))
          + b ((t * 2 + 1) * lt_W + (s * 2 + 0)) + b ((t * 2 + 1) * lt_W + (s * 2 + 1))) >>> 2)
    L L.width L.height h).2 s t hs hsW ht htH

theorem truncToInt_intCast (n : Int) : truncToInt (n : ℚ) = n := by
  unfold truncToInt
  split_ifs <;> simp

theorem bilinearValue_exact_uniform (W H V s t : Int) :
    bilinearValue id W H V V V V s t = V := by
  simp only [bilinearValue, id]
  ring

/-- The shift `m >> n` of a signed integer is the floor of `m / 2 ^ n`. -/
theorem shiftRight_eq_ediv (m : Int) (n : Nat) : m >>> (n : Int) = m / 2 ^ n := by
  cases m with
  | ofNat a =>
    rw [Int.ofNat_eq_coe, Int.shiftRight_coe_nat, Nat.shiftRight_eq_div_pow]
    push_cast
    rfl
  | negSucc a =>
    rw [Int.shiftRight_negSucc, Nat.shiftRight_eq_div_pow,
      Int.negSucc_ediv a (by positivity : (0 : Int) < 2 ^ n)]
    rw [Int.negSucc_eq]
    push_cast
    rfl

theorem shiftRight_double (V : Int) : (V + V) >>> 1 = V := by
  have := shiftRight_eq_ediv (V + V) 1
  simp only [Nat.cast_one, pow_one] at this
  rw [this]
  omega

theorem shiftRight_quadruple (V : Int) : (V + V + V + V) >>> 2 = V := by
  have := shiftRight_eq_ediv (V + V + V + V) 2
  simp only [Nat.cast_ofNat] at this
  rw [this]
  omega

theorem shiftRight_8 (x : Int) : x >>> 8 = x / 256 := by
  have := shiftRight_eq_ediv x 8
  simp only [Nat.cast_ofNat] at this
  rw [this]
  norm_num

theorem storedByte_mono (a b : Int) (h : a ≤ b) : storedByte a ≤ storedByte b := by
  unfold storedByte
  rw [shiftRight_8, shiftRight_8]
  have h1 : a / 256 ≤ b / 256 := Int.ediv_le_ediv (by norm_num) h
  have c1 := CLAMP_range (a / 256)
  have c2 := CLAMP_range (b / 256)
  have : CLAMP 0 (a / 256) 255 ≤ CLAMP 0 (b / 256) 255 := by
    unfold CLAMP
    split_ifs <;> omega
  omega

/-- The byte stored for a value between `20 << 8` and `21 << 8`. -/
theorem storedByte_low (a : Int) (h1 : 5120 ≤ a) (h2 : a < 5376) : storedByte a = 20 := by
  unfold storedByte
  rw [shiftRight_8]
  have : a / 256 = 20 := by omega
  rw [this]
  decide

/-- What `Store_Normal` leaves in each sample. -/
theorem qLightmap_c.Store_Normal_sampleAt (b : Int → Int) (L : qLightmap_c) (W H : Int)
    (h : L.hasShape W H) (k : Int) (hk : 0 ≤ k) (hkn : k < W * H) :
    (L.Store_Normal b).sampleAt k = storedByte (b k) := by
  unfold qLightmap_c.Store_Normal
  obtain ⟨h1, h2, h3⟩ := h
  rw [h1, h2]
  have hbyte : ∀ x : Int, (if (if x >>> 8 < 0 then (0 : Int) else x >>> 8) > 255 then (255 : Int)
      else (if x >>> 8 < 0 then (0 : Int) else x >>> 8)).toNat = storedByte x := by
    intro x
    unfold storedByte CLAMP
    split_ifs <;> first | rfl | omega
  have key := forRange_induction_idx
    (fun n (r : qLightmap_c) => r.samples.length = (W * H).toNat ∧
      ∀ j, 0 ≤ j → j < n → r.sampleAt j = storedByte (b j))
    (W * H)
    (fun k L1 =>
      let raw := b k >>> 8
      let raw1 := if raw < 0 then 0 else raw
      let raw2 := if raw1 > 255 then 255 else raw1
      { L1 with samples := L1.samples.set k.toNat raw2.toNat })
    L (by omega) ⟨h3, fun j a c => by omega⟩
    (by
      rintro i r hi0 hin ⟨hr1, hr2⟩
      refine ⟨by simp [hr1], ?_⟩
      intro j hj0 hji
      simp only [qLightmap_c.sampleAt, List.getD_eq_getElem?_getD, List.getElem?_set]
      by_cases hj : j = i
      · subst hj
        have : j.toNat < r.samples.length := by rw [hr1]; omega
        simp only [if_true, this, Option.getD_some]
        exact hbyte (b j)
      · have : ¬ (i.toNat = j.toNat) := by omega
        simp only [if_neg this]
        have := hr2 j hj0 (by omega)
        simpa only [qLightmap_c.sampleAt, List.getD_eq_getElem?_getD] using this)
  exact key.2 k hk hkn

/-- A nest of two loops whose every round is a `Set` of a cell to a value stored
as `v`: samples holding `v` keep it, and a cell some round sets holds `v`
afterwards. -/
theorem nest_uniform (W H n m : Int) (v : Nat)
    (body : Int → Int → qLightmap_c → qLightmap_c)
    (hbody : ∀ s t r, 0 ≤ s → s < m → 0 ≤ t → t < n → r.hasShape W H →
      ∃ s2 t2 raw, 0 ≤ s2 ∧ s2 < W ∧ 0 ≤ t2 ∧ t2 < H ∧ storedByte raw = v ∧
        body s t r = r.Set s2 t2 raw)
    (L0 : qLightmap_c) (h0 : L0.hasShape W H) :
    (forRange n (fun t La => forRange m (fun s Lb => body s t Lb) La) L0).hasShape W H ∧
    (∀ k, 0 ≤ k → L0.sampleAt k = v →
      (forRange n (fun t La => forRange m (fun s Lb => body s t Lb) La) L0).sampleAt k = v) ∧
    (∀ s0 t0 s2 t2, 0 ≤ s0 → s0 < m → 0 ≤ t0 → t0 < n →
      0 ≤ s2 → s2 < W → 0 ≤ t2 → t2 < H →
      (∀ r, r.hasShape W H → ∃ raw, storedByte raw = v ∧ body s0 t0 r = r.Set s2 t2 raw) →
      (forRange n (fun t La => forRange m (fun s Lb => body s t Lb) La) L0).sampleAt
        (t2 * W + s2) = v) := by
  have hI : ∀ s t r, 0 ≤ s → s < m → 0 ≤ t → t < n → r.hasShape W H →
      (body s t r).hasShape W H := by
    intro s t r a1 a2 a3 a4 hr
    obtain ⟨s2, t2, raw, -, -, -, -, -, e⟩ := hbody s t r a1 a2 a3 a4 hr
    rw [e]
    exact qLightmap_c.Set_hasShape _ _ _ _ _ _ hr
  have hkeep : ∀ k, 0 ≤ k → ∀ s t r, 0 ≤ s → s < m → 0 ≤ t → t < n → r.hasShape W H →
      r.sampleAt k = v → (body s t r).sampleAt k = v := by
    intro k hk s t r a1 a2 a3 a4 hr hrk
    obtain ⟨s2, t2, raw, c1, c2, c3, c4, c5, e⟩ := hbody s t r a1 a2 a3 a4 hr
    rw [e]
    by_cases hidx : k = t2 * W + s2
    · rw [hidx, qLightmap_c.sampleAt_Set_self r W H s2 t2 raw hr c1 c2 c3 c4, c5]
    · have hw : r.width = W := hr.1
      obtain ⟨d1, -⟩ := cellIndex_lt W H s2 t2 c1 c2 c3 c4
      rw [qLightmap_c.sampleAt_Set_other r s2 t2 raw k hk (by rw [hw]; exact d1)
        (by rw [hw]; exact hidx)]
      exact hrk
  have hrowI : ∀ t r, 0 ≤ t → t < n → r.hasShape W H →
      (forRange m (fun s Lb => body s t Lb) r).hasShape W H := by
    intro t r a3 a4 hr
    exact forRange_induction (fun x : qLightmap_c => x.hasShape W H) _ _ _ hr
      (fun s x a1 a2 hx => hI s t x a1 a2 a3 a4 hx)
  have hrowkeep : ∀ k, 0 ≤ k → ∀ t r, 0 ≤ t → t < n → r.hasShape W H → r.sampleAt k = v →
      (forRange m (fun s Lb => body s t Lb) r).sampleAt k = v := by
    intro k hk t r a3 a4 hr hrk
    exact (forRange_induction (fun x : qLightmap_c => x.hasShape W H ∧ x.sampleAt k = v)
      _ _ _ ⟨hr, hrk⟩
      (fun s x a1 a2 hx => ⟨hI s t x a1 a2 a3 a4 hx.1, hkeep k hk s t x a1 a2 a3 a4 hx.1 hx.2⟩)).2
  refine ⟨?_, ?_, ?_⟩
  · exact forRange_induction (fun x : qLightmap_c => x.hasShape W H) _ _ _ h0
      (fun t x a3 a4 hx => hrowI t x a3 a4 hx)
  · intro k hk h0k
    exact (forRange_induction (fun x : qLightmap_c => x.hasShape W H ∧ x.sampleAt k = v)
      _ _ _ ⟨h0, h0k⟩
      (fun t x a3 a4 hx => ⟨hrowI t x a3 a4 hx.1, hrowkeep k hk t x a3 a4 hx.1 hx.2⟩)).2
  · intro s0 t0 s2 t2 a1 a2 a3 a4 c1 c2 c3 c4 hset
    obtain ⟨d1, -⟩ := cellIndex_lt W H s2 t2 c1 c2 c3 c4
    refine forRange_hit (fun x : qLightmap_c => x.hasShape W H)
      (fun x : qLightmap_c => x.sampleAt (t2 * W + s2) = v) n t0 _ L0 a3 a4 h0
      (fun t x b3 b4 hx => hrowI t x b3 b4 hx)
      (fun t x b3 b4 hx hxk => hrowkeep _ d1 t x b3 b4 hx hxk) ?_
    intro acc hacc
    refine forRange_hit (fun x : qLightmap_c => x.hasShape W H)
      (fun x : qLightmap_c => x.sampleAt (t2 * W + s2) = v) m s0 _ acc a1 a2 hacc
      (fun s x b1 b2 hx => hI s t0 x b1 b2 a3 a4 hx)
      (fun s x b1 b2 hx hxk => hkeep _ d1 s t0 x b1 b2 a3 a4 hx hxk) ?_
    intro acc2 hacc2
    obtain ⟨raw, hraw, e⟩ := hset acc2 hacc2
    show (body s0 t0 acc2).sampleAt (t2 * W + s2) = v
    rw [e, qLightmap_c.sampleAt_Set_self acc2 W H s2 t2 raw hacc2 c1 c2 c3 c4, hraw]

/-- `Store_Interp` on a buffer that holds `V` wherever the filter reads it. -/
theorem qLightmap_c.Store_Interp_uniform (b : Int → Int) (V : Int) (L : qLightmap_c)
    (hW : 2 ≤ L.width) (hH : 2 ≤ L.height) (hL : L.hasShape L.width L.height)
    (hb : ∀ k, 0 ≤ k → k < (1 + Int.tdiv L.width 2) * (1 + Int.tdiv L.height 2) → b k = V) :
    (L.Store_Interp b).hasShape L.width L.height ∧
    ∀ s t, 0 ≤ s → s < L.width → 0 ≤ t → t < L.height →
      (L.Store_Interp b).sampleAt (t * L.width + s) = storedByte V := by
  generalize hWd : L.width = W at hW hL hb ⊢
  generalize hHd : L.height = H at hH hL hb ⊢
  have hiw : Int.tdiv W 2 = W / 2 := Int.tdiv_eq_ediv (by omega) (by norm_num)
  have hih : Int.tdiv H 2 = H / 2 := Int.tdiv_eq_ediv (by omega) (by norm_num)
  rw [hiw, hih] at hb
  have hval : ∀ s t, 0 ≤ s → s < 1 + W / 2 → 0 ≤ t → t < 1 + H / 2 →
      b (t * (1 + W / 2) + s) = V := by
    intro s t a1 a2 a3 a4
    obtain ⟨c1, c2⟩ := cellIndex_lt (1 + W / 2) (1 + H / 2) s t a1 a2 a3 a4
    exact hb _ c1 c2
  -- the four nests
  have e : L.Store_Interp b
      = forRange (H / 2) (fun t La => forRange (W / 2) (fun s Lb =>
          Lb.Set (s * 2 + 1) (t * 2 + 1)
            ((b (t * (1 + W / 2) + s) + b (t * (1 + W / 2) + s + 1)
              + b (t * (1 + W / 2) + (1 + W / 2) + s)
              + b (t * (1 + W / 2) + (1 + W / 2) + s + 1)) >>> 2)) La)
        (forRange (H / 2) (fun t La => forRange (1 + W / 2) (fun s Lb =>
          Lb.Set (min (s * 2) (Lb.width - 1)) (t * 2 + 1)
            ((b (t * (1 + W / 2) + s) + b (t * (1 + W / 2) + (1 + W / 2) + s)) >>> 1)) La)
        (forRange (1 + H / 2) (fun t La => forRange (W / 2) (fun s Lb =>
          Lb.Set (s * 2 + 1) (min (t * 2) (Lb.height - 1))
            ((b (t * (1 + W / 2) + s) + b (t * (1 + W / 2) + s + 1)) >>> 1)) La)
        (forRange (1 + H / 2) (fun t La => forRange (1 + W / 2) (fun s Lb =>
          Lb.Set (min (s * 2) (Lb.width - 1)) (min (t * 2) (Lb.height - 1))
            (b (t * (1 + W / 2) + s))) La) L))) := by
    unfold qLightmap_c.Store_Interp
    simp only [hWd, hHd, hiw, hih]
  rw [e]
  have n1 := nest_uniform W H (1 + H / 2) (1 + W / 2) (storedByte V)
    (fun s t Lb => Lb.Set (min (s * 2) (Lb.width - 1)) (min (t * 2) (Lb.height - 1))
      (b (t * (1 + W / 2) + s)))
    (by
      intro s t r a1 a2 a3 a4 hr
      refine ⟨min (s * 2) (W - 1), min (t * 2) (H - 1), b (t * (1 + W / 2) + s), by omega,
        by omega, by omega, by omega, by rw [hval s t a1 a2 a3 a4], ?_⟩
      simp only [hr.1, hr.2.1])
    L hL
  have n2 := nest_uniform W H (1 + H / 2) (W / 2) (storedByte V)
    (fun s t Lb => Lb.Set (s * 2 + 1) (min (t * 2) (Lb.height - 1))
      ((b (t * (1 + W / 2) + s) + b (t * (1 + W / 2) + s + 1)) >>> 1))
    (by
      intro s t r a1 a2 a3 a4 hr
      refine ⟨s * 2 + 1, min (t * 2) (H - 1),
        (b (t * (1 + W / 2) + s) + b (t * (1 + W / 2) + s + 1)) >>> 1, by omega, by omega,
        by omega, by omega, ?_, ?_⟩
      · have h2 := hval (s + 1) t (by omega) (by omega) a3 a4
        rw [show t * (1 + W / 2) + (s + 1) = t * (1 + W / 2) + s + 1 by ring] at h2
        rw [hval s t a1 (by omega) a3 a4, h2, shiftRight_double]
      · simp only [hr.2.1])
    _ n1.1
  have n3 := nest_uniform W H (H / 2) (1 + W / 2) (storedByte V)
    (fun s t Lb => Lb.Set (min (s * 2) (Lb.width - 1)) (t * 2 + 1)
      ((b (t * (1 + W / 2) + s) + b (t * (1 + W / 2) + (1 + W / 2) + s)) >>> 1))
    (by
      intro s t r a1 a2 a3 a4 hr
      refine ⟨min (s * 2) (W - 1), t * 2 + 1,
        (b (t * (1 + W / 2) + s) + b (t * (1 + W / 2) + (1 + W / 2) + s)) >>> 1, by omega,
        by omega, by omega, by omega, ?_, ?_⟩
      · have h2 := hval s (t + 1) a1 a2 (by omega) (by omega)
        rw [show (t + 1) * (1 + W / 2) + s = t * (1 + W / 2) + (1 + W / 2) + s by ring] at h2
        rw [hval s t a1 a2 a3 (by omega), h2, shiftRight_double]
      · simp only [hr.1])
    _ n2.1
  have n4 := nest_uniform W H (H / 2) (W / 2) (storedByte V)
    (fun s t Lb => Lb.Set (s * 2 + 1) (t * 2 + 1)
      ((b (t * (1 + W / 2) + s) + b (t * (1 + W / 2) + s + 1)
        + b (t * (1 + W / 2) + (1 + W / 2) + s)
        + b (t * (1 + W / 2) + (1 + W / 2) + s + 1)) >>> 2))
    (by
      intro s t r a1 a2 a3 a4 hr
      refine ⟨s * 2 + 1, t * 2 + 1,
        (b (t * (1 + W / 2) + s) + b (t * (1 + W / 2) + s + 1)
          + b (t * (1 + W / 2) + (1 + W / 2) + s)
          + b (t * (1 + W / 2) + (1 + W / 2) + s + 1)) >>> 2,
        by omega, by omega, by omega, by omega, ?_, rfl⟩
      have h1 := hval s t a1 (by omega) a3 (by omega)
      have h2 := hval (s + 1) t (by omega) (by omega) a3 (by omega)
      have h3 := hval s (t + 1) a1 (by omega) (by omega) (by omega)
      have h4 := hval (s + 1) (t + 1) (by omega) (by omega) (by omega) (by omega)
      rw [show t * (1 + W / 2) + (s + 1) = t * (1 + W / 2) + s + 1 by ring] at h2
      rw [show (t + 1) * (1 + W / 2) + s = t * (1 + W / 2) + (1 + W / 2) + s by ring] at h3
      rw [show (t + 1) * (1 + W / 2) + (s + 1) = t * (1 + W / 2) + (1 + W / 2) + s + 1
        by ring] at h4
      rw [h1, h2, h3, h4, shiftRight_quadruple])
    _ n3.1
  refine ⟨n4.1, ?_⟩
  intro s t hs hsW ht htH
  obtain ⟨c1, -⟩ := cellIndex_lt W H s t hs hsW ht htH
  rcases Int.emod_two_eq_zero_or_one s with hse | hso <;>
    rcases Int.emod_two_eq_zero_or_one t with hte | hto
  · -- both even: the first nest
    refine n4.2.1 _ c1 (n3.2.1 _ c1 (n2.2.1 _ c1 ?_))
    refine n1.2.2 (s / 2) (t / 2) s t (by omega) (by omega) (by omega) (by omega)
      hs hsW ht htH ?_
    intro r hr
    refine ⟨b (t / 2 * (1 + W / 2) + s / 2),
      by rw [hval (s / 2) (t / 2) (by omega) (by omega) (by omega) (by omega)], ?_⟩
    simp only [hr.1, hr.2.1]
    rw [show min (s / 2 * 2) (W - 1) = s by omega, show min (t / 2 * 2) (H - 1) = t by omega]
  · -- odd row, even column: the third nest
    refine n4.2.1 _ c1 ?_
    refine n3.2.2 (s / 2) (t / 2) s t (by omega) (by omega) (by omega) (by omega)
      hs hsW ht htH ?_
    intro r hr
    refine ⟨(b (t / 2 * (1 + W / 2) + s / 2)
            + b (t / 2 * (1 + W / 2) + (1 + W / 2) + s / 2)) >>> 1, ?_, ?_⟩
    · have h2 := hval (s / 2) (t / 2 + 1) (by omega) (by omega) (by omega) (by omega)
      rw [show (t / 2 + 1) * (1 + W / 2) + s / 2
        = t / 2 * (1 + W / 2) + (1 + W / 2) + s / 2 by ring] at h2
      rw [hval (s / 2) (t / 2) (by omega) (by omega) (by omega) (by omega), h2,
        shiftRight_double]
    · simp only [hr.1]
      rw [show min (s / 2 * 2) (W - 1) = s by omega, show t / 2 * 2 + 1 = t by omega]
  · -- even row, odd column: the second nest
    refine n4.2.1 _ c1 (n3.2.1 _ c1 ?_)
    refine n2.2.2 (s / 2) (t / 2) s t (by omega) (by omega) (by omega) (by omega)
      hs hsW ht htH ?_
    intro r hr
    refine ⟨(b (t / 2 * (1 + W / 2) + s / 2) + b (t / 2 * (1 + W / 2) + s / 2 + 1)) >>> 1,
      ?_, ?_⟩
    · have h2 := hval (s / 2 + 1) (t / 2) (by omega) (by omega) (by omega) (by omega)
      rw [show t / 2 * (1 + W / 2) + (s / 2 + 1) = t / 2 * (1 + W / 2) + s / 2 + 1
        by ring] at h2
      rw [hval (s / 2) (t / 2) (by omega) (by omega) (by omega) (by omega), h2,
        shiftRight_double]
    · simp only [hr.2.1]
      rw [show s / 2 * 2 + 1 = s by omega, show min (t / 2 * 2) (H - 1) = t by omega]
  · -- both odd: the fourth nest
    refine n4.2.2 (s / 2) (t / 2) s t (by omega) (by omega) (by omega) (by omega)
      hs hsW ht htH ?_
    intro r hr
    refine ⟨(b (t / 2 * (1 + W / 2) + s / 2) + b (t / 2 * (1 + W / 2) + s / 2 + 1)
        + b (t / 2 * (1 + W / 2) + (1 + W / 2) + s / 2)
        + b (t / 2 * (1 + W / 2) + (1 + W / 2) + s / 2 + 1)) >>> 2, ?_, ?_⟩
    · have h1 := hval (s / 2) (t / 2) (by omega) (by omega) (by omega) (by omega)
      have h2 := hval (s / 2 + 1) (t / 2) (by omega) (by omega) (by omega) (by omega)
      have h3 := hval (s / 2) (t / 2 + 1) (by omega) (by omega) (by omega) (by omega)
      have h4 := hval (s / 2 + 1) (t / 2 + 1) (by omega) (by omega) (by omega) (by omega)
      rw [show t / 2 * (1 + W / 2) + (s / 2 + 1) = t / 2 * (1 + W / 2) + s / 2 + 1
        by ring] at h2
      rw [show (t / 2 + 1) * (1 + W / 2) + s / 2
        = t / 2 * (1 + W / 2) + (1 + W / 2) + s / 2 by ring] at h3
      rw [show (t / 2 + 1) * (1 + W / 2) + (s / 2 + 1)
        = t / 2 * (1 + W / 2) + (1 + W / 2) + s / 2 + 1 by ring] at h4
      rw [h1, h2, h3, h4, shiftRight_quadruple]
    · beta_reduce
      rw [show s / 2 * 2 + 1 = s by omega, show t / 2 * 2 + 1 = t by omega]

/-- `Store_Best` on a buffer that holds `V` wherever the filter reads it. -/
theorem qLightmap_c.Store_Best_uniform (b : Int → Int) (V : Int) (L : qLightmap_c)
    (hL : L.hasShape L.width L.height)
    (hb : ∀ k, 0 ≤ k → k < (2 * L.width) * (2 * L.height) → b k = V) :
    ∀ s t, 0 ≤ s → s < L.width → 0 ≤ t → t < L.height →
      (L.Store_Best (2 * L.width) b).sampleAt (t * L.width + s) = storedByte V := by
  intro s t hs hsW ht htH
  rw [qLightmap_c.Store_Best_sampleAt (2 * L.width) b L hL s t hs hsW ht htH]
  have hval : ∀ c a, 0 ≤ c → c < 2 → 0 ≤ a → a < 2 →
      b ((t * 2 + a) * (2 * L.width) + (s * 2 + c)) = V := by
    intro c a c0 c1 a0 a1
    obtain ⟨d1, d2⟩ := cellIndex_lt (2 * L.width) (2 * L.height) (s * 2 + c) (t * 2 + a)
      (by omega) (by omega) (by omega) (by omega)
    exact hb _ d1 d2
  rw [hval 0 0 (by omega) (by omega) (by omega) (by omega),
    hval 1 0 (by omega) (by omega) (by omega) (by omega),
    hval 0 1 (by omega) (by omega) (by omega) (by omega),
    hval 1 1 (by omega) (by omega) (by omega) (by omega), shiftRight_quadruple]

/-- C14: for a lightmap of `W` x `H` cells with `W, H >= 2` and a value `V`: if
the accumulation buffer holds `V` at every entry `Store_Interp` reads (the
indices below `(1 + W/2) * (1 + H/2)`), then `Store_Interp`, the filter of
quality 1, leaves the stored form of `V` in every cell; and if it holds `V` at
every entry `Store_Best` reads with `lt_W = 2 * W` (the indices below
`2W * 2H`), then `Store_Best`, the filter of quality 3, does the same. The size
of the lightmap is kept, so its samples are `W * H` times that byte. -/
theorem Store_Interp_Best_uniform (W H V : Int) (hW : 2 ≤ W) (hH : 2 ≤ H) (L : qLightmap_c)
    (hL : L.hasShape W H) (b : Int → Int) (rnd : ℚ → ℚ) (lt_W : Int) :
    ((∀ k, 0 ≤ k → k < (1 + Int.tdiv W 2) * (1 + Int.tdiv H 2) → b k = V) →
      L.Store rnd 1 lt_W b = Outcome.ok () (L.Store_Interp b) ∧
      (L.Store_Interp b).width = W ∧ (L.Store_Interp b).height = H ∧
      (∀ s t, 0 ≤ s → s < W → 0 ≤ t → t < H →
        (L.Store_Interp b).sampleAt (t * W + s) = storedByte V) ∧
      (L.Store_Interp b).samples = List.replicate (W * H).toNat (storedByte V)) ∧
    ((∀ k, 0 ≤ k → k < (2 * W) * (2 * H) → b k = V) →
      L.Store rnd 3 (2 * W) b = Outcome.ok () (L.Store_Best (2 * W) b) ∧
      (L.Store_Best (2 * W) b).width = W ∧ (L.Store_Best (2 * W) b).height = H ∧
      (∀ s t, 0 ≤ s → s < W → 0 ≤ t → t < H →
        (L.Store_Best (2 * W) b).sampleAt (t * W + s) = storedByte V) ∧
      (L.Store_Best (2 * W) b).samples = List.replicate (W * H).toNat (storedByte V)) := by
  have hw : L.width = W := hL.1
  have hh : L.height = H := hL.2.1
  constructor
  · intro hb
    have h := qLightmap_c.Store_Interp_uniform b V L (by omega) (by omega)
      (by rw [hw, hh]; exact hL) (by rw [hw, hh]; exact hb)
    rw [hw, hh] at h
    exact ⟨rfl, h.1.1, h.1.2.1, h.2,
      qLightmap_c.samples_eq_replicate _ W H _ h.1 (by omega) h.2⟩
  · intro hb
    have h := qLightmap_c.Store_Best_uniform b V L
      (by rw [hw, hh]; exact hL) (by rw [hw, hh]; exact hb)
    rw [hw, hh] at h
    have hs := qLightmap_c.Store_Best_hasShape (2 * W) b L W H hL
    exact ⟨rfl, hs.1, hs.2.1, h,
      qLightmap_c.samples_eq_replicate _ W H _ hs (by omega) h⟩

theorem Store_Interp_Best_uniform_witness :
    ((BSP_NewLightmap (fun _ => 0) 2 2).Store_Interp (fun _ => 5120)).samples
      = [20, 20, 20, 20] ∧
    ((BSP_NewLightmap (fun _ => 0) 2 2).Store_Best 4 (fun _ => 5120)).samples
      = [20, 20, 20, 20] := by
  have h := Store_Interp_Best_uniform 2 2 5120 (by decide) (by decide)
    (BSP_NewLightmap (fun _ => 0) 2 2) (BSP_NewLightmap_hasShape _ 2 2) (fun _ => 5120) id 4
  exact ⟨((h.1 (fun _ _ _ => rfl)).2.2.2.2).trans (by decide),
    ((h.2 (fun _ _ _ => rfl)).2.2.2.2).trans (by decide)⟩

theorem truncToInt_binary32_example :
    truncToInt (bilinearValue roundBinary32 3 7 5120 5120 5120 5120 1 1) = 5119 := by
  rw [bilinearValue_binary32_example]
  unfold truncToInt
  rw [if_neg (by norm_num), Int.floor_eq_iff]
  constructor <;> norm_num

/-- C15, counterexample: with the `float` operations rounded to binary32, four
equal corners `A = B = C = D = 5120` of a 3 x 7 lightmap give the bilinear value
`10485759 / 2048`, just under 5120, at cell (1, 1); the cell is assigned 5119
and stores 19, where 5120 stores 20. -/
theorem Store_Fastest_uniform_counterexample :
    bilinearValue roundBinary32 3 7 5120 5120 5120 5120 1 1 = 10485759 / 2048 ∧
    truncToInt (bilinearValue roundBinary32 3 7 5120 5120 5120 5120 1 1) = 5119 ∧
    ((BSP_NewLightmap (fun _ => 0) 3 7).Store_Fastest roundBinary32 (fun _ => 5120)).sampleAt
      (1 * 3 + 1) = 19 ∧
    storedByte 5120 = 20 := by
  refine ⟨bilinearValue_binary32_example, truncToInt_binary32_example, ?_, by decide⟩
  have h := qLightmap_c.Store_Fastest_sampleAt roundBinary32 (fun _ => 5120)
    (BSP_NewLightmap (fun _ => 0) 3 7) (BSP_NewLightmap_hasShape _ 3 7) 1 1
    (by decide) (by decide) (by decide) (by decide)
  have e : truncToInt (bilinearValue roundBinary32 (BSP_NewLightmap (fun _ => 0) 3 7).width
      (BSP_NewLightmap (fun _ => 0) 3 7).height 5120 5120 5120 5120 1 1) = 5119 :=
    truncToInt_binary32_example
  rw [e] at h
  exact h.trans (by decide)

/-- C15, amended: for a lightmap of `W` x `H` cells with `W, H >= 2` whose four
corner accumulations are equal (`A = B = C = D = V`), in exact arithmetic the
divisors `W - 1` and `H - 1` are not zero, the four weights of every cell sum
to 1, the bilinear value of every cell is `V`, every cell is assigned `V`, and
the lightmap is uniform: its samples are `W * H` times the stored form of
`V`. -/
theorem Store_Fastest_uniform_exact (W H V : Int) (hW : 2 ≤ W) (hH : 2 ≤ H) (L : qLightmap_c)
    (hL : L.hasShape W H) (b : Int → Int)
    (hA : b 0 = V) (hB : b (W - 1) = V) (hC : b ((H - 1) * W) = V)
    (hD : b ((H - 1) * W + W - 1) = V) :
    (((W - 1 : Int) : ℚ) ≠ 0 ∧ ((H - 1 : Int) : ℚ) ≠ 0) ∧
    (∀ s t : Int,
      (1 - (s : ℚ) / ((W - 1 : Int) : ℚ)) * (1 - (t : ℚ) / ((H - 1 : Int) : ℚ))
        + (s : ℚ) / ((W - 1 : Int) : ℚ) * (1 - (t : ℚ) / ((H - 1 : Int) : ℚ))
        + (1 - (s : ℚ) / ((W - 1 : Int) : ℚ)) * ((t : ℚ) / ((H - 1 : Int) : ℚ))
        + (s : ℚ) / ((W - 1 : Int) : ℚ) * ((t : ℚ) / ((H - 1 : Int) : ℚ)) = 1 ∧
      bilinearValue id W H (b 0) (b (W - 1)) (b ((H - 1) * W)) (b ((H - 1) * W + W - 1)) s t = V ∧
      truncToInt (bilinearValue id W H (b 0) (b (W - 1)) (b ((H - 1) * W))
        (b ((H - 1) * W + W - 1)) s t) = V) ∧
    (L.Store_Fastest id b).width = W ∧ (L.Store_Fastest id b).height = H ∧
    (∀ s t, 0 ≤ s → s < W → 0 ≤ t → t < H →
      (L.Store_Fastest id b).sampleAt (t * W + s) = storedByte V) ∧
    (L.Store_Fastest id b).samples = List.replicate (W * H).toNat (storedByte V) := by
  have hw : L.width = W := hL.1
  have hh : L.height = H := hL.2.1
  have hval : ∀ s t : Int, bilinearValue id W H (b 0) (b (W - 1)) (b ((H - 1) * W))
      (b ((H - 1) * W + W - 1)) s t = V := by
    intro s t
    rw [hA, hB, hC, hD]
    exact bilinearValue_exact_uniform W H V s t
  have hs := qLightmap_c.Store_Fastest_hasShape id b L W H hL
  have hcell : ∀ s t, 0 ≤ s → s < W → 0 ≤ t → t < H →
      (L.Store_Fastest id b).sampleAt (t * W + s) = storedByte V := by
    intro s t a1 a2 a3 a4
    have h := qLightmap_c.Store_Fastest_sampleAt id b L (by rw [hw, hh]; exact hL) s t a1
      (by rw [hw]; exact a2) a3 (by rw [hh]; exact a4)
    rw [hw, hh] at h
    rw [h, hval s t, truncToInt_intCast]
  refine ⟨⟨?_, ?_⟩, ?_, hs.1, hs.2.1, hcell,
    qLightmap_c.samples_eq_replicate _ W H _ hs (by omega) hcell⟩
  · have : (W - 1 : Int) ≠ 0 := by omega
    exact_mod_cast this
  · have : (H - 1 : Int) ≠ 0 := by omega
    exact_mod_cast this
  · intro s t
    refine ⟨by ring, hval s t, ?_⟩
    rw [hval s t, truncToInt_intCast]

theorem Store_Fastest_uniform_exact_witness :
    ((BSP_NewLightmap (fun _ => 0) 3 7).Store_Fastest id (fun _ => 5120)).samples
      = List.replicate 21 20 :=
  ((Store_Fastest_uniform_exact 3 7 5120 (by decide) (by decide)
    (BSP_NewLightmap (fun _ => 0) 3 7) (BSP_NewLightmap_hasShape _ 3 7) (fun _ => 5120)
    rfl rfl rfl rfl).2.2.2.2.2).trans (by decide)

/-- With every light behind the face plane, `QCOM_LightFace` stores the buffer
as `ClearLightBuffer` left it: `LOW_LIGHT << 8` in every entry of the grid. -/
theorem QCOM_LightFace_behind_eq (env : LightEnv) (lights : List quake_light_t)
    (F : quake_lit_face_c) (st : LightState)
    (hbehind : ∀ light ∈ lights, lightPerp (CalcFaceVectors env F st) light ≤ 0) :
    ∃ st5 b,
      (∀ k, 0 ≤ k →
        k < (if st.qk_lighting_quality = 3
              then (CalcFaceExtents F (CalcFaceVectors env F st)).lt_W * 2
              else (CalcFaceExtents F (CalcFaceVectors env F st)).lt_W)
          * (if st.qk_lighting_quality = 3
              then (CalcFaceExtents F (CalcFaceVectors env F st)).lt_H * 2
              else (CalcFaceExtents F (CalcFaceVectors env F st)).lt_H) →
        b k = 5120) ∧
      QCOM_LightFace env lights F st
        = some (st5,
          (BSP_NewLightmap env.uninit (CalcFaceExtents F (CalcFaceVectors env F st)).lt_W
            (CalcFaceExtents F (CalcFaceVectors env F st)).lt_H).Store env.roundFloat
            st.qk_lighting_quality
            (if st.qk_lighting_quality = 3
              then (CalcFaceExtents F (CalcFaceVectors env F st)).lt_W * 2
              else (CalcFaceExtents F (CalcFaceVectors env F st)).lt_W) b) := by
  obtain ⟨c, hc, hclear⟩ := ClearLightBuffer_spec
    (CalcPoints (CalcFaceExtents F (CalcFaceVectors env F st)))
  obtain ⟨hW, hH, hq, hn, hd⟩ := CalcPoints_fields (CalcFaceExtents F (CalcFaceVectors env F st))
  have hq2 : (CalcFaceExtents F (CalcFaceVectors env F st)).qk_lighting_quality
      = st.qk_lighting_quality := rfl
  rw [hq2] at hW hH hq
  have hp : processLights env lights
      (ClearLightBuffer (CalcPoints (CalcFaceExtents F (CalcFaceVectors env F st))))
      = some (ClearLightBuffer (CalcPoints (CalcFaceExtents F (CalcFaceVectors env F st)))) := by
    apply processLights_behind
    intro light hl
    have := hbehind light hl
    rw [hc]
    unfold lightPerp at this ⊢
    simp only [hn, hd]
    exact this
  refine ⟨ClearLightBuffer (CalcPoints (CalcFaceExtents F (CalcFaceVectors env F st))), c, ?_, ?_⟩
  · intro k hk0 hk
    rw [← hW, ← hH] at hk
    exact (hclear k hk0 hk).trans (by decide)
  · unfold QCOM_LightFace
    simp only [hp]
    rw [hc]
    simp only [hq, hW]

/-- `Store_Fastest` in exact arithmetic on four equal corners. -/
theorem qLightmap_c.Store_Fastest_uniform (b : Int → Int) (V : Int) (L : qLightmap_c)
    (hL : L.hasShape L.width L.height)
    (hA : b 0 = V) (hB : b (L.width - 1) = V) (hC : b ((L.height - 1) * L.width) = V)
    (hD : b ((L.height - 1) * L.width + L.width - 1) = V) :
    ∀ s t, 0 ≤ s → s < L.width → 0 ≤ t → t < L.height →
      (L.Store_Fastest id b).sampleAt (t * L.width + s) = storedByte V := by
  intro s t a1 a2 a3 a4
  rw [qLightmap_c.Store_Fastest_sampleAt id b L hL s t a1 a2 a3 a4, hA, hB, hC, hD,
    bilinearValue_exact_uniform, truncToInt_intCast]

/-- C13, counterexample: at quality 0, with `float` operations rounded to
binary32 and no light at all, the face with S/T bounds (0, 0, 32, 96) gets a
3 x 7 lightmap whose sample at cell (1, 1) is 19, not `LOW_LIGHT` = 20. -/
theorem QCOM_LightFace_behind_counterexample :
    ∃ st5 L, QCOM_LightFace openEnv [] (floorFace 32 96) (LightState.start 0)
        = some (st5, Outcome.ok () L) ∧
      L.width = 3 ∧ L.height = 7 ∧ L.sampleAt (1 * 3 + 1) = 19 ∧ LOW_LIGHT = 20 := by
  obtain ⟨st5, b, hb, hrun⟩ := QCOM_LightFace_behind_eq openEnv [] (floorFace 32 96)
    (LightState.start 0) (fun _ h => absurd h (List.not_mem_nil _))
  have hW : (CalcFaceExtents (floorFace 32 96)
      (CalcFaceVectors openEnv (floorFace 32 96) (LightState.start 0))).lt_W = 3 := by
    norm_num [CalcFaceExtents, floorFace]
  have hH : (CalcFaceExtents (floorFace 32 96)
      (CalcFaceVectors openEnv (floorFace 32 96) (LightState.start 0))).lt_H = 7 := by
    norm_num [CalcFaceExtents, floorFace]
  rw [hW, hH] at hrun hb
  have hq : (LightState.start 0).qk_lighting_quality = 0 := rfl
  rw [hq] at hrun hb
  simp only [show ¬ ((0 : Int) = 3) by decide, if_false] at hrun hb
  refine ⟨st5, _, hrun, (BSP_NewLightmap_hasShape _ 3 7 |> fun h =>
    (qLightmap_c.Store_Fastest_hasShape _ _ _ 3 7 h).1),
    (qLightmap_c.Store_Fastest_hasShape _ _ _ 3 7 (BSP_NewLightmap_hasShape _ 3 7)).2.1, ?_, rfl⟩
  have h := qLightmap_c.Store_Fastest_sampleAt openEnv.roundFloat b
    (BSP_NewLightmap openEnv.uninit 3 7) (BSP_NewLightmap_hasShape _ 3 7) 1 1
    (by decide) (by decide) (by decide) (by decide)
  have e0 : b 0 = 5120 := hb 0 (by decide) (by decide)
  have e1 : b ((BSP_NewLightmap openEnv.uninit 3 7).width - 1) = 5120 :=
    hb _ (by decide) (by decide)
  have e2 : b (((BSP_NewLightmap openEnv.uninit 3 7).height - 1)
      * (BSP_NewLightmap openEnv.uninit 3 7).width) = 5120 := hb _ (by decide) (by decide)
  have e3 : b (((BSP_NewLightmap openEnv.uninit 3 7).height - 1)
      * (BSP_NewLightmap openEnv.uninit 3 7).width
      + (BSP_NewLightmap openEnv.uninit 3 7).width - 1) = 5120 := hb _ (by decide) (by decide)
  rw [e0, e1, e2, e3] at h
  have e : truncToInt (bilinearValue openEnv.roundFloat (BSP_NewLightmap openEnv.uninit 3 7).width
      (BSP_NewLightmap openEnv.uninit 3 7).height 5120 5120 5120 5120 1 1) = 5119 :=
    truncToInt_binary32_example
  rw [e] at h
  exact h.trans (by decide)

/-- C13, amended: for every face and every list of lights (the empty one
included) all of which have perpendicular distance at most 0 to the face plane,
`QCOM_LightFace` returns, `Store` succeeds, and every sample of the lightmap is
`LOW_LIGHT` = 20, at the qualities 1, 2 and 3 whatever the rounding of `float`
operations, and at quality 0 when they are exact. -/
theorem QCOM_LightFace_behind (env : LightEnv) (lights : List quake_light_t)
    (F : quake_lit_face_c) (st : LightState)
    (hq : st.qk_lighting_quality = 1 ∨ st.qk_lighting_quality = 2 ∨ st.qk_lighting_quality = 3 ∨
      (st.qk_lighting_quality = 0 ∧ env.roundFloat = id))
    (hbehind : ∀ light ∈ lights, lightPerp (CalcFaceVectors env F st) light ≤ 0) :
    ∃ st5 L, QCOM_LightFace env lights F st = some (st5, Outcome.ok () L) ∧
      L.width = (CalcFaceExtents F st).lt_W ∧ L.height = (CalcFaceExtents F st).lt_H ∧
      L.samples = List.replicate ((CalcFaceExtents F st).lt_W * (CalcFaceExtents F st).lt_H).toNat
        LOW_LIGHT.toNat ∧
      ∀ x ∈ L.samples, (x : Int) = LOW_LIGHT := by
  obtain ⟨st5, b, hb, hrun⟩ := QCOM_LightFace_behind_eq env lights F st hbehind
  have hWe : (CalcFaceExtents F (CalcFaceVectors env F st)).lt_W = (CalcFaceExtents F st).lt_W :=
    rfl
  have hHe : (CalcFaceExtents F (CalcFaceVectors env F st)).lt_H = (CalcFaceExtents F st).lt_H :=
    rfl
  rw [hWe, hHe] at hrun hb
  have hW2 : 2 ≤ (CalcFaceExtents F st).lt_W := le_max_left _ _
  have hH2 : 2 ≤ (CalcFaceExtents F st).lt_H := le_max_left _ _
  generalize (CalcFaceExtents F st).lt_W = W at hrun hb hW2 ⊢
  generalize (CalcFaceExtents F st).lt_H = H at hrun hb hH2 ⊢
  have hshape := BSP_NewLightmap_hasShape env.uninit W H
  have hfin : ∀ L : qLightmap_c, L.hasShape W H →
      (∀ s t, 0 ≤ s → s < W → 0 ≤ t → t < H → L.sampleAt (t * W + s) = storedByte 5120) →
      L.width = W ∧ L.height = H ∧
      L.samples = List.replicate (W * H).toNat LOW_LIGHT.toNat ∧
      ∀ x ∈ L.samples, (x : Int) = LOW_LIGHT := by
    intro L hs hcell
    have := qLightmap_c.samples_eq_replicate L W H _ hs (by omega) hcell
    refine ⟨hs.1, hs.2.1, this.trans (by rw [show storedByte 5120 = LOW_LIGHT.toNat by decide]),
      ?_⟩
    intro x hx
    rw [this] at hx
    rw [(List.mem_replicate.1 hx).2]
    decide
  rcases hq with h1 | h2 | h3 | ⟨h0, hid⟩
  · -- quality 1
    rw [h1] at hrun hb
    simp only [show ¬ ((1 : Int) = 3) by decide, if_false] at hrun hb
    refine ⟨st5, _, hrun, hfin _ (qLightmap_c.Store_Interp_hasShape b _ W H hshape) ?_⟩
    have hiw : Int.tdiv W 2 = W / 2 := Int.tdiv_eq_ediv (by omega) (by norm_num)
    have hih : Int.tdiv H 2 = H / 2 := Int.tdiv_eq_ediv (by omega) (by norm_num)
    exact (qLightmap_c.Store_Interp_uniform b 5120 (BSP_NewLightmap env.uninit W H) hW2 hH2
      hshape (by
        intro k hk0 hk
        apply hb k hk0
        have e1 : (BSP_NewLightmap env.uninit W H).width = W := rfl
        have e2 : (BSP_NewLightmap env.uninit W H).height = H := rfl
        rw [e1, e2, hiw, hih] at hk
        have a1 : 1 + W / 2 ≤ W := by omega
        have a2 : 1 + H / 2 ≤ H := by omega
        have a3 : (1 + W / 2) * (1 + H / 2) ≤ W * H :=
          Int.mul_le_mul a1 a2 (by omega) (by omega)
        omega)).2
  · -- quality 2
    rw [h2] at hrun hb
    simp only [show ¬ ((2 : Int) = 3) by decide, if_false] at hrun hb
    refine ⟨st5, _, hrun, hfin _ (qLightmap_c.Store_Normal_hasShape b _ W H hshape) ?_⟩
    intro s t a1 a2 a3 a4
    obtain ⟨c1, c2⟩ := cellIndex_lt W H s t a1 a2 a3 a4
    rw [qLightmap_c.Store_Normal_sampleAt b _ W H hshape _ c1 c2, hb _ c1 c2]
  · -- quality 3
    rw [h3] at hrun hb
    simp only [if_true] at hrun hb
    rw [show W * 2 = 2 * W by ring] at hrun hb
    rw [show H * 2 = 2 * H by ring] at hb
    refine ⟨st5, _, hrun, hfin _ (qLightmap_c.Store_Best_hasShape (2 * W) b _ W H hshape) ?_⟩
    exact qLightmap_c.Store_Best_uniform b 5120 (BSP_NewLightmap env.uninit W H) hshape hb
  · -- quality 0, exact arithmetic
    rw [h0, hid] at hrun
    rw [h0] at hb
    simp only [show ¬ ((0 : Int) = 3) by decide, if_false] at hrun hb
    refine ⟨st5, _, hrun, hfin _ (qLightmap_c.Store_Fastest_hasShape id b _ W H hshape) ?_⟩
    have c00 := cellIndex_lt W H 0 0 (le_refl _) (by omega) (le_refl _) (by omega)
    have c10 := cellIndex_lt W H (W - 1) 0 (by omega) (by omega) (le_refl _) (by omega)
    have c01 := cellIndex_lt W H 0 (H - 1) (le_refl _) (by omega) (by omega) (by omega)
    have c11 := cellIndex_lt W H (W - 1) (H - 1) (by omega) (by omega) (by omega) (by omega)
    exact qLightmap_c.Store_Fastest_uniform b 5120 (BSP_NewLightmap env.uninit W H) hshape
      (hb 0 (le_refl _) (by simpa using c00.2))
      (hb _ (by simpa using c10.1) (by simpa using c10.2))
      (hb _ (by simpa using c01.1) (by simpa using c01.2))
      (hb _ (by have := c11.1; show 0 ≤ (H - 1) * W + W - 1; omega)
        (by have := c11.2; show (H - 1) * W + W - 1 < W * H; omega))

theorem QCOM_LightFace_behind_witness :
    ∃ st5 L, QCOM_LightFace openEnv [lampBelow] (floorFace 32 96) (LightState.start 2)
        = some (st5, Outcome.ok () L) ∧
      L.samples = List.replicate 21 20 := by
  obtain ⟨st5, L, h1, -, -, h4, -⟩ := QCOM_LightFace_behind openEnv [lampBelow]
    (floorFace 32 96) (LightState.start 2) (Or.inr (Or.inl rfl))
    (by
      intro light hl
      rw [List.mem_singleton.1 hl]
      norm_num [lightPerp, CalcFaceVectors, floorFace, lampBelow])
  refine ⟨st5, L, h1, h4.trans ?_⟩
  have hW : (CalcFaceExtents (floorFace 32 96) (LightState.start 2)).lt_W = 3 := by
    norm_num [CalcFaceExtents, floorFace]
  have hH : (CalcFaceExtents (floorFace 32 96) (LightState.start 2)).lt_H = 7 := by
    norm_num [CalcFaceExtents, floorFace]
  rw [hW, hH]
  decide

/-! ## Flattening -/

/-- The sum `CalcScore` accumulates is the sum of the samples. -/
theorem CalcScore_sum (L : qLightmap_c) (hlen : L.samples.length = (L.width * L.height).toNat) :
    forRange (L.width * L.height) (fun i acc => acc + (L.sampleAt i : ℚ)) 0
      = (L.samples.map (fun (x : Nat) => (x : ℚ))).sum := by
  unfold forRange
  rw [← hlen]
  have h1 : (List.range L.samples.length).map (fun i => L.samples.getD i 0) = L.samples := by
    apply List.ext_getElem
    · simp
    · intro i h1 h2
      simp [List.getD_eq_getElem?_getD, List.getElem?_eq_getElem h2]
  have h2 : (List.range L.samples.length).foldl
      (fun acc (i : Nat) => acc + (L.sampleAt (i : Int) : ℚ)) 0
      = ((List.range L.samples.length).map (fun i => L.samples.getD i 0)).foldl
          (fun acc (x : Nat) => acc + (x : ℚ)) 0 := by
    rw [List.foldl_map]
    rfl
  rw [h2, h1, List.sum_eq_foldl, List.foldl_map]

theorem CLAMP_byte (x : Int) : (CLAMP 0 x 255 % 256).toNat = (CLAMP 0 x 255).toNat := by
  have := CLAMP_range x
  rw [Int.emod_eq_of_lt this.1 (by omega)]

theorem isFlat_iff (L : qLightmap_c) : L.isFlat = true ↔ L.width = 1 ∧ L.height = 1 := by
  simp [qLightmap_c.isFlat]

/-- C16: `Flatten` is idempotent. For a lightmap with one byte sample per cell,
whose cached score is unset (negative) unless it is already flat: after one
call it is 1 x 1, its single sample is the rounded average of its original
samples clamped to `[0, 255]`, and its offset is as before; and for every
lightmap a second call returns the lightmap the first call returned (same width,
height, samples, offset, score and average). -/
theorem Flatten_idempotent (data0 data1 : Nat) (L : qLightmap_c) :
    (L.Flatten data0).Flatten data1 = L.Flatten data0 ∧
    (L.samples.length = (L.width * L.height).toNat → 0 < L.width * L.height →
      (∀ x ∈ L.samples, x ≤ 255) → (L.isFlat = false → L.score < 0) →
      (L.Flatten data0).width = 1 ∧ (L.Flatten data0).height = 1 ∧
      (L.Flatten data0).samples
        = [(CLAMP 0 (I_ROUND ((L.samples.map (fun (x : Nat) => (x : ℚ))).sum
            / (L.samples.length : ℚ))) 255).toNat] ∧
      (L.Flatten data0).offset = L.offset) := by
  constructor
  · by_cases hf : L.isFlat = true
    · have hF : ∀ d, L.Flatten d = L := by
        intro d; unfold qLightmap_c.Flatten; rw [if_pos hf]
      rw [hF data0, hF data1]
    · have hflat : (L.Flatten data0).isFlat = true := by
        unfold qLightmap_c.Flatten
        rw [if_neg hf]
        rfl
      generalize L.Flatten data0 = L1 at hflat
      unfold qLightmap_c.Flatten
      rw [if_pos hflat]
  · intro hlen hpos hbytes hscore
    by_cases hf : L.isFlat = true
    · have hF : L.Flatten data0 = L := by unfold qLightmap_c.Flatten; rw [if_pos hf]
      obtain ⟨hw, hh⟩ := (isFlat_iff L).1 hf
      rw [hF]
      refine ⟨hw, hh, ?_, rfl⟩
      rw [hw, hh] at hlen
      obtain ⟨v, hv⟩ := List.length_eq_one.1 (hlen.trans (by decide))
      have hv255 : v ≤ 255 := hbytes v (by rw [hv]; exact List.mem_singleton_self v)
      rw [hv]
      simp only [List.map_cons, List.map_nil, List.sum_cons, List.sum_nil, add_zero,
        List.length_singleton, Nat.cast_one, div_one]
      have : ((v : ℚ)) = ((v : Int) : ℚ) := by norm_cast
      rw [this, I_ROUND_intCast]
      have hc : CLAMP 0 (v : Int) 255 = v := by
        unfold CLAMP
        rw [if_neg (by omega), if_neg (by omega)]
      rw [hc]
      rfl
    · have hsc : L.score < 0 := hscore (by simpa using hf)
      have hF : L.Flatten data0 = { L.CalcScore data0 with
          width := 1, height := 1, samples := [((L.CalcScore data0).average % 256).toNat] } := by
        unfold qLightmap_c.Flatten
        rw [if_neg hf]
        simp only [if_pos hsc]
      rw [hF]
      refine ⟨rfl, rfl, ?_, rfl⟩
      show [((L.CalcScore data0).average % 256).toNat] = _
      simp only [qLightmap_c.CalcScore]
      rw [CLAMP_byte, CalcScore_sum L hlen, hlen]
      have : (((L.width * L.height).toNat : Nat) : ℚ) = ((L.width * L.height : Int) : ℚ) := by
        have h := Int.toNat_of_nonneg (le_of_lt hpos)
        exact_mod_cast h
      rw [this]

theorem Flatten_idempotent_witness :
    (pairLightmap.Flatten 10).samples = [16] ∧
    (pairLightmap.Flatten 10).Flatten 16 = pairLightmap.Flatten 10 := by
  have h := Flatten_idempotent 10 16 pairLightmap
  refine ⟨((h.2 rfl (by decide) (by decide) (by decide)).2.2.1).trans ?_, h.1⟩
  have e : I_ROUND ((pairLightmap.samples.map (fun (x : Nat) => (x : ℚ))).sum
      / ((pairLightmap.samples.length : Nat) : ℚ)) = 16 := by
    unfold I_ROUND pairLightmap
    norm_num
  rw [e]
  rfl

/-! ## The lighting lump -/

theorem foldl_append_singleton (x : Nat) (n : Nat) (lump : List Nat) :
    (List.range n).foldl (fun acc (_ : Nat) => acc ++ [x]) lump = lump ++ List.replicate n x := by
  induction n with
  | zero => simp
  | succ n ih =>
    rw [List.range_succ, List.foldl_append, ih]
    simp [List.replicate_succ']

theorem WriteFlatBlock_eq (level count : Int) (lump : List Nat) :
    WriteFlatBlock level count lump
      = lump ++ List.replicate count.toNat (level % 256).toNat := by
  unfold WriteFlatBlock forRange
  exact foldl_append_singleton _ _ _

/-- A loop that appends a piece per round appends the pieces in order. -/
theorem forRange_append_pieces (n : Int) (g : Int → List Nat) (init : List Nat) :
    forRange n (fun i acc => acc ++ g i) init
      = init ++ (List.range n.toNat).flatMap (fun (i : Nat) => g (i : Int)) := by
  unfold forRange
  generalize n.toNat = k
  induction k with
  | zero => simp
  | succ k ih =>
    rw [List.range_succ, List.foldl_append, ih, List.flatMap_append]
    simp

/-- The ladder `QCOM_BuildLightmap` writes is the ladder of the spec. -/
theorem ladder_eq (flat_size : Int) :
    forRange 64 (fun j acc => WriteFlatBlock (128 + 2 * j) flat_size acc)
        (forRange 128 (fun i acc => WriteFlatBlock i flat_size acc) [])
      = ladderSpec flat_size.toNat := by
  have h1 : (fun (i : Int) (acc : List Nat) => WriteFlatBlock i flat_size acc)
      = fun i acc => acc ++ List.replicate flat_size.toNat (i % 256).toNat := by
    funext i acc; exact WriteFlatBlock_eq _ _ _
  have h2 : (fun (j : Int) (acc : List Nat) => WriteFlatBlock (128 + 2 * j) flat_size acc)
      = fun j acc => acc ++ List.replicate flat_size.toNat ((128 + 2 * j) % 256).toNat := by
    funext i acc; exact WriteFlatBlock_eq _ _ _
  rw [h1, h2, forRange_append_pieces, forRange_append_pieces]
  unfold ladderSpec
  rw [show (192 : Nat) = 128 + 64 from rfl, List.range_add, List.flatMap_append,
    List.flatMap_map, List.nil_append]
  have e1 : ((List.range (Int.toNat 128)).flatMap fun (i : Nat) =>
        List.replicate flat_size.toNat ((i : Int) % 256).toNat)
      = (List.range 128).flatMap fun j => List.replicate flat_size.toNat (ladderByte j) := by
    apply List.flatMap_congr
    intro i hi
    have hi2 : i < 128 := List.mem_range.1 hi
    have : ((i : Int) % 256).toNat = ladderByte i := by
      unfold ladderByte
      rw [if_pos hi2]
      omega
    rw [this]
  have e2 : ((List.range (Int.toNat 64)).flatMap fun (j : Nat) =>
        List.replicate flat_size.toNat ((128 + 2 * (j : Int)) % 256).toNat)
      = (List.range 64).flatMap fun j => List.replicate flat_size.toNat (ladderByte (128 + j)) := by
    apply List.flatMap_congr
    intro j hj
    have hj2 : j < 64 := List.mem_range.1 hj
    have : ((128 + 2 * (j : Int)) % 256).toNat = ladderByte (128 + j) := by
      unfold ladderByte
      rw [if_neg (by omega)]
      omega
    rw [this]
  rw [e1, e2]

theorem blocks_length (f : Nat → Nat) (m n : Nat) :
    ((List.range n).flatMap fun k => List.replicate m (f k)).length = n * m := by
  induction n with
  | zero => simp
  | succ n ih =>
    rw [List.range_succ, List.flatMap_append, List.length_append, ih, List.flatMap_singleton,
      List.length_replicate]
    ring

theorem ladderSpec_length (fs : Nat) : (ladderSpec fs).length = 192 * fs :=
  blocks_length _ _ _

/-- Byte `i` of block `j` in a run of `n` blocks of `m` bytes. -/
theorem getElem?_blocks (f : Nat → Nat) (m : Nat) (n j i : Nat) (hj : j < n) (hi : i < m) :
    ((List.range n).flatMap fun k => List.replicate m (f k))[j * m + i]? = some (f j) := by
  induction n with
  | zero => omega
  | succ n ih =>
    have hlen := blocks_length f m n
    rw [List.range_succ, List.flatMap_append, List.flatMap_singleton]
    by_cases hjn : j < n
    · have hlt : j * m + i < n * m := by
        have : (j + 1) * m ≤ n * m := Nat.mul_le_mul_right m hjn
        rw [Nat.add_mul, Nat.one_mul] at this
        omega
      rw [List.getElem?_append_left (by rw [hlen]; exact hlt)]
      exact ih hjn
    · have hjeq : j = n := by omega
      subst hjeq
      rw [List.getElem?_append_right (by rw [hlen]; omega), hlen, List.getElem?_replicate]
      have : j * m + i - j * m < m := by omega
      rw [if_pos this]

/-- The samples `Write` reads are the samples of the lightmap. -/
theorem map_sampleAt (L : qLightmap_c) (hlen : L.samples.length = (L.width * L.height).toNat) :
    (List.range (L.width * L.height).toNat).map (fun (i : Nat) => L.sampleAt (i : Int))
      = L.samples := by
  rw [← hlen]
  apply List.ext_getElem
  · simp
  · intro i h1 h2
    simp [qLightmap_c.sampleAt, List.getD_eq_getElem?_getD, List.getElem?_eq_getElem h2]

/-- `Write` appends the bytes the spec gives the lightmap, and records where
they start. -/
theorem Write_eq (color : Bool) (L : qLightmap_c) (lump : List Nat)
    (hlen : L.samples.length = (L.width * L.height).toNat) :
    L.Write color lump
      = (if L.isFlat then L else { L with offset := (lump.length : Int) },
          lump ++ lightmapBytesSpec color L) := by
  unfold qLightmap_c.Write lightmapBytesSpec
  by_cases hf : L.isFlat = true
  · simp [hf]
  · simp only [hf, if_false, Bool.false_eq_true]
    cases color with
    | false =>
      simp only [Bool.false_eq_true, not_false_eq_true, if_true, if_false]
      rw [map_sampleAt L hlen]
    | true =>
      simp only [not_true_eq_false, if_false, if_true]
      have hb : (fun (i : Int) (acc : List Nat) =>
          acc ++ [L.sampleAt i] ++ [L.sampleAt i] ++ [L.sampleAt i])
          = fun i acc => acc ++ [L.sampleAt i, L.sampleAt i, L.sampleAt i] := by
        funext i acc; simp
      rw [hb, forRange_append_pieces]
      have : (List.range (L.width * L.height).toNat).flatMap
            (fun (i : Nat) => [L.sampleAt (i : Int), L.sampleAt (i : Int), L.sampleAt (i : Int)])
          = ((List.range (L.width * L.height).toNat).map
              (fun (i : Nat) => L.sampleAt (i : Int))).flatMap (fun x => [x, x, x]) := by
        rw [List.flatMap_map]
      rw [this, map_sampleAt L hlen]

/-- The loop of `QCOM_BuildLightmap` over the lightmaps. -/
theorem writeAll_eq (color : Bool) (maps : List qLightmap_c)
    (hlen : ∀ L ∈ maps, L.samples.length = (L.width * L.height).toNat)
    (lump : List Nat) (out : List qLightmap_c) :
    maps.foldl (fun acc L => ((L.Write color acc.1).2, acc.2 ++ [(L.Write color acc.1).1]))
        (lump, out)
      = (lump ++ maps.flatMap (lightmapBytesSpec color),
          out ++ recordOffsetsSpec color lump.length maps) := by
  induction maps generalizing lump out with
  | nil => simp [recordOffsetsSpec]
  | cons L rest ih =>
    rw [List.foldl_cons]
    simp only [Write_eq color L lump (hlen L (List.mem_cons_self _ _))]
    rw [ih (fun M hM => hlen M (List.mem_cons_of_mem _ hM))]
    simp [recordOffsetsSpec, List.flatMap_cons, List.append_assoc]

/-- The lump `QCOM_BuildLightmap` builds is the layout of the spec. -/
theorem QCOM_BuildLightmap_eq (FLAT : Int) (color : Bool) (maps : List qLightmap_c)
    (hlen : ∀ L ∈ maps, L.samples.length = (L.width * L.height).toNat) :
    QCOM_BuildLightmap FLAT color maps
      = (ladderSpec (FLAT * (if color then 3 else 1)).toNat
            ++ maps.flatMap (lightmapBytesSpec color),
          recordOffsetsSpec color (192 * (FLAT * (if color then 3 else 1)).toNat) maps) := by
  unfold QCOM_BuildLightmap
  simp only
  rw [ladder_eq]
  have := writeAll_eq color maps hlen (ladderSpec (FLAT * (if color then 3 else 1)).toNat) []
  rw [ladderSpec_length, List.nil_append] at this
  exact this

/-- `Write` only appends to the lump. -/
theorem Write_extends (color : Bool) (L : qLightmap_c) (lump : List Nat) :
    ∃ X, (L.Write color lump).2 = lump ++ X := by
  unfold qLightmap_c.Write
  by_cases hf : L.isFlat = true
  · exact ⟨[], by simp [hf]⟩
  · simp only [hf, if_false, Bool.false_eq_true]
    cases color with
    | false =>
      refine ⟨(List.range (L.width * L.height).toNat).map (fun (i : Nat) => L.sampleAt (i : Int)),
        ?_⟩
      simp only [Bool.false_eq_true, not_false_eq_true, if_true]
    | true =>
      have hb : (fun (i : Int) (acc : List Nat) =>
          acc ++ [L.sampleAt i] ++ [L.sampleAt i] ++ [L.sampleAt i])
          = fun i acc => acc ++ [L.sampleAt i, L.sampleAt i, L.sampleAt i] := by
        funext i acc; simp
      refine ⟨(List.range (L.width * L.height).toNat).flatMap
        (fun (i : Nat) => [L.sampleAt (i : Int), L.sampleAt (i : Int), L.sampleAt (i : Int)]), ?_⟩
      simp only [not_true_eq_false, if_false]
      rw [hb, forRange_append_pieces]

/-- The lump of `QCOM_BuildLightmap` starts with the ladder of the spec. -/
theorem QCOM_BuildLightmap_ladder (FLAT : Int) (color : Bool) (maps : List qLightmap_c) :
    ∃ X, (QCOM_BuildLightmap FLAT color maps).1
      = ladderSpec (FLAT * (if color then 3 else 1)).toNat ++ X := by
  unfold QCOM_BuildLightmap
  simp only
  rw [ladder_eq]
  generalize ladderSpec (FLAT * (if color then 3 else 1)).toNat = lad
  have key : ∀ (ms : List qLightmap_c) (lump : List Nat) (out : List qLightmap_c),
      ∃ X, (ms.foldl (fun acc L => ((L.Write color acc.1).2, acc.2 ++ [(L.Write color acc.1).1]))
        (lump, out)).1 = lump ++ X := by
    intro ms
    induction ms with
    | nil => intro lump out; exact ⟨[], by simp⟩
    | cons M rest ih =>
      intro lump out
      obtain ⟨X1, h1⟩ := Write_extends color M lump
      rw [List.foldl_cons]
      obtain ⟨X2, h2⟩ := ih (M.Write color lump).2 (out ++ [(M.Write color lump).1])
      refine ⟨X1 ++ X2, ?_⟩
      rw [h2, h1, List.append_assoc]
  exact key maps lad []

theorem ladderByte_of_brightness (v : Nat) (hv : v ≤ 255) :
    (if v > 128 then 64 + v / 2 else v) < 192 ∧
    ladderByte (if v > 128 then 64 + v / 2 else v)
      = (if v ≤ 128 ∨ v % 2 = 0 then v else v - 1) := by
  unfold ladderByte
  constructor
  · split_ifs <;> omega
  · split_ifs <;> omega

theorem QCOM_FlatLightOffset_eq (FLAT : Int) (color : Bool) (v : Nat) (hv : v ≤ 255) :
    QCOM_FlatLightOffset FLAT color (v : Int)
      = some (((if v > 128 then 64 + v / 2 else v : Nat) : Int)
          * (FLAT * (if color then 3 else 1))) := by
  unfold QCOM_FlatLightOffset
  rw [if_pos ⟨by omega, by omega⟩]
  have ht : Int.tdiv (v : Int) 2 = (v : Int) / 2 := Int.tdiv_eq_ediv (by omega) (by norm_num)
  simp only [ht]
  by_cases h128 : v > 128
  · have h1 : (v : Int) > 128 := by omega
    rw [if_pos h1, if_pos h128]
    cases color
    · simp
    · simp; ring
  · have h1 : ¬ (v : Int) > 128 := by omega
    rw [if_neg h1, if_neg h128]
    cases color
    · simp
    · simp; ring

/-- C17: for every brightness `v` in 0..255 and both color modes, `CalcOffset`
of a flat lightmap whose single sample is `v` is `QCOM_FlatLightOffset(v)`,
whatever its offset field and whatever has been written: it is `j * flat_size`
for the block number `j = v` (`v <= 128`) or `j = 64 + v / 2` (`v > 128`), which
is below 192. In the lump `QCOM_BuildLightmap` builds, that block lies inside
the ladder of 192 blocks, and each of its `flat_size` bytes is `v` when
`v <= 128` or `v` is even, and `v - 1` when `v` is odd and above 128. -/
theorem FlatLightOffset_ladder (FLAT : Int) (hF : 0 ≤ FLAT) (color : Bool) (v : Nat)
    (hv : v ≤ 255) (L : qLightmap_c) (hflat : L.isFlat = true) (hs : L.samples = [v])
    (maps : List qLightmap_c) :
    ∃ j : Nat, j = (if v > 128 then 64 + v / 2 else v) ∧ j < 192 ∧
      L.CalcOffset FLAT color = QCOM_FlatLightOffset FLAT color (v : Int) ∧
      QCOM_FlatLightOffset FLAT color (v : Int)
        = some ((j : Int) * (FLAT * (if color then 3 else 1))) ∧
      ((j : Int) + 1) * (FLAT * (if color then 3 else 1))
        ≤ 192 * (FLAT * (if color then 3 else 1)) ∧
      (192 * (FLAT * (if color then 3 else 1))).toNat
        ≤ (QCOM_BuildLightmap FLAT color maps).1.length ∧
      ∀ i : Nat, (i : Int) < FLAT * (if color then 3 else 1) →
        (QCOM_BuildLightmap FLAT color maps).1[
            ((j : Int) * (FLAT * (if color then 3 else 1))).toNat + i]?
          = some (if v ≤ 128 ∨ v % 2 = 0 then v else v - 1) := by
  obtain ⟨hj, hbyte⟩ := ladderByte_of_brightness v hv
  have hfs : 0 ≤ FLAT * (if color then 3 else 1) := by
    cases color <;> simp <;> omega
  obtain ⟨X, hX⟩ := QCOM_BuildLightmap_ladder FLAT color maps
  generalize hfsd : FLAT * (if color then 3 else 1) = flat_size at hfs hX ⊢
  refine ⟨_, rfl, hj, ?_, ?_, ?_, ?_, ?_⟩
  · unfold qLightmap_c.CalcOffset
    rw [if_pos hflat, hs]
    have hc : CLAMP 0 (([v] : List Nat).headD 0 : Nat) 255 = (v : Int) := by
      unfold CLAMP
      simp only [List.headD_cons]
      rw [if_neg (by omega), if_neg (by omega)]
    simp only [hc]
  · rw [QCOM_FlatLightOffset_eq FLAT color v hv, hfsd]
  · have : (((if v > 128 then 64 + v / 2 else v : Nat) : Int) + 1) ≤ 192 := by omega
    exact Int.mul_le_mul_of_nonneg_right this hfs
  · rw [hX, List.length_append, ladderSpec_length]
    have : (192 * flat_size).toNat = 192 * flat_size.toNat := by
      have := Int.toNat_of_nonneg hfs
      omega
    omega
  · intro i hi
    have hidx : (((if v > 128 then 64 + v / 2 else v : Nat) : Int) * flat_size).toNat
        = (if v > 128 then 64 + v / 2 else v) * flat_size.toNat := by
      have h1 := Int.toNat_of_nonneg hfs
      have h2 : (((if v > 128 then 64 + v / 2 else v : Nat) : Int) * flat_size)
          = (((if v > 128 then 64 + v / 2 else v) * flat_size.toNat : Nat) : Int) := by
        push_cast
        rw [h1]
      rw [h2, Int.toNat_ofNat]
    have hi2 : i < flat_size.toNat := by omega
    rw [hidx, hX]
    have hlt : (if v > 128 then 64 + v / 2 else v) * flat_size.toNat + i
        < (ladderSpec flat_size.toNat).length := by
      rw [ladderSpec_length]
      have : ((if v > 128 then 64 + v / 2 else v) + 1) * flat_size.toNat
          ≤ 192 * flat_size.toNat := Nat.mul_le_mul_right _ hj
      rw [Nat.add_mul, Nat.one_mul] at this
      omega
    rw [List.getElem?_append_left hlt]
    unfold ladderSpec
    rw [getElem?_blocks ladderByte flat_size.toNat 192 _ i hj hi2, hbyte]

theorem FlatLightOffset_ladder_witness :
    (flatLightmap 201).CalcOffset 4 false = some 656 ∧
    (QCOM_BuildLightmap 4 false [pairLightmap]).1[656]? = some 200 ∧
    (QCOM_BuildLightmap 4 false [pairLightmap]).1[659]? = some 200 := by
  obtain ⟨j, hj, -, h1, h2, -, -, h3⟩ := FlatLightOffset_ladder 4 (by decide) false 201
    (by decide) (flatLightmap 201) rfl rfl [pairLightmap]
  have hj2 : j = 164 := hj.trans (by decide)
  subst hj2
  refine ⟨h1.trans (h2.trans (by decide)), (h3 0 (by decide)).trans (by decide),
    (h3 3 (by decide)).trans (by decide)⟩

theorem recordOffsetsSpec_length (color : Bool) (pos : Nat) (maps : List qLightmap_c) :
    (recordOffsetsSpec color pos maps).length = maps.length := by
  induction maps generalizing pos with
  | nil => rfl
  | cons L rest ih => simp [recordOffsetsSpec, ih]

theorem recordOffsetsSpec_append (color : Bool) (pos : Nat) (pre rest : List qLightmap_c) :
    recordOffsetsSpec color pos (pre ++ rest)
      = recordOffsetsSpec color pos pre
        ++ recordOffsetsSpec color (pos + (pre.flatMap (lightmapBytesSpec color)).length) rest := by
  induction pre generalizing pos with
  | nil => simp [recordOffsetsSpec]
  | cons L pre ih =>
    rw [List.cons_append]
    simp only [recordOffsetsSpec]
    rw [ih, List.flatMap_cons, List.length_append, Nat.add_assoc, List.cons_append]

/-- The record of the lightmap at position `pre.length`. -/
theorem recordOffsetsSpec_get (color : Bool) (pos : Nat) (pre post : List qLightmap_c)
    (L : qLightmap_c) :
    (recordOffsetsSpec color pos (pre ++ L :: post))[pre.length]?
      = some (if L.isFlat then L
          else { L with
            offset := ((pos + (pre.flatMap (lightmapBytesSpec color)).length : Nat) : Int) }) := by
  rw [recordOffsetsSpec_append,
    List.getElem?_append_right (by rw [recordOffsetsSpec_length]),
    recordOffsetsSpec_length, Nat.sub_self]
  simp [recordOffsetsSpec]

theorem getElem?_triples (l : List Nat) (i c : Nat) (hc : c < 3) :
    (l.flatMap fun x => [x, x, x])[3 * i + c]? = l[i]? := by
  induction l generalizing i with
  | nil => simp
  | cons a rest ih =>
    rw [List.flatMap_cons]
    cases i with
    | zero =>
      have : c = 0 ∨ c = 1 ∨ c = 2 := by omega
      rcases this with rfl | rfl | rfl <;> simp
    | succ i =>
      rw [List.getElem?_append_right (by simp; omega)]
      have : 3 * (i + 1) + c - [a, a, a].length = 3 * i + c := by simp; omega
      rw [this, ih]
      simp

theorem getElem?_middle (A B C : List Nat) (k : Nat) (hk : k < B.length) :
    (A ++ (B ++ C))[A.length + k]? = B[k]? := by
  rw [List.getElem?_append_right (by omega), Nat.add_sub_cancel_left,
    List.getElem?_append_left hk]

theorem lightmapBytesSpec_length (color : Bool) (L : qLightmap_c) (hf : L.isFlat = false) :
    (lightmapBytesSpec color L).length = (if color then 3 else 1) * L.samples.length := by
  unfold lightmapBytesSpec
  rw [hf]
  cases color with
  | false => simp
  | true =>
    simp only [Bool.false_eq_true, if_false, if_true]
    generalize L.samples = l
    induction l with
    | nil => simp
    | cons a rest ih =>
      rw [List.flatMap_cons, List.length_append, ih]
      simp
      ring

/-- C18: after `QCOM_BuildLightmap`, for lightmaps with one sample per cell and
offset -1, the lump is the ladder of 192 blocks followed by the bytes of the
lightmaps that are not flat, in creation order, and nothing else. A flat
lightmap contributes no bytes and keeps offset -1. A lightmap that is not flat
has, as recorded offset, the position of its first byte: the ladder size plus
the bytes of the lightmaps before it, so at least the ladder size; byte
`offset + i` is `samples[i]` in greyscale mode, and bytes `offset + 3i`,
`offset + 3i + 1`, `offset + 3i + 2` are `samples[i]` in color mode. Of two
lightmaps that are not flat the later has the larger offset, and it starts where
the earlier ends when only flat ones lie between. -/
theorem QCOM_BuildLightmap_layout (FLAT : Int) (color : Bool) (maps : List qLightmap_c)
    (fs : Nat) (hfs : fs = (FLAT * (if color then 3 else 1)).toNat)
    (hlen : ∀ L ∈ maps, L.samples.length = (L.width * L.height).toNat)
    (hpos : ∀ L ∈ maps, L.isFlat = false → 0 < L.width * L.height)
    (hnew : ∀ L ∈ maps, L.offset = -1) :
    (QCOM_BuildLightmap FLAT color maps).1
      = ladderSpec fs ++ maps.flatMap (lightmapBytesSpec color) ∧
    (ladderSpec fs).length = 192 * fs ∧
    (QCOM_BuildLightmap FLAT color maps).2.length = maps.length ∧
    (∀ pre L post, maps = pre ++ L :: post →
      ∃ L1, (QCOM_BuildLightmap FLAT color maps).2[pre.length]? = some L1 ∧
        L1.width = L.width ∧ L1.height = L.height ∧ L1.samples = L.samples ∧
        (L.isFlat = true → L1.offset = -1 ∧ lightmapBytesSpec color L = []) ∧
        (L.isFlat = false →
          L1.offset = ((192 * fs + (pre.flatMap (lightmapBytesSpec color)).length : Nat) : Int) ∧
          ((192 * fs : Nat) : Int) ≤ L1.offset ∧
          (color = false → ∀ i, i < L.samples.length →
            (QCOM_BuildLightmap FLAT color maps).1[L1.offset.toNat + i]? = L.samples[i]?) ∧
          (color = true → ∀ i c, i < L.samples.length → c < 3 →
            (QCOM_BuildLightmap FLAT color maps).1[L1.offset.toNat + (3 * i + c)]?
              = L.samples[i]?))) ∧
    (∀ pre L mid L2 post, maps = pre ++ L :: (mid ++ L2 :: post) →
      L.isFlat = false → L2.isFlat = false →
      ∃ L1 L3, (QCOM_BuildLightmap FLAT color maps).2[pre.length]? = some L1 ∧
        (QCOM_BuildLightmap FLAT color maps).2[pre.length + 1 + mid.length]? = some L3 ∧
        L1.offset < L3.offset ∧
        ((∀ M ∈ mid, M.isFlat = true) →
          L3.offset
            = L1.offset + (((if color then 3 else 1) * L.samples.length : Nat) : Int))) := by
  have heq := QCOM_BuildLightmap_eq FLAT color maps hlen
  rw [← hfs] at heq
  have h1 : (QCOM_BuildLightmap FLAT color maps).1
      = ladderSpec fs ++ maps.flatMap (lightmapBytesSpec color) := by rw [heq]
  have h2 : (QCOM_BuildLightmap FLAT color maps).2 = recordOffsetsSpec color (192 * fs) maps := by
    rw [heq]
  refine ⟨h1, ladderSpec_length fs, by rw [h2, recordOffsetsSpec_length], ?_, ?_⟩
  · intro pre L post hmaps
    have hL : L ∈ maps := by rw [hmaps]; simp
    refine ⟨(if L.isFlat then L
        else { L with
          offset := ((192 * fs + (pre.flatMap (lightmapBytesSpec color)).length : Nat) : Int) }),
      by rw [h2, hmaps]; exact recordOffsetsSpec_get color _ pre post L, ?_⟩
    by_cases hf : L.isFlat = true
    · rw [if_pos hf]
      refine ⟨rfl, rfl, rfl, fun _ => ⟨hnew L hL, by simp [lightmapBytesSpec, hf]⟩, ?_⟩
      intro h
      rw [hf] at h
      exact absurd h (by decide)
    · have hf2 : L.isFlat = false := by simpa using hf
      rw [if_neg hf]
      refine ⟨rfl, rfl, rfl, fun h => absurd h hf, fun _ => ⟨rfl, ?_, ?_, ?_⟩⟩
      · show ((192 * fs : Nat) : Int)
          ≤ ((192 * fs + (pre.flatMap (lightmapBytesSpec color)).length : Nat) : Int)
        push_cast
        omega
      · intro hc i hi
        subst hc
        show (QCOM_BuildLightmap FLAT false maps).1[
          ((192 * fs + (pre.flatMap (lightmapBytesSpec false)).length : Nat) : Int).toNat + i]? = _
        rw [h1, hmaps, Int.toNat_ofNat, List.flatMap_append, List.flatMap_cons,
          ← List.append_assoc, ← ladderSpec_length fs, ← List.length_append, Nat.add_comm]
        have hb : lightmapBytesSpec false L = L.samples := by
          simp [lightmapBytesSpec, hf2]
        rw [Nat.add_comm, getElem?_middle _ _ _ i (by rw [hb]; exact hi), hb]
      · intro hc i c hi hc3
        subst hc
        show (QCOM_BuildLightmap FLAT true maps).1[
          ((192 * fs + (pre.flatMap (lightmapBytesSpec true)).length : Nat) : Int).toNat
            + (3 * i + c)]? = _
        rw [h1, hmaps, Int.toNat_ofNat, List.flatMap_append, List.flatMap_cons,
          ← List.append_assoc, ← ladderSpec_length fs, ← List.length_append]
        have hb : lightmapBytesSpec true L = L.samples.flatMap fun x => [x, x, x] := by
          simp [lightmapBytesSpec, hf2]
        have hbl := lightmapBytesSpec_length true L hf2
        rw [getElem?_middle _ _ _ (3 * i + c) (by rw [hbl]; simp; omega), hb,
          getElem?_triples _ i c hc3]
  · intro pre L mid L2 post hmaps hf hf2
    have hL : L ∈ maps := by rw [hmaps]; simp
    have e1 := recordOffsetsSpec_get color (192 * fs) pre (mid ++ L2 :: post) L
    have hmaps2 : maps = (pre ++ L :: mid) ++ L2 :: post := by rw [hmaps]; simp
    have e2 := recordOffsetsSpec_get color (192 * fs) (pre ++ L :: mid) post L2
    rw [← hmaps, ← h2] at e1
    rw [← hmaps2, ← h2] at e2
    have hidx : (pre ++ L :: mid).length = pre.length + 1 + mid.length := by
      simp; omega
    rw [hidx] at e2
    simp only [hf, hf2, Bool.false_eq_true, if_false] at e1 e2
    refine ⟨_, _, e1, e2, ?_, ?_⟩
    · have hbl := lightmapBytesSpec_length color L hf
      have hs : 0 < L.samples.length := by
        rw [hlen L hL]
        have := hpos L hL hf
        omega
      have hpos2 : 0 < (lightmapBytesSpec color L).length := by
        rw [hbl]
        cases color <;> simp <;> omega
      simp only [List.flatMap_append, List.flatMap_cons, List.length_append]
      push_cast
      omega
    · intro hmid
      have hm : mid.flatMap (lightmapBytesSpec color) = [] := by
        rw [List.flatMap_eq_nil_iff]
        intro M hM
        simp [lightmapBytesSpec, hmid M hM]
      have hbl := lightmapBytesSpec_length color L hf
      simp only [List.flatMap_append, List.flatMap_cons, List.length_append, hm,
        List.length_nil, Nat.add_zero, hbl]
      push_cast
      ring

theorem QCOM_BuildLightmap_layout_witness :
    ∃ L1, (QCOM_BuildLightmap 4 true [flatLightmap 7, pairLightmap]).2[1]? = some L1 ∧
      L1.offset = 2304 ∧
      (QCOM_BuildLightmap 4 true [flatLightmap 7, pairLightmap]).1[2304]? = some 10 ∧
      (QCOM_BuildLightmap 4 true [flatLightmap 7, pairLightmap]).1[2304 + 5]? = some 21 ∧
      (QCOM_BuildLightmap 4 true [flatLightmap 7, pairLightmap]).1.length = 2304 + 6 := by
  have h := QCOM_BuildLightmap_layout 4 true [flatLightmap 7, pairLightmap] 12 (by decide)
    (by decide) (by decide) (by decide)
  obtain ⟨L1, e1, -, -, -, -, e2⟩ := h.2.2.2.1 [flatLightmap 7] pairLightmap [] rfl
  obtain ⟨o1, -, -, o4⟩ := e2 rfl
  have ho : L1.offset.toNat = 2304 := by rw [o1]; rfl
  refine ⟨L1, e1, o1.trans (by decide), ?_, ?_, ?_⟩
  · have := o4 rfl 0 0 (by decide) (by decide)
    rw [ho] at this
    exact this
  · have := o4 rfl 1 2 (by decide) (by decide)
    rw [ho] at this
    exact this
  · rw [h.1, List.length_append, h.2.1]
    rfl

/-! ## The placeholder texture -/

theorem flatMap_singleton_eq_map {α β : Type} (l : List α) (f : α → β) :
    (l.flatMap fun x => [f x]) = l.map f := by
  induction l with
  | nil => rfl
  | cons a rest ih => simp [List.flatMap_cons, ih]

theorem rows_length (f : Nat → Nat → Nat) (m n : Nat) :
    ((List.range n).flatMap fun y => (List.range m).map (f y)).length = n * m := by
  induction n with
  | zero => simp
  | succ n ih =>
    rw [List.range_succ, List.flatMap_append, List.length_append, ih, List.flatMap_singleton,
      List.length_map, List.length_range]
    ring

/-- Entry `x` of row `y` in `n` rows of `m` entries. -/
theorem getElem?_rows (f : Nat → Nat → Nat) (m n y x : Nat) (hy : y < n) (hx : x < m) :
    ((List.range n).flatMap fun y => (List.range m).map (f y))[y * m + x]? = some (f y x) := by
  induction n with
  | zero => omega
  | succ n ih =>
    have hlen := rows_length f m n
    rw [List.range_succ, List.flatMap_append, List.flatMap_singleton]
    by_cases hyn : y < n
    · have hlt : y * m + x < n * m := by
        have : (y + 1) * m ≤ n * m := Nat.mul_le_mul_right m hyn
        rw [Nat.add_mul, Nat.one_mul] at this
        omega
      rw [List.getElem?_append_left (by rw [hlen]; exact hlt)]
      exact ih hyn
    · have hyeq : y = n := by omega
      subst hyeq
      rw [List.getElem?_append_right (by rw [hlen]; omega), hlen]
      have : y * m + x - y * m = x := by omega
      rw [this]
      simp [hx]

/-- One level of `CreateDummyMip(lump, name, 4, 12)` is the level of the spec. -/
theorem dummyLevel_eq (n : Nat) (lump : List Nat) :
    dummyLevel 4 12 (n : Int) lump = lump ++ placeholderLevelSpec n := by
  unfold dummyLevel placeholderLevelSpec
  have hrow : (fun (y : Int) (acc : List Nat) =>
      forRange (n : Int) (fun x acc2 => acc2 ++ [dummyPixel 4 12 (n : Int) x y]) acc)
      = fun y acc => acc ++ (List.range n).map
          (fun (x : Nat) => dummyPixel 4 12 (n : Int) (x : Int) y) := by
    funext y acc
    rw [forRange_append_pieces, Int.toNat_ofNat, flatMap_singleton_eq_map]
  rw [hrow, forRange_append_pieces, Int.toNat_ofNat]
  rfl

/-- The pixels of `CreateDummyMip(lump, name, 4, 12)` with five mip levels. -/
theorem dummyLevels_eq (lump : List Nat) :
    dummyLevels 4 12 MIP_LEVELS 64 lump = lump ++ placeholderPixelsSpec := by
  have e : dummyLevels 4 12 MIP_LEVELS 64 lump
      = dummyLevel 4 12 ((4 : Nat) : Int) (dummyLevel 4 12 ((8 : Nat) : Int)
          (dummyLevel 4 12 ((16 : Nat) : Int) (dummyLevel 4 12 ((32 : Nat) : Int)
            (dummyLevel 4 12 ((64 : Nat) : Int) lump)))) := rfl
  rw [e, dummyLevel_eq, dummyLevel_eq, dummyLevel_eq, dummyLevel_eq, dummyLevel_eq]
  unfold placeholderPixelsSpec
  simp only [List.append_assoc]

theorem placeholderLevelSpec_length (n : Nat) : (placeholderLevelSpec n).length = n * n :=
  rows_length _ n n

/-- C19, counterexample: a name of 16 characters that is no built-in and has no
entry in the wad makes the `SYS_ASSERT(strlen(name) < 16)` of `CreateDummyMip`
fail, after the warning is logged and before anything is appended. -/
theorem TransferOneMipTex_placeholder_counterexample :
    strlen "0123456789abcdef" = 16 ∧
    emptyWad.WAD2_FindEntry "0123456789abcdef" < 0 ∧
    TransferOneMipTex emptyWad MIP_LEVELS "0123456789abcdef" { data := [], log := [] }
      = Outcome.assertFail
          { data := []
            log := ["WARNING: texture '0123456789abcdef' not found in texture wad!\n"] } := by
  refine ⟨by decide, by decide, ?_⟩
  unfold TransferOneMipTex
  rw [if_neg (by decide), if_neg (by decide), if_neg (by decide)]
  simp only [emptyWad]
  rw [if_neg (by decide)]
  unfold CreateDummyMip
  rw [if_pos (by decide)]
  rfl

/-- C19, amended: for every texture name of fewer than 16 bytes that is not one
of the three built-ins and has no entry in the texture wad, `TransferOneMipTex`
does not fail: it logs a warning and appends one block, a `miptex_t` header
whose name field starts with the name and a NUL and whose width and height are
64, followed by the pixels of five mip levels of sizes 64, 32, 16, 8, 4, that is
5456 bytes, the pixel at `(x, y)` of a level of size `n` being 12 if
`(x xor y) and n/4` is not zero and 4 otherwise. The block emitted for
"missing" has the same pixel bytes. -/
theorem TransferOneMipTex_placeholder (wad : WadEnv) (name : String) (lump : TexLump)
    (hbuiltin : name ≠ "error" ∧ name ≠ "missing" ∧ name ≠ "o_carve")
    (hwad : wad.WAD2_FindEntry name < 0) (hname : strlen name < 16) :
    TransferOneMipTex wad MIP_LEVELS name lump
      = Outcome.ok ()
          { data := lump.data
              ++ miptexHeader wad.pad name 64 64 (mipOffsets MIP_LEVELS (sizeofMiptex MIP_LEVELS) 64)
              ++ placeholderPixelsSpec
            log := lump.log
              ++ ["WARNING: texture '" ++ name ++ "' not found in texture wad!\n"] } ∧
    (∃ padBytes offsetBytes,
      miptexHeader wad.pad name 64 64 (mipOffsets MIP_LEVELS (sizeofMiptex MIP_LEVELS) 64)
        = (cstring name ++ [0] ++ padBytes) ++ [64, 0, 0, 0] ++ [64, 0, 0, 0] ++ offsetBytes ∧
      (cstring name ++ [0] ++ padBytes).length = 16 ∧ offsetBytes.length = 4 * MIP_LEVELS) ∧
    placeholderPixelsSpec
      = placeholderLevelSpec 64 ++ placeholderLevelSpec 32 ++ placeholderLevelSpec 16
        ++ placeholderLevelSpec 8 ++ placeholderLevelSpec 4 ∧
    placeholderPixelsSpec.length = 5456 ∧
    (∀ n x y : Nat, x < n → y < n →
      (placeholderLevelSpec n).length = n * n ∧
      (placeholderLevelSpec n)[y * n + x]?
        = some (if (x ^^^ y) &&& (n / 4) ≠ 0 then 12 else 4)) ∧
    TransferOneMipTex wad MIP_LEVELS "missing" lump
      = Outcome.ok ()
          { lump with
            data := lump.data
              ++ miptexHeader wad.pad "missing" 64 64
                  (mipOffsets MIP_LEVELS (sizeofMiptex MIP_LEVELS) 64)
              ++ placeholderPixelsSpec } := by
  refine ⟨?_, ?_, rfl, ?_, ?_, ?_⟩
  · unfold TransferOneMipTex
    rw [if_neg hbuiltin.1, if_neg hbuiltin.2.1, if_neg hbuiltin.2.2]
    simp only
    rw [if_neg (by omega)]
    unfold CreateDummyMip
    rw [if_neg (by simpa using hname)]
    simp only [dummyLevels_eq]
  · refine ⟨(List.range (16 - (strlen name + 1))).map (fun i => wad.pad (strlen name + 1 + i)),
      ((mipOffsets MIP_LEVELS (sizeofMiptex MIP_LEVELS) 64).map le32).flatten, ?_, ?_, ?_⟩
    · unfold miptexHeader
      rfl
    · simp only [List.length_append, List.length_map, List.length_range, List.length_singleton]
      unfold strlen at hname ⊢
      omega
    · rfl
  · unfold placeholderPixelsSpec
    simp only [List.length_append, placeholderLevelSpec_length]
  · intro n x y hx hy
    exact ⟨placeholderLevelSpec_length n, getElem?_rows _ n n y x hy hx⟩
  · unfold TransferOneMipTex
    rw [if_neg (by decide), if_pos rfl]
    unfold CreateDummyMip
    rw [if_neg (by decide)]
    simp only [dummyLevels_eq]

theorem TransferOneMipTex_placeholder_witness :
    TransferOneMipTex emptyWad MIP_LEVELS "lava1" { data := [], log := [] }
      = Outcome.ok ()
          { data := miptexHeader emptyWad.pad "lava1" 64 64
                (mipOffsets MIP_LEVELS (sizeofMiptex MIP_LEVELS) 64) ++ placeholderPixelsSpec
            log := ["WARNING: texture 'lava1' not found in texture wad!\n"] } ∧
    (miptexHeader emptyWad.pad "lava1" 64 64
      (mipOffsets MIP_LEVELS (sizeofMiptex MIP_LEVELS) 64)).take 24
      = [108, 97, 118, 97, 49, 0, 0, 0, 0, 0, 0, 0, 0, 0, 0, 0, 64, 0, 0, 0, 64, 0, 0, 0] := by
  have h := TransferOneMipTex_placeholder emptyWad "lava1" { data := [], log := [] }
    (by decide) (by decide) (by decide)
  exact ⟨h.1, by decide⟩

/-! ## One point light -/

/-- The sample points `CalcPoints` computes below the "best" quality. -/
theorem CalcPoints_points (st : LightState) (hq : st.qk_lighting_quality ≠ 3) :
    ∃ pts, CalcPoints st = { st with lt_points := pts } ∧
      ∀ s t, 0 ≤ s → s < st.lt_W → 0 ≤ t → t < st.lt_H →
        pts (t * st.lt_W + s)
          = { x := st.lt_texorg 0
                + st.lt_textoworld 0 0 * (((st.lt_tex_mins 0 + s : Int) : ℚ) * 16)
                + st.lt_textoworld 1 0 * (((st.lt_tex_mins 1 + t : Int) : ℚ) * 16)
              y := st.lt_texorg 1
                + st.lt_textoworld 0 1 * (((st.lt_tex_mins 0 + s : Int) : ℚ) * 16)
                + st.lt_textoworld 1 1 * (((st.lt_tex_mins 1 + t : Int) : ℚ) * 16)
              z := st.lt_texorg 2
                + st.lt_textoworld 0 2 * (((st.lt_tex_mins 0 + s : Int) : ℚ) * 16)
                + st.lt_textoworld 1 2 * (((st.lt_tex_mins 1 + t : Int) : ℚ) * 16) } := by
  have key := forRange_grid (fun r : LightState => ∃ pts, r = { st with lt_points := pts })
    (fun r k => r.lt_points k) st.lt_W st.lt_H
    (fun t sa =>
      forRange sa.lt_W (fun s sb =>
        let us : ℚ := ((sb.lt_tex_mins 0 + s : Int) : ℚ) * 16
        let ut : ℚ := ((sb.lt_tex_mins 1 + t : Int) : ℚ) * 16
        { sb with
          lt_points := Function.update sb.lt_points (t * sb.lt_W + s)
            { x := sb.lt_texorg 0 + sb.lt_textoworld 0 0 * us + sb.lt_textoworld 1 0 * ut
              y := sb.lt_texorg 1 + sb.lt_textoworld 0 1 * us + sb.lt_textoworld 1 1 * ut
              z := sb.lt_texorg 2 + sb.lt_textoworld 0 2 * us + sb.lt_textoworld 1 2 * ut } })
        sa)
    (fun s t sb =>
        let us : ℚ := ((sb.lt_tex_mins 0 + s : Int) : ℚ) * 16
        let ut : ℚ := ((sb.lt_tex_mins 1 + t : Int) : ℚ) * 16
        { sb with
          lt_points := Function.update sb.lt_points (t * sb.lt_W + s)
            { x := sb.lt_texorg 0 + sb.lt_textoworld 0 0 * us + sb.lt_textoworld 1 0 * ut
              y := sb.lt_texorg 1 + sb.lt_textoworld 0 1 * us + sb.lt_textoworld 1 1 * ut
              z := sb.lt_texorg 2 + sb.lt_textoworld 0 2 * us + sb.lt_textoworld 1 2 * ut } })
    (fun s t =>
      { x := st.lt_texorg 0
          + st.lt_textoworld 0 0 * (((st.lt_tex_mins 0 + s : Int) : ℚ) * 16)
          + st.lt_textoworld 1 0 * (((st.lt_tex_mins 1 + t : Int) : ℚ) * 16)
        y := st.lt_texorg 1
          + st.lt_textoworld 0 1 * (((st.lt_tex_mins 0 + s : Int) : ℚ) * 16)
          + st.lt_textoworld 1 1 * (((st.lt_tex_mins 1 + t : Int) : ℚ) * 16)
        z := st.lt_texorg 2
          + st.lt_textoworld 0 2 * (((st.lt_tex_mins 0 + s : Int) : ℚ) * 16)
          + st.lt_textoworld 1 2 * (((st.lt_tex_mins 1 + t : Int) : ℚ) * 16) })
    (by
      rintro t acc ⟨pts, rfl⟩
      rfl)
    (by
      rintro s t acc _ _ _ _ ⟨pts, rfl⟩
      exact ⟨_, rfl⟩)
    (by
      rintro s t acc _ _ _ _ ⟨pts, rfl⟩
      simp only [Function.update_same])
    (by
      rintro s t acc k _ _ _ _ ⟨pts, rfl⟩ hk
      simp only []
      rw [Function.update_noteq hk])
    st ⟨st.lt_points, rfl⟩
  have hC : CalcPoints st = forRange st.lt_H
      (fun t sa =>
        forRange sa.lt_W (fun s sb =>
          let us : ℚ := ((sb.lt_tex_mins 0 + s : Int) : ℚ) * 16
          let ut : ℚ := ((sb.lt_tex_mins 1 + t : Int) : ℚ) * 16
          { sb with
            lt_points := Function.update sb.lt_points (t * sb.lt_W + s)
              { x := sb.lt_texorg 0 + sb.lt_textoworld 0 0 * us + sb.lt_textoworld 1 0 * ut
                y := sb.lt_texorg 1 + sb.lt_textoworld 0 1 * us + sb.lt_textoworld 1 1 * ut
                z := sb.lt_texorg 2 + sb.lt_textoworld 0 2 * us + sb.lt_textoworld 1 2 * ut } })
          sa) st := by
    unfold CalcPoints
    simp only [hq, if_false]
  rw [hC]
  obtain ⟨⟨pts, hpts⟩, hcell, -⟩ := key
  refine ⟨pts, hpts, ?_⟩
  intro s t a1 a2 a3 a4
  have := hcell s t a1 a2 a3 a4
  rw [hpts] at this
  exact this

/-- The vectors `CalcFaceVectors` computes for the floor face: the sample points
lie one unit above the plane `z = 0`, S along x and T along y. -/
theorem CalcFaceVectors_floorFace (a b : ℚ) (st : LightState) :
    (CalcFaceVectors openEnv (floorFace a b) st).lt_plane_normal = ![0, 0, 1] ∧
    (CalcFaceVectors openEnv (floorFace a b) st).lt_plane_dist = 0 ∧
    (CalcFaceVectors openEnv (floorFace a b) st).lt_texorg = ![0, 0, 1] ∧
    (CalcFaceVectors openEnv (floorFace a b) st).lt_textoworld 0 = ![1, 0, 0] ∧
    (CalcFaceVectors openEnv (floorFace a b) st).lt_textoworld 1 = ![0, 1, 0] := by
  have hs : Rat.sqrt 1 = 1 := by
    rw [show (1 : ℚ) = 1 * 1 by norm_num, Rat.sqrt_eq]
    norm_num
  refine ⟨?_, ?_, ?_, ?_, ?_⟩
  · simp [CalcFaceVectors, floorFace]
  · simp [CalcFaceVectors, floorFace]
  · simp [CalcFaceVectors, floorFace, openEnv, hs]
  · simp [CalcFaceVectors, floorFace, openEnv, hs]
  · simp [CalcFaceVectors, floorFace, openEnv, hs]

theorem truncToInt_mono_nonneg (x y : ℚ) (hx : 0 ≤ x) (hxy : x ≤ y) :
    truncToInt x ≤ truncToInt y := by
  unfold truncToInt
  rw [if_neg (not_lt.mpr hx), if_neg (not_lt.mpr (le_trans hx hxy))]
  exact Int.floor_le_floor hxy

theorem truncToInt_nonneg (x : ℚ) (hx : 0 ≤ x) : 0 ≤ truncToInt x := by
  unfold truncToInt
  rw [if_neg (not_lt.mpr hx)]
  exact Int.floor_nonneg.2 hx

/-- What a point light adds to a cell is no more for a farther cell. -/
theorem pointIncrement_anti (level : Int) (radius d1 d2 : ℚ) (hlevel : 0 ≤ level)
    (hradius : 0 < radius) (hd : d1 ≤ d2) :
    (if d2 < radius then truncToInt ((level : ℚ) * (1 - d2 / radius)) else 0)
      ≤ (if d1 < radius then truncToInt ((level : ℚ) * (1 - d1 / radius)) else 0) := by
  have hl : (0 : ℚ) ≤ level := by exact_mod_cast hlevel
  have hpos : ∀ d, d < radius → 0 ≤ (level : ℚ) * (1 - d / radius) := by
    intro d hdr
    apply mul_nonneg hl
    rw [sub_nonneg, div_le_one hradius]
    exact le_of_lt hdr
  by_cases h2 : d2 < radius
  · have h1 : d1 < radius := lt_of_le_of_lt hd h2
    rw [if_pos h2, if_pos h1]
    apply truncToInt_mono_nonneg _ _ (hpos d2 h2)
    apply mul_le_mul_of_nonneg_left _ hl
    have : d1 / radius ≤ d2 / radius := div_le_div_of_nonneg_right hd (le_of_lt hradius)
    linarith
  · rw [if_neg h2]
    by_cases h1 : d1 < radius
    · rw [if_pos h1]
      exact truncToInt_nonneg _ (hpos d1 h1)
    · rw [if_neg h1]

/-- The run of `QCOM_LightFace` at quality 2 with one point light in front of
the face plane and within its radius, every ray test succeeding: each entry of
the buffer is `LOW_LIGHT << 8` plus what the light adds at the distance of the
cell, and `Store_Normal` stores it. -/
theorem QCOM_LightFace_one_light (env : LightEnv) (light : quake_light_t)
    (F : quake_lit_face_c) (st : LightState)
    (hq : st.qk_lighting_quality = 2) (hkind : light.kind ≠ LTK_Sun)
    (hperp : 0 < lightPerp (CalcFaceVectors env F st) light)
    (hrad : lightPerp (CalcFaceVectors env F st) light ≤ light.radius)
    (hray : ∀ a b c d e f, env.QCOM_TraceRay a b c d e f = true) :
    ∃ pts b,
      QCOM_LightFace env [light] F st
        = some ({ CalcFaceExtents F (CalcFaceVectors env F st) with
              lt_points := pts, blocklights := b },
            Outcome.ok () ((BSP_NewLightmap env.uninit (CalcFaceExtents F st).lt_W
              (CalcFaceExtents F st).lt_H).Store_Normal b)) ∧
      CalcPoints (CalcFaceExtents F (CalcFaceVectors env F st))
        = { CalcFaceExtents F (CalcFaceVectors env F st) with lt_points := pts } ∧
      ∀ s t, 0 ≤ s → s < (CalcFaceExtents F st).lt_W → 0 ≤ t → t < (CalcFaceExtents F st).lt_H →
        b (t * (CalcFaceExtents F st).lt_W + s)
          = 5120 + (if env.ComputeDist (pts (t * (CalcFaceExtents F st).lt_W + s)).x
                (pts (t * (CalcFaceExtents F st).lt_W + s)).y
                (pts (t * (CalcFaceExtents F st).lt_W + s)).z light.x light.y light.z
              < light.radius
            then truncToInt ((light.level : ℚ)
              * (1 - env.ComputeDist (pts (t * (CalcFaceExtents F st).lt_W + s)).x
                  (pts (t * (CalcFaceExtents F st).lt_W + s)).y
                  (pts (t * (CalcFaceExtents F st).lt_W + s)).z light.x light.y light.z
                / light.radius))
            else 0) := by
  have hq2 : (CalcFaceExtents F (CalcFaceVectors env F st)).qk_lighting_quality = 2 := hq
  obtain ⟨pts, hpts⟩ := CalcPoints_frame (CalcFaceExtents F (CalcFaceVectors env F st))
  rw [if_neg (by rw [hq2]; decide)] at hpts
  obtain ⟨c, hc, hclear⟩ := ClearLightBuffer_spec
    (CalcPoints (CalcFaceExtents F (CalcFaceVectors env F st)))
  rw [hpts] at hc hclear
  have hWe : (CalcFaceExtents F (CalcFaceVectors env F st)).lt_W = (CalcFaceExtents F st).lt_W :=
    rfl
  have hHe : (CalcFaceExtents F (CalcFaceVectors env F st)).lt_H = (CalcFaceExtents F st).lt_H :=
    rfl
  obtain ⟨ss, hss, hssp, hssm⟩ := steppedRange_spec (CalcFaceExtents F st).lt_W 1 (le_refl _)
  obtain ⟨ts, hts, htsp, htsm⟩ := steppedRange_spec (CalcFaceExtents F st).lt_H 1 (le_refl _)
  have hproc := QCOM_ProcessLight_eq env light
    { CalcFaceExtents F (CalcFaceVectors env F st) with lt_points := pts, blocklights := c }
    ss ts hperp (Or.inr hrad)
    (by
      show steppedRange (CalcFaceExtents F (CalcFaceVectors env F st)).lt_W
        (if (CalcFaceExtents F (CalcFaceVectors env F st)).qk_lighting_quality = 0
          then (CalcFaceExtents F (CalcFaceVectors env F st)).lt_W - 1 else 1) = some ss
      rw [hq2, if_neg (by decide), hWe]
      exact hss)
    (by
      show steppedRange (CalcFaceExtents F (CalcFaceVectors env F st)).lt_H
        (if (CalcFaceExtents F (CalcFaceVectors env F st)).qk_lighting_quality = 0
          then (CalcFaceExtents F (CalcFaceVectors env F st)).lt_H - 1 else 1) = some ts
      rw [hq2, if_neg (by decide), hHe]
      exact hts)
  refine ⟨pts, (fun k => c k +
    (ts.map fun t => (ss.map fun s =>
      if t * (CalcFaceExtents F (CalcFaceVectors env F st)).lt_W + s = k then
        cellIncrement env light
          { CalcFaceExtents F (CalcFaceVectors env F st) with
            lt_points := pts, blocklights := c } s t
      else 0).sum).sum), ?_, hpts, ?_⟩
  · unfold QCOM_LightFace
    simp only [hpts, hc, processLights, hproc]
    rw [hq2]
    rfl
  · intro s t a1 a2 a3 a4
    obtain ⟨c1, c2⟩ := cellIndex_lt _ _ s t a1 a2 a3 a4
    show c (t * (CalcFaceExtents F st).lt_W + s) + _ = _
    rw [hclear _ c1 c2]
    have hsum := cellSum_at (CalcFaceExtents F st).lt_W
      (cellIncrement env light
        { CalcFaceExtents F (CalcFaceVectors env F st) with lt_points := pts, blocklights := c })
      ss ts hssp htsp
      (fun x hx => ⟨((hssm x).1 hx).1, ((hssm x).1 hx).2.1⟩) s t
      ((hssm s).2 ⟨a1, a2, one_dvd _⟩) ((htsm t).2 ⟨a3, a4, one_dvd _⟩)
    rw [show (LOW_LIGHT <<< 8 : Int) = 5120 by decide]
    congr 1
    refine hsum.trans ?_
    unfold cellIncrement
    have hskip : ¬ ((CalcFaceExtents F (CalcFaceVectors env F st)).qk_lighting_quality = 1 ∧
        (IS_INTERP s (CalcFaceExtents F (CalcFaceVectors env F st)).lt_W
          || IS_INTERP t (CalcFaceExtents F (CalcFaceVectors env F st)).lt_W) = true) := by
      rw [hq2]
      rintro ⟨h, -⟩
      exact absurd h (by decide)
    simp only [if_neg hskip, hray, not_true_eq_false, if_false, if_neg hkind]
    rfl

/-- The sample points of the floor face at quality 2: `(16 s, 16 t, 1)`. -/
theorem floorFace_points (a b : ℚ) (st : LightState) (hq : st.qk_lighting_quality = 2)
    (pts : Int → quake_vertex_c)
    (hpts : CalcPoints (CalcFaceExtents (floorFace a b)
        (CalcFaceVectors openEnv (floorFace a b) st))
      = { CalcFaceExtents (floorFace a b) (CalcFaceVectors openEnv (floorFace a b) st) with
          lt_points := pts })
    (s t : Int) (hs : 0 ≤ s) (hsW : s < (CalcFaceExtents (floorFace a b) st).lt_W)
    (ht : 0 ≤ t) (htH : t < (CalcFaceExtents (floorFace a b) st).lt_H) :
    pts (t * (CalcFaceExtents (floorFace a b) st).lt_W + s)
      = { x := (s : ℚ) * 16, y := (t : ℚ) * 16, z := 1 } := by
  obtain ⟨pts1, h1, hcell⟩ := CalcPoints_points
    (CalcFaceExtents (floorFace a b) (CalcFaceVectors openEnv (floorFace a b) st))
    (by
      show st.qk_lighting_quality ≠ 3
      rw [hq]; decide)
  have hp : pts = pts1 := by
    have := hpts.symm.trans h1
    exact congrArg LightState.lt_points this
  rw [hp]
  have := hcell s t hs hsW ht htH
  obtain ⟨-, -, e3, e4, e5⟩ := CalcFaceVectors_floorFace a b st
  have f3 : (CalcFaceExtents (floorFace a b)
      (CalcFaceVectors openEnv (floorFace a b) st)).lt_texorg = ![0, 0, 1] := e3
  have f4 : (CalcFaceExtents (floorFace a b)
      (CalcFaceVectors openEnv (floorFace a b) st)).lt_textoworld 0 = ![1, 0, 0] := e4
  have f5 : (CalcFaceExtents (floorFace a b)
      (CalcFaceVectors openEnv (floorFace a b) st)).lt_textoworld 1 = ![0, 1, 0] := e5
  have f6 : (CalcFaceExtents (floorFace a b)
      (CalcFaceVectors openEnv (floorFace a b) st)).lt_tex_mins = ![0, 0] := by
    simp [CalcFaceExtents, floorFace]
  rw [f3, f4, f5, f6] at this
  refine this.trans ?_
  simp

/-- A light of level at most 1 adds less than one level at a positive distance:
the stored sample stays `LOW_LIGHT`. -/
theorem storedByte_dim (level : Int) (radius d : ℚ) (h0 : 0 ≤ level) (h1 : level ≤ 256)
    (hradius : 0 < radius) (hd : 0 < d) :
    storedByte (5120 + (if d < radius then truncToInt ((level : ℚ) * (1 - d / radius)) else 0))
      = 20 := by
  have hl : (0 : ℚ) ≤ level := by exact_mod_cast h0
  have hl2 : (level : ℚ) ≤ 256 := by exact_mod_cast h1
  by_cases hdr : d < radius
  · rw [if_pos hdr]
    have hfrac : 0 < d / radius := div_pos hd hradius
    have hfrac1 : d / radius < 1 := (div_lt_one hradius).2 hdr
    have hx0 : 0 ≤ (level : ℚ) * (1 - d / radius) := mul_nonneg hl (by linarith)
    have hx1 : (level : ℚ) * (1 - d / radius) < 256 := by nlinarith
    have t0 := truncToInt_nonneg _ hx0
    have t1 : truncToInt ((level : ℚ) * (1 - d / radius)) < 256 := by
      unfold truncToInt
      rw [if_neg (not_lt.mpr hx0), Int.floor_lt]
      exact_mod_cast hx1
    exact storedByte_low _ (by omega) (by omega)
  · rw [if_neg hdr]
    decide

theorem lampDistance_pos (s t : Int) :
    0 < openEnv.ComputeDist ((s : ℚ) * 16) ((t : ℚ) * 16) 1 dimLamp.x dimLamp.y dimLamp.z := by
  show 0 < Rat.sqrt (((s : ℚ) * 16 - 16) * ((s : ℚ) * 16 - 16)
    + ((t : ℚ) * 16 - 16) * ((t : ℚ) * 16 - 16) + ((1 : ℚ) - 10) * ((1 : ℚ) - 10))
  have e : ((s : ℚ) * 16 - 16) * ((s : ℚ) * 16 - 16)
      + ((t : ℚ) * 16 - 16) * ((t : ℚ) * 16 - 16) + ((1 : ℚ) - 10) * ((1 : ℚ) - 10)
      = (((s * 16 - 16) * (s * 16 - 16) + (t * 16 - 16) * (t * 16 - 16) + 81 : Int) : ℚ) := by
    push_cast
    ring
  rw [e, Rat.sqrt_intCast]
  have hz : 0 < (s * 16 - 16) * (s * 16 - 16) + (t * 16 - 16) * (t * 16 - 16) + 81 := by
    nlinarith [mul_self_nonneg (s * 16 - 16), mul_self_nonneg (t * 16 - 16)]
  have : 0 < Int.sqrt ((s * 16 - 16) * (s * 16 - 16) + (t * 16 - 16) * (t * 16 - 16) + 81) := by
    unfold Int.sqrt
    have : 0 < Nat.sqrt ((s * 16 - 16) * (s * 16 - 16)
        + (t * 16 - 16) * (t * 16 - 16) + 81).toNat := Nat.sqrt_pos.2 (by omega)
    exact_mod_cast this
  exact_mod_cast this

/-- C20, counterexample: at quality 2, the 32 x 32 floor face (a 3 x 3 grid), a
point light of level 1 and radius 300 at height 10 above its centre, nothing in
the way: the light is accepted (perpendicular distance 10), the cell (1, 1) lies
under the light, yet every sample is 20, the centre no brighter than the
edges. -/
theorem QCOM_LightFace_point_light_counterexample :
    lightPerp (CalcFaceVectors openEnv (floorFace 32 32) (LightState.start 2)) dimLamp = 10 ∧
    ∃ st5 L, QCOM_LightFace openEnv [dimLamp] (floorFace 32 32) (LightState.start 2)
        = some (st5, Outcome.ok () L) ∧
      L.width = 3 ∧ L.height = 3 ∧
      st5.lt_points (1 * 3 + 1) = { x := 16, y := 16, z := 1 } ∧
      L.samples = List.replicate 9 20 := by
  obtain ⟨e1, e2, -⟩ := CalcFaceVectors_floorFace 32 32 (LightState.start 2)
  have hperp : lightPerp (CalcFaceVectors openEnv (floorFace 32 32) (LightState.start 2)) dimLamp
      = 10 := by
    unfold lightPerp
    rw [e1, e2]
    norm_num [dimLamp]
  refine ⟨hperp, ?_⟩
  obtain ⟨pts, b, hrun, hcp, hb⟩ := QCOM_LightFace_one_light openEnv dimLamp (floorFace 32 32)
    (LightState.start 2) rfl (by decide) (by rw [hperp]; norm_num)
    (by rw [hperp]; norm_num [dimLamp]) (fun _ _ _ _ _ _ => rfl)
  have hW : (CalcFaceExtents (floorFace 32 32) (LightState.start 2)).lt_W = 3 := by
    norm_num [CalcFaceExtents, floorFace]
  have hH : (CalcFaceExtents (floorFace 32 32) (LightState.start 2)).lt_H = 3 := by
    norm_num [CalcFaceExtents, floorFace]
  have hpt := floorFace_points 32 32 (LightState.start 2) rfl pts hcp
  rw [hW, hH] at hrun hb hpt
  have hshape := qLightmap_c.Store_Normal_hasShape b (BSP_NewLightmap openEnv.uninit 3 3) 3 3
    (BSP_NewLightmap_hasShape _ 3 3)
  refine ⟨_, _, hrun, hshape.1, hshape.2.1, ?_, ?_⟩
  · have := hpt 1 1 (by decide) (by decide) (by decide) (by decide)
    show pts (1 * 3 + 1) = _
    rw [this]
    norm_num
  · refine (qLightmap_c.samples_eq_replicate _ 3 3 20 hshape (by decide) ?_).trans (by decide)
    intro s t a1 a2 a3 a4
    obtain ⟨c1, c2⟩ := cellIndex_lt 3 3 s t a1 a2 a3 a4
    rw [qLightmap_c.Store_Normal_sampleAt b _ 3 3 (BSP_NewLightmap_hasShape _ 3 3) _ c1 c2,
      hb s t a1 a2 a3 a4, hpt s t a1 a2 a3 a4]
    exact storedByte_dim 256 300 _ (by decide) (by decide) (by norm_num) (lampDistance_pos s t)

/-- C20, amended: at quality 2, for any face and one point light in front of
the face plane at a perpendicular distance within its radius, of level at least
0, with every visibility query succeeding, `QCOM_LightFace` returns a lightmap
of the size of the grid in which no sample is below `LOW_LIGHT` and a cell whose
sample point is no farther from the light than that of another cell has a
sample at least as great; so the maximum sample is at the cell whose sample
point is nearest the light, where it is at least, not necessarily more than,
every other sample. The sample points are those `CalcPoints` computes. -/
theorem QCOM_LightFace_point_light (env : LightEnv) (light : quake_light_t)
    (F : quake_lit_face_c) (st : LightState)
    (hq : st.qk_lighting_quality = 2) (hkind : light.kind ≠ LTK_Sun)
    (hperp : 0 < lightPerp (CalcFaceVectors env F st) light)
    (hrad : lightPerp (CalcFaceVectors env F st) light ≤ light.radius)
    (hlevel : 0 ≤ light.level)
    (hray : ∀ a b c d e f, env.QCOM_TraceRay a b c d e f = true) :
    ∃ st5 L, QCOM_LightFace env [light] F st = some (st5, Outcome.ok () L) ∧
      L.width = (CalcFaceExtents F st).lt_W ∧ L.height = (CalcFaceExtents F st).lt_H ∧
      st5.lt_points
        = (CalcPoints (CalcFaceExtents F (CalcFaceVectors env F st))).lt_points ∧
      (∀ s t, 0 ≤ s → s < (CalcFaceExtents F st).lt_W → 0 ≤ t → t < (CalcFaceExtents F st).lt_H →
        LOW_LIGHT ≤ (L.sampleAt (t * (CalcFaceExtents F st).lt_W + s) : Int)) ∧
      (∀ s t s1 t1, 0 ≤ s → s < (CalcFaceExtents F st).lt_W → 0 ≤ t →
        t < (CalcFaceExtents F st).lt_H → 0 ≤ s1 → s1 < (CalcFaceExtents F st).lt_W → 0 ≤ t1 →
        t1 < (CalcFaceExtents F st).lt_H →
        env.ComputeDist (st5.lt_points (t * (CalcFaceExtents F st).lt_W + s)).x
            (st5.lt_points (t * (CalcFaceExtents F st).lt_W + s)).y
            (st5.lt_points (t * (CalcFaceExtents F st).lt_W + s)).z light.x light.y light.z
          ≤ env.ComputeDist (st5.lt_points (t1 * (CalcFaceExtents F st).lt_W + s1)).x
            (st5.lt_points (t1 * (CalcFaceExtents F st).lt_W + s1)).y
            (st5.lt_points (t1 * (CalcFaceExtents F st).lt_W + s1)).z light.x light.y light.z →
        L.sampleAt (t1 * (CalcFaceExtents F st).lt_W + s1)
          ≤ L.sampleAt (t * (CalcFaceExtents F st).lt_W + s)) := by
  obtain ⟨pts, b, hrun, hcp, hb⟩ := QCOM_LightFace_one_light env light F st hq hkind hperp hrad
    hray
  have hradius : 0 < light.radius := lt_of_lt_of_le hperp hrad
  have hshape := qLightmap_c.Store_Normal_hasShape b
    (BSP_NewLightmap env.uninit (CalcFaceExtents F st).lt_W (CalcFaceExtents F st).lt_H) _ _
    (BSP_NewLightmap_hasShape _ _ _)
  have hsample : ∀ s t, 0 ≤ s → s < (CalcFaceExtents F st).lt_W → 0 ≤ t →
      t < (CalcFaceExtents F st).lt_H →
      ((BSP_NewLightmap env.uninit (CalcFaceExtents F st).lt_W
          (CalcFaceExtents F st).lt_H).Store_Normal b).sampleAt
        (t * (CalcFaceExtents F st).lt_W + s)
        = storedByte (b (t * (CalcFaceExtents F st).lt_W + s)) := by
    intro s t a1 a2 a3 a4
    obtain ⟨c1, c2⟩ := cellIndex_lt _ _ s t a1 a2 a3 a4
    exact qLightmap_c.Store_Normal_sampleAt b _ _ _ (BSP_NewLightmap_hasShape _ _ _) _ c1 c2
  refine ⟨_, _, hrun, hshape.1, hshape.2.1, by rw [hcp], ?_, ?_⟩
  · intro s t a1 a2 a3 a4
    rw [hsample s t a1 a2 a3 a4, hb s t a1 a2 a3 a4]
    have h0 := pointIncrement_anti light.level light.radius
      (env.ComputeDist (pts (t * (CalcFaceExtents F st).lt_W + s)).x
        (pts (t * (CalcFaceExtents F st).lt_W + s)).y
        (pts (t * (CalcFaceExtents F st).lt_W + s)).z light.x light.y light.z)
      (max light.radius (env.ComputeDist (pts (t * (CalcFaceExtents F st).lt_W + s)).x
        (pts (t * (CalcFaceExtents F st).lt_W + s)).y
        (pts (t * (CalcFaceExtents F st).lt_W + s)).z light.x light.y light.z))
      hlevel hradius (le_max_right _ _)
    rw [if_neg (not_lt.mpr (le_max_left _ _))] at h0
    have := storedByte_mono 5120 _ (by linarith : (5120 : Int) ≤ 5120 + _)
    rw [show storedByte 5120 = 20 by decide] at this
    have hl : LOW_LIGHT = 20 := rfl
    rw [hl]
    exact_mod_cast this
  · intro s t s1 t1 a1 a2 a3 a4 b1 b2 b3 b4 hd
    rw [hsample s t a1 a2 a3 a4, hsample s1 t1 b1 b2 b3 b4, hb s t a1 a2 a3 a4,
      hb s1 t1 b1 b2 b3 b4]
    apply storedByte_mono
    have := pointIncrement_anti light.level light.radius _ _ hlevel hradius hd
    linarith

theorem QCOM_LightFace_point_light_witness :
    ∃ st5 L, QCOM_LightFace openEnv [dimLamp] (floorFace 32 32) (LightState.start 2)
        = some (st5, Outcome.ok () L) ∧
      L.sampleAt (0 * (CalcFaceExtents (floorFace 32 32) (LightState.start 2)).lt_W + 0)
        ≤ L.sampleAt (1 * (CalcFaceExtents (floorFace 32 32) (LightState.start 2)).lt_W + 1) := by
  obtain ⟨e1, e2, -⟩ := CalcFaceVectors_floorFace 32 32 (LightState.start 2)
  have hperp : lightPerp (CalcFaceVectors openEnv (floorFace 32 32) (LightState.start 2)) dimLamp
      = 10 := by
    unfold lightPerp
    rw [e1, e2]
    norm_num [dimLamp]
  have hW : (CalcFaceExtents (floorFace 32 32) (LightState.start 2)).lt_W = 3 := by
    norm_num [CalcFaceExtents, floorFace]
  have hH : (CalcFaceExtents (floorFace 32 32) (LightState.start 2)).lt_H = 3 := by
    norm_num [CalcFaceExtents, floorFace]
  obtain ⟨st5, L, hrun, -, -, hpts, -, hmono⟩ := QCOM_LightFace_point_light openEnv dimLamp
    (floorFace 32 32) (LightState.start 2) rfl (by decide) (by rw [hperp]; norm_num)
    (by rw [hperp]; norm_num [dimLamp]) (by decide) (fun _ _ _ _ _ _ => rfl)
  refine ⟨st5, L, hrun, hmono 1 1 0 0 (by decide) (by rw [hW]; decide) (by decide)
    (by rw [hH]; decide) (by decide) (by rw [hW]; decide) (by decide) (by rw [hH]; decide) ?_⟩
  obtain ⟨pts, hcp⟩ := CalcPoints_frame
    (CalcFaceExtents (floorFace 32 32) (CalcFaceVectors openEnv (floorFace 32 32)
      (LightState.start 2)))
  rw [if_neg (by decide)] at hcp
  have hpt := floorFace_points 32 32 (LightState.start 2) rfl pts hcp
  rw [hpts, hcp]
  show openEnv.ComputeDist (pts _).x (pts _).y (pts _).z _ _ _
    ≤ openEnv.ComputeDist (pts _).x (pts _).y (pts _).z _ _ _
  rw [hpt 1 1 (by decide) (by rw [hW]; decide) (by decide) (by rw [hH]; decide),
    hpt 0 0 (by decide) (by rw [hW]; decide) (by decide) (by rw [hH]; decide)]
  show Rat.sqrt _ ≤ Rat.sqrt _
  norm_num [dimLamp]


/-- C21: the light offset of a face without lightmap is not one fixed value.
The triangle face 7 carries no lightmap and is written to the empty lumps; the
run in which `rand()` returns 1 stores the light offset 1, the run in which it
returns 2 stores 2 (the code stores `rand() & 16383`). With the lightmap
`pairLightmap`, written at lump offset 4096, both runs store 4096, the value of
`CalcOffset`. -/
theorem Q1_WriteFace_lightofs_varies :
    (Q1_WriteFace (randEnv 1) (triangleFace 7) Q1State.start).isOk = true
    ∧ (Q1_WriteFace (randEnv 2) (triangleFace 7) Q1State.start).isOk = true
    ∧ (Q1_WriteFace (randEnv 1) (triangleFace 7) Q1State.start).state.lightOffsets = [1]
    ∧ (Q1_WriteFace (randEnv 2) (triangleFace 7) Q1State.start).state.lightOffsets = [2]
    ∧ ({ pairLightmap with offset := 4096 } : qLightmap_c).CalcOffset 256 false = some 4096
    ∧ (Q1_WriteFace (randEnv 1) (litFace 7 { pairLightmap with offset := 4096 })
        Q1State.start).state.lightOffsets = [4096]
    ∧ (Q1_WriteFace (randEnv 2) (litFace 7 { pairLightmap with offset := 4096 })
        Q1State.start).state.lightOffsets = [4096] := by
  refine ⟨by decide, by decide, by decide, by decide, by decide, by decide, by decide⟩


/-! ## The texture lump -/

/-- One mip level of `CreateDummyMip` appends the same pixels to any lump. -/
theorem dummyLevel_appends (pix1 pix2 : Nat) (size : Int) :
    ∃ block : List Nat, ∀ lump, dummyLevel pix1 pix2 size lump = lump ++ block := by
  refine ⟨(List.range size.toNat).flatMap (fun (y : Nat) =>
    (List.range size.toNat).flatMap
      (fun (x : Nat) => [dummyPixel pix1 pix2 size (x : Int) (y : Int)])), ?_⟩
  intro lump
  unfold dummyLevel
  have hrow : (fun (y : Int) (acc : List Nat) =>
      forRange size (fun x acc2 => acc2 ++ [dummyPixel pix1 pix2 size x y]) acc)
      = fun y acc => acc ++ (List.range size.toNat).flatMap
          (fun (x : Nat) => [dummyPixel pix1 pix2 size (x : Int) y]) := by
    funext y acc
    rw [forRange_append_pieces]
  rw [hrow, forRange_append_pieces]

theorem dummyLevels_appends (pix1 pix2 : Nat) (n : Nat) (size : Int) :
    ∃ block : List Nat, ∀ lump, dummyLevels pix1 pix2 n size lump = lump ++ block := by
  induction n generalizing size with
  | zero => exact ⟨[], fun lump => by simp [dummyLevels]⟩
  | succ n ih =>
    obtain ⟨b1, h1⟩ := dummyLevel_appends pix1 pix2 size
    obtain ⟨b2, h2⟩ := ih (Int.tdiv size 2)
    refine ⟨b1 ++ b2, fun lump => ?_⟩
    simp only [dummyLevels, h1, h2, List.append_assoc]

/-- One mip level of `CreateLogoMip` appends the same pixels to any lump. -/
theorem logoLevel_appends (data : Int → Nat) (size scale : Int) :
    ∃ block : List Nat, ∀ lump, logoLevel data size scale lump = lump ++ block := by
  refine ⟨(List.range size.toNat).flatMap (fun (y : Nat) =>
    (List.range size.toNat).flatMap
      (fun (x : Nat) =>
        [logoColormap.getD (data ((63 - (y : Int) * scale) * 64 + (x : Int) * scale) / 32 % 8) 0])),
    ?_⟩
  intro lump
  unfold logoLevel
  have hrow : (fun (y : Int) (acc : List Nat) =>
      forRange size (fun x acc2 =>
        acc2 ++ [logoColormap.getD (data ((63 - y * scale) * 64 + x * scale) / 32 % 8) 0]) acc)
      = fun y acc => acc ++ (List.range size.toNat).flatMap
          (fun (x : Nat) =>
            [logoColormap.getD (data ((63 - y * scale) * 64 + (x : Int) * scale) / 32 % 8) 0]) := by
    funext y acc
    rw [forRange_append_pieces]
  rw [hrow, forRange_append_pieces]

theorem logoLevels_appends (data : Int → Nat) (n : Nat) (size scale : Int) :
    ∃ block : List Nat, ∀ lump, logoLevels data n size scale lump = lump ++ block := by
  induction n generalizing size scale with
  | zero => exact ⟨[], fun lump => by simp [logoLevels]⟩
  | succ n ih =>
    obtain ⟨b1, h1⟩ := logoLevel_appends data size scale
    obtain ⟨b2, h2⟩ := ih (Int.tdiv size 2) (scale * 2)
    refine ⟨b1 ++ b2, fun lump => ?_⟩
    simp only [logoLevels, h1, h2, List.append_assoc]

/-- A returning `CreateDummyMip` appends to the lump. -/
theorem CreateDummyMip_appends (mip_levels : Nat) (pad : Nat → Nat) (name : String)
    (pix1 pix2 : Nat) (lump lump1 : TexLump)
    (h : CreateDummyMip mip_levels pad name pix1 pix2 lump = Outcome.ok () lump1) :
    ∃ block, lump1.data = lump.data ++ block := by
  unfold CreateDummyMip at h
  split at h
  · exact Outcome.noConfusion h
  · obtain ⟨b, hb⟩ := dummyLevels_appends pix1 pix2 mip_levels 64
    simp only [Outcome.ok.injEq, true_and] at h
    subst h
    exact ⟨miptexHeader pad name 64 64 (mipOffsets mip_levels (sizeofMiptex mip_levels) 64) ++ b,
      by simp only [hb, List.append_assoc]⟩

/-- A returning `CreateLogoMip` appends to the lump. -/
theorem CreateLogoMip_appends (mip_levels : Nat) (pad : Nat → Nat) (name : String)
    (data : Int → Nat) (lump lump1 : TexLump)
    (h : CreateLogoMip mip_levels pad name data lump = Outcome.ok () lump1) :
    ∃ block, lump1.data = lump.data ++ block := by
  unfold CreateLogoMip at h
  split at h
  · exact Outcome.noConfusion h
  · obtain ⟨b, hb⟩ := logoLevels_appends data mip_levels 64 1
    simp only [Outcome.ok.injEq, true_and] at h
    subst h
    exact ⟨miptexHeader pad name 64 64 (mipOffsets mip_levels (sizeofMiptex mip_levels) 64) ++ b,
      by simp only [hb, List.append_assoc]⟩

/-- A returning read loop appends to the lump. -/
theorem transferWadEntry_appends (wad : WadEnv) (entry : Int) (fuel : Nat) (pos length : Int)
    (lump lump1 : TexLump)
    (h : transferWadEntry wad entry fuel pos length lump = Outcome.ok () lump1) :
    ∃ block, lump1.data = lump.data ++ block := by
  induction fuel generalizing pos length lump with
  | zero =>
    simp only [transferWadEntry, Outcome.ok.injEq, true_and] at h
    subst h
    exact ⟨[], by simp⟩
  | succ fuel ih =>
    simp only [transferWadEntry] at h
    split at h
    · split at h
      · exact Outcome.noConfusion h
      · rename_i buffer _
        obtain ⟨b, hb⟩ := ih _ _ _ h
        exact ⟨(List.range (min 1024 length).toNat).map (fun i => buffer.getD i 0) ++ b,
          by rw [hb]; simp only [List.append_assoc]⟩
    · simp only [Outcome.ok.injEq, true_and] at h
      subst h
      exact ⟨[], by simp⟩

/-- A returning `TransferOneMipTex` appends one block to the lump. -/
theorem TransferOneMipTex_appends (wad : WadEnv) (mip_levels : Nat) (name : String)
    (lump lump1 : TexLump)
    (h : TransferOneMipTex wad mip_levels name lump = Outcome.ok () lump1) :
    ∃ block, lump1.data = lump.data ++ block := by
  unfold TransferOneMipTex at h
  split at h
  · exact CreateDummyMip_appends _ _ _ _ _ _ _ h
  · split at h
    · exact CreateDummyMip_appends _ _ _ _ _ _ _ h
    · split at h
      · exact CreateLogoMip_appends _ _ _ _ _ _ h
      · simp only at h
        split at h
        · exact transferWadEntry_appends _ _ _ _ _ _ _ h
        · exact CreateDummyMip_appends _ _ _ _ _
            { lump with
              log := lump.log ++ ["WARNING: texture '" ++ name ++ "' not found in texture wad!\n"] }
            _ h


/-- What a returning texture loop does: it appends one block per name, in
order, and records for each the lump size found before its block, plus
`dir_size`, as a `u32_t`. -/
theorem Q1_CreateMipTex_loop_spec (wad : WadEnv) (mip_levels : Nat) (dir_size : Int)
    (names : List String) (offsets : List Int) (lump : TexLump)
    (offsets1 : List Int) (lump1 : TexLump)
    (h : Q1_CreateMipTex_loop wad mip_levels dir_size names offsets lump
      = Outcome.ok offsets1 lump1) :
    ∃ blocks : List (List Nat), blocks.length = names.length
      ∧ lump1.data = lump.data ++ blocks.flatten
      ∧ offsets1 = offsets ++ (List.range names.length).map (fun m =>
          toU32 (dir_size
            + toU32 ((lump.data.length + (blocks.take m).flatten.length : Nat) : Int)))
      ∧ ∀ m (hm : m < names.length) (hb : m < blocks.length), ∃ before after : TexLump,
          TransferOneMipTex wad mip_levels (names.get ⟨m, hm⟩) before = Outcome.ok () after
          ∧ before.data = lump.data ++ (blocks.take m).flatten
          ∧ after.data = before.data ++ blocks.get ⟨m, hb⟩ := by
  induction names generalizing offsets lump with
  | nil =>
    simp only [Q1_CreateMipTex_loop, Outcome.ok.injEq] at h
    obtain ⟨h1, h2⟩ := h
    subst h1 h2
    exact ⟨[], rfl, by simp, by simp, fun m hm => absurd hm (by simp)⟩
  | cons name rest ih =>
    simp only [Q1_CreateMipTex_loop] at h
    cases hb : TransferOneMipTex wad mip_levels name lump with
    | ok v lump2 =>
      rw [hb] at h
      simp only [Outcome.bind_ok] at h
      obtain ⟨b, hblock⟩ := TransferOneMipTex_appends wad mip_levels name lump lump2 hb
      obtain ⟨blocks, hlen, hdata, hoffs, hcalls⟩ := ih _ _ h
      refine ⟨b :: blocks, by simp [hlen], ?_, ?_, ?_⟩
      · rw [hdata, hblock]
        simp
      · rw [hoffs, List.length_cons, List.range_succ_eq_map, List.map_cons, List.map_map,
          List.append_assoc]
        congr 1
        simp only [List.singleton_append, List.take_zero, List.flatten_nil, List.length_nil,
          Nat.add_zero, List.cons.injEq, true_and]
        apply List.map_congr_left
        intro m _
        simp only [Function.comp, List.take_succ_cons, List.flatten_cons, List.length_append,
          hblock]
        rw [Nat.add_assoc]
      · intro m hm hbm
        cases m with
        | zero =>
          exact ⟨lump, lump2, hb, by simp, by simpa using hblock⟩
        | succ j =>
          have hj : j < rest.length := by simpa using hm
          have hjb : j < blocks.length := by simpa using hbm
          obtain ⟨before, after, c1, c2, c3⟩ := hcalls j hj hjb
          refine ⟨before, after, c1, ?_, ?_⟩
          · rw [c2, hblock]
            simp
          · rw [c3]
            simp
    | fatal lump2 => rw [hb] at h; exact Outcome.noConfusion h
    | assertFail lump2 => rw [hb] at h; exact Outcome.noConfusion h

theorem toU32_of_lt (x : Int) (h0 : 0 ≤ x) (h1 : x < 4294967296) : toU32 x = x := by
  unfold toU32
  exact Int.emod_eq_of_lt h0 h1

/-- A directory of `n` entries of four bytes is `4 n` bytes long. -/
theorem directory_length (hostU32 : Int → List Nat) (h4 : ∀ x, (hostU32 x).length = 4)
    (xs : List Int) : ((xs.map hostU32).flatten).length = 4 * xs.length := by
  induction xs with
  | nil => simp
  | cons x rest ih =>
    simp only [List.map_cons, List.flatten_cons, List.length_append, ih, h4, List.length_cons]
    ring

/-- Dropping the blocks before `m` from the run of blocks leaves the blocks
from `m` on. -/
theorem drop_blocks (blocks : List (List Nat)) (m : Nat) :
    blocks.flatten.drop (blocks.take m).flatten.length = (blocks.drop m).flatten := by
  conv_lhs => rw [← List.take_append_drop m blocks, List.flatten_append]
  simp


/-- The blocks before `m` are no longer than all the blocks. -/
theorem take_flatten_length_le (blocks : List (List Nat)) (m : Nat) :
    (blocks.take m).flatten.length ≤ blocks.flatten.length := by
  conv_rhs => rw [← List.take_append_drop m blocks, List.flatten_append, List.length_append]
  exact Nat.le_add_right _ _

/-- The lump a returning `Q1_CreateMipTex` leaves, in terms of the blocks the
texture loop appended, when the lump is shorter than `2^32` bytes. -/
theorem Q1_CreateMipTex_eq (wad : WadEnv) (hostU32 : Int → List Nat) (opened : Bool)
    (mip_levels : Nat) (names : List String) (lump : TexLump)
    (h4 : ∀ x, (hostU32 x).length = 4)
    (hrun : Q1_CreateMipTex wad hostU32 opened mip_levels names = Outcome.ok () lump)
    (hn : names.length < 4294967296) (hsize : lump.data.length < 4294967296) :
    ∃ blocks : List (List Nat), blocks.length = names.length ∧ 0 < names.length
      ∧ lump.data = texLumpSpec hostU32 blocks
      ∧ ∀ m (hm : m < names.length) (hb : m < blocks.length), ∃ before after : TexLump,
          TransferOneMipTex wad mip_levels (names.get ⟨m, hm⟩) before = Outcome.ok () after
          ∧ before.data = (blocks.take m).flatten
          ∧ after.data = before.data ++ blocks.get ⟨m, hb⟩ := by
  unfold Q1_CreateMipTex at hrun
  simp only at hrun
  have hnum : toU32 (names.length : Int) = (names.length : Int) :=
    toU32_of_lt _ (by omega) (by omega)
  rw [hnum] at hrun
  split at hrun
  · exact Outcome.noConfusion hrun
  · split at hrun
    · exact Outcome.noConfusion hrun
    · rename_i hpos
      have hpos1 : 0 < names.length := by
        have : (names.length : Int) > 0 := not_not.mp hpos
        omega
      cases hloop : Q1_CreateMipTex_loop wad mip_levels (toU32 (4 * (names.length : Int) + 4))
          names [] { data := [], log := [] } with
      | ok offsets lump1 =>
        rw [hloop] at hrun
        simp only [Outcome.bind_ok, Outcome.ok.injEq, true_and] at hrun
        obtain ⟨blocks, hlen, hdata, hoffs, hcalls⟩ :=
          Q1_CreateMipTex_loop_spec wad mip_levels _ names [] _ offsets lump1 hloop
        simp only [List.nil_append, List.length_nil, Nat.zero_add] at hdata hoffs hcalls
        have hofflen : offsets.length = names.length := by
          rw [hoffs, List.length_map, List.length_range]
        have htake : offsets.take ((names.length : Int)).toNat = offsets := by
          rw [Int.toNat_ofNat, ← hofflen, List.take_length]
        rw [htake] at hrun
        have hdirlen := directory_length hostU32 h4 offsets
        have htotal : lump.data.length = 4 + 4 * names.length + blocks.flatten.length := by
          rw [← hrun]
          simp only [List.length_append, h4, hdirlen, hofflen, hdata]
          ring
        have hdir : toU32 (4 * (names.length : Int) + 4) = 4 * (names.length : Int) + 4 :=
          toU32_of_lt _ (by omega) (by omega)
        have hentry : ∀ m, toU32 (toU32 (4 * (names.length : Int) + 4)
              + toU32 (((blocks.take m).flatten.length : Nat) : Int))
            = ((blockStartSpec blocks m : Nat) : Int) := by
          intro m
          have hle := take_flatten_length_le blocks m
          rw [hdir, toU32_of_lt (((blocks.take m).flatten.length : Nat) : Int) (by omega)
            (by omega), toU32_of_lt _ (by omega) (by omega)]
          unfold blockStartSpec
          rw [hlen]
          push_cast
          ring
        refine ⟨blocks, hlen, hpos1, ?_, hcalls⟩
        rw [← hrun, hdata]
        unfold texLumpSpec
        rw [hlen, hoffs, List.map_map]
        have hmap : (List.range names.length).map (hostU32 ∘ fun (m : Nat) =>
              toU32 (toU32 (4 * (names.length : Int) + 4)
                + toU32 (((blocks.take m).flatten.length : Nat) : Int)))
            = (List.range names.length).map fun m => hostU32 (blockStartSpec blocks m : Nat) := by
          apply List.map_congr_left
          intro m _
          simp only [Function.comp, hentry]
        rw [hmap]
      | fatal lump1 => rw [hloop] at hrun; exact Outcome.noConfusion hrun
      | assertFail lump1 => rw [hloop] at hrun; exact Outcome.noConfusion hrun

/-- In the lump `texLumpSpec`, block `m` starts at the position recorded for
it. -/
theorem texLumpSpec_drop (hostU32 : Int → List Nat) (h4 : ∀ x, (hostU32 x).length = 4)
    (blocks : List (List Nat)) (m : Nat) :
    (texLumpSpec hostU32 blocks).drop (blockStartSpec blocks m) = (blocks.drop m).flatten := by
  unfold texLumpSpec blockStartSpec
  have hdirlen := directory_length hostU32 h4
    ((List.range blocks.length).map fun (m : Nat) =>
      ((4 + 4 * blocks.length + (blocks.take m).flatten.length : Nat) : Int))
  rw [List.map_map, List.length_map, List.length_range] at hdirlen
  rw [← List.append_assoc, List.drop_append_eq_append_drop]
  have hlen : (hostU32 (blocks.length : Int)
      ++ ((List.range blocks.length).map fun m =>
        hostU32 ((4 + 4 * blocks.length + (blocks.take m).flatten.length : Nat) : Int)).flatten).length
      = 4 + 4 * blocks.length := by
    rw [List.length_append, h4]
    have : ((List.range blocks.length).map fun m =>
        hostU32 ((4 + 4 * blocks.length + (blocks.take m).flatten.length : Nat) : Int))
        = (List.range blocks.length).map (hostU32 ∘ fun (m : Nat) =>
          ((4 + 4 * blocks.length + (blocks.take m).flatten.length : Nat) : Int)) := rfl
    rw [this, hdirlen]
  rw [hlen, List.drop_of_length_le (by rw [hlen]; omega), List.nil_append]
  have : 4 + 4 * blocks.length + (blocks.take m).flatten.length - (4 + 4 * blocks.length)
      = (blocks.take m).flatten.length := by omega
  rw [this, drop_blocks]


/-- The fate of `CreateDummyMip` does not depend on the lump: it appends the
same block to every lump, or fails on every lump. -/
theorem CreateDummyMip_uniform (mip_levels : Nat) (pad : Nat → Nat) (name : String)
    (pix1 pix2 : Nat) :
    (∃ block, ∀ lump : TexLump, CreateDummyMip mip_levels pad name pix1 pix2 lump
        = Outcome.ok () { lump with data := lump.data ++ block })
    ∨ (∀ lump : TexLump, (CreateDummyMip mip_levels pad name pix1 pix2 lump).isOk = false) := by
  by_cases hname : strlen name < 16
  · left
    obtain ⟨b, hb⟩ := dummyLevels_appends pix1 pix2 mip_levels 64
    refine ⟨miptexHeader pad name 64 64 (mipOffsets mip_levels (sizeofMiptex mip_levels) 64) ++ b,
      fun lump => ?_⟩
    unfold CreateDummyMip
    rw [if_neg (not_not.mpr hname)]
    simp only [hb, List.append_assoc]
  · right
    intro lump
    unfold CreateDummyMip
    rw [if_pos hname]
    rfl

/-- The fate of `CreateLogoMip` does not depend on the lump. -/
theorem CreateLogoMip_uniform (mip_levels : Nat) (pad : Nat → Nat) (name : String)
    (data : Int → Nat) :
    (∃ block, ∀ lump : TexLump, CreateLogoMip mip_levels pad name data lump
        = Outcome.ok () { lump with data := lump.data ++ block })
    ∨ (∀ lump : TexLump, (CreateLogoMip mip_levels pad name data lump).isOk = false) := by
  by_cases hname : strlen name < 16
  · left
    obtain ⟨b, hb⟩ := logoLevels_appends data mip_levels 64 1
    refine ⟨miptexHeader pad name 64 64 (mipOffsets mip_levels (sizeofMiptex mip_levels) 64) ++ b,
      fun lump => ?_⟩
    unfold CreateLogoMip
    rw [if_neg (not_not.mpr hname)]
    simp only [hb, List.append_assoc]
  · right
    intro lump
    unfold CreateLogoMip
    rw [if_pos hname]
    rfl

/-- The fate of the read loop does not depend on the lump. -/
theorem transferWadEntry_uniform (wad : WadEnv) (entry : Int) (fuel : Nat) (pos length : Int) :
    (∃ block, ∀ lump : TexLump, transferWadEntry wad entry fuel pos length lump
        = Outcome.ok () { lump with data := lump.data ++ block })
    ∨ (∀ lump : TexLump, (transferWadEntry wad entry fuel pos length lump).isOk = false) := by
  induction fuel generalizing pos length with
  | zero =>
    left
    exact ⟨[], fun lump => by simp [transferWadEntry]⟩
  | succ fuel ih =>
    by_cases hlen : length > 0
    · cases hread : wad.WAD2_ReadData entry pos (min 1024 length) with
      | none =>
        right
        intro lump
        simp only [transferWadEntry, if_pos hlen, hread]
        rfl
      | some buffer =>
        rcases ih (pos + min 1024 length) (length - min 1024 length) with ⟨b, hb⟩ | hfail
        · left
          refine ⟨(List.range (min 1024 length).toNat).map (fun i => buffer.getD i 0) ++ b,
            fun lump => ?_⟩
          simp only [transferWadEntry, if_pos hlen, hread, hb, List.append_assoc]
        · right
          intro lump
          simp only [transferWadEntry, if_pos hlen, hread, hfail]
    · left
      exact ⟨[], fun lump => by simp [transferWadEntry, if_neg hlen]⟩

/-- The fate of `TransferOneMipTex` does not depend on the lump: for a given
name it appends the same block to every lump, or fails on every lump. -/
theorem TransferOneMipTex_uniform (wad : WadEnv) (mip_levels : Nat) (name : String) :
    (∃ block, ∀ lump : TexLump, ∃ log1, TransferOneMipTex wad mip_levels name lump
        = Outcome.ok () { data := lump.data ++ block, log := log1 })
    ∨ (∀ lump : TexLump, (TransferOneMipTex wad mip_levels name lump).isOk = false) := by
  unfold TransferOneMipTex
  by_cases h1 : name = "error"
  · simp only [if_pos h1]
    rcases CreateDummyMip_uniform mip_levels wad.pad name 210 231 with ⟨b, hb⟩ | hfail
    · exact Or.inl ⟨b, fun lump => ⟨lump.log, hb lump⟩⟩
    · exact Or.inr hfail
  · simp only [if_neg h1]
    by_cases h2 : name = "missing"
    · simp only [if_pos h2]
      rcases CreateDummyMip_uniform mip_levels wad.pad name 4 12 with ⟨b, hb⟩ | hfail
      · exact Or.inl ⟨b, fun lump => ⟨lump.log, hb lump⟩⟩
      · exact Or.inr hfail
    · simp only [if_neg h2]
      by_cases h3 : name = "o_carve"
      · simp only [if_pos h3]
        rcases CreateLogoMip_uniform mip_levels wad.pad name wad.logo with ⟨b, hb⟩ | hfail
        · exact Or.inl ⟨b, fun lump => ⟨lump.log, hb lump⟩⟩
        · exact Or.inr hfail
      · simp only [if_neg h3]
        by_cases h4 : wad.WAD2_FindEntry name ≥ 0
        · simp only [if_pos h4]
          rcases transferWadEntry_uniform wad (wad.WAD2_FindEntry name)
              (wad.WAD2_EntryLen (wad.WAD2_FindEntry name)).toNat 0
              (wad.WAD2_EntryLen (wad.WAD2_FindEntry name)) with ⟨b, hb⟩ | hfail
          · exact Or.inl ⟨b, fun lump => ⟨lump.log, hb lump⟩⟩
          · exact Or.inr hfail
        · simp only [if_neg h4]
          rcases CreateDummyMip_uniform mip_levels wad.pad name 4 12 with ⟨b, hb⟩ | hfail
          · exact Or.inl ⟨b, fun lump => ⟨_, hb _⟩⟩
          · exact Or.inr fun lump => hfail _

/-- A returning `TransferOneMipTex` appends the block of the name, and returns
on the empty lump as well. -/
theorem TransferOneMipTex_block (wad : WadEnv) (mip_levels : Nat) (name : String)
    (lump lump1 : TexLump)
    (h : TransferOneMipTex wad mip_levels name lump = Outcome.ok () lump1) :
    lump1.data = lump.data ++ textureBlock wad mip_levels name
    ∧ (TransferOneMipTex wad mip_levels name { data := [], log := [] }).isOk = true := by
  rcases TransferOneMipTex_uniform wad mip_levels name with ⟨b, hb⟩ | hfail
  · obtain ⟨log1, e1⟩ := hb lump
    obtain ⟨log0, e0⟩ := hb { data := [], log := [] }
    rw [e1] at h
    simp only [Outcome.ok.injEq, true_and] at h
    subst h
    unfold textureBlock
    rw [e0]
    simp
  · have := hfail lump
    rw [h] at this
    simp at this


/-- Blocks that the transfers of the names appended, one after the other, are
the blocks of the names. -/
theorem blocks_eq_textureBlocks (wad : WadEnv) (mip_levels : Nat) (names : List String)
    (blocks : List (List Nat)) (hlen : blocks.length = names.length)
    (hcalls : ∀ m (hm : m < names.length) (hb : m < blocks.length), ∃ before after : TexLump,
      TransferOneMipTex wad mip_levels (names.get ⟨m, hm⟩) before = Outcome.ok () after
      ∧ before.data = (blocks.take m).flatten
      ∧ after.data = before.data ++ blocks.get ⟨m, hb⟩) :
    blocks = names.map (textureBlock wad mip_levels)
    ∧ ∀ name ∈ names,
        (TransferOneMipTex wad mip_levels name { data := [], log := [] }).isOk = true := by
  constructor
  · apply List.ext_get
    · rw [hlen, List.length_map]
    · intro m h1 h2
      have hm : m < names.length := by rw [← hlen]; exact h1
      obtain ⟨before, after, c1, -, c3⟩ := hcalls m hm h1
      have hb := (TransferOneMipTex_block wad mip_levels _ before after c1).1
      rw [c3] at hb
      have := List.append_cancel_left hb
      rw [this]
      simp
  · intro name hname
    obtain ⟨i, hi⟩ := List.mem_iff_get.mp hname
    obtain ⟨before, after, c1, -, -⟩ := hcalls i.1 i.2 (by rw [hlen]; exact i.2)
    rw [← hi]
    exact (TransferOneMipTex_block wad mip_levels _ before after c1).2

/-- The size of the lump a returning `Q1_CreateMipTex` leaves: four bytes of
count, four bytes per name, and the blocks of the names. -/
theorem Q1_CreateMipTex_length (wad : WadEnv) (hostU32 : Int → List Nat) (opened : Bool)
    (mip_levels : Nat) (names : List String) (lump : TexLump)
    (h4 : ∀ x, (hostU32 x).length = 4)
    (hrun : Q1_CreateMipTex wad hostU32 opened mip_levels names = Outcome.ok () lump)
    (hn : names.length < 4294967296) :
    lump.data.length
      = 4 + 4 * names.length + (names.map (textureBlock wad mip_levels)).flatten.length := by
  unfold Q1_CreateMipTex at hrun
  simp only at hrun
  have hnum : toU32 (names.length : Int) = (names.length : Int) :=
    toU32_of_lt _ (by omega) (by omega)
  rw [hnum] at hrun
  split at hrun
  · exact Outcome.noConfusion hrun
  · split at hrun
    · exact Outcome.noConfusion hrun
    · cases hloop : Q1_CreateMipTex_loop wad mip_levels (toU32 (4 * (names.length : Int) + 4))
          names [] { data := [], log := [] } with
      | ok offsets lump1 =>
        rw [hloop] at hrun
        simp only [Outcome.bind_ok, Outcome.ok.injEq, true_and] at hrun
        obtain ⟨blocks, hlen, hdata, hoffs, hcalls⟩ :=
          Q1_CreateMipTex_loop_spec wad mip_levels _ names [] _ offsets lump1 hloop
        simp only [List.nil_append, List.length_nil, Nat.zero_add] at hdata hoffs hcalls
        have hofflen : offsets.length = names.length := by
          rw [hoffs, List.length_map, List.length_range]
        have htake : offsets.take ((names.length : Int)).toNat = offsets := by
          rw [Int.toNat_ofNat, ← hofflen, List.take_length]
        rw [htake] at hrun
        have hdirlen := directory_length hostU32 h4 offsets
        rw [← (blocks_eq_textureBlocks wad mip_levels names blocks hlen hcalls).1, ← hrun]
        simp only [List.length_append, h4, hdirlen, hofflen, hdata]
        ring
      | fatal lump1 => rw [hloop] at hrun; exact Outcome.noConfusion hrun
      | assertFail lump1 => rw [hloop] at hrun; exact Outcome.noConfusion hrun

/-- The lump a returning `Q1_CreateMipTex` leaves is the count, the positions
of the blocks in the lump, and the blocks of the names, when the lump is
shorter than `2^32` bytes. -/
theorem Q1_CreateMipTex_blocks (wad : WadEnv) (hostU32 : Int → List Nat) (opened : Bool)
    (mip_levels : Nat) (names : List String) (lump : TexLump)
    (h4 : ∀ x, (hostU32 x).length = 4)
    (hrun : Q1_CreateMipTex wad hostU32 opened mip_levels names = Outcome.ok () lump)
    (hn : names.length < 4294967296) (hsize : lump.data.length < 4294967296) :
    0 < names.length
    ∧ lump.data = texLumpSpec hostU32 (names.map (textureBlock wad mip_levels))
    ∧ ∀ name ∈ names,
        (TransferOneMipTex wad mip_levels name { data := [], log := [] }).isOk = true := by
  obtain ⟨blocks, hlen, hpos, hdata, hcalls⟩ :=
    Q1_CreateMipTex_eq wad hostU32 opened mip_levels names lump h4 hrun hn hsize
  obtain ⟨hblocks, hok⟩ := blocks_eq_textureBlocks wad mip_levels names blocks hlen hcalls
  exact ⟨hpos, by rw [hdata, hblocks], hok⟩

theorem mipOffsets_length (n : Nat) (offset size : Int) :
    (mipOffsets n offset size).length = n := by
  induction n generalizing offset size with
  | zero => rfl
  | succ n ih => simp [mipOffsets, ih]

theorem le32_length (x : Int) : (le32 x).length = 4 := rfl

/-- The record `miptex_t` of a name shorter than 16 bytes takes
`24 + 4 * MIP_LEVELS` bytes. -/
theorem miptexHeader_length (pad : Nat → Nat) (name : String) (width height : Int)
    (offsets : List Int) (hname : strlen name < 16) :
    (miptexHeader pad name width height offsets).length = 24 + 4 * offsets.length := by
  unfold miptexHeader
  have hd := directory_length le32 le32_length offsets
  simp only [List.length_append, List.length_map, List.length_range, List.length_singleton,
    le32_length, hd]
  unfold strlen at hname ⊢
  omega

theorem dummyLevel_length (pix1 pix2 : Nat) (n : Nat) (lump : List Nat) :
    (dummyLevel pix1 pix2 (n : Int) lump).length = lump.length + n * n := by
  unfold dummyLevel
  have hrow : (fun (y : Int) (acc : List Nat) =>
      forRange (n : Int) (fun x acc2 => acc2 ++ [dummyPixel pix1 pix2 (n : Int) x y]) acc)
      = fun y acc => acc ++ (List.range n).map
          (fun (x : Nat) => dummyPixel pix1 pix2 (n : Int) (x : Int) y) := by
    funext y acc
    rw [forRange_append_pieces, Int.toNat_ofNat, flatMap_singleton_eq_map]
  rw [hrow, forRange_append_pieces, Int.toNat_ofNat, List.length_append]
  congr 1
  exact rows_length (fun y x => dummyPixel pix1 pix2 (n : Int) (x : Int) (y : Int)) n n

theorem logoLevel_length (data : Int → Nat) (n : Nat) (scale : Int) (lump : List Nat) :
    (logoLevel data (n : Int) scale lump).length = lump.length + n * n := by
  unfold logoLevel
  have hrow : (fun (y : Int) (acc : List Nat) =>
      forRange (n : Int) (fun x acc2 =>
        acc2 ++ [logoColormap.getD (data ((63 - y * scale) * 64 + x * scale) / 32 % 8) 0]) acc)
      = fun y acc => acc ++ (List.range n).map
          (fun (x : Nat) =>
            logoColormap.getD (data ((63 - y * scale) * 64 + (x : Int) * scale) / 32 % 8) 0) := by
    funext y acc
    rw [forRange_append_pieces, Int.toNat_ofNat, flatMap_singleton_eq_map]
  rw [hrow, forRange_append_pieces, Int.toNat_ofNat, List.length_append]
  congr 1
  exact rows_length (fun y x =>
    logoColormap.getD (data ((63 - (y : Int) * scale) * 64 + (x : Int) * scale) / 32 % 8) 0) n n

/-- The five mip levels of `CreateDummyMip` are 5456 pixels. -/
theorem dummyLevels_length (pix1 pix2 : Nat) (lump : List Nat) :
    (dummyLevels pix1 pix2 MIP_LEVELS 64 lump).length = lump.length + 5456 := by
  have e : dummyLevels pix1 pix2 MIP_LEVELS 64 lump
      = dummyLevel pix1 pix2 ((4 : Nat) : Int) (dummyLevel pix1 pix2 ((8 : Nat) : Int)
          (dummyLevel pix1 pix2 ((16 : Nat) : Int) (dummyLevel pix1 pix2 ((32 : Nat) : Int)
            (dummyLevel pix1 pix2 ((64 : Nat) : Int) lump)))) := rfl
  rw [e, dummyLevel_length, dummyLevel_length, dummyLevel_length, dummyLevel_length,
    dummyLevel_length]

/-- The five mip levels of `CreateLogoMip` are 5456 pixels. -/
theorem logoLevels_length (data : Int → Nat) (lump : List Nat) :
    (logoLevels data MIP_LEVELS 64 1 lump).length = lump.length + 5456 := by
  have e : logoLevels data MIP_LEVELS 64 1 lump
      = logoLevel data ((4 : Nat) : Int) 16 (logoLevel data ((8 : Nat) : Int) 8
          (logoLevel data ((16 : Nat) : Int) 4 (logoLevel data ((32 : Nat) : Int) 2
            (logoLevel data ((64 : Nat) : Int) 1 lump)))) := rfl
  rw [e, logoLevel_length, logoLevel_length, logoLevel_length, logoLevel_length,
    logoLevel_length]

/-- The blocks of the three built-in textures are 5500 bytes each. -/
theorem builtin_block_length (wad : WadEnv) :
    (textureBlock wad MIP_LEVELS "error").length = 5500
    ∧ (textureBlock wad MIP_LEVELS "missing").length = 5500
    ∧ (textureBlock wad MIP_LEVELS "o_carve").length = 5500 := by
  refine ⟨?_, ?_, ?_⟩
  · unfold textureBlock TransferOneMipTex
    rw [if_pos rfl]
    unfold CreateDummyMip
    rw [if_neg (by decide)]
    simp only [Outcome.state_ok, dummyLevels_length, List.nil_append]
    rw [miptexHeader_length _ _ _ _ _ (by decide), mipOffsets_length]
    rfl
  · unfold textureBlock TransferOneMipTex
    rw [if_neg (by decide), if_pos rfl]
    unfold CreateDummyMip
    rw [if_neg (by decide)]
    simp only [Outcome.state_ok, dummyLevels_length, List.nil_append]
    rw [miptexHeader_length _ _ _ _ _ (by decide), mipOffsets_length]
    rfl
  · unfold textureBlock TransferOneMipTex
    rw [if_neg (by decide), if_neg (by decide), if_pos rfl]
    unfold CreateLogoMip
    rw [if_neg (by decide)]
    simp only [Outcome.state_ok, logoLevels_length, List.nil_append]
    rw [miptexHeader_length _ _ _ _ _ (by decide), mipOffsets_length]
    rfl


/-- The lump `texLumpSpec` of three blocks of which the first two are 5500 bytes
long. -/
theorem texLumpSpec_three (b0 b1 b2 : List Nat) (h0 : b0.length = 5500)
    (h1 : b1.length = 5500) :
    texLumpSpec le32 [b0, b1, b2]
      = le32 3 ++ ((le32 16 ++ (le32 5516 ++ le32 11016)) ++ (b0 ++ (b1 ++ b2))) := by
  simp [texLumpSpec, blockStartSpec, h0, h1, List.range_succ]

theorem three_blocks_length (b0 b1 b2 : List Nat) (l0 : b0.length = 5500)
    (l1 : b1.length = 5500) (l2 : b2.length = 5500) :
    4 + 4 * 3 + [b0, b1, b2].flatten.length = 16516 := by
  simp [l0, l1, l2]

/-- With an empty wad, `Q1_CreateMipTex` returns on the three built-in names. -/
theorem Q1_CreateMipTex_builtin_ok :
    Q1_CreateMipTex emptyWad le32 true MIP_LEVELS builtinNames
      = Outcome.ok () (Q1_CreateMipTex emptyWad le32 true MIP_LEVELS builtinNames).state :=
  Outcome.eq_ok_of_isOk _ (by decide)

theorem builtinNames_blocks :
    builtinNames.map (textureBlock emptyWad MIP_LEVELS)
      = [textureBlock emptyWad MIP_LEVELS "error", textureBlock emptyWad MIP_LEVELS "missing",
         textureBlock emptyWad MIP_LEVELS "o_carve"] := rfl

/-- The texture lump of the three built-in names is 16516 bytes long. -/
theorem Q1_CreateMipTex_builtin_length :
    (Q1_CreateMipTex emptyWad le32 true MIP_LEVELS builtinNames).state.data.length = 16516 := by
  obtain ⟨l0, l1, l2⟩ := builtin_block_length emptyWad
  have hthree : builtinNames.length = 3 := rfl
  rw [Q1_CreateMipTex_length emptyWad le32 true MIP_LEVELS builtinNames _ le32_length
    Q1_CreateMipTex_builtin_ok (by decide), builtinNames_blocks, hthree]
  exact three_blocks_length _ _ _ l0 l1 l2

theorem Q1_CreateMipTex_builtin_size :
    (Q1_CreateMipTex emptyWad le32 true MIP_LEVELS builtinNames).state.data.length
      < 4294967296 := by
  rw [Q1_CreateMipTex_builtin_length]
  decide

/-- The texture lump of the three built-in names: the count 3, the offsets 16,
5516 and 11016, and the three blocks. -/
theorem Q1_CreateMipTex_builtin_data :
    (Q1_CreateMipTex emptyWad le32 true MIP_LEVELS builtinNames).state.data
      = le32 3 ++ ((le32 16 ++ (le32 5516 ++ le32 11016))
          ++ (textureBlock emptyWad MIP_LEVELS "error"
            ++ (textureBlock emptyWad MIP_LEVELS "missing"
              ++ textureBlock emptyWad MIP_LEVELS "o_carve"))) := by
  obtain ⟨l0, l1, l2⟩ := builtin_block_length emptyWad
  obtain ⟨-, hdata, -⟩ := Q1_CreateMipTex_blocks emptyWad le32 true MIP_LEVELS builtinNames _
    le32_length Q1_CreateMipTex_builtin_ok (by decide) Q1_CreateMipTex_builtin_size
  rw [hdata, builtinNames_blocks]
  exact texLumpSpec_three _ _ _ l0 l1

/-- C22, counterexample: the texture lump of the three built-in names (the
table `ClearMipTex` leaves), built with an empty wad on a little-endian host.
The lump is the count 3, three offsets and three blocks of 5500 bytes. The
blocks start 0, 5500 and 11000 bytes after the end of the offset table (byte
16), and the offsets stored are 16, 5516 and 11016. -/
theorem Q1_CreateMipTex_layout_counterexample :
    (ClearMipTex { q1_miptexs := [], q1_miptex_map := [] }).q1_miptexs = builtinNames
    ∧ ∃ (lump : TexLump) (b0 b1 b2 : List Nat),
      Q1_CreateMipTex emptyWad le32 true MIP_LEVELS builtinNames = Outcome.ok () lump
      ∧ b0 = textureBlock emptyWad MIP_LEVELS "error"
      ∧ b1 = textureBlock emptyWad MIP_LEVELS "missing"
      ∧ b2 = textureBlock emptyWad MIP_LEVELS "o_carve"
      ∧ b0.length = 5500 ∧ (b0 ++ b1).length = 11000
      ∧ lump.data = le32 3 ++ ((le32 16 ++ (le32 5516 ++ le32 11016)) ++ (b0 ++ (b1 ++ b2)))
      ∧ lump.data ≠ le32 3 ++ ((le32 0 ++ (le32 5500 ++ le32 11000)) ++ (b0 ++ (b1 ++ b2))) := by
  obtain ⟨l0, l1, l2⟩ := builtin_block_length emptyWad
  refine ⟨by decide, _, _, _, _, Q1_CreateMipTex_builtin_ok, rfl, rfl, rfl, l0, ?_,
    Q1_CreateMipTex_builtin_data, ?_⟩
  · rw [List.length_append, l0, l1]
  · rw [Q1_CreateMipTex_builtin_data]
    intro h
    have h1 := List.append_cancel_left h
    have h2 := congrArg List.head? h1
    simp [le32] at h2


/-- C22, amended: when `Q1_CreateMipTex` returns on a table of `n` names and the
lump it leaves is shorter than `2^32` bytes, then `n > 0` and the lump is the
4-byte count `n`, then `n` 4-byte offsets in table order, then the blocks of
the `n` names contiguously in table order, and for every `m < n`, offset `m` is
the distance from the start of the lump (byte 0) to the first byte of the
block of texture `m`: `4 + 4 n` plus the sizes of the blocks before it. The
four bytes of a value are those of the host (`hostU32`). -/
theorem Q1_CreateMipTex_layout (wad : WadEnv) (hostU32 : Int → List Nat) (opened : Bool)
    (mip_levels : Nat) (names : List String) (lump : TexLump)
    (h4 : ∀ x, (hostU32 x).length = 4)
    (hrun : Q1_CreateMipTex wad hostU32 opened mip_levels names = Outcome.ok () lump)
    (hn : names.length < 4294967296) (hsize : lump.data.length < 4294967296) :
    0 < names.length
    ∧ lump.data = hostU32 (names.length : Int)
        ++ (((List.range names.length).map fun m =>
              hostU32 (blockStartSpec (names.map (textureBlock wad mip_levels)) m : Nat)).flatten
          ++ (names.map (textureBlock wad mip_levels)).flatten)
    ∧ (∀ m, m < names.length →
        blockStartSpec (names.map (textureBlock wad mip_levels)) m
          = 4 + 4 * names.length
            + ((names.take m).map (textureBlock wad mip_levels)).flatten.length
        ∧ lump.data.drop (blockStartSpec (names.map (textureBlock wad mip_levels)) m)
          = ((names.drop m).map (textureBlock wad mip_levels)).flatten)
    ∧ ∀ name ∈ names, ∃ lump0 : TexLump,
        TransferOneMipTex wad mip_levels name { data := [], log := [] } = Outcome.ok () lump0
        ∧ lump0.data = textureBlock wad mip_levels name := by
  obtain ⟨hpos, hdata, hok⟩ :=
    Q1_CreateMipTex_blocks wad hostU32 opened mip_levels names lump h4 hrun hn hsize
  refine ⟨hpos, ?_, ?_, ?_⟩
  · rw [hdata]
    unfold texLumpSpec
    rw [List.length_map]
  · intro m _
    constructor
    · unfold blockStartSpec
      rw [List.length_map, List.map_take]
    · rw [hdata, texLumpSpec_drop hostU32 h4, List.map_drop]
  · intro name hname
    have h := Outcome.eq_ok_of_isOk _ (hok name hname)
    exact ⟨_, h, rfl⟩

/-- C22 witness: the texture lump of the three built-in names, built with an
empty wad on a little-endian host, is the count 3, the offsets 16, 5516 and
11016, and the three blocks. -/
theorem Q1_CreateMipTex_layout_witness :
    Q1_CreateMipTex emptyWad le32 true MIP_LEVELS builtinNames
      = Outcome.ok () (Q1_CreateMipTex emptyWad le32 true MIP_LEVELS builtinNames).state
    ∧ (Q1_CreateMipTex emptyWad le32 true MIP_LEVELS builtinNames).state.data
      = le32 ((builtinNames.length : Nat) : Int)
        ++ (((List.range builtinNames.length).map fun m =>
              le32 (blockStartSpec (builtinNames.map (textureBlock emptyWad MIP_LEVELS)) m
                : Nat)).flatten
          ++ (builtinNames.map (textureBlock emptyWad MIP_LEVELS)).flatten) :=
  ⟨Q1_CreateMipTex_builtin_ok,
    (Q1_CreateMipTex_layout emptyWad le32 true MIP_LEVELS builtinNames _ le32_length
      Q1_CreateMipTex_builtin_ok (by decide) Q1_CreateMipTex_builtin_size).2.1⟩


/-! ### The hash buckets and the linear scan -/

theorem MatchTexInfo_miptex (A B : texinfo_t) (h : MatchTexInfo A B = true) :
    A.miptex = B.miptex := by
  unfold MatchTexInfo at h
  by_contra hne
  rw [if_pos hne] at h
  exact Bool.noConfusion h

/-- The linear scan finds the smallest matching index. -/
theorem linearScanSpec_eq_some (tin : texinfo_t) (texinfos : List texinfo_t) (i : Nat) :
    linearScanSpec tin texinfos = some i
      ↔ ∃ h : i < texinfos.length, MatchTexInfo tin (texinfos.get ⟨i, h⟩) = true
          ∧ ∀ j (hj : j < texinfos.length), j < i →
              MatchTexInfo tin (texinfos.get ⟨j, hj⟩) = false := by
  induction texinfos generalizing i with
  | nil => simp [linearScanSpec]
  | cons e rest ih =>
    simp only [linearScanSpec]
    cases hm : MatchTexInfo tin e with
    | true =>
      simp only [if_true, Option.some.injEq]
      constructor
      · intro h
        subst h
        exact ⟨by simp, by simpa using hm, fun j _ hj => absurd hj (Nat.not_lt_zero j)⟩
      · rintro ⟨hlt, -, hmin⟩
        by_contra hne
        have hpos : 0 < i := Nat.pos_of_ne_zero (fun h => hne h.symm)
        have := hmin 0 (by simp) hpos
        simp only [List.get_eq_getElem, List.getElem_cons_zero] at this
        rw [hm] at this
        exact Bool.noConfusion this
    | false =>
      simp only [Bool.false_eq_true, if_false, Option.map_eq_some']
      constructor
      · rintro ⟨k, hk, rfl⟩
        obtain ⟨hlt, hmk, hmin⟩ := (ih k).mp hk
        refine ⟨by simpa using hlt, by simpa using hmk, ?_⟩
        intro j hj hjk
        cases j with
        | zero => simpa using hm
        | succ j2 =>
          have := hmin j2 (by simpa using hj) (by omega)
          simpa using this
      · rintro ⟨hlt, hmi, hmin⟩
        cases i with
        | zero =>
          simp only [List.get_eq_getElem, List.getElem_cons_zero] at hmi
          rw [hm] at hmi
          exact Bool.noConfusion hmi
        | succ k =>
          refine ⟨k, (ih k).mpr ⟨by simpa using hlt, by simpa using hmi, ?_⟩, rfl⟩
          intro j hj hjk
          have := hmin (j + 1) (by simpa using hj) (by omega)
          simpa using this

/-- The linear scan finds nothing exactly when no entry matches. -/
theorem linearScanSpec_eq_none (tin : texinfo_t) (texinfos : List texinfo_t) :
    linearScanSpec tin texinfos = none
      ↔ ∀ j (hj : j < texinfos.length), MatchTexInfo tin (texinfos.get ⟨j, hj⟩) = false := by
  constructor
  · intro h j hj
    by_contra hne
    have hmatch : ∃ k, ∃ hk : k < texinfos.length,
        MatchTexInfo tin (texinfos.get ⟨k, hk⟩) = true :=
      ⟨j, hj, by simpa using hne⟩
    classical
    let k := Nat.find hmatch
    obtain ⟨hk, hmk⟩ := Nat.find_spec hmatch
    have : linearScanSpec tin texinfos = some k := by
      rw [linearScanSpec_eq_some]
      refine ⟨hk, hmk, fun j2 hj2 hlt => ?_⟩
      have := Nat.find_min hmatch hlt
      by_contra hne2
      exact this ⟨hj2, by simpa using hne2⟩
    rw [h] at this
    exact Option.noConfusion this
  · intro h
    cases hs : linearScanSpec tin texinfos with
    | none => rfl
    | some i =>
      obtain ⟨hlt, hm, -⟩ := (linearScanSpec_eq_some tin texinfos i).mp hs
      rw [h i hlt] at hm
      exact Bool.noConfusion hm

/-- In a bucket in increasing order whose entries are table indices, the bucket
scan finds the smallest matching entry of the bucket. -/
theorem scanBucket_found_sorted (tin : texinfo_t) (texinfos : List texinfo_t)
    (bucket : List Nat) (hsorted : bucket.Pairwise (· < ·)) (i : Nat)
    (h : scanBucket tin texinfos bucket = BucketScan.found i) :
    i ∈ bucket
    ∧ (∃ hlt : i < texinfos.length, MatchTexInfo tin (texinfos.get ⟨i, hlt⟩) = true)
    ∧ ∀ j ∈ bucket, j < i → ∀ hj : j < texinfos.length,
        MatchTexInfo tin (texinfos.get ⟨j, hj⟩) = false := by
  induction bucket with
  | nil => simp [scanBucket] at h
  | cons idx rest ih =>
    simp only [scanBucket] at h
    obtain ⟨hhead, htail⟩ := List.pairwise_cons.mp hsorted
    split at h
    · rename_i hlt
      split at h
      · rename_i hm
        simp only [BucketScan.found.injEq] at h
        subst h
        refine ⟨List.mem_cons_self _ _, ⟨hlt, hm⟩, ?_⟩
        intro j hj hji
        rcases List.mem_cons.mp hj with rfl | hj2
        · exact absurd hji (Nat.lt_irrefl _)
        · exact absurd (hhead j hj2) (by omega)
      · rename_i hm
        obtain ⟨h1, h2, h3⟩ := ih htail h
        refine ⟨List.mem_cons_of_mem _ h1, h2, ?_⟩
        intro j hj hji hjlt
        rcases List.mem_cons.mp hj with rfl | hj2
        · simpa using hm
        · exact h3 j hj2 hji hjlt
    · exact BucketScan.noConfusion h


/-- Under the bucket invariant, the scan of the candidate's bucket gives what
the linear scan of the whole table gives. -/
theorem scanBucket_eq_linearScan (tin : texinfo_t) (st : TexState) (hinv : st.HashInv) :
    scanBucket tin st.q1_texinfos (bucketEntries st.texinfo_hashtab tin.slot)
      = match linearScanSpec tin st.q1_texinfos with
        | some i => BucketScan.found i
        | none => BucketScan.notFound := by
  obtain ⟨ha, hb, hc⟩ := hinv
  have hrange : ∀ idx ∈ bucketEntries st.texinfo_hashtab tin.slot,
      idx < st.q1_texinfos.length := fun idx hidx => (ha _ idx hidx).1
  have hnb := scanBucket_ne_badIndex tin st.q1_texinfos _ hrange
  have hiff := scanBucket_notFound_iff tin st.q1_texinfos _ hrange
  cases hl : linearScanSpec tin st.q1_texinfos with
  | none =>
    simp only
    rw [hiff]
    intro idx _ h
    exact (linearScanSpec_eq_none tin st.q1_texinfos).mp hl idx h
  | some i =>
    simp only
    obtain ⟨hlt, hmi, hmin⟩ := (linearScanSpec_eq_some tin st.q1_texinfos i).mp hl
    have hslot : (st.q1_texinfos.get ⟨i, hlt⟩).slot = tin.slot := by
      unfold texinfo_t.slot
      rw [MatchTexInfo_miptex _ _ hmi]
    have himem : i ∈ bucketEntries st.texinfo_hashtab tin.slot := by
      rw [← hslot]
      exact hb i hlt
    cases hs : scanBucket tin st.q1_texinfos (bucketEntries st.texinfo_hashtab tin.slot) with
    | badIndex => exact absurd hs hnb
    | notFound =>
      have := hiff.mp hs i himem hlt
      rw [hmi] at this
      exact Bool.noConfusion this
    | found k =>
      obtain ⟨-, ⟨hklt, hmk⟩, hkmin⟩ :=
        scanBucket_found_sorted tin st.q1_texinfos _ (hc _) k hs
      have h1 : ¬ i < k := fun hik => by
        have := hkmin i himem hik hlt
        rw [hmi] at this
        exact Bool.noConfusion this
      have h2 : ¬ k < i := fun hki => by
        have := hmin k hklt hki
        rw [hmk] at this
        exact Bool.noConfusion this
      have : k = i := by omega
      rw [this]

theorem bucketEntries_update (tab : Fin 32 → Option (List Nat)) (slot : Fin 32)
    (l : List Nat) :
    bucketEntries (Function.update tab slot (some l))
      = Function.update (bucketEntries tab) slot l := by
  funext s
  unfold bucketEntries
  by_cases h : s = slot
  · subst h
    simp
  · simp [Function.update_noteq h]

/-- What `Q1_AddTexInfo` does to the table and the buckets: nothing, or (when
the bucket scan finds no match and the limit is not reached) one entry is
appended and its index is appended to the candidate's bucket. -/
theorem Q1_AddTexInfo_state (MAX_MAP_TEXINFO : Nat) (texture : String) (flags : Int)
    (s4 t4 : Fin 4 → ℚ) (st : TexState) :
    ((Q1_AddTexInfo MAX_MAP_TEXINFO texture flags s4 t4 st).state.q1_texinfos = st.q1_texinfos
      ∧ bucketEntries (Q1_AddTexInfo MAX_MAP_TEXINFO texture flags s4 t4 st).state.texinfo_hashtab
          = bucketEntries st.texinfo_hashtab)
    ∨ (st.q1_texinfos.length % 65536 < MAX_MAP_TEXINFO
      ∧ (Q1_AddTexInfo MAX_MAP_TEXINFO texture flags s4 t4 st).state.q1_texinfos
          = st.q1_texinfos
            ++ [{ s := s4, t := t4, miptex := (Q1_AddMipTex texture st.mip).1, flags := flags }]
      ∧ bucketEntries (Q1_AddTexInfo MAX_MAP_TEXINFO texture flags s4 t4 st).state.texinfo_hashtab
          = Function.update (bucketEntries st.texinfo_hashtab)
              (hashSlot (texinfoHash (Q1_AddMipTex texture st.mip).1))
              (bucketEntries st.texinfo_hashtab
                  (hashSlot (texinfoHash (Q1_AddMipTex texture st.mip).1))
                ++ [st.q1_texinfos.length % 65536])) := by
  by_cases hh : texinfoHash (Q1_AddMipTex texture st.mip).1 < 0
  · left
    simp [Q1_AddTexInfo, hh, Outcome.state]
  · have hnull : ∀ tab : Fin 32 → Option (List Nat), ∀ slot,
        bucketEntries (Function.update tab slot (some (bucketEntries tab slot)))
          = bucketEntries tab := by
      intro tab slot
      rw [bucketEntries_update]
      simp
    cases hb : st.texinfo_hashtab (hashSlot (texinfoHash (Q1_AddMipTex texture st.mip).1)) with
    | none =>
      have hempty : bucketEntries st.texinfo_hashtab
          (hashSlot (texinfoHash (Q1_AddMipTex texture st.mip).1)) = [] := by
        simp [bucketEntries, hb]
      have hn := hnull st.texinfo_hashtab (hashSlot (texinfoHash (Q1_AddMipTex texture st.mip).1))
      rw [hempty] at hn
      by_cases hfull : MAX_MAP_TEXINFO ≤ st.q1_texinfos.length % 65536
      · left
        have e1 : Q1_AddTexInfo MAX_MAP_TEXINFO texture flags s4 t4 st
            = Outcome.fatal
                { mip := (Q1_AddMipTex texture st.mip).2
                  q1_texinfos := st.q1_texinfos
                  texinfo_hashtab := Function.update st.texinfo_hashtab
                    (hashSlot (texinfoHash (Q1_AddMipTex texture st.mip).1)) (some []) } := by
          simp [Q1_AddTexInfo, hh, hb, bucketEntries, scanBucket, hfull]
        rw [e1]
        exact ⟨rfl, hn⟩
      · right
        have e1 : Q1_AddTexInfo MAX_MAP_TEXINFO texture flags s4 t4 st
            = Outcome.ok (st.q1_texinfos.length % 65536)
                { mip := (Q1_AddMipTex texture st.mip).2
                  q1_texinfos := st.q1_texinfos ++
                    [{ s := s4, t := t4, miptex := (Q1_AddMipTex texture st.mip).1,
                       flags := flags }]
                  texinfo_hashtab := Function.update
                    (Function.update st.texinfo_hashtab
                      (hashSlot (texinfoHash (Q1_AddMipTex texture st.mip).1)) (some []))
                    (hashSlot (texinfoHash (Q1_AddMipTex texture st.mip).1))
                    (some ([] ++ [st.q1_texinfos.length % 65536])) } := by
          simp [Q1_AddTexInfo, hh, hb, bucketEntries, scanBucket, hfull]
        rw [e1]
        refine ⟨not_le.mp hfull, rfl, ?_⟩
        simp only [Outcome.state_ok]
        rw [bucketEntries_update, hn, hempty]
    | some b =>
      have hbe : bucketEntries st.texinfo_hashtab
          (hashSlot (texinfoHash (Q1_AddMipTex texture st.mip).1)) = b := by
        simp [bucketEntries, hb]
      cases hs : scanBucket
          { s := s4, t := t4, miptex := (Q1_AddMipTex texture st.mip).1, flags := flags }
          st.q1_texinfos b with
      | found i =>
        left
        simp [Q1_AddTexInfo, hh, hb, bucketEntries, hs, Outcome.state]
      | badIndex =>
        left
        simp [Q1_AddTexInfo, hh, hb, bucketEntries, hs, Outcome.state]
      | notFound =>
        by_cases hfull : MAX_MAP_TEXINFO ≤ st.q1_texinfos.length % 65536
        · left
          simp [Q1_AddTexInfo, hh, hb, bucketEntries, hs, hfull, Outcome.state]
        · right
          refine ⟨not_le.mp hfull, ?_, ?_⟩
          · simp [Q1_AddTexInfo, hh, hb, bucketEntries, hs, hfull, Outcome.state]
          · rw [hbe]
            simp only [Q1_AddTexInfo, hh, hb, hs, hfull, Outcome.state, if_false,
              bucketEntries_update, hbe]


/-- The bucket invariant only reads the table and the bucket entries. -/
theorem HashInv_congr (st st1 : TexState) (h1 : st1.q1_texinfos = st.q1_texinfos)
    (h2 : bucketEntries st1.texinfo_hashtab = bucketEntries st.texinfo_hashtab)
    (hinv : st.HashInv) : st1.HashInv := by
  obtain ⟨mip, texinfos, tab⟩ := st
  obtain ⟨mip1, texinfos1, tab1⟩ := st1
  simp only at h1 h2
  subst h1
  unfold TexState.HashInv at hinv ⊢
  simp only at hinv ⊢
  rw [h2]
  exact hinv

/-- Appending an entry to the table and its index to its bucket keeps the
bucket invariant. -/
theorem HashInv_append (st st1 : TexState) (tin : texinfo_t)
    (h1 : st1.q1_texinfos = st.q1_texinfos ++ [tin])
    (h2 : bucketEntries st1.texinfo_hashtab
      = Function.update (bucketEntries st.texinfo_hashtab) tin.slot
          (bucketEntries st.texinfo_hashtab tin.slot ++ [st.q1_texinfos.length]))
    (hinv : st.HashInv) : st1.HashInv := by
  obtain ⟨mip, texinfos, tab⟩ := st
  obtain ⟨mip1, texinfos1, tab1⟩ := st1
  simp only at h1 h2
  subst h1
  obtain ⟨ha, hb, hc⟩ := hinv
  simp only at ha hb hc
  unfold TexState.HashInv
  simp only
  rw [h2]
  have hgetOld : ∀ i (h : i < texinfos.length) (h3 : i < (texinfos ++ [tin]).length),
      (texinfos ++ [tin]).get ⟨i, h3⟩ = texinfos.get ⟨i, h⟩ := by
    intro i h h3
    simp [List.getElem_append_left h]
  have hgetNew : ∀ (h3 : texinfos.length < (texinfos ++ [tin]).length),
      (texinfos ++ [tin]).get ⟨texinfos.length, h3⟩ = tin := by
    intro h3
    simp
  refine ⟨?_, ?_, ?_⟩
  · intro slot idx hidx
    by_cases hs : slot = tin.slot
    · subst hs
      rw [Function.update_same] at hidx
      rcases List.mem_append.mp hidx with hold | hnew
      · obtain ⟨hlt, hslot⟩ := ha _ idx hold
        have h3 : idx < (texinfos ++ [tin]).length := by
          rw [List.length_append, List.length_singleton]; omega
        exact ⟨h3, by rw [hgetOld idx hlt h3]; exact hslot⟩
      · have : idx = texinfos.length := by simpa using hnew
        subst this
        have h3 : texinfos.length < (texinfos ++ [tin]).length := by
          rw [List.length_append, List.length_singleton]; omega
        exact ⟨h3, by rw [hgetNew h3]⟩
    · rw [Function.update_noteq hs] at hidx
      obtain ⟨hlt, hslot⟩ := ha _ idx hidx
      have h3 : idx < (texinfos ++ [tin]).length := by
        rw [List.length_append, List.length_singleton]; omega
      exact ⟨h3, by rw [hgetOld idx hlt h3]; exact hslot⟩
  · intro i h3
    by_cases hi : i < texinfos.length
    · rw [hgetOld i hi h3]
      have hmem := hb i hi
      by_cases hs : (texinfos.get ⟨i, hi⟩).slot = tin.slot
      · rw [hs, Function.update_same]
        rw [hs] at hmem
        exact List.mem_append_left _ hmem
      · rw [Function.update_noteq hs]
        exact hmem
    · have hlen : (texinfos ++ [tin]).length = texinfos.length + 1 := by
        rw [List.length_append, List.length_singleton]
      have : i = texinfos.length := by omega
      subst this
      rw [hgetNew h3, Function.update_same]
      exact List.mem_append_right _ (List.mem_singleton_self _)
  · intro slot
    by_cases hs : slot = tin.slot
    · subst hs
      rw [Function.update_same, List.pairwise_append]
      refine ⟨hc _, List.pairwise_singleton _ _, ?_⟩
      intro a ha2 b hb2
      have : b = texinfos.length := by simpa using hb2
      rw [this]
      exact (ha _ a ha2).1
    · rw [Function.update_noteq hs]
      exact hc slot

/-- One call of `Q1_AddTexInfo` keeps the bucket invariant, as long as the table
indices fit a `u16_t`. -/
theorem Q1_AddTexInfo_HashInv (MAX_MAP_TEXINFO : Nat) (texture : String) (flags : Int)
    (s4 t4 : Fin 4 → ℚ) (st : TexState) (hsize : st.q1_texinfos.length < 65536)
    (hinv : st.HashInv) :
    (Q1_AddTexInfo MAX_MAP_TEXINFO texture flags s4 t4 st).state.HashInv := by
  rcases Q1_AddTexInfo_state MAX_MAP_TEXINFO texture flags s4 t4 st with ⟨h1, h2⟩ | ⟨-, h1, h2⟩
  · exact HashInv_congr st _ h1 h2 hinv
  · rw [Nat.mod_eq_of_lt hsize] at h2
    exact HashInv_append st _
      { s := s4, t := t4, miptex := (Q1_AddMipTex texture st.mip).1, flags := flags } h1 h2 hinv

/-- Every table state reachable from `ClearTexInfo` satisfies the bucket
invariant and holds at most `MAX_MAP_TEXINFO` entries. -/
theorem Reachable_HashInv (MAX_MAP_TEXINFO : Nat) (hmax : MAX_MAP_TEXINFO ≤ 65535)
    (st : TexState) (hreach : TexState.Reachable MAX_MAP_TEXINFO st) :
    st.HashInv ∧ st.q1_texinfos.length ≤ MAX_MAP_TEXINFO := by
  induction hreach with
  | clear st0 =>
    refine ⟨⟨?_, ?_, ?_⟩, by simp [ClearTexInfo]⟩
    · intro slot idx hidx
      simp [ClearTexInfo, bucketEntries] at hidx
    · intro i h
      simp [ClearTexInfo] at h
    · intro slot
      simp [ClearTexInfo, bucketEntries]
  | addMipTex st name _ ih =>
    exact ⟨HashInv_congr st _ rfl rfl ih.1, ih.2⟩
  | addTexInfo st texture flags s4 t4 i st1 _ hcall ih =>
    have h1 := Q1_AddTexInfo_HashInv MAX_MAP_TEXINFO texture flags s4 t4 st (by omega) ih.1
    have h2 := Q1_AddTexInfo_length_le MAX_MAP_TEXINFO texture flags s4 t4 st hmax ih.2
    rw [hcall] at h1 h2
    exact ⟨h1, h2⟩


theorem Outcome.eq_ok_of_value {σ α : Type} (o : Outcome σ α) (v : α)
    (h : o.value? = some v) : o = Outcome.ok v o.state := by
  cases o with
  | ok w st =>
    have : w = v := by simpa [Outcome.value?] using h
    rw [this]
    rfl
  | fatal st => simp [Outcome.value?] at h
  | assertFail st => simp [Outcome.value?] at h

theorem hashSlot_of_nonneg (m : Int) (hm : 0 ≤ m) :
    ((hashSlot (texinfoHash m)).val : Int) = m % 32 := by
  unfold hashSlot texinfoHash
  rw [Int.tmod_eq_emod hm (by norm_num)]
  have h1 : 0 ≤ m % 32 := Int.emod_nonneg m (by norm_num)
  have h2 : m % 32 < 32 := Int.emod_lt_of_pos m (by norm_num)
  simp only [Fin.ofNat, Fin.val_mk]
  omega

/-- C23: in every table state reachable from `ClearTexInfo` (the limit
`MAX_MAP_TEXINFO` fitting a `u16_t`), each entry `i` lies in exactly the bucket
of its texture index (the index mod 32 for a non-negative index), every bucket
entry is a table index, and each bucket is in increasing order; so the bucket
scan of `Q1_AddTexInfo` gives what the linear scan of the whole table gives,
the smallest index whose entry matches the candidate. When the candidate
passes the hash assertion, `Q1_AddTexInfo` returns that index and leaves the
table alone; when no entry of the whole table matches it appends the candidate
and returns the old table size, or ends in the fatal error at the limit. -/
theorem Q1_AddTexInfo_linear_scan (MAX_MAP_TEXINFO : Nat) (hmax : MAX_MAP_TEXINFO ≤ 65535)
    (st : TexState) (hreach : TexState.Reachable MAX_MAP_TEXINFO st)
    (texture : String) (flags : Int) (s4 t4 : Fin 4 → ℚ)
    (hhash : 0 ≤ texinfoHash (Q1_AddMipTex texture st.mip).1) :
    (∀ i (h : i < st.q1_texinfos.length) (slot : Fin 32),
        i ∈ bucketEntries st.texinfo_hashtab slot
          ↔ slot = hashSlot (texinfoHash (st.q1_texinfos.get ⟨i, h⟩).miptex))
    ∧ (∀ m : Int, 0 ≤ m → ((hashSlot (texinfoHash m)).val : Int) = m % 32)
    ∧ (∀ slot, ∀ idx ∈ bucketEntries st.texinfo_hashtab slot, idx < st.q1_texinfos.length)
    ∧ (∀ slot, (bucketEntries st.texinfo_hashtab slot).Pairwise (· < ·))
    ∧ scanBucket { s := s4, t := t4, miptex := (Q1_AddMipTex texture st.mip).1, flags := flags }
          st.q1_texinfos
          (bucketEntries st.texinfo_hashtab
            (hashSlot (texinfoHash (Q1_AddMipTex texture st.mip).1)))
        = (match linearScanSpec
            { s := s4, t := t4, miptex := (Q1_AddMipTex texture st.mip).1, flags := flags }
            st.q1_texinfos with
          | some i => BucketScan.found i
          | none => BucketScan.notFound)
    ∧ (∀ i, linearScanSpec
          { s := s4, t := t4, miptex := (Q1_AddMipTex texture st.mip).1, flags := flags }
          st.q1_texinfos = some i
        ↔ ∃ h : i < st.q1_texinfos.length,
            MatchTexInfo
              { s := s4, t := t4, miptex := (Q1_AddMipTex texture st.mip).1, flags := flags }
              (st.q1_texinfos.get ⟨i, h⟩) = true
            ∧ ∀ j (hj : j < st.q1_texinfos.length), j < i →
                MatchTexInfo
                  { s := s4, t := t4, miptex := (Q1_AddMipTex texture st.mip).1, flags := flags }
                  (st.q1_texinfos.get ⟨j, hj⟩) = false)
    ∧ (∀ i, linearScanSpec
          { s := s4, t := t4, miptex := (Q1_AddMipTex texture st.mip).1, flags := flags }
          st.q1_texinfos = some i →
        (Q1_AddTexInfo MAX_MAP_TEXINFO texture flags s4 t4 st).isOk = true
        ∧ (Q1_AddTexInfo MAX_MAP_TEXINFO texture flags s4 t4 st).value? = some i
        ∧ (Q1_AddTexInfo MAX_MAP_TEXINFO texture flags s4 t4 st).state.q1_texinfos
            = st.q1_texinfos)
    ∧ ((∀ j (hj : j < st.q1_texinfos.length),
          MatchTexInfo
            { s := s4, t := t4, miptex := (Q1_AddMipTex texture st.mip).1, flags := flags }
            (st.q1_texinfos.get ⟨j, hj⟩) = false) →
        (st.q1_texinfos.length < MAX_MAP_TEXINFO →
          (Q1_AddTexInfo MAX_MAP_TEXINFO texture flags s4 t4 st).isOk = true
          ∧ (Q1_AddTexInfo MAX_MAP_TEXINFO texture flags s4 t4 st).value?
              = some st.q1_texinfos.length
          ∧ (Q1_AddTexInfo MAX_MAP_TEXINFO texture flags s4 t4 st).state.q1_texinfos
              = st.q1_texinfos ++
                [{ s := s4, t := t4, miptex := (Q1_AddMipTex texture st.mip).1,
                   flags := flags }])
        ∧ (MAX_MAP_TEXINFO ≤ st.q1_texinfos.length →
          (Q1_AddTexInfo MAX_MAP_TEXINFO texture flags s4 t4 st).isFatal = true
          ∧ (Q1_AddTexInfo MAX_MAP_TEXINFO texture flags s4 t4 st).state.q1_texinfos
              = st.q1_texinfos)) := by
  obtain ⟨hinv, hsize⟩ := Reachable_HashInv MAX_MAP_TEXINFO hmax st hreach
  have hscan := scanBucket_eq_linearScan
    { s := s4, t := t4, miptex := (Q1_AddMipTex texture st.mip).1, flags := flags } st hinv
  obtain ⟨ha, hb, hc⟩ := hinv
  have hmod : st.q1_texinfos.length % 65536 = st.q1_texinfos.length :=
    Nat.mod_eq_of_lt (by omega)
  obtain ⟨hf, hn, -⟩ := Q1_AddTexInfo_spec MAX_MAP_TEXINFO texture flags s4 t4 st hhash
  rw [hmod] at hn
  refine ⟨?_, hashSlot_of_nonneg, fun slot idx hidx => (ha slot idx hidx).1, hc, hscan,
    linearScanSpec_eq_some _ _, ?_, ?_⟩
  · intro i h slot
    constructor
    · intro hmem
      obtain ⟨h2, hslot⟩ := ha slot i hmem
      exact hslot.symm
    · intro hslot
      rw [hslot]
      exact hb i h
  · intro i hl
    have hs : scanBucket
        { s := s4, t := t4, miptex := (Q1_AddMipTex texture st.mip).1, flags := flags }
        st.q1_texinfos (bucketEntries st.texinfo_hashtab
          (hashSlot (texinfoHash (Q1_AddMipTex texture st.mip).1))) = BucketScan.found i := by
      rw [show hashSlot (texinfoHash (Q1_AddMipTex texture st.mip).1)
        = texinfo_t.slot
            { s := s4, t := t4, miptex := (Q1_AddMipTex texture st.mip).1, flags := flags }
        from rfl, hscan, hl]
    obtain ⟨h1, -, h3, h4⟩ := hf i hs
    exact ⟨h1, h3, h4⟩
  · intro hno
    have hl := (linearScanSpec_eq_none _ _).mpr hno
    have hs : scanBucket
        { s := s4, t := t4, miptex := (Q1_AddMipTex texture st.mip).1, flags := flags }
        st.q1_texinfos (bucketEntries st.texinfo_hashtab
          (hashSlot (texinfoHash (Q1_AddMipTex texture st.mip).1))) = BucketScan.notFound := by
      rw [show hashSlot (texinfoHash (Q1_AddMipTex texture st.mip).1)
        = texinfo_t.slot
            { s := s4, t := t4, miptex := (Q1_AddMipTex texture st.mip).1, flags := flags }
        from rfl, hscan, hl]
    obtain ⟨h1, h2⟩ := hn hs
    refine ⟨fun hfree => ?_, fun hfull => ?_⟩
    · obtain ⟨a1, -, a3, a4⟩ := h2 hfree
      exact ⟨a1, a3, a4⟩
    · obtain ⟨a1, -, a3⟩ := h1 hfull
      exact ⟨a1, a3⟩

/-- The table after the first "sky" mapping holds that one entry, texture 3. -/
theorem skyState_eq :
    Q1_AddTexInfo 4096 "sky" 0 ![1, 0, 0, 0] ![0, 1, 0, 0] TexState.levelStart
      = Outcome.ok 0 skyState
    ∧ skyState.q1_texinfos = [{ s := ![1, 0, 0, 0], t := ![0, 1, 0, 0], miptex := 3, flags := 0 }]
    ∧ (Q1_AddMipTex "sky" skyState.mip).1 = 3 :=
  ⟨Outcome.eq_ok_of_value _ 0 (by decide), rfl, by decide⟩

/-- C23 witness: after the first "sky" mapping of a level, the same mapping is
found at index 0 by the linear scan and returned by `Q1_AddTexInfo`, and entry
0 lies in bucket 3 only. -/
theorem Q1_AddTexInfo_linear_scan_witness :
    TexState.Reachable 4096 skyState
    ∧ linearScanSpec
        { s := ![1, 0, 0, 0], t := ![0, 1, 0, 0], miptex := (Q1_AddMipTex "sky" skyState.mip).1,
          flags := 0 } skyState.q1_texinfos = some 0
    ∧ (Q1_AddTexInfo 4096 "sky" 0 ![1, 0, 0, 0] ![0, 1, 0, 0] skyState).value? = some 0
    ∧ (∀ slot : Fin 32, 0 ∈ bucketEntries skyState.texinfo_hashtab slot ↔ slot = 3) := by
  have hreach : TexState.Reachable 4096 skyState :=
    TexState.Reachable.addTexInfo _ "sky" 0 ![1, 0, 0, 0] ![0, 1, 0, 0] 0 skyState
      (TexState.Reachable.clear _) skyState_eq.1
  have h := Q1_AddTexInfo_linear_scan 4096 (by decide) skyState hreach "sky" 0
    ![1, 0, 0, 0] ![0, 1, 0, 0] (by decide)
  have hl : linearScanSpec
      { s := ![1, 0, 0, 0], t := ![0, 1, 0, 0], miptex := (Q1_AddMipTex "sky" skyState.mip).1,
        flags := 0 } skyState.q1_texinfos = some 0 := by
    rw [skyState_eq.2.1, skyState_eq.2.2]
    simp [linearScanSpec, MatchTexInfo_self]
  refine ⟨hreach, hl, (h.2.2.2.2.2.2.1 0 hl).2.1, ?_⟩
  intro slot
  have h0 : 0 < skyState.q1_texinfos.length := by rw [skyState_eq.2.1]; decide
  rw [h.1 0 h0 slot]
  have : (skyState.q1_texinfos.get ⟨0, h0⟩).miptex = 3 := by
    simp only [List.get_eq_getElem, skyState_eq.2.1, List.getElem_cons_zero]
  rw [this]
  have h3 : hashSlot (texinfoHash 3) = 3 := by decide
  rw [h3]


/-! ### Mark surfaces refer to written faces -/

section MarkSurfLemmas

variable {E : Type} (env : BspEnv E)

theorem getElem?_of_prefix {α : Type} (xs ys : List α) (h : xs <+: ys) (i : Nat) (a : α)
    (hi : xs[i]? = some a) : ys[i]? = some a := by
  obtain ⟨t, rfl⟩ := h
  have hlt : i < xs.length := by
    by_contra hge
    rw [List.getElem?_eq_none (by omega)] at hi
    exact Option.noConfusion hi
  rw [List.getElem?_append_left hlt]
  exact hi

theorem Written_mono (n0 : Int) (L0 : Nat) (a b : Q1State E) (id : Nat)
    (hp : a.q1_faces <+: b.q1_faces) (hi : b.face_index id = a.face_index id)
    (h : a.Written n0 L0 id) : b.Written n0 L0 id := by
  obtain ⟨k, r, f, h1, h2, h3, h4⟩ := h
  exact ⟨k, r, f, by rw [hi, h1], getElem?_of_prefix _ _ hp _ _ h2, h3, h4⟩

theorem MarkOK_mono (n0 : Int) (L0 : Nat) (a b : Q1State E) (e : Int)
    (hp : a.q1_faces <+: b.q1_faces) (h : a.MarkOK n0 L0 e) : b.MarkOK n0 L0 e := by
  obtain ⟨k, r, f, h1, h2, h3⟩ := h
  exact ⟨k, r, f, h1, getElem?_of_prefix _ _ hp _ _ h2, h3⟩

/-- A returning face write keeps counter and lump in step, leaves the face
written, and leaves written whatever was. -/
theorem Q1_WriteFace_written (n0 : Int) (L0 : Nat) (face : quake_face_c) (st st1 : Q1State E)
    (hcnt : st.Counted n0 L0) (h : Q1_WriteFace env face st = Outcome.ok () st1) :
    st1.Counted n0 L0 ∧ st1.Written n0 L0 face.id
      ∧ ∀ id, st.Written n0 L0 id → st1.Written n0 L0 id := by
  obtain ⟨a1, a2, -, -, ⟨r, a5, a6, -, -⟩⟩ := Q1_WriteFace_ok env face st st1 h
  obtain ⟨c, c1, c2⟩ := hcnt
  have hnew : st1.Written n0 L0 face.id := by
    refine ⟨c, r, face, ?_, ?_, a6, rfl⟩
    · rw [a2, Function.update_same, c2]
    · rw [a5, ← c1, List.getElem?_append_right (le_refl _), Nat.sub_self]
      rfl
  refine ⟨⟨c + 1, ?_, ?_⟩, hnew, ?_⟩
  · rw [a5, List.length_append, c1, List.length_singleton, Nat.add_assoc]
  · rw [a1, c2]
    push_cast
    ring
  · intro id hw
    by_cases hid : id = face.id
    · rw [hid]
      exact hnew
    · refine Written_mono n0 L0 st st1 id ?_ ?_ hw
      · rw [a5]
        exact List.prefix_append _ _
      · rw [a2, Function.update_noteq hid]

/-- A returning loop of face writes leaves every face of the list written. -/
theorem forEach_Q1_WriteFace_written (n0 : Int) (L0 : Nat) (faces : List quake_face_c)
    (st st1 : Q1State E) (hcnt : st.Counted n0 L0)
    (h : forEach (Q1_WriteFace env) faces st = Outcome.ok () st1) :
    st1.Counted n0 L0 ∧ (∀ f ∈ faces, st1.Written n0 L0 f.id)
      ∧ ∀ id, st.Written n0 L0 id → st1.Written n0 L0 id := by
  induction faces generalizing st with
  | nil =>
    simp only [forEach, Outcome.ok.injEq, true_and] at h
    subst h
    exact ⟨hcnt, fun f hf => absurd hf (List.not_mem_nil f), fun _ hw => hw⟩
  | cons f rest ih =>
    simp only [forEach] at h
    cases hb : Q1_WriteFace env f st with
    | ok v st2 =>
      rw [hb] at h
      simp only [Outcome.bind_ok] at h
      obtain ⟨b1, b2, b3⟩ := Q1_WriteFace_written env n0 L0 f st st2 hcnt hb
      obtain ⟨d1, d2, d3⟩ := ih st2 b1 h
      refine ⟨d1, ?_, fun id hw => d3 id (b3 id hw)⟩
      intro g hg
      rcases List.mem_cons.mp hg with rfl | hg2
      · exact d3 _ b2
      · exact d2 g hg2
    | fatal st2 => rw [hb] at h; exact Outcome.noConfusion h
    | assertFail st2 => rw [hb] at h; exact Outcome.noConfusion h

/-- The own part of `Q1_WriteNode` fails no assertion and writes no mark
surface; when it returns, the node's faces are written. -/
theorem Q1_WriteNode_record_written (n0 : Int) (L0 : Nat) (node : quake_node_info)
    (front back : quake_child) (st : Q1State E) (hcnt : st.Counted n0 L0) :
    (Q1_WriteNode_record env node front back st).isOk
        = !(Q1_WriteNode_record env node front back st).isFatal
    ∧ (Q1_WriteNode_record env node front back st).state.q1_mark_surfs = st.q1_mark_surfs
    ∧ ∀ st1, Q1_WriteNode_record env node front back st = Outcome.ok () st1 →
        st1.Counted n0 L0 ∧ (∀ f ∈ node.faces, st1.Written n0 L0 f.id)
          ∧ ∀ id, st.Written n0 L0 id → st1.Written n0 L0 id := by
  have hf := (forEach_Q1_WriteFace_frame env node.faces
    { st with ext := (env.BSP_AddPlane node.plane st.ext).2 }).2.2.2
  have hok := forEach_isOk_or_isFatal (Q1_WriteFace env) (fun f st1 => Q1_WriteFace_isOk env f st1)
    node.faces { st with ext := (env.BSP_AddPlane node.plane st.ext).2 }
  have hw := forEach_Q1_WriteFace_written env n0 L0 node.faces
    { st with ext := (env.BSP_AddPlane node.plane st.ext).2 }
  unfold Q1_WriteNode_record
  simp only
  cases hl : forEach (Q1_WriteFace env) node.faces
      { st with ext := (env.BSP_AddPlane node.plane st.ext).2 } with
  | ok v st2 =>
    rw [hl] at hf
    simp only [Outcome.state_ok] at hf
    obtain ⟨w1, w2, w3⟩ := hw st2 hcnt hl
    refine ⟨by simp, by simpa using hf, ?_⟩
    intro st1 h1
    simp only [Outcome.bind_ok, Outcome.ok.injEq, true_and] at h1
    subst h1
    exact ⟨w1, w2, w3⟩
  | fatal st2 =>
    rw [hl] at hf
    refine ⟨by simp, by simpa using hf, ?_⟩
    intro st1 h1
    simp at h1
  | assertFail st2 =>
    rw [hl] at hok
    simp at hok

end MarkSurfLemmas


section MarkSurfTree

variable {E : Type} (env : BspEnv E)

/-- A leaf whose faces are all written fails no assertion; the mark-surface
entries it appends are indices of written faces; nothing else that matters to
faces changes. -/
theorem Q1_WriteLeaf_marks (n0 : Int) (hn0 : 0 ≤ n0) (L0 : Nat) (leaf : quake_leaf_c)
    (st : Q1State E) (hall : ∀ f ∈ leaf.faces, st.Written n0 L0 f.id) :
    (Q1_WriteLeaf env leaf st).isOk = true
    ∧ (Q1_WriteLeaf env leaf st).state.q1_faces = st.q1_faces
    ∧ (Q1_WriteLeaf env leaf st).state.face_index = st.face_index
    ∧ (Q1_WriteLeaf env leaf st).state.q1_total_faces = st.q1_total_faces
    ∧ ∃ es, (Q1_WriteLeaf env leaf st).state.q1_mark_surfs = st.q1_mark_surfs ++ es
        ∧ ∀ e ∈ es, st.MarkOK n0 L0 e := by
  obtain ⟨-, f2, -, f4, -, -, f7⟩ := Q1_WriteLeaf_frame env leaf st
  refine ⟨?_, f4, f7, f2, ?_⟩
  · unfold Q1_WriteLeaf
    split
    · rfl
    · have hnn : ∀ f ∈ leaf.faces, 0 ≤ st.face_index f.id := by
        intro f hf
        obtain ⟨k, -, -, hk, -⟩ := hall f hf
        rw [hk]
        omega
      obtain ⟨v, st1, e1, -⟩ := (Q1_WriteLeaf_marksurfs_spec leaf.faces 0 st).2 hnn
      simp only [e1, Outcome.bind_ok, Outcome.isOk_ok]
  · unfold Q1_WriteLeaf
    split
    · exact ⟨[], by simp, fun e he => absurd he (List.not_mem_nil e)⟩
    · have hnn : ∀ f ∈ leaf.faces, 0 ≤ st.face_index f.id := by
        intro f hf
        obtain ⟨k, -, -, hk, -⟩ := hall f hf
        rw [hk]
        omega
      obtain ⟨v, st1, e1, e2, -⟩ := (Q1_WriteLeaf_marksurfs_spec leaf.faces 0 st).2 hnn
      simp only [e1, Outcome.bind_ok, Outcome.state_ok]
      refine ⟨leaf.faces.map (fun f => toU16 (st.face_index f.id)), e2, ?_⟩
      intro e he
      obtain ⟨f, hf, rfl⟩ := List.mem_map.mp he
      obtain ⟨k, r, g, hk, hr, hg, -⟩ := hall f hf
      exact ⟨k, r, g, by rw [hk], hr, hg⟩

/-- The walk of a tree whose leaf faces are owned by ancestors, all of them
written: no assertion fails, and every mark-surface entry appended is the index
of a written face. -/
theorem Q1_WriteChild_marks (n0 : Int) (hn0 : 0 ≤ n0) (L0 : Nat) (t : quake_child)
    (anc : List Nat) (st : Q1State E) (hcnt : st.Counted n0 L0)
    (hanc : ∀ id ∈ anc, st.Written n0 L0 id) (hown : t.leafFacesOwned anc = true) :
    (Q1_WriteChild env t st).isOk = !(Q1_WriteChild env t st).isFatal
    ∧ (∃ es, (Q1_WriteChild env t st).state.q1_mark_surfs = st.q1_mark_surfs ++ es
        ∧ ∀ e ∈ es, (Q1_WriteChild env t st).state.MarkOK n0 L0 e)
    ∧ ∀ st1, Q1_WriteChild env t st = Outcome.ok () st1 →
        st1.Counted n0 L0 ∧ ∀ id, st.Written n0 L0 id → st1.Written n0 L0 id := by
  induction t generalizing anc st with
  | L leaf =>
    have hall : ∀ f ∈ leaf.faces, st.Written n0 L0 f.id := by
      intro f hf
      simp only [quake_child.leafFacesOwned, List.all_eq_true, decide_eq_true_eq] at hown
      exact hanc f.id (hown f hf)
    obtain ⟨l1, l2, l3, l4, es, l5, l6⟩ := Q1_WriteLeaf_marks env n0 hn0 L0 leaf st hall
    simp only [Q1_WriteChild]
    refine ⟨?_, ⟨es, l5, fun e he => MarkOK_mono n0 L0 st _ e (by rw [l2]) (l6 e he)⟩, ?_⟩
    · rw [l1]
      cases hout : Q1_WriteLeaf env leaf st with
      | ok v st1 => rfl
      | fatal st1 => rw [hout] at l1; simp at l1
      | assertFail st1 => rw [hout] at l1; simp at l1
    · intro st1 h1
      rw [h1] at l2 l3 l4
      simp only [Outcome.state_ok] at l2 l3 l4
      obtain ⟨c, c1, c2⟩ := hcnt
      refine ⟨⟨c, by rw [l2, c1], by rw [l4, c2]⟩, ?_⟩
      intro id hw
      exact Written_mono n0 L0 st st1 id (by rw [l2]) (by rw [l3]) hw
  | N node front back ihf ihb =>
    simp only [quake_child.leafFacesOwned, Bool.and_eq_true] at hown
    obtain ⟨r1, r2, r3⟩ := Q1_WriteNode_record_written env n0 L0 node front back st hcnt
    simp only [Q1_WriteChild]
    cases hrec : Q1_WriteNode_record env node front back st with
    | ok v st1 =>
      rw [hrec] at r2
      simp only [Outcome.state_ok] at r2
      obtain ⟨s1, s2, s3⟩ := r3 st1 hrec
      have hanc1 : ∀ id ∈ anc ++ node.faces.map quake_face_c.id, st1.Written n0 L0 id := by
        intro id hid
        rcases List.mem_append.mp hid with h | h
        · exact s3 id (hanc id h)
        · obtain ⟨f, hf, rfl⟩ := List.mem_map.mp h
          exact s2 f hf
      obtain ⟨f1, ⟨esf, f2, f3⟩, f4⟩ := ihf _ st1 s1 hanc1 hown.1
      simp only [Outcome.bind_ok]
      cases hfront : Q1_WriteChild env front st1 with
      | ok v2 st2 =>
        rw [hfront] at f2 f3
        simp only [Outcome.state_ok] at f2 f3
        obtain ⟨t1, t2⟩ := f4 st2 hfront
        have hanc2 : ∀ id ∈ anc ++ node.faces.map quake_face_c.id, st2.Written n0 L0 id :=
          fun id hid => t2 id (hanc1 id hid)
        obtain ⟨b1, ⟨esb, b2, b3⟩, b4⟩ := ihb _ st2 t1 hanc2 hown.2
        simp only [Outcome.bind_ok]
        refine ⟨b1, ⟨esf ++ esb, ?_, ?_⟩, ?_⟩
        · rw [b2, f2, r2, List.append_assoc]
        · intro e he
          rcases List.mem_append.mp he with h | h
          · exact MarkOK_mono n0 L0 st2 _ e (Q1_WriteChild_faces_grow env back st2) (f3 e h)
          · exact b3 e h
        · intro st3 h3
          obtain ⟨u1, u2⟩ := b4 st3 h3
          exact ⟨u1, fun id hw => u2 id (t2 id (s3 id hw))⟩
      | fatal st2 =>
        rw [hfront] at f2 f3
        simp only [Outcome.state_fatal] at f2 f3
        refine ⟨by simp, ⟨esf, by simpa [r2] using f2, by simpa using f3⟩, ?_⟩
        intro st3 h3
        simp at h3
      | assertFail st2 =>
        rw [hfront] at f1
        simp at f1
    | fatal st1 =>
      rw [hrec] at r2
      simp only [Outcome.state_fatal] at r2
      refine ⟨by simp, ⟨[], by simpa using r2, fun e he => absurd he (List.not_mem_nil e)⟩, ?_⟩
      intro st3 h3
      simp at h3
    | assertFail st1 =>
      rw [hrec] at r1
      simp at r1

/-- C24: for every tree in which each face bordering a leaf is a face object of
some ancestor node of that leaf, written from a state whose face counter is not
negative, `Q1_WriteNode(root)` fails no assertion, so never the assertion
`face->index >= 0` of `Q1_WriteMarkSurf`: it returns, or ends in the fatal
error of a degenerate edge. Every mark-surface entry it appends, up to the
point it stopped, is the output index of a face whose record the walk has
already appended to the faces lump at that index (the entry is a `u16_t`: the
index itself when below 65536). -/
theorem Q1_WriteNode_marksurf_written (node : quake_node_info) (front back : quake_child)
    (st : Q1State E) (hcount : 0 ≤ st.q1_total_faces)
    (hown : (quake_child.N node front back).leafFacesOwned [] = true) :
    (∀ st1, Q1_WriteNode env node front back st ≠ Outcome.assertFail st1)
    ∧ ∃ es : List Int,
        (Q1_WriteNode env node front back st).state.q1_mark_surfs = st.q1_mark_surfs ++ es
        ∧ ∀ e ∈ es, ∃ (k : Nat) (r : dface_t) (f : quake_face_c),
            e = toU16 (st.q1_total_faces + (k : Int))
            ∧ (st.q1_total_faces + (k : Int) < 65536 → e = st.q1_total_faces + (k : Int))
            ∧ (Q1_WriteNode env node front back st).state.q1_faces[st.q1_faces.length + k]?
                = some r
            ∧ r.isRecordOf f := by
  have hcnt : st.Counted st.q1_total_faces st.q1_faces.length := ⟨0, by simp, by simp⟩
  obtain ⟨h1, ⟨es, h2, h3⟩, -⟩ := Q1_WriteChild_marks env st.q1_total_faces hcount
    st.q1_faces.length (quake_child.N node front back) [] st hcnt
    (fun id hid => absurd hid (List.not_mem_nil id)) hown
  unfold Q1_WriteNode
  refine ⟨?_, es, h2, ?_⟩
  · intro st1 hfail
    rw [hfail] at h1
    simp at h1
  · intro e he
    obtain ⟨k, r, f, e1, e2, e3⟩ := h3 e he
    refine ⟨k, r, f, e1, ?_, e2, e3⟩
    intro hlt
    rw [e1]
    exact toU16_of_fits _ ⟨by omega, by omega⟩

end MarkSurfTree

/-- C24 witness: the sample tree (the root owns face 7, which borders the leaf
two levels down) written from the start state: no assertion fails, and the one
mark-surface entry is index 0, the record of the faces lump. -/
theorem Q1_WriteNode_marksurf_written_witness :
    (∀ st1, Q1_WriteChild exactEnv sampleTree Q1State.start ≠ Outcome.assertFail st1)
    ∧ ∃ es : List Int,
        (Q1_WriteChild exactEnv sampleTree Q1State.start).state.q1_mark_surfs = [] ++ es
        ∧ ∀ e ∈ es, ∃ (k : Nat) (r : dface_t) (f : quake_face_c),
            e = toU16 (0 + (k : Int))
            ∧ ((0 : Int) + (k : Int) < 65536 → e = 0 + (k : Int))
            ∧ (Q1_WriteChild exactEnv sampleTree Q1State.start).state.q1_faces[0 + k]? = some r
            ∧ r.isRecordOf f :=
  Q1_WriteNode_marksurf_written exactEnv sampleRoot _ _ Q1State.start (by decide) (by decide)


/-- The sun light on the 3 x 3 grid in "fast" mode: the four cells with even
coordinates are evaluated and their light goes to the positions `t * 3 + s`,
that is 0, 2, 6 and 8. -/
theorem QCOM_ProcessLight_grid3 :
    QCOM_ProcessLight openEnv sunLight grid3State
      = some { grid3State with blocklights := sunBuffer3 } := by
  have hperp : 0 < lightPerp grid3State sunLight := by
    norm_num [lightPerp, grid3State, LightState.start, sunLight]
  rw [QCOM_ProcessLight_eq openEnv sunLight grid3State [0, 1, 2] [0, 1, 2] hperp (Or.inl rfl)
    (by decide) (by decide)]
  congr 2
  funext k
  have hinc : ∀ s t : Int, cellIncrement openEnv sunLight grid3State s t
      = if (IS_INTERP s 3 || IS_INTERP t 3) = true then 0 else 25600 := by
    intro s t
    unfold cellIncrement
    simp [grid3State, LightState.start, openEnv, sunLight, LTK_Sun]
  simp only [hinc, List.map_cons, List.map_nil, List.sum_cons, List.sum_nil]
  have e0 : IS_INTERP 0 3 = false := by decide
  have e1 : IS_INTERP 1 3 = true := by decide
  have e2 : IS_INTERP 2 3 = false := by decide
  simp only [e0, e1, e2, Bool.or_false, Bool.or_true, Bool.false_eq_true, if_true, if_false,
    ite_self, add_zero, zero_add]
  unfold sunBuffer3
  show (5120 : Int) + _ = _
  simp only [grid3State]
  split_ifs <;> omega


/-- C25: at quality 1 the buffer positions written by accumulation are not the
positions `Store_Interp` reads. On the 3 x 3 grid, one sun light of level 100 in
front of the face and nothing in the way: `QCOM_ProcessLight` evaluates the four
cells with even coordinates and adds the light at the positions `t * 3 + s`
(0, 2, 6, 8); `Store_Interp` reads the positions `t * 2 + s` (0, 1, 2, 3) for
them. The light accumulated for cell `(2, 0)` is 30720, stored form 120, and
the sample of cell `(2, 0)` is 20; the interpolated cell `(1, 0)` gets 70. -/
theorem Store_Interp_reads_other_positions :
    QCOM_ProcessLight openEnv sunLight grid3State
      = some { grid3State with blocklights := sunBuffer3 }
    ∧ sunBuffer3 (0 * 3 + 2) = 30720
    ∧ storedByte (sunBuffer3 (0 * 3 + 2)) = 120
    ∧ ((BSP_NewLightmap openEnv.uninit 3 3).Store_Interp sunBuffer3).samples
        = [120, 70, 20, 120, 70, 20, 120, 70, 20]
    ∧ ((BSP_NewLightmap openEnv.uninit 3 3).Store_Interp sunBuffer3).sampleAt (0 * 3 + 2) = 20
    ∧ ((BSP_NewLightmap openEnv.uninit 3 3).Store_Interp sunBuffer3).sampleAt (0 * 3 + 1) = 70 :=
  ⟨QCOM_ProcessLight_grid3, by decide, by decide, by decide, by decide, by decide⟩


/-- The sun light on the 4 x 2 grid in "fast" mode: the cells `(0, 0)`, `(2, 0)`
and `(3, 0)` are evaluated, and no cell of row 1. -/
theorem QCOM_ProcessLight_grid42 :
    QCOM_ProcessLight openEnv sunLight grid42State
      = some { grid42State with blocklights := sunBuffer42 } := by
  have hperp : 0 < lightPerp grid42State sunLight := by
    norm_num [lightPerp, grid42State, LightState.start, sunLight]
  rw [QCOM_ProcessLight_eq openEnv sunLight grid42State [0, 1, 2, 3] [0, 1] hperp (Or.inl rfl)
    (by decide) (by decide)]
  congr 2
  funext k
  have hinc : ∀ s t : Int, cellIncrement openEnv sunLight grid42State s t
      = if (IS_INTERP s 4 || IS_INTERP t 4) = true then 0 else 25600 := by
    intro s t
    unfold cellIncrement
    simp [grid42State, LightState.start, openEnv, sunLight, LTK_Sun]
  simp only [hinc, List.map_cons, List.map_nil, List.sum_cons, List.sum_nil]
  have e0 : IS_INTERP 0 4 = false := by decide
  have e1 : IS_INTERP 1 4 = true := by decide
  have e2 : IS_INTERP 2 4 = false := by decide
  have e3 : IS_INTERP 3 4 = false := by decide
  simp only [e0, e1, e2, e3, Bool.or_false, Bool.or_true, Bool.false_eq_true, if_true, if_false,
    ite_self, add_zero, zero_add]
  unfold sunBuffer42
  show (5120 : Int) + _ = _
  simp only [grid42State]
  split_ifs <;> omega

/-- C26: at quality 1 the row test of `QCOM_ProcessLight` is made against the
width. On the grid of 4 columns and 2 rows, row 1 is the last row (`t = H - 1`),
no interpolated row, and columns 0, 2 and 3 are no interpolated columns; with
one sun light of level 100 in front of the face and nothing in the way, the
cells of row 0 in those columns get the light and no cell of row 1 does:
`IS_INTERP(1, lt_W)` holds for `lt_W = 4`, where `IS_INTERP(1, lt_H)` does not
for `lt_H = 2`. -/
theorem QCOM_ProcessLight_row_test :
    (IS_INTERP 1 grid42State.lt_W = true ∧ IS_INTERP 1 grid42State.lt_H = false
      ∧ IS_INTERP 0 grid42State.lt_W = false)
    ∧ ∃ st1, QCOM_ProcessLight openEnv sunLight grid42State = some st1
      ∧ st1.blocklights (0 * 4 + 0) = grid42State.blocklights (0 * 4 + 0) + sunLight.level
      ∧ st1.blocklights (1 * 4 + 0) = grid42State.blocklights (1 * 4 + 0)
      ∧ st1.blocklights (1 * 4 + 2) = grid42State.blocklights (1 * 4 + 2)
      ∧ st1.blocklights (1 * 4 + 3) = grid42State.blocklights (1 * 4 + 3) :=
  ⟨⟨by decide, by decide, by decide⟩, _, QCOM_ProcessLight_grid42, by decide, by decide,
    by decide, by decide⟩


/-! ### The corners in "super fast" mode -/

/-- The loop `for (i = 0 ; i < N ; i += N - 1)` on `N >= 2` takes the values 0
and `N - 1` and ends. -/
theorem steppedRange_corners (N : Int) (hN : 2 ≤ N) :
    steppedRange N (N - 1) = some [0, N - 1] := by
  unfold steppedRange
  obtain ⟨n, hn⟩ : ∃ n : Nat, N.toNat = n + 2 := ⟨N.toNat - 2, by omega⟩
  rw [hn]
  have h0 : (0 : Int) < N := by omega
  have h1 : N - 1 < N := by omega
  have h2 : ¬ (N - 1 + (N - 1) < N) := by omega
  have hend : loopIndices n (N - 1 + (N - 1)) N (N - 1) = some [] := by
    cases n with
    | zero => simp only [loopIndices, if_neg h2]
    | succ m => simp only [loopIndices, if_neg h2]
  simp only [loopIndices, if_pos h0, zero_add, if_pos h1, hend, Option.map_some']

theorem QCOM_ProcessLight_cell_fields (env : LightEnv) (light : quake_light_t) (s t : Int)
    (st : LightState) :
    (QCOM_ProcessLight_cell env light s t st).lt_W = st.lt_W
    ∧ (QCOM_ProcessLight_cell env light s t st).lt_H = st.lt_H
    ∧ (QCOM_ProcessLight_cell env light s t st).qk_lighting_quality = st.qk_lighting_quality
    ∧ (QCOM_ProcessLight_cell env light s t st).lt_points = st.lt_points := by
  rw [QCOM_ProcessLight_cell_eq]
  exact ⟨rfl, rfl, rfl, rfl⟩

/-- C27: at quality 0, on a grid of at least 2 x 2 cells and for a light that
is not rejected, the two loops of `QCOM_ProcessLight` end: the row loop takes
`t = 0` and `t = H - 1`, the column loop `s = 0` and `s = W - 1`, so the loop
body runs for the four corner cells, each once, in the order `(0, 0)`,
`(W-1, 0)`, `(0, H-1)`, `(W-1, H-1)`. Only `blocklights` changes: each corner
entry `t * W + s` grows by what the light adds to that cell, and every other
entry is left as it was. -/
theorem QCOM_ProcessLight_corners (env : LightEnv) (light : quake_light_t) (st : LightState)
    (hq : st.qk_lighting_quality = 0) (hW : 2 ≤ st.lt_W) (hH : 2 ≤ st.lt_H)
    (hperp : 0 < lightPerp st light)
    (hrad : light.kind = LTK_Sun ∨ lightPerp st light ≤ light.radius) :
    steppedRange st.lt_H (st.lt_H - 1) = some [0, st.lt_H - 1]
    ∧ steppedRange st.lt_W (st.lt_W - 1) = some [0, st.lt_W - 1]
    ∧ QCOM_ProcessLight env light st
      = some (QCOM_ProcessLight_cell env light (st.lt_W - 1) (st.lt_H - 1)
          (QCOM_ProcessLight_cell env light 0 (st.lt_H - 1)
            (QCOM_ProcessLight_cell env light (st.lt_W - 1) 0
              (QCOM_ProcessLight_cell env light 0 0 st))))
    ∧ ∃ b, QCOM_ProcessLight env light st = some { st with blocklights := b }
      ∧ b (0 * st.lt_W + 0) = st.blocklights (0 * st.lt_W + 0) + cellIncrement env light st 0 0
      ∧ b (0 * st.lt_W + (st.lt_W - 1))
          = st.blocklights (0 * st.lt_W + (st.lt_W - 1))
            + cellIncrement env light st (st.lt_W - 1) 0
      ∧ b ((st.lt_H - 1) * st.lt_W + 0)
          = st.blocklights ((st.lt_H - 1) * st.lt_W + 0)
            + cellIncrement env light st 0 (st.lt_H - 1)
      ∧ b ((st.lt_H - 1) * st.lt_W + (st.lt_W - 1))
          = st.blocklights ((st.lt_H - 1) * st.lt_W + (st.lt_W - 1))
            + cellIncrement env light st (st.lt_W - 1) (st.lt_H - 1)
      ∧ ∀ k, k ≠ 0 * st.lt_W + 0 → k ≠ 0 * st.lt_W + (st.lt_W - 1) →
          k ≠ (st.lt_H - 1) * st.lt_W + 0 → k ≠ (st.lt_H - 1) * st.lt_W + (st.lt_W - 1) →
          b k = st.blocklights k := by
  have hts := steppedRange_corners st.lt_H hH
  have hss := steppedRange_corners st.lt_W hW
  have hnot1 : ¬ (lightPerp st light ≤ 0) := not_le.mpr hperp
  have hnot2 : ¬ (light.kind ≠ LTK_Sun ∧ lightPerp st light > light.radius) := by
    rintro ⟨h1, h2⟩
    rcases hrad with h | h
    · exact h1 h
    · exact absurd h2 (not_lt.mpr h)
  have hrun : QCOM_ProcessLight env light st
      = some (QCOM_ProcessLight_cell env light (st.lt_W - 1) (st.lt_H - 1)
          (QCOM_ProcessLight_cell env light 0 (st.lt_H - 1)
            (QCOM_ProcessLight_cell env light (st.lt_W - 1) 0
              (QCOM_ProcessLight_cell env light 0 0 st)))) := by
    have hw1 := (QCOM_ProcessLight_cell_fields env light 0 0 st).1
    have hw2 := (QCOM_ProcessLight_cell_fields env light (st.lt_W - 1) 0
      (QCOM_ProcessLight_cell env light 0 0 st)).1
    unfold QCOM_ProcessLight
    rw [if_neg hnot1, if_neg hnot2]
    simp only [if_pos hq, hts, QCOM_ProcessLight_rows, QCOM_ProcessLight_row, hss,
      Option.map_some', List.foldl_cons, List.foldl_nil, hw2, hw1]
  have hb := QCOM_ProcessLight_eq env light st [0, st.lt_W - 1] [0, st.lt_H - 1] hperp hrad
    (by rw [if_pos hq]; exact hss) (by rw [if_pos hq]; exact hts)
  refine ⟨hts, hss, hrun, _, hb, ?_, ?_, ?_, ?_, ?_⟩
  · simp only [List.map_cons, List.map_nil, List.sum_cons, List.sum_nil]
    have h1 : ¬ (0 * st.lt_W + (st.lt_W - 1) = 0 * st.lt_W + 0) := by omega
    have h2 : ¬ ((st.lt_H - 1) * st.lt_W + 0 = 0 * st.lt_W + 0) := by nlinarith
    have h3 : ¬ ((st.lt_H - 1) * st.lt_W + (st.lt_W - 1) = 0 * st.lt_W + 0) := by nlinarith
    simp only [if_neg h1, if_neg h2, if_neg h3, if_true]
    ring
  · simp only [List.map_cons, List.map_nil, List.sum_cons, List.sum_nil]
    have h1 : ¬ (0 * st.lt_W + 0 = 0 * st.lt_W + (st.lt_W - 1)) := by omega
    have h2 : ¬ ((st.lt_H - 1) * st.lt_W + 0 = 0 * st.lt_W + (st.lt_W - 1)) := by nlinarith
    have h3 : ¬ ((st.lt_H - 1) * st.lt_W + (st.lt_W - 1) = 0 * st.lt_W + (st.lt_W - 1)) := by
      nlinarith
    simp only [if_neg h1, if_neg h2, if_neg h3, if_true]
    ring
  · simp only [List.map_cons, List.map_nil, List.sum_cons, List.sum_nil]
    have h1 : ¬ (0 * st.lt_W + 0 = (st.lt_H - 1) * st.lt_W + 0) := by nlinarith
    have h2 : ¬ (0 * st.lt_W + (st.lt_W - 1) = (st.lt_H - 1) * st.lt_W + 0) := by nlinarith
    have h3 : ¬ ((st.lt_H - 1) * st.lt_W + (st.lt_W - 1) = (st.lt_H - 1) * st.lt_W + 0) := by
      omega
    simp only [if_neg h1, if_neg h2, if_neg h3, if_true]
    ring
  · simp only [List.map_cons, List.map_nil, List.sum_cons, List.sum_nil]
    have h1 : ¬ (0 * st.lt_W + 0 = (st.lt_H - 1) * st.lt_W + (st.lt_W - 1)) := by nlinarith
    have h2 : ¬ (0 * st.lt_W + (st.lt_W - 1) = (st.lt_H - 1) * st.lt_W + (st.lt_W - 1)) := by
      nlinarith
    have h3 : ¬ ((st.lt_H - 1) * st.lt_W + 0 = (st.lt_H - 1) * st.lt_W + (st.lt_W - 1)) := by
      omega
    simp only [if_neg h1, if_neg h2, if_neg h3, if_true]
    ring
  · intro k k1 k2 k3 k4
    simp only [List.map_cons, List.map_nil, List.sum_cons, List.sum_nil]
    simp only [if_neg (Ne.symm k1), if_neg (Ne.symm k2), if_neg (Ne.symm k3),
      if_neg (Ne.symm k4)]
    ring

/-- C27 witness: the sun light on the 2 x 2 grid at quality 0 reaches the four
cells, which are the four corners. -/
theorem QCOM_ProcessLight_corners_witness :
    QCOM_ProcessLight openEnv sunLight (gridState 0)
      = some (QCOM_ProcessLight_cell openEnv sunLight ((gridState 0).lt_W - 1)
          ((gridState 0).lt_H - 1)
          (QCOM_ProcessLight_cell openEnv sunLight 0 ((gridState 0).lt_H - 1)
            (QCOM_ProcessLight_cell openEnv sunLight ((gridState 0).lt_W - 1) 0
              (QCOM_ProcessLight_cell openEnv sunLight 0 0 (gridState 0))))) :=
  (QCOM_ProcessLight_corners openEnv sunLight (gridState 0) rfl (by decide) (by decide)
    (by norm_num [lightPerp, gridState, LightState.start, sunLight]) (Or.inl rfl)).2.2.1


/-! ### The sample grid at the "best" quality -/

/-- The sample points `CalcPoints` computes at the "best" quality: both sizes
are doubled, `lt_tex_mins` holds the truncated differences, and the step is 8. -/
theorem CalcPoints_best (st : LightState) (hq : st.qk_lighting_quality = 3) :
    ∃ pts, CalcPoints st
        = { st with
            lt_W := st.lt_W * 2
            lt_H := st.lt_H * 2
            lt_tex_mins := ![truncToInt ((st.lt_tex_mins 0 : ℚ) - 1 / 2),
                             truncToInt ((st.lt_tex_mins 1 : ℚ) - 1 / 2)]
            lt_points := pts } ∧
      ∀ s t, 0 ≤ s → s < st.lt_W * 2 → 0 ≤ t → t < st.lt_H * 2 →
        pts (t * (st.lt_W * 2) + s)
          = { x := st.lt_texorg 0
                + st.lt_textoworld 0 0
                  * (((truncToInt ((st.lt_tex_mins 0 : ℚ) - 1 / 2) + s : Int) : ℚ) * 8)
                + st.lt_textoworld 1 0
                  * (((truncToInt ((st.lt_tex_mins 1 : ℚ) - 1 / 2) + t : Int) : ℚ) * 8)
              y := st.lt_texorg 1
                + st.lt_textoworld 0 1
                  * (((truncToInt ((st.lt_tex_mins 0 : ℚ) - 1 / 2) + s : Int) : ℚ) * 8)
                + st.lt_textoworld 1 1
                  * (((truncToInt ((st.lt_tex_mins 1 : ℚ) - 1 / 2) + t : Int) : ℚ) * 8)
              z := st.lt_texorg 2
                + st.lt_textoworld 0 2
                  * (((truncToInt ((st.lt_tex_mins 0 : ℚ) - 1 / 2) + s : Int) : ℚ) * 8)
                + st.lt_textoworld 1 2
                  * (((truncToInt ((st.lt_tex_mins 1 : ℚ) - 1 / 2) + t : Int) : ℚ) * 8) } := by
  obtain ⟨st1, hst1⟩ : ∃ st1 : LightState, st1 = { st with
      lt_W := st.lt_W * 2
      lt_H := st.lt_H * 2
      lt_tex_mins := ![truncToInt ((st.lt_tex_mins 0 : ℚ) - 1 / 2),
                       truncToInt ((st.lt_tex_mins 1 : ℚ) - 1 / 2)] } := ⟨_, rfl⟩
  have key := forRange_grid (fun r : LightState => ∃ pts, r = { st1 with lt_points := pts })
    (fun r k => r.lt_points k) st1.lt_W st1.lt_H
    (fun t sa =>
      forRange sa.lt_W (fun s sb =>
        let us : ℚ := ((sb.lt_tex_mins 0 + s : Int) : ℚ) * 8
        let ut : ℚ := ((sb.lt_tex_mins 1 + t : Int) : ℚ) * 8
        { sb with
          lt_points := Function.update sb.lt_points (t * sb.lt_W + s)
            { x := sb.lt_texorg 0 + sb.lt_textoworld 0 0 * us + sb.lt_textoworld 1 0 * ut
              y := sb.lt_texorg 1 + sb.lt_textoworld 0 1 * us + sb.lt_textoworld 1 1 * ut
              z := sb.lt_texorg 2 + sb.lt_textoworld 0 2 * us + sb.lt_textoworld 1 2 * ut } })
        sa)
    (fun s t sb =>
        let us : ℚ := ((sb.lt_tex_mins 0 + s : Int) : ℚ) * 8
        let ut : ℚ := ((sb.lt_tex_mins 1 + t : Int) : ℚ) * 8
        { sb with
          lt_points := Function.update sb.lt_points (t * sb.lt_W + s)
            { x := sb.lt_texorg 0 + sb.lt_textoworld 0 0 * us + sb.lt_textoworld 1 0 * ut
              y := sb.lt_texorg 1 + sb.lt_textoworld 0 1 * us + sb.lt_textoworld 1 1 * ut
              z := sb.lt_texorg 2 + sb.lt_textoworld 0 2 * us + sb.lt_textoworld 1 2 * ut } })
    (fun s t =>
      { x := st1.lt_texorg 0
          + st1.lt_textoworld 0 0 * (((st1.lt_tex_mins 0 + s : Int) : ℚ) * 8)
          + st1.lt_textoworld 1 0 * (((st1.lt_tex_mins 1 + t : Int) : ℚ) * 8)
        y := st1.lt_texorg 1
          + st1.lt_textoworld 0 1 * (((st1.lt_tex_mins 0 + s : Int) : ℚ) * 8)
          + st1.lt_textoworld 1 1 * (((st1.lt_tex_mins 1 + t : Int) : ℚ) * 8)
        z := st1.lt_texorg 2
          + st1.lt_textoworld 0 2 * (((st1.lt_tex_mins 0 + s : Int) : ℚ) * 8)
          + st1.lt_textoworld 1 2 * (((st1.lt_tex_mins 1 + t : Int) : ℚ) * 8) })
    (by
      rintro t acc ⟨pts, rfl⟩
      rfl)
    (by
      rintro s t acc _ _ _ _ ⟨pts, rfl⟩
      exact ⟨_, rfl⟩)
    (by
      rintro s t acc _ _ _ _ ⟨pts, rfl⟩
      simp only [Function.update_same])
    (by
      rintro s t acc k _ _ _ _ ⟨pts, rfl⟩ hk
      simp only []
      rw [Function.update_noteq hk])
    st1 ⟨st1.lt_points, rfl⟩
  have hC : CalcPoints st = forRange st1.lt_H
      (fun t sa =>
        forRange sa.lt_W (fun s sb =>
          let us : ℚ := ((sb.lt_tex_mins 0 + s : Int) : ℚ) * 8
          let ut : ℚ := ((sb.lt_tex_mins 1 + t : Int) : ℚ) * 8
          { sb with
            lt_points := Function.update sb.lt_points (t * sb.lt_W + s)
              { x := sb.lt_texorg 0 + sb.lt_textoworld 0 0 * us + sb.lt_textoworld 1 0 * ut
                y := sb.lt_texorg 1 + sb.lt_textoworld 0 1 * us + sb.lt_textoworld 1 1 * ut
                z := sb.lt_texorg 2 + sb.lt_textoworld 0 2 * us + sb.lt_textoworld 1 2 * ut } })
          sa) st1 := by
    unfold CalcPoints
    simp only [hq, if_true, hst1]
  rw [hC]
  obtain ⟨⟨pts, hpts⟩, hcell, -⟩ := key
  refine ⟨pts, ?_, ?_⟩
  · rw [hpts, hst1]
  · intro s t a1 a2 a3 a4
    have hW : st1.lt_W = st.lt_W * 2 := by rw [hst1]
    have hH : st1.lt_H = st.lt_H * 2 := by rw [hst1]
    have := hcell s t a1 (by rw [hW]; exact a2) a3 (by rw [hH]; exact a4)
    rw [hpts] at this
    simp only [hW] at this
    rw [this, hst1]
    simp


/-- The value the `int` variable `lt_tex_mins[k]` holds after `-= 0.5`: one less
for a positive value, the value itself otherwise. -/
theorem truncToInt_sub_half (m : Int) :
    truncToInt ((m : ℚ) - 1 / 2) = if 1 ≤ m then m - 1 else m := by
  unfold truncToInt
  by_cases hm : 1 ≤ m
  · have h1 : ¬ ((m : ℚ) - 1 / 2 < 0) := by
      have : (1 : ℚ) ≤ (m : ℚ) := by exact_mod_cast hm
      linarith
    rw [if_neg h1, if_pos hm, Int.floor_eq_iff]
    push_cast
    constructor <;> linarith
  · have h1 : (m : ℚ) - 1 / 2 < 0 := by
      have : (m : ℚ) ≤ 0 := by exact_mod_cast (by omega : m ≤ 0)
      linarith
    rw [if_pos h1, if_neg hm, Int.ceil_eq_iff]
    constructor <;> linarith

/-- C28: at quality 3 `CalcPoints` does not shift the grid origin by half a
texel. The face with S/T bounds `(32, -48, 64, -16)` gets `lt_tex_mins = (2, -3)`
and a 3 x 3 grid from `CalcFaceExtents`; `CalcPoints` doubles the grid to 6 x 6
and steps by 8, and `lt_tex_mins`, an `int` array, holds `(1, -3)` after
`-= 0.5`. With the texture axes mapped to x and y, cell `(0, 0)` is sampled at
`(us, ut) = (8, -24)`, not at `((2 - 0.5) * 8, (-3 - 0.5) * 8) = (12, -28)`. -/
theorem CalcPoints_half_texel :
    (CalcFaceExtents shiftedFace bestState).lt_tex_mins = ![2, -3]
    ∧ (CalcFaceExtents shiftedFace bestState).lt_W = 3
    ∧ (CalcFaceExtents shiftedFace bestState).lt_H = 3
    ∧ (CalcPoints (CalcFaceExtents shiftedFace bestState)).lt_W = 6
    ∧ (CalcPoints (CalcFaceExtents shiftedFace bestState)).lt_H = 6
    ∧ (CalcPoints (CalcFaceExtents shiftedFace bestState)).lt_tex_mins = ![1, -3]
    ∧ (CalcPoints (CalcFaceExtents shiftedFace bestState)).lt_points (0 * 6 + 0)
        = { x := 8, y := -24, z := 0 }
    ∧ (((2 : Int) : ℚ) - 1 / 2 + ((0 : Int) : ℚ)) * 8 = 12
    ∧ (((-3 : Int) : ℚ) - 1 / 2 + ((0 : Int) : ℚ)) * 8 = -28 := by
  have hmins : (CalcFaceExtents shiftedFace bestState).lt_tex_mins = ![2, -3] := by
    simp only [CalcFaceExtents, shiftedFace, floorFace]
    norm_num
  have hW : (CalcFaceExtents shiftedFace bestState).lt_W = 3 := by
    simp only [CalcFaceExtents, shiftedFace, floorFace]
    norm_num
  have hH : (CalcFaceExtents shiftedFace bestState).lt_H = 3 := by
    have hc : ⌈(-1 : ℚ)⌉ = -1 := by
      rw [show (-1 : ℚ) = ((-1 : Int) : ℚ) by norm_num, Int.ceil_intCast]
    simp only [CalcFaceExtents, shiftedFace, floorFace]
    norm_num [hc]
  obtain ⟨pts, hC, hpts⟩ := CalcPoints_best (CalcFaceExtents shiftedFace bestState) rfl
  have h00 := hpts 0 0 (le_refl _) (by rw [hW]; decide) (le_refl _) (by rw [hH]; decide)
  rw [hmins, hW] at h00
  have ht0 : truncToInt ((((![2, -3] : Fin 2 → Int) 0 : Int) : ℚ) - 1 / 2) = 1 := by
    rw [truncToInt_sub_half]
    rfl
  have ht1 : truncToInt ((((![2, -3] : Fin 2 → Int) 1 : Int) : ℚ) - 1 / 2) = -3 := by
    rw [truncToInt_sub_half]
    rfl
  rw [ht0, ht1] at h00
  refine ⟨hmins, hW, hH, ?_, ?_, ?_, ?_, by norm_num, by norm_num⟩
  · rw [hC, hW]
    rfl
  · rw [hC, hH]
    rfl
  · rw [hC, hmins]
    simp only [ht0, ht1]
  · rw [hC]
    simp only
    have e : (0 : Int) * 6 + 0 = 0 * (3 * 2) + 0 := by norm_num
    rw [e, h00]
    simp [CalcFaceExtents, bestState, LightState.start]
    norm_num


/-! ### Sample positions and the texture projection -/

/-- The vectors `CalcFaceVectors` computes for the floor face with T offset 5:
the texture origin is moved along the S axis by the T offset. -/
theorem CalcFaceVectors_offsetFace (st : LightState) :
    (CalcFaceVectors openEnv offsetFace st).lt_texorg = ![-5, 0, 1] ∧
    (CalcFaceVectors openEnv offsetFace st).lt_textoworld 0 = ![1, 0, 0] ∧
    (CalcFaceVectors openEnv offsetFace st).lt_textoworld 1 = ![0, 1, 0] := by
  have hs : Rat.sqrt 1 = 1 := by
    rw [show (1 : ℚ) = 1 * 1 by norm_num, Rat.sqrt_eq]
    norm_num
  refine ⟨?_, ?_, ?_⟩
  · simp [CalcFaceVectors, offsetFace, floorFace, openEnv, hs]
  · simp [CalcFaceVectors, offsetFace, floorFace, openEnv, hs]
  · simp [CalcFaceVectors, offsetFace, floorFace, openEnv, hs]

/-- The vectors `CalcFaceVectors` computes for the sloped face. -/
theorem CalcFaceVectors_slopedFace (st : LightState) :
    (CalcFaceVectors openEnv slopedFace st).lt_plane_normal = ![3 / 5, 0, 4 / 5] ∧
    (CalcFaceVectors openEnv slopedFace st).lt_plane_dist = 0 ∧
    (CalcFaceVectors openEnv slopedFace st).lt_texorg = ![0, 0, 5 / 4] ∧
    (CalcFaceVectors openEnv slopedFace st).lt_textoworld 0 = ![2, 0, -(3 / 8)] ∧
    (CalcFaceVectors openEnv slopedFace st).lt_textoworld 1 = ![0, 1, 0] := by
  have hs : Rat.sqrt 4 = 2 := by
    rw [show (4 : ℚ) = 2 * 2 by norm_num, Rat.sqrt_eq]
    norm_num
  refine ⟨?_, ?_, ?_, ?_, ?_⟩
  · simp [CalcFaceVectors, slopedFace]
  · simp [CalcFaceVectors, slopedFace]
  · simp [CalcFaceVectors, slopedFace, openEnv, hs]
    norm_num
  · simp [CalcFaceVectors, slopedFace, openEnv, hs]
    norm_num
  · simp [CalcFaceVectors, slopedFace, openEnv, hs]


/-- The sample points of the floor face with T offset 5 at quality 2:
`(16 s - 5, 16 t, 1)`. -/
theorem offsetFace_points :
    ∃ pts, CalcPoints (CalcFaceExtents offsetFace
          (CalcFaceVectors openEnv offsetFace (LightState.start 2)))
        = { CalcFaceExtents offsetFace
              (CalcFaceVectors openEnv offsetFace (LightState.start 2)) with
            lt_points := pts } ∧
      ∀ s t : Int, 0 ≤ s → s < 2 → 0 ≤ t → t < 2 →
        pts (t * 2 + s) = { x := (s : ℚ) * 16 - 5, y := (t : ℚ) * 16, z := 1 } := by
  obtain ⟨pts, h1, hcell⟩ := CalcPoints_points
    (CalcFaceExtents offsetFace (CalcFaceVectors openEnv offsetFace (LightState.start 2)))
    (by
      show (LightState.start 2).qk_lighting_quality ≠ 3
      decide)
  refine ⟨pts, h1, ?_⟩
  intro s t hs hs2 ht ht2
  have hW : (CalcFaceExtents offsetFace
      (CalcFaceVectors openEnv offsetFace (LightState.start 2))).lt_W = 2 := by
    simp only [CalcFaceExtents, offsetFace, floorFace]
    norm_num
  have hH : (CalcFaceExtents offsetFace
      (CalcFaceVectors openEnv offsetFace (LightState.start 2))).lt_H = 2 := by
    simp only [CalcFaceExtents, offsetFace, floorFace]
    norm_num
  have := hcell s t hs (by rw [hW]; exact hs2) ht (by rw [hH]; exact ht2)
  rw [hW] at this
  obtain ⟨e3, e4, e5⟩ := CalcFaceVectors_offsetFace (LightState.start 2)
  have f3 : (CalcFaceExtents offsetFace
      (CalcFaceVectors openEnv offsetFace (LightState.start 2))).lt_texorg = ![-5, 0, 1] := e3
  have f4 : (CalcFaceExtents offsetFace
      (CalcFaceVectors openEnv offsetFace (LightState.start 2))).lt_textoworld 0
        = ![1, 0, 0] := e4
  have f5 : (CalcFaceExtents offsetFace
      (CalcFaceVectors openEnv offsetFace (LightState.start 2))).lt_textoworld 1
        = ![0, 1, 0] := e5
  have f6 : (CalcFaceExtents offsetFace
      (CalcFaceVectors openEnv offsetFace (LightState.start 2))).lt_tex_mins = ![0, 0] := by
    simp [CalcFaceExtents, offsetFace, floorFace]
  rw [f3, f4, f5, f6] at this
  refine this.trans ?_
  simp
  ring

/-- The sample points of the sloped face at quality 2. -/
theorem slopedFace_points :
    ∃ pts, CalcPoints (CalcFaceExtents slopedFace
          (CalcFaceVectors openEnv slopedFace (LightState.start 2)))
        = { CalcFaceExtents slopedFace
              (CalcFaceVectors openEnv slopedFace (LightState.start 2)) with
            lt_points := pts } ∧
      ∀ s t : Int, 0 ≤ s → s < 2 → 0 ≤ t → t < 2 →
        pts (t * 2 + s)
          = { x := (s : ℚ) * 32, y := (t : ℚ) * 16, z := 5 / 4 - (s : ℚ) * 6 } := by
  obtain ⟨pts, h1, hcell⟩ := CalcPoints_points
    (CalcFaceExtents slopedFace (CalcFaceVectors openEnv slopedFace (LightState.start 2)))
    (by
      show (LightState.start 2).qk_lighting_quality ≠ 3
      decide)
  refine ⟨pts, h1, ?_⟩
  intro s t hs hs2 ht ht2
  have hW : (CalcFaceExtents slopedFace
      (CalcFaceVectors openEnv slopedFace (LightState.start 2))).lt_W = 2 := by
    simp only [CalcFaceExtents, slopedFace]
    norm_num
  have hH : (CalcFaceExtents slopedFace
      (CalcFaceVectors openEnv slopedFace (LightState.start 2))).lt_H = 2 := by
    simp only [CalcFaceExtents, slopedFace]
    norm_num
  have := hcell s t hs (by rw [hW]; exact hs2) ht (by rw [hH]; exact ht2)
  rw [hW] at this
  obtain ⟨-, -, e3, e4, e5⟩ := CalcFaceVectors_slopedFace (LightState.start 2)
  have f3 : (CalcFaceExtents slopedFace
      (CalcFaceVectors openEnv slopedFace (LightState.start 2))).lt_texorg
        = ![0, 0, 5 / 4] := e3
  have f4 : (CalcFaceExtents slopedFace
      (CalcFaceVectors openEnv slopedFace (LightState.start 2))).lt_textoworld 0
        = ![2, 0, -(3 / 8)] := e4
  have f5 : (CalcFaceExtents slopedFace
      (CalcFaceVectors openEnv slopedFace (LightState.start 2))).lt_textoworld 1
        = ![0, 1, 0] := e5
  have f6 : (CalcFaceExtents slopedFace
      (CalcFaceVectors openEnv slopedFace (LightState.start 2))).lt_tex_mins = ![0, 0] := by
    simp [CalcFaceExtents, slopedFace]
  rw [f3, f4, f5, f6] at this
  refine this.trans ?_
  simp
  constructor <;> ring


/-- C29: the position computed for a cell is not the inverse image of its
texture coordinates. The floor face `z = 0` with `s = (1, 0, 0, 0)` and
`t = (0, 1, 0, 5)`: the axes are unit vectors, orthogonal, and the texture
normal is the face normal. Cell `(1, 1)` has the texture coordinates
`(us, ut) = (16, 16)`; `CalcFaceVectors` and `CalcPoints` place it at
`P = (11, 16, 1)`, for which `s . P + s[3] = 11` and `t . P + t[3] = 21`. -/
theorem CalcPoints_not_inverse :
    (offsetFace.s 0 * offsetFace.t 0 + offsetFace.s 1 * offsetFace.t 1
      + offsetFace.s 2 * offsetFace.t 2 = 0)
    ∧ ∃ pts, CalcPoints (CalcFaceExtents offsetFace
          (CalcFaceVectors openEnv offsetFace (LightState.start 2)))
        = { CalcFaceExtents offsetFace
              (CalcFaceVectors openEnv offsetFace (LightState.start 2)) with
            lt_points := pts }
      ∧ pts (1 * 2 + 1) = { x := 11, y := 16, z := 1 }
      ∧ offsetFace.s 0 * (pts (1 * 2 + 1)).x + offsetFace.s 1 * (pts (1 * 2 + 1)).y
          + offsetFace.s 2 * (pts (1 * 2 + 1)).z + offsetFace.s 3 = 11
      ∧ offsetFace.t 0 * (pts (1 * 2 + 1)).x + offsetFace.t 1 * (pts (1 * 2 + 1)).y
          + offsetFace.t 2 * (pts (1 * 2 + 1)).z + offsetFace.t 3 = 21 := by
  obtain ⟨pts, h1, hcell⟩ := offsetFace_points
  have hp : pts (1 * 2 + 1) = { x := 11, y := 16, z := 1 } := by
    rw [hcell 1 1 (by decide) (by decide) (by decide) (by decide)]
    norm_num
  refine ⟨by simp [offsetFace, floorFace], pts, h1, hp, ?_, ?_⟩
  · rw [hp]
    simp [offsetFace, floorFace]
  · rw [hp]
    simp [offsetFace, floorFace]
    norm_num

/-- C30: a sample position is not always 1 unit in front of the face plane. The
face in the plane through the origin with normal `(3/5, 0, 4/5)`, S axis
`(2, 0, 0)` and T axis `(0, 1, 0)`: the texture normal `(0, 0, 1)` is not
perpendicular to the face normal. The position `CalcFaceVectors` and
`CalcPoints` compute for cell `(0, 0)` is `(0, 0, 5/4)`, 1 unit in front of the
plane; the one for cell `(1, 0)` is `(32, 0, -19/4)`, at `normal . P - dist =
77/5`. -/
theorem CalcPoints_off_plane :
    (CalcFaceVectors openEnv slopedFace (LightState.start 2)).lt_plane_normal = ![3 / 5, 0, 4 / 5]
    ∧ (CalcFaceVectors openEnv slopedFace (LightState.start 2)).lt_plane_dist = 0
    ∧ ∃ pts, CalcPoints (CalcFaceExtents slopedFace
          (CalcFaceVectors openEnv slopedFace (LightState.start 2)))
        = { CalcFaceExtents slopedFace
              (CalcFaceVectors openEnv slopedFace (LightState.start 2)) with
            lt_points := pts }
      ∧ pts (0 * 2 + 0) = { x := 0, y := 0, z := 5 / 4 }
      ∧ pts (0 * 2 + 1) = { x := 32, y := 0, z := -(19 / 4) }
      ∧ (3 / 5 : ℚ) * (pts (0 * 2 + 0)).x + 0 * (pts (0 * 2 + 0)).y
          + 4 / 5 * (pts (0 * 2 + 0)).z - 0 = 1
      ∧ (3 / 5 : ℚ) * (pts (0 * 2 + 1)).x + 0 * (pts (0 * 2 + 1)).y
          + 4 / 5 * (pts (0 * 2 + 1)).z - 0 = 77 / 5 := by
  obtain ⟨n1, n2, -, -, -⟩ := CalcFaceVectors_slopedFace (LightState.start 2)
  obtain ⟨pts, h1, hcell⟩ := slopedFace_points
  have hp0 : pts (0 * 2 + 0) = { x := 0, y := 0, z := 5 / 4 } := by
    rw [hcell 0 0 (by decide) (by decide) (by decide) (by decide)]
    norm_num
  have hp1 : pts (0 * 2 + 1) = { x := 32, y := 0, z := -(19 / 4) } := by
    rw [hcell 1 0 (by decide) (by decide) (by decide) (by decide)]
    norm_num
  refine ⟨n1, n2, pts, h1, hp0, hp1, ?_, ?_⟩
  · rw [hp0]
    norm_num
  · rw [hp1]
    norm_num


/-- The vectors of `CalcFaceVectors` in terms of the flipped texture normal
`(N0, N1, N2)` and of `c = N . normal`. -/
theorem CalcFaceVectors_shape (env : LightEnv) (F : quake_lit_face_c) (st : LightState) :
    ∃ (N0 N1 N2 c d0 d1 od : ℚ),
      ((N0 = (texNormal env F).1 ∧ N1 = (texNormal env F).2.1 ∧ N2 = (texNormal env F).2.2)
        ∨ (N0 = -(texNormal env F).1 ∧ N1 = -(texNormal env F).2.1
            ∧ N2 = -(texNormal env F).2.2))
      ∧ c = N0 * (CalcFaceVectors env F st).lt_plane_normal 0
          + N1 * (CalcFaceVectors env F st).lt_plane_normal 1
          + N2 * (CalcFaceVectors env F st).lt_plane_normal 2
      ∧ 0 ≤ c
      ∧ d0 = (F.s 0 * (CalcFaceVectors env F st).lt_plane_normal 0
          + F.s 1 * (CalcFaceVectors env F st).lt_plane_normal 1
          + F.s 2 * (CalcFaceVectors env F st).lt_plane_normal 2) * (1 / c)
            / (F.s 0 * F.s 0 + F.s 1 * F.s 1 + F.s 2 * F.s 2)
      ∧ d1 = (F.t 0 * (CalcFaceVectors env F st).lt_plane_normal 0
          + F.t 1 * (CalcFaceVectors env F st).lt_plane_normal 1
          + F.t 2 * (CalcFaceVectors env F st).lt_plane_normal 2) * (1 / c)
            / (F.t 0 * F.t 0 + F.t 1 * F.t 1 + F.t 2 * F.t 2)
      ∧ od = ((-F.s 3 * (F.s 0 - N0 * d0) - F.t 3 * (F.s 0 - N0 * d0))
            * (CalcFaceVectors env F st).lt_plane_normal 0
          + (-F.s 3 * (F.s 1 - N1 * d0) - F.t 3 * (F.s 1 - N1 * d0))
            * (CalcFaceVectors env F st).lt_plane_normal 1
          + (-F.s 3 * (F.s 2 - N2 * d0) - F.t 3 * (F.s 2 - N2 * d0))
            * (CalcFaceVectors env F st).lt_plane_normal 2
          - (CalcFaceVectors env F st).lt_plane_dist - 1) * (1 / c)
      ∧ (CalcFaceVectors env F st).lt_textoworld 0
          = ![F.s 0 - N0 * d0, F.s 1 - N1 * d0, F.s 2 - N2 * d0]
      ∧ (CalcFaceVectors env F st).lt_textoworld 1
          = ![F.t 0 - N0 * d1, F.t 1 - N1 * d1, F.t 2 - N2 * d1]
      ∧ (CalcFaceVectors env F st).lt_texorg
          = ![(-F.s 3 * (F.s 0 - N0 * d0) - F.t 3 * (F.s 0 - N0 * d0)) - N0 * od,
              (-F.s 3 * (F.s 1 - N1 * d0) - F.t 3 * (F.s 1 - N1 * d0)) - N1 * od,
              (-F.s 3 * (F.s 2 - N2 * d0) - F.t 3 * (F.s 2 - N2 * d0)) - N2 * od] := by
  by_cases hds : (texNormal env F).1 * (CalcFaceVectors env F st).lt_plane_normal 0
      + (texNormal env F).2.1 * (CalcFaceVectors env F st).lt_plane_normal 1
      + (texNormal env F).2.2 * (CalcFaceVectors env F st).lt_plane_normal 2 < 0
  · refine ⟨-(texNormal env F).1, -(texNormal env F).2.1, -(texNormal env F).2.2,
      -((texNormal env F).1 * (CalcFaceVectors env F st).lt_plane_normal 0
        + (texNormal env F).2.1 * (CalcFaceVectors env F st).lt_plane_normal 1
        + (texNormal env F).2.2 * (CalcFaceVectors env F st).lt_plane_normal 2),
      _, _, _, Or.inr ⟨rfl, rfl, rfl⟩, by ring, by linarith, rfl, rfl, rfl, ?_, ?_, ?_⟩
    · have hds2 := hds
      simp only [CalcFaceVectors, texNormal] at hds2 ⊢
      simp only [if_pos hds2]
      rfl
    · have hds2 := hds
      simp only [CalcFaceVectors, texNormal] at hds2 ⊢
      simp only [if_pos hds2]
      rfl
    · have hds2 := hds
      simp only [CalcFaceVectors, texNormal] at hds2 ⊢
      simp only [if_pos hds2]
      rfl
  · refine ⟨(texNormal env F).1, (texNormal env F).2.1, (texNormal env F).2.2,
      (texNormal env F).1 * (CalcFaceVectors env F st).lt_plane_normal 0
        + (texNormal env F).2.1 * (CalcFaceVectors env F st).lt_plane_normal 1
        + (texNormal env F).2.2 * (CalcFaceVectors env F st).lt_plane_normal 2,
      _, _, _, Or.inl ⟨rfl, rfl, rfl⟩, rfl, by linarith, rfl, rfl, rfl, ?_, ?_, ?_⟩
    · have hds2 := hds
      simp only [CalcFaceVectors, texNormal] at hds2 ⊢
      simp only [if_neg hds2]
      rfl
    · have hds2 := hds
      simp only [CalcFaceVectors, texNormal] at hds2 ⊢
      simp only [if_neg hds2]
      rfl
    · have hds2 := hds
      simp only [CalcFaceVectors, texNormal] at hds2 ⊢
      simp only [if_neg hds2]
      rfl


/-- What the projection of the face gives at the position computed for the
texture coordinates `(us, ut)`, for orthogonal axes and a texture normal
perpendicular to both: `s . P + s[3] = |s|^2 (us - s[3] - t[3]) + s[3]` and
`t . P + t[3] = |t|^2 ut + t[3]`. These are `us` and `ut` when both axes are
unit vectors and `t[3] = 0`. -/
theorem samplePosition_projection (env : LightEnv) (F : quake_lit_face_c) (st : LightState)
    (us ut : ℚ)
    (hSN : F.s 0 * (texNormal env F).1 + F.s 1 * (texNormal env F).2.1
      + F.s 2 * (texNormal env F).2.2 = 0)
    (hTN : F.t 0 * (texNormal env F).1 + F.t 1 * (texNormal env F).2.1
      + F.t 2 * (texNormal env F).2.2 = 0)
    (hST : F.s 0 * F.t 0 + F.s 1 * F.t 1 + F.s 2 * F.t 2 = 0) :
    F.s 0 * samplePosition (CalcFaceVectors env F st) us ut 0
        + F.s 1 * samplePosition (CalcFaceVectors env F st) us ut 1
        + F.s 2 * samplePosition (CalcFaceVectors env F st) us ut 2 + F.s 3
      = (F.s 0 * F.s 0 + F.s 1 * F.s 1 + F.s 2 * F.s 2) * (us - F.s 3 - F.t 3) + F.s 3
    ∧ F.t 0 * samplePosition (CalcFaceVectors env F st) us ut 0
        + F.t 1 * samplePosition (CalcFaceVectors env F st) us ut 1
        + F.t 2 * samplePosition (CalcFaceVectors env F st) us ut 2 + F.t 3
      = (F.t 0 * F.t 0 + F.t 1 * F.t 1 + F.t 2 * F.t 2) * ut + F.t 3 := by
  obtain ⟨N0, N1, N2, c, d0, d1, od, hN, -, -, -, -, -, h0, h1, h2⟩ :=
    CalcFaceVectors_shape env F st
  have hSN1 : F.s 0 * N0 + F.s 1 * N1 + F.s 2 * N2 = 0 := by
    rcases hN with ⟨a, b, c⟩ | ⟨a, b, c⟩
    · rw [a, b, c]; exact hSN
    · rw [a, b, c]; linear_combination -hSN
  have hTN1 : F.t 0 * N0 + F.t 1 * N1 + F.t 2 * N2 = 0 := by
    rcases hN with ⟨a, b, c⟩ | ⟨a, b, c⟩
    · rw [a, b, c]; exact hTN
    · rw [a, b, c]; linear_combination -hTN
  unfold samplePosition
  rw [h0, h1, h2]
  simp only [Matrix.cons_val_zero, Matrix.cons_val_one, Matrix.head_cons, Matrix.cons_val_two,
    Matrix.tail_cons]
  constructor
  · linear_combination ((F.s 3 + F.t 3) * d0 - od - d0 * us - d1 * ut) * hSN1 + ut * hST
  · linear_combination ((F.s 3 + F.t 3) * d0 - od - d0 * us - d1 * ut) * hTN1
      + (us - F.s 3 - F.t 3) * hST

/-- The signed distance to the face plane of the position computed for the
texture coordinates `(us, ut)`, for a texture normal not perpendicular to the
plane normal and axes that are not zero:
`1 + us (s . normal) (1 - 1/|s|^2) + ut (t . normal) (1 - 1/|t|^2)`. This is 1
when each axis is a unit vector or lies in the face plane. -/
theorem samplePosition_distance (env : LightEnv) (F : quake_lit_face_c) (st : LightState)
    (us ut : ℚ)
    (hc : (texNormal env F).1 * (CalcFaceVectors env F st).lt_plane_normal 0
      + (texNormal env F).2.1 * (CalcFaceVectors env F st).lt_plane_normal 1
      + (texNormal env F).2.2 * (CalcFaceVectors env F st).lt_plane_normal 2 ≠ 0)
    (hS : F.s 0 * F.s 0 + F.s 1 * F.s 1 + F.s 2 * F.s 2 ≠ 0)
    (hT : F.t 0 * F.t 0 + F.t 1 * F.t 1 + F.t 2 * F.t 2 ≠ 0) :
    (CalcFaceVectors env F st).lt_plane_normal 0
          * samplePosition (CalcFaceVectors env F st) us ut 0
        + (CalcFaceVectors env F st).lt_plane_normal 1
          * samplePosition (CalcFaceVectors env F st) us ut 1
        + (CalcFaceVectors env F st).lt_plane_normal 2
          * samplePosition (CalcFaceVectors env F st) us ut 2
        - (CalcFaceVectors env F st).lt_plane_dist
      = 1 + us * (F.s 0 * (CalcFaceVectors env F st).lt_plane_normal 0
              + F.s 1 * (CalcFaceVectors env F st).lt_plane_normal 1
              + F.s 2 * (CalcFaceVectors env F st).lt_plane_normal 2)
            * (1 - 1 / (F.s 0 * F.s 0 + F.s 1 * F.s 1 + F.s 2 * F.s 2))
          + ut * (F.t 0 * (CalcFaceVectors env F st).lt_plane_normal 0
              + F.t 1 * (CalcFaceVectors env F st).lt_plane_normal 1
              + F.t 2 * (CalcFaceVectors env F st).lt_plane_normal 2)
            * (1 - 1 / (F.t 0 * F.t 0 + F.t 1 * F.t 1 + F.t 2 * F.t 2)) := by
  obtain ⟨N0, N1, N2, c, d0, d1, od, hN, hceq, -, hd0, hd1, hod, h0, h1, h2⟩ :=
    CalcFaceVectors_shape env F st
  have hcne : c ≠ 0 := by
    rcases hN with ⟨a, b, e⟩ | ⟨a, b, e⟩
    · rw [hceq, a, b, e]; exact hc
    · rw [hceq, a, b, e]
      intro h
      apply hc
      linear_combination -h
  generalize (CalcFaceVectors env F st).lt_plane_normal 0 = n0 at *
  generalize (CalcFaceVectors env F st).lt_plane_normal 1 = n1 at *
  generalize (CalcFaceVectors env F st).lt_plane_normal 2 = n2 at *
  generalize (CalcFaceVectors env F st).lt_plane_dist = d at *
  have e0 : c * d0 = (F.s 0 * n0 + F.s 1 * n1 + F.s 2 * n2)
      / (F.s 0 * F.s 0 + F.s 1 * F.s 1 + F.s 2 * F.s 2) := by
    rw [hd0]
    field_simp
    ring
  have e1 : c * d1 = (F.t 0 * n0 + F.t 1 * n1 + F.t 2 * n2)
      / (F.t 0 * F.t 0 + F.t 1 * F.t 1 + F.t 2 * F.t 2) := by
    rw [hd1]
    field_simp
    ring
  have e2 : c * od = (-F.s 3 * (F.s 0 - N0 * d0) - F.t 3 * (F.s 0 - N0 * d0)) * n0
      + (-F.s 3 * (F.s 1 - N1 * d0) - F.t 3 * (F.s 1 - N1 * d0)) * n1
      + (-F.s 3 * (F.s 2 - N2 * d0) - F.t 3 * (F.s 2 - N2 * d0)) * n2 - d - 1 := by
    rw [hod]
    field_simp
  unfold samplePosition
  rw [h0, h1, h2]
  simp only [Matrix.cons_val_zero, Matrix.cons_val_one, Matrix.head_cons, Matrix.cons_val_two,
    Matrix.tail_cons]
  have k0 : us * (F.s 0 * n0 + F.s 1 * n1 + F.s 2 * n2)
        * (1 - 1 / (F.s 0 * F.s 0 + F.s 1 * F.s 1 + F.s 2 * F.s 2))
      = us * (F.s 0 * n0 + F.s 1 * n1 + F.s 2 * n2) - us * (c * d0) := by
    rw [e0]
    ring
  have k1 : ut * (F.t 0 * n0 + F.t 1 * n1 + F.t 2 * n2)
        * (1 - 1 / (F.t 0 * F.t 0 + F.t 1 * F.t 1 + F.t 2 * F.t 2))
      = ut * (F.t 0 * n0 + F.t 1 * n1 + F.t 2 * n2) - ut * (c * d1) := by
    rw [e1]
    ring
  rw [k0, k1]
  linear_combination (od + d0 * us + d1 * ut) * hceq - e2

/-- Below the "best" quality, the point `CalcPoints` stores for cell `(s, t)` is
the position for the texture coordinates `((tex_mins[0] + s) * 16,
(tex_mins[1] + t) * 16)`. -/
theorem CalcPoints_samplePosition (st : LightState) (hq : st.qk_lighting_quality ≠ 3) :
    ∃ pts, CalcPoints st = { st with lt_points := pts } ∧
      ∀ s t, 0 ≤ s → s < st.lt_W → 0 ≤ t → t < st.lt_H →
        pts (t * st.lt_W + s)
          = { x := samplePosition st (((st.lt_tex_mins 0 + s : Int) : ℚ) * 16)
                (((st.lt_tex_mins 1 + t : Int) : ℚ) * 16) 0
              y := samplePosition st (((st.lt_tex_mins 0 + s : Int) : ℚ) * 16)
                (((st.lt_tex_mins 1 + t : Int) : ℚ) * 16) 1
              z := samplePosition st (((st.lt_tex_mins 0 + s : Int) : ℚ) * 16)
                (((st.lt_tex_mins 1 + t : Int) : ℚ) * 16) 2 } := by
  obtain ⟨pts, h1, hcell⟩ := CalcPoints_points st hq
  exact ⟨pts, h1, fun s t a1 a2 a3 a4 => hcell s t a1 a2 a3 a4⟩


/-! ### Accumulation never lowers an entry -/

/-- What a light of level at least 0 and radius above 0 adds to a cell is not
negative. -/
theorem cellIncrement_nonneg (env : LightEnv) (light : quake_light_t) (st : LightState)
    (s t : Int) (hlevel : 0 ≤ light.level) (hradius : 0 < light.radius) :
    0 ≤ cellIncrement env light st s t := by
  unfold cellIncrement
  split
  · exact le_refl _
  · simp only
    split
    · exact le_refl _
    · split
      · exact hlevel
      · split
        · rename_i hd
          apply truncToInt_nonneg
          apply mul_nonneg (by exact_mod_cast hlevel)
          rw [sub_nonneg, div_le_one hradius]
          exact le_of_lt hd
        · exact le_refl _

/-- What a light adds to a cell: nothing, the full level for a sun, or for
another light the truncated `level * (1 - dist / radius)` at a distance under
the radius. -/
theorem cellIncrement_cases (env : LightEnv) (light : quake_light_t) (st : LightState)
    (s t : Int) :
    cellIncrement env light st s t = 0
    ∨ (light.kind = LTK_Sun ∧ cellIncrement env light st s t = light.level)
    ∨ (light.kind ≠ LTK_Sun
      ∧ env.ComputeDist (st.lt_points (t * st.lt_W + s)).x (st.lt_points (t * st.lt_W + s)).y
          (st.lt_points (t * st.lt_W + s)).z light.x light.y light.z < light.radius
      ∧ cellIncrement env light st s t
          = truncToInt ((light.level : ℚ)
            * (1 - env.ComputeDist (st.lt_points (t * st.lt_W + s)).x
                (st.lt_points (t * st.lt_W + s)).y (st.lt_points (t * st.lt_W + s)).z
                light.x light.y light.z / light.radius))) := by
  unfold cellIncrement
  split
  · exact Or.inl rfl
  · simp only
    split
    · exact Or.inl rfl
    · split
      · rename_i hk
        exact Or.inr (Or.inl ⟨hk, rfl⟩)
      · rename_i hk
        split
        · rename_i hd
          exact Or.inr (Or.inr ⟨hk, hd, rfl⟩)
        · exact Or.inl rfl

theorem sum_map_nonneg (xs : List Int) (f : Int → Int) (h : ∀ x ∈ xs, 0 ≤ f x) :
    0 ≤ (xs.map f).sum := by
  apply List.sum_nonneg
  intro y hy
  obtain ⟨x, hx, rfl⟩ := List.mem_map.mp hy
  exact h x hx

/-- A returning `QCOM_ProcessLight` changes only `blocklights`, and lowers no
entry, for a light of level at least 0 and radius above 0. -/
theorem QCOM_ProcessLight_mono (env : LightEnv) (light : quake_light_t) (st st1 : LightState)
    (hlevel : 0 ≤ light.level) (hradius : 0 < light.radius)
    (h : QCOM_ProcessLight env light st = some st1) :
    ∃ b, st1 = { st with blocklights := b } ∧ ∀ k, st.blocklights k ≤ b k := by
  unfold QCOM_ProcessLight at h
  split at h
  · simp only [Option.some.injEq] at h
    exact ⟨st.blocklights, h.symm, fun k => le_refl _⟩
  · split at h
    · simp only [Option.some.injEq] at h
      exact ⟨st.blocklights, h.symm, fun k => le_refl _⟩
    · simp only at h
      cases hts : steppedRange st.lt_H (if st.qk_lighting_quality = 0 then st.lt_H - 1 else 1) with
      | none =>
        rw [hts] at h
        exact Option.noConfusion h
      | some ts =>
        rw [hts] at h
        simp only at h
        cases hss : steppedRange st.lt_W
            (if st.qk_lighting_quality = 0 then st.lt_W - 1 else 1) with
        | none =>
          cases ts with
          | nil =>
            simp only [QCOM_ProcessLight_rows, Option.some.injEq] at h
            exact ⟨st.blocklights, h.symm, fun k => le_refl _⟩
          | cons t rest =>
            simp only [QCOM_ProcessLight_rows, QCOM_ProcessLight_row, hss, Option.map_none'] at h
            exact Option.noConfusion h
        | some ss =>
          have hrows := QCOM_ProcessLight_rows_eq env light _ st ss hss ts st.blocklights
          have heta : ({ st with blocklights := st.blocklights } : LightState) = st := rfl
          rw [heta] at hrows
          rw [hrows] at h
          simp only [Option.some.injEq] at h
          refine ⟨_, h.symm, ?_⟩
          intro k
          have hsum : 0 ≤ (ts.map fun t => (ss.map fun s =>
              if t * st.lt_W + s = k then cellIncrement env light st s t else 0).sum).sum := by
            apply sum_map_nonneg
            intro t _
            apply sum_map_nonneg
            intro s _
            split
            · exact cellIncrement_nonneg env light st s t hlevel hradius
            · exact le_refl _
          linarith

/-- A returning loop over lights of level at least 0 and radius above 0 changes
only `blocklights`, and lowers no entry. -/
theorem processLights_mono (env : LightEnv) (lights : List quake_light_t) (st st1 : LightState)
    (hlights : ∀ light ∈ lights, 0 ≤ light.level ∧ 0 < light.radius)
    (h : processLights env lights st = some st1) :
    ∃ b, st1 = { st with blocklights := b } ∧ ∀ k, st.blocklights k ≤ b k := by
  induction lights generalizing st with
  | nil =>
    simp only [processLights, Option.some.injEq] at h
    exact ⟨st.blocklights, h.symm, fun k => le_refl _⟩
  | cons light rest ih =>
    simp only [processLights] at h
    cases hp : QCOM_ProcessLight env light st with
    | none =>
      rw [hp] at h
      exact Option.noConfusion h
    | some st2 =>
      rw [hp] at h
      simp only at h
      obtain ⟨hl, hr⟩ := hlights light (List.mem_cons_self _ _)
      obtain ⟨b2, e2, m2⟩ := QCOM_ProcessLight_mono env light st st2 hl hr hp
      obtain ⟨b3, e3, m3⟩ := ih st2 (fun l hl2 => hlights l (List.mem_cons_of_mem _ hl2)) h
      refine ⟨b3, ?_, ?_⟩
      · rw [e3, e2]
      · intro k
        have h2 := m2 k
        have h3 := m3 k
        rw [e2] at h3
        exact le_trans h2 h3


/-- C31: accumulation never lowers a sample. For lights of level at least 0 and
radius above 0, whatever the quality and whatever the ray traces and distances
turn out to be: `LOW_LIGHT << 8` is 5120; what a light adds to a cell is never
negative; whenever the loop over the lights returns after `ClearLightBuffer`,
the grid keeps its size and every entry of the W x H buffer is at least 5120;
on a grid of at least 2 x 2 cells that loop does return; and `QCOM_LightFace`
returns for every face, with every entry of its grid at least 5120. Integers
are unbounded here, so overflow is left aside. -/
theorem QCOM_ProcessLight_never_lowers (env : LightEnv) (lights : List quake_light_t)
    (st : LightState) (hlights : ∀ light ∈ lights, 0 ≤ light.level ∧ 0 < light.radius) :
    (LOW_LIGHT <<< 8 : Int) = 5120
    ∧ (∀ light ∈ lights, ∀ (st0 : LightState) (s t : Int),
        0 ≤ cellIncrement env light st0 s t)
    ∧ (∀ st1, processLights env lights (ClearLightBuffer st) = some st1 →
        st1.lt_W = st.lt_W ∧ st1.lt_H = st.lt_H ∧
        ∀ k, 0 ≤ k → k < st.lt_W * st.lt_H → 5120 ≤ st1.blocklights k)
    ∧ (2 ≤ st.lt_W → 2 ≤ st.lt_H →
        ∃ st1, processLights env lights (ClearLightBuffer st) = some st1)
    ∧ (∀ F, ∃ st5 out, QCOM_LightFace env lights F st = some (st5, out) ∧
        ∀ k, 0 ≤ k → k < st5.lt_W * st5.lt_H → 5120 ≤ st5.blocklights k) := by
  have hlow : (LOW_LIGHT <<< 8 : Int) = 5120 := by decide
  have hgen : ∀ (sx st1 : LightState),
      processLights env lights (ClearLightBuffer sx) = some st1 →
      st1.lt_W = sx.lt_W ∧ st1.lt_H = sx.lt_H ∧
      ∀ k, 0 ≤ k → k < sx.lt_W * sx.lt_H → 5120 ≤ st1.blocklights k := by
    intro sx st1 h
    obtain ⟨b0, e0, hb0⟩ := ClearLightBuffer_spec sx
    obtain ⟨b1, e1, m1⟩ := processLights_mono env lights _ st1 hlights h
    rw [e0] at e1 m1
    subst e1
    refine ⟨rfl, rfl, ?_⟩
    intro k hk0 hk1
    have h1 := m1 k
    have h2 := hb0 k hk0 hk1
    simp only at h1
    rw [h2, hlow] at h1
    exact h1
  refine ⟨hlow, ?_, hgen st, ?_, ?_⟩
  · intro light hmem st0 s t
    exact cellIncrement_nonneg env light st0 s t (hlights light hmem).1 (hlights light hmem).2
  · intro hW hH
    obtain ⟨b0, e0, -⟩ := ClearLightBuffer_spec st
    obtain ⟨b1, e1⟩ := processLights_frame env lights st hW hH b0
    rw [e0]
    exact ⟨_, e1⟩
  · intro F
    obtain ⟨b, hp, hq⟩ := QCOM_LightFace_eq env lights F st
    refine ⟨_, _, hq, ?_⟩
    obtain ⟨-, -, h3⟩ := hgen _ _ hp
    obtain ⟨b0, e0, -⟩ :=
      ClearLightBuffer_spec (CalcPoints (CalcFaceExtents F (CalcFaceVectors env F st)))
    intro k hk0 hk1
    apply h3 k hk0
    rw [e0] at hk1
    exact hk1

/-- The sun and the dim lamp over the 2 x 2 grid: the loop returns, and every
one of the four entries is at least 5120. -/
theorem QCOM_ProcessLight_never_lowers_witness :
    (∀ light ∈ [sunLight, dimLamp], 0 ≤ light.level ∧ 0 < light.radius)
    ∧ ∃ st1, processLights openEnv [sunLight, dimLamp] (ClearLightBuffer (gridState 2))
        = some st1
      ∧ ∀ k, 0 ≤ k → k < (gridState 2).lt_W * (gridState 2).lt_H →
          5120 ≤ st1.blocklights k := by
  have hl : ∀ light ∈ [sunLight, dimLamp], 0 ≤ light.level ∧ 0 < light.radius := by
    intro light hmem
    simp only [List.mem_cons, List.mem_singleton, List.not_mem_nil, or_false] at hmem
    rcases hmem with rfl | rfl
    · exact ⟨by decide, by norm_num [sunLight]⟩
    · exact ⟨by decide, by norm_num [dimLamp]⟩
  have h := QCOM_ProcessLight_never_lowers openEnv [sunLight, dimLamp] (gridState 2) hl
  obtain ⟨st1, h1⟩ := h.2.2.2.1 (le_refl 2) (le_refl 2)
  exact ⟨hl, st1, h1, (h.2.2.1 st1 h1).2.2⟩

end Oblige
